import Mathlib

/-!
fo76utils: software rasterizer (`plot3d.cpp`) and frame coordinator (`nif_view.cpp`)

A shallow embedding of the band partitioning, culling, shading-function selection and
scanline rasterization code, together with theorems about it.

Conventions of the embedding

* `float` and `double` values are modelled by exact rationals (`ℚ`): comparisons, sums and
  products are those of the real numbers the finite floating-point values denote, and
  rounding error is outside the model.  The one exception is the scanline code of
  `drawTriangles`, which is given twice: in exact arithmetic (`scanCoeffs`, `scanRow`,
  `pixelLoop`, `scanline`) and with the result of every operation rounded as `double` and
  `float` arithmetic rounds it (`scanCoeffsRounded`, `rowStartRounded`, `pixelLoopRounded`,
  `scanRowRounded`, `scanlineRounded`).
* `int`, `size_t` and `unsigned int` values are modelled by `ℤ` / `ℕ`; 32-bit wrap-around is
  written explicitly where the code relies on it.
* pointers to textures are modelled by `Option`.
-/

namespace Fo76

/-! ## Helpers declared in `common.hpp` -/

/-- Modelled from the spec: `roundFloat` (declared in `common.hpp`, which is not part of the
sources at hand) converts a float to the nearest integer; ties go to the even integer, as in
the default rounding mode of the conversion instruction. -/
def roundFloat (x : ℚ) : ℤ :=
  let f := ⌊x⌋
  let r := x - (f : ℚ)
  if r < 1 / 2 then f
  else if 1 / 2 < r then f + 1
  else if f % 2 = 0 then f else f + 1

/-- The C++ conversion `int(x)` of a floating-point value: truncation toward zero. -/
def truncInt (x : ℚ) : ℤ :=
  if 0 ≤ x then ⌊x⌋ else ⌈x⌉

/-! ## `Renderer::setBuffers` (nif_view.cpp, lines 66-95) -/

namespace Renderer

/-- The arguments of the call `renderers[i]->setBuffers(outBufRGBA + offs, outBufZ + offs,
imageWidth, y1i - y0i)`: the element offset of the slice and its dimensions. -/
structure BandBuffers where
  offs : ℤ
  width : ℤ
  height : ℤ
  deriving DecidableEq, Repr

/-- Lines 76-82: the value of `y1` for band `i` of `T`, already scaled by the image height. -/
def bandY1 (T i : ℕ) (imageHeight : ℤ) : ℚ :=
  let y1 : ℚ := ((i + 1 : ℕ) : ℚ) / (T : ℚ)
  let y1 : ℚ := (y1 - 1 / 2) * (y1 - 1 / 2) * 2
  let y1 : ℚ := if i < T >>> 1 then 1 / 2 - y1 else 1 / 2 + y1
  y1 * (imageHeight : ℚ)

/-- The body of the `for` loop of `setBuffers`, iterated for the `n` remaining bands starting
at band `i` with the running value `y0`.  Each band yields `viewOffsetY[i]` and the buffer
slice handed to its rasterizer. -/
def setBuffersLoop (T : ℕ) (imageWidth imageHeight : ℤ) : ℕ → ℕ → ℚ → List (ℤ × BandBuffers)
  | 0, _, _ => []
  | n + 1, i, y0 =>
    let y0i := roundFloat y0
    let y1i := if i + 1 < T then roundFloat (bandY1 T i imageHeight) else imageHeight
    let y0next := if i + 1 < T then bandY1 T i imageHeight else y0
    (y0i, ⟨y0i * imageWidth, imageWidth, y1i - y0i⟩)
      :: setBuffersLoop T imageWidth imageHeight n (i + 1) y0next

/-- The array `viewOffsetY` after `setBuffers` with `T = renderers.size()` bands. -/
def viewOffsetY (T : ℕ) (imageWidth imageHeight : ℤ) : List ℤ :=
  (setBuffersLoop T imageWidth imageHeight T 0 0).map Prod.fst ++ [imageHeight]

/-- The buffer slices handed to the band rasterizers by `setBuffers`. -/
def bandBuffers (T : ℕ) (imageWidth imageHeight : ℤ) : List BandBuffers :=
  (setBuffersLoop T imageWidth imageHeight T 0 0).map Prod.snd

end Renderer


/-! ## Data model (`nifFile.hpp`, `ddstxt.hpp`, `plot3d.hpp`; used by plot3d.cpp) -/

/-- Modelled from the spec: `NIFFile::NIFVertex` (declared outside the sources at hand):
position, normal, texture coordinates and a packed 32-bit vertex colour.  The half-precision
texture coordinates are held as the values `getU()` / `getV()` return. -/
structure NIFVertex where
  x : ℚ
  y : ℚ
  z : ℚ
  normalX : ℚ
  normalY : ℚ
  normalZ : ℚ
  u : ℚ
  v : ℚ
  vertexColor : ℕ
  deriving DecidableEq, Inhabited

/-- Modelled from the spec: `NIFFile::NIFTriangle`, three vertex indices. -/
structure NIFTriangle where
  v0 : ℕ
  v1 : ℕ
  v2 : ℕ
  deriving DecidableEq, Inhabited

/-- Modelled from the spec: `NIFFile::NIFVertexTransform`, an affine transform made of a
uniform scale, a 3x3 rotation and a translation.  The field names are those plot3d.cpp and
nif_view.cpp use. -/
structure NIFVertexTransform where
  offsX : ℚ
  offsY : ℚ
  offsZ : ℚ
  rotateXX : ℚ
  rotateXY : ℚ
  rotateXZ : ℚ
  rotateYX : ℚ
  rotateYY : ℚ
  rotateYZ : ℚ
  rotateZX : ℚ
  rotateZY : ℚ
  rotateZZ : ℚ
  scale : ℚ
  deriving DecidableEq, Inhabited

namespace NIFVertexTransform

/-- Modelled from the spec: `rotateXYZ`, the vector transform (rotation only). -/
def rotateXYZ (t : NIFVertexTransform) (x y z : ℚ) : ℚ × ℚ × ℚ :=
  ((x * t.rotateXX) + (y * t.rotateXY) + (z * t.rotateXZ),
   (x * t.rotateYX) + (y * t.rotateYY) + (z * t.rotateYZ),
   (x * t.rotateZX) + (y * t.rotateZY) + (z * t.rotateZZ))

/-- Modelled from the spec: `transformXYZ`, the point transform (rotate, scale, translate). -/
def transformXYZ (t : NIFVertexTransform) (x y z : ℚ) : ℚ × ℚ × ℚ :=
  let r := t.rotateXYZ x y z
  (r.1 * t.scale + t.offsX, r.2.1 * t.scale + t.offsY, r.2.2 * t.scale + t.offsZ)

/-- Modelled from the spec: `operator*=`, composition; `A *= B` means "apply A then B". -/
def mul (a b : NIFVertexTransform) : NIFVertexTransform :=
  let o := b.transformXYZ a.offsX a.offsY a.offsZ
  { offsX := o.1, offsY := o.2.1, offsZ := o.2.2
    rotateXX := b.rotateXX * a.rotateXX + b.rotateXY * a.rotateYX + b.rotateXZ * a.rotateZX
    rotateXY := b.rotateXX * a.rotateXY + b.rotateXY * a.rotateYY + b.rotateXZ * a.rotateZY
    rotateXZ := b.rotateXX * a.rotateXZ + b.rotateXY * a.rotateYZ + b.rotateXZ * a.rotateZZ
    rotateYX := b.rotateYX * a.rotateXX + b.rotateYY * a.rotateYX + b.rotateYZ * a.rotateZX
    rotateYY := b.rotateYX * a.rotateXY + b.rotateYY * a.rotateYY + b.rotateYZ * a.rotateZY
    rotateYZ := b.rotateYX * a.rotateXZ + b.rotateYY * a.rotateYZ + b.rotateYZ * a.rotateZZ
    rotateZX := b.rotateZX * a.rotateXX + b.rotateZY * a.rotateYX + b.rotateZZ * a.rotateZX
    rotateZY := b.rotateZX * a.rotateXY + b.rotateZY * a.rotateYY + b.rotateZZ * a.rotateZY
    rotateZZ := b.rotateZX * a.rotateXZ + b.rotateZY * a.rotateYZ + b.rotateZZ * a.rotateZZ
    scale := a.scale * b.scale }

/-- The identity transform. -/
def identity : NIFVertexTransform :=
  { offsX := 0, offsY := 0, offsZ := 0
    rotateXX := 1, rotateXY := 0, rotateXZ := 0
    rotateYX := 0, rotateYY := 1, rotateYZ := 0
    rotateZX := 0, rotateZY := 0, rotateZZ := 1
    scale := 1 }

end NIFVertexTransform

/-- Modelled from the spec: `NIFFile::NIFBounds`, axis-aligned minimum and maximum over
x, y and z. -/
structure NIFBounds where
  xMin : ℚ
  yMin : ℚ
  zMin : ℚ
  xMax : ℚ
  yMax : ℚ
  zMax : ℚ
  deriving DecidableEq, Inhabited

/-- Modelled from the spec: `NIFBounds::operator+=`, folding one vertex into the bounds. -/
def NIFBounds.add (b : NIFBounds) (v : NIFVertex) : NIFBounds :=
  { xMin := min b.xMin v.x, yMin := min b.yMin v.y, zMin := min b.zMin v.z
    xMax := max b.xMax v.x, yMax := max b.yMax v.y, zMax := max b.zMax v.z }

/-- Modelled from the spec: `DDSTexture` (declared outside the sources at hand): decoded image
data with its dimensions and sampling functions.  The sampling functions are kept abstract. -/
structure DDSTexture where
  getWidth : ℤ
  getHeight : ℤ
  getMaxMipLevel : ℤ
  getPixelT : ℚ → ℚ → ℚ → ℕ
  getPixelB : ℚ → ℚ → ℤ → ℕ
  cubeMap : ℚ → ℚ → ℚ → ℚ → ℕ

/-- Functions and constants that plot3d.cpp uses but that are declared elsewhere (libm,
`plot3d.hpp`, `fp32vec4.hpp`, `nifFile.hpp`); they are parameters of the embedding. -/
structure Ext where
  /-- `std::sqrt` -/
  sqrt : ℚ → ℚ
  /-- `std::log2` -/
  log2 : ℚ → ℚ
  /-- `multiplyWithLight(c, lightLevel)` of plot3d.hpp -/
  multiplyWithLight : ℕ → ℤ → ℕ
  /-- The `FloatVector4` computation of `interpVertexColors` on three packed colours -/
  interpColors : ℕ → ℕ → ℕ → ℚ → ℚ → ℚ → ℕ
  /-- The default value of the `smoothness` argument of `environmentMap` -/
  envMapSmoothness : ℕ
  /-- The value of a default-constructed `NIFBounds` -/
  boundsInit : NIFBounds

/-- The eight shading functions `drawPixelFunction` can point to. -/
inductive DrawPixelFunction where
  | Water
  | Debug
  | Diffuse
  | Normal
  | NormalEnv
  | NormalEnvM
  | NormalEnvS
  | NormalRefl
  deriving DecidableEq, Repr, Inhabited

/-- `Plot3D_TriShape::Triangle`: a triangle index with its sort key. -/
structure Triangle where
  z : ℚ
  n : ℕ
  deriving DecidableEq, Inhabited

/-- The state of a `Plot3D_TriShape`: the mesh members inherited from `NIFFile::NIFTriShape`
(set by `operator=`), the output buffers, and the per-draw shading state.  The buffers are
pointers into caller-owned arrays and are modelled as maps from element index to value. -/
structure Plot3D_TriShape where
  -- mesh data
  vertexCnt : ℕ
  triangleCnt : ℕ
  vertexData : ℕ → NIFVertex
  triangleData : ℕ → NIFTriangle
  vertexTransform : NIFVertexTransform
  flags : ℕ
  gradientMapV : ℕ
  envMapScale : ℕ
  alphaThreshold : ℕ
  specularSmoothness : ℕ
  textureOffsetU : ℚ
  textureOffsetV : ℚ
  textureScaleU : ℚ
  textureScaleV : ℚ
  -- buffers and tables
  bufRGBW : ℕ → ℕ
  bufZ : ℕ → ℚ
  width : ℤ
  height : ℤ
  lightTable : List ℤ
  vclrTable : List ℕ
  envMapUVScale : ℚ
  debugMode : ℕ
  -- per-draw shading state
  textureD : Option DDSTexture
  textureG : Option DDSTexture
  textureN : Option DDSTexture
  textureE : Option DDSTexture
  textureS : Option DDSTexture
  textureR : Option DDSTexture
  textureScaleN : ℚ
  textureScaleS : ℚ
  textureScaleR : ℚ
  mipLevel : ℚ
  alphaThresholdScaled : ℕ
  light_X : ℚ
  light_Y : ℚ
  light_Z : ℚ
  reflectionLevel : ℤ
  invNormals : Bool
  bitangentX : ℚ
  bitangentY : ℚ
  bitangentZ : ℚ
  tangentX : ℚ
  tangentY : ℚ
  tangentZ : ℚ
  drawPixelFunction : DrawPixelFunction
  viewTransformPtr : Option NIFVertexTransform
  vertexBuf : List NIFVertex
  triangleBuf : List Triangle

/-- The arguments of one call of `drawPixel`. -/
structure Fragment where
  x : ℤ
  y : ℤ
  txtU : ℚ
  txtV : ℚ
  z : ℚ
  v0 : NIFVertex
  v1 : NIFVertex
  v2 : NIFVertex
  w0 : ℚ
  w1 : ℚ
  w2 : ℚ
  deriving DecidableEq, Inhabited

/-- Reduction of a value to `unsigned int` (32 bits). -/
def u32 (n : ℕ) : ℕ := n % 4294967296

/-- Conversion of an `int` to `unsigned int`. -/
def toU32 (n : ℤ) : ℕ := (n % 4294967296).toNat


/-- `std::fabs`. -/
def fabs (x : ℚ) : ℚ := if x < 0 then -x else x

/-- `VERTEX_XY_SNAP`: vertex coordinates closer than this to exact integers are rounded. -/
def VERTEX_XY_SNAP : ℚ := 1 / 32

namespace Plot3D_TriShape

variable (E : Ext)

/-- `getLightLevel` (plot3d.cpp, lines 154-162). -/
def getLightLevel (p : Plot3D_TriShape) (d : ℚ) : ℤ :=
  let x : ℤ := roundFloat (d * 32768)
  let xf : ℤ := x % 256
  let x : ℤ := (toU32 x : ℤ) / 256
  let y0 : ℤ := p.lightTable.getD (x % 512).toNat 0
  let x : ℤ := x + 1
  ((y0 * 256) + ((p.lightTable.getD (x % 512).toNat 0 - y0) * xf) + 32768) / 65536

/-- `normalMap` (lines 164-195): returns the light level and the updated normal. -/
def normalMap (p : Plot3D_TriShape) (normalX normalY normalZ : ℚ) (n : ℕ) : ℤ × ℚ × ℚ × ℚ :=
  let x : ℚ := ((n &&& 0xFF : ℕ) : ℚ) * (2 / 255) - 1
  let y : ℚ := (((n >>> 8) &&& 0xFF : ℕ) : ℚ) * (2 / 255) - 1
  let tmpX := normalX
  let tmpY := normalY
  let tmpZ := normalZ
  let tmp := (tmpX * tmpX) + (tmpY * tmpY) + (tmpZ * tmpZ)
  let z : ℚ := 1 - ((x * x) + (y * y))
  let z : ℚ := if tmp > 0 ∧ z > 0 then E.sqrt (z / tmp) else 0
  let tmpX := (x * p.bitangentX) + (y * p.tangentX) + (z * tmpX)
  let tmpY := (x * p.bitangentY) + (y * p.tangentY) + (z * tmpY)
  let tmpZ := (x * p.bitangentZ) + (y * p.tangentZ) + (z * tmpZ)
  let tmp := (tmpX * tmpX) + (tmpY * tmpY) + (tmpZ * tmpZ)
  let tmp := if tmp > 0 then 1 / E.sqrt tmp else tmp
  let tmp := if p.invNormals then -tmp else tmp
  let tmpX := tmpX * tmp
  let tmpY := tmpY * tmp
  let tmpZ := tmpZ * tmp
  (p.getLightLevel ((tmpX * p.light_X) + (tmpY * p.light_Y) + (tmpZ * p.light_Z)),
    tmpX, tmpY, tmpZ)

/-- `environmentMap` (lines 197-235, with `FAST_ENVIRONMENT_MAP` undefined).  A null
`textureE` or `viewTransformPtr` is undefined behaviour in the source; the model returns 0,
respectively uses the default transform. -/
def environmentMap (p : Plot3D_TriShape) (normalX normalY normalZ : ℚ) (x y : ℤ)
    (smoothness : ℕ) : ℕ :=
  match p.textureE with
  | none => 0
  | some tE =>
    let s : ℚ := ((smoothness * p.specularSmoothness : ℕ) : ℚ) * (1 / 65025)
    let m : ℚ := (1 - s) * ((tE.getMaxMipLevel + 1 : ℤ) : ℚ)
    let xc : ℚ := ((x - p.width / 2 : ℤ) : ℚ) * p.envMapUVScale
    let yc : ℚ := ((y - p.height / 2 : ℤ) : ℚ) * p.envMapUVScale
    let zc : ℚ := 1 / 4
    let tmp := ((xc * normalX) + (yc * normalY) + (zc * normalZ)) * 2
    let xc := xc - (normalX * tmp)
    let yc := yc - (normalY * tmp)
    let zc := zc - (normalZ * tmp)
    let vt := p.viewTransformPtr.getD default
    let tmpX := (xc * vt.rotateXX) + (yc * vt.rotateYX) + (zc * vt.rotateZX)
    let tmpY := (xc * vt.rotateXY) + (yc * vt.rotateYY) + (zc * vt.rotateZY)
    let tmpZ := (xc * vt.rotateXZ) + (yc * vt.rotateYZ) + (zc * vt.rotateZZ)
    u32 (tE.cubeMap tmpX tmpY tmpZ m)

/-- The common tail of `addReflection` and `addReflectionM` (lines 241-244 and 252-255). -/
def addSaturate (c e : ℕ) : ℕ :=
  let rb := (c &&& 0x00FF00FF) + (e &&& 0x00FF00FF)
  let g := (c &&& 0x0000FF00) + (e &&& 0x0000FF00)
  0xFF000000 ||| (rb &&& 0x00FF00FF) ||| (g &&& 0x0000FF00)
    ||| u32 ((((rb &&& 0x01000100) ||| (g &&& 0x00010000)) >>> 8) * 0xFF)

/-- `addReflection` (lines 237-245). -/
def addReflection (p : Plot3D_TriShape) (c e : ℕ) : ℕ :=
  let e := u32 (E.multiplyWithLight e p.reflectionLevel)
  addSaturate c e

/-- `addReflectionM` (lines 247-256). -/
def addReflectionM (p : Plot3D_TriShape) (c e m : ℕ) : ℕ :=
  let l : ℤ := ((u32 (toU32 p.reflectionLevel * (m &&& 0xFF) + 0x80) >>> 8 : ℕ) : ℤ)
  let e := u32 (E.multiplyWithLight e l)
  addSaturate c e

/-- `addReflectionR` (lines 258-275). -/
def addReflectionR (p : Plot3D_TriShape) (c e r : ℕ) : ℕ :=
  let l : ℕ := toU32 p.reflectionLevel
  let tmpR := u32 ((u32 ((e &&& 0xFF) * u32 ((r &&& 0xFF) * l) + 0x8000) >>> 16) + (c &&& 0xFF))
  let tmpG := u32 ((u32 (((e >>> 8) &&& 0xFF) * u32 (((r >>> 8) &&& 0xFF) * l) + 0x8000) >>> 16)
    + ((c >>> 8) &&& 0xFF))
  let tmpB := u32 ((u32 (((e >>> 16) &&& 0xFF) * u32 (((r >>> 16) &&& 0xFF) * l) + 0x8000) >>> 16)
    + ((c >>> 16) &&& 0xFF))
  let tmpR := if tmpR < 255 then tmpR else 255
  let tmpG := if tmpG < 255 then tmpG else 255
  let tmpB := if tmpB < 255 then tmpB else 255
  0xFF000000 ||| tmpR ||| (tmpG <<< 8) ||| (tmpB <<< 16)

/-- The element offset `size_t(y) * size_t(p.width) + size_t(x)` of pixel `(x, y)`. -/
def pixelOffs (p : Plot3D_TriShape) (x y : ℤ) : ℕ :=
  y.toNat * p.width.toNat + x.toNat

/-- The state after the two stores `bufZ[offs] = z` and `bufRGBW[offs] = c`. -/
def written (p : Plot3D_TriShape) (offs : ℕ) (z : ℚ) (c : ℕ) : Plot3D_TriShape :=
  { p with bufZ := Function.update p.bufZ offs z, bufRGBW := Function.update p.bufRGBW offs c }

/-- `gradientMapAndVColor` (lines 358-379). -/
def gradientMapAndVColor (p : Plot3D_TriShape) (c vColor : ℕ) : ℕ :=
  match p.textureG with
  | some tG =>
    let u : ℚ := ((((c >>> 8) &&& 0xFF : ℕ) : ℤ) * (tG.getWidth - 1) : ℤ) * (1 / 255 : ℚ)
    let v : ℚ := (((u32 (p.gradientMapV + vColor + 1) &&& 0xFF : ℕ) : ℤ) * (tG.getHeight - 1) : ℤ)
      * (1 / 255 : ℚ)
    let a := c
    let c := u32 (tG.getPixelB u v 0) &&& 0x00FFFFFF
    let a := if vColor < 0xFF000000 then
        u32 (((a >>> 24) &&& 0xFF) * ((vColor >>> 24) &&& 0xFF) * 65793 + 0x00800000)
      else a
    c ||| (a &&& 0xFF000000)
  | none =>
    let r := u32 ((c &&& 0xFF) * p.vclrTable.getD (vColor &&& 0xFF) 0 + 0x4000) >>> 15
    let g := u32 (((c >>> 8) &&& 0xFF) * p.vclrTable.getD ((vColor >>> 8) &&& 0xFF) 0 + 0x4000) >>> 15
    let b := u32 (((c >>> 16) &&& 0xFF) * p.vclrTable.getD ((vColor >>> 16) &&& 0xFF) 0 + 0x4000)
      >>> 15
    let a := u32 (((c >>> 24) &&& 0xFF) * ((vColor >>> 24) &&& 0xFF) * 65793 + 0x00800000)
    u32 (r ||| (g <<< 8) ||| (b <<< 16) ||| (a &&& 0xFF000000))

/-- `calculateLighting` (lines 381-394). -/
def calculateLighting (p : Plot3D_TriShape) (normalX normalY normalZ : ℚ) : ℤ :=
  let tmp := (normalX * normalX) + (normalY * normalY) + (normalZ * normalZ)
  let s : ℚ := if tmp > 0 then 1 / E.sqrt tmp else 1
  let normalX := normalX * s
  let normalY := normalY * s
  let normalZ := normalZ * s
  p.getLightLevel ((normalX * p.light_X) + (normalY * p.light_Y) + (normalZ * p.light_Z))

/-- Lines 401-403 (and the same lines of the other shading functions): sample the diffuse
texture and apply the gradient map and vertex colour unless no gradient texture is bound and
the vertex colour is 0xFFFFFFFF. -/
def diffuseColor (p : Plot3D_TriShape) (tD : DDSTexture) (txtU txtV : ℚ) (z : NIFVertex) : ℕ :=
  let c := u32 (tD.getPixelT txtU txtV p.mipLevel)
  if p.textureG.isSome ∨ 0xFFFFFFFF - u32 z.vertexColor ≠ 0 then
    p.gradientMapAndVColor c z.vertexColor
  else c

/-- Sampling of an optional texture; the source dereferences the pointer, which is undefined
for a null pointer, where the model reads 0. -/
def sampleT (t : Option DDSTexture) (u v m : ℚ) : ℕ :=
  match t with
  | none => 0
  | some t => u32 (t.getPixelT u v m)

/-- `drawPixel_Water` (lines 277-303). -/
def drawPixel_Water (p : Plot3D_TriShape) (x y : ℤ) (txtU txtV : ℚ) (z : NIFVertex) :
    Plot3D_TriShape :=
  let offs := p.pixelOffs x y
  let p := { p with bufZ := Function.update p.bufZ offs z.z }
  let c := u32 (p.bufRGBW offs)
  let c := if (u32 (c + 0x01000000) &&& 0xFE000000) = 0 then
      let c := c &&& 0x00FEFEFE
      let c := u32 (c + (((x % 2).toNat ||| ((((x % 2).toNat ^^^ (y % 2).toNat) &&& 1) <<< 1))
        * 0x00020102))
      let c := toU32 ((c : ℤ) - (((c >>> 7) &&& 0x00020202 : ℕ) : ℤ))
      ((c >>> 3) &&& 0x001F) ||| ((c >>> 5) &&& 0x07E0) ||| ((c >>> 8) &&& 0xF800)
    else c
  let c := c &&& 0xFFFF
  let n : ℕ := match p.textureN with
    | some tN => u32 (tN.getPixelT txtU txtV p.mipLevel)
    | none => 0xFFFF8080
  let r := p.normalMap E z.normalX z.normalY z.normalZ n
  let c := c ||| u32 (toU32 (roundFloat (r.2.1 * 126) + 128) <<< 16)
  let c := c ||| u32 (toU32 (roundFloat (r.2.2.1 * 126) + 128) <<< 24)
  { p with bufRGBW := Function.update p.bufRGBW offs c }

/-- `drawPixel_Debug` (lines 305-356). -/
def drawPixel_Debug (p : Plot3D_TriShape) (x y : ℤ) (txtU txtV : ℚ) (z : NIFVertex) :
    Plot3D_TriShape :=
  let offs := p.pixelOffs x y
  let c0 : Option ℕ := match p.textureD with
    | some tD =>
      let c := p.diffuseColor tD txtU txtV z
      if c < p.alphaThresholdScaled then none
      else if p.debugMode = 5 then some 0xFFB8B8B8 else some c
    | none => some 0
  match c0 with
  | none => p
  | some c =>
    let p := { p with bufZ := Function.update p.bufZ offs z.z }
    if ¬ (p.debugMode = 0 ∨ p.debugMode = 3 ∨ p.debugMode = 5) then
      let c := if p.debugMode &&& 0x80000000 ≠ 0 then p.debugMode
        else if p.debugMode = 2 then
          let c := toU32 (roundFloat (z.z * 16))
          if c < 0x00FFFFFF then c else 0x00FFFFFF
        else c
      let c := if p.debugMode ≠ 4 then
          ((c &&& 0xFF) <<< 16) ||| (c &&& 0xFF00) ||| ((c >>> 16) &&& 0xFF)
        else c
      { p with bufRGBW := Function.update p.bufRGBW offs (c ||| 0xFF000000) }
    else
      let n : ℕ := match p.textureN with
        | some tN => u32 (tN.getPixelT (txtU * p.textureScaleN) (txtV * p.textureScaleN) p.mipLevel)
        | none => 0xFFFF8080
      let r := p.normalMap E z.normalX z.normalY z.normalZ n
      let c := u32 (E.multiplyWithLight c r.1)
      let c := if p.debugMode = 3 then
          toU32 (roundFloat (r.2.1 * (255 / 2) + 255 / 2))
            ||| u32 (toU32 (roundFloat (r.2.2.1 * (-255 / 2) + 255 / 2)) <<< 8)
            ||| u32 (toU32 (roundFloat (r.2.2.2 * (-255 / 2) + 255 / 2)) <<< 16)
            ||| 0xFF000000
        else c
      { p with bufRGBW := Function.update p.bufRGBW offs c }

/-- Lines 407-411 of `drawPixel_Diffuse`: the colour stored for a fragment with diffuse
colour `c` that has passed the alpha test. -/
def diffuseShade (p : Plot3D_TriShape) (c : ℕ) (z : NIFVertex) : ℕ :=
  let normalX := if ¬ p.invNormals then z.normalX else -z.normalX
  let normalY := if ¬ p.invNormals then z.normalY else -z.normalY
  let normalZ := if ¬ p.invNormals then z.normalZ else -z.normalZ
  let l := p.calculateLighting E normalX normalY normalZ
  u32 (E.multiplyWithLight c l)

/-- `drawPixel_Diffuse` (lines 396-412).  The selection in `drawTriShape` binds `textureD`
before this function can be called; for a null `textureD` (undefined in the source) the model
leaves the state unchanged, and likewise in the functions below. -/
def drawPixel_Diffuse (p : Plot3D_TriShape) (x y : ℤ) (txtU txtV : ℚ) (z : NIFVertex) :
    Plot3D_TriShape :=
  let offs := p.pixelOffs x y
  match p.textureD with
  | none => p
  | some tD =>
    let c := p.diffuseColor tD txtU txtV z
    if c < p.alphaThresholdScaled then p
    else
      let p := { p with bufZ := Function.update p.bufZ offs z.z }
      { p with bufRGBW := Function.update p.bufRGBW offs (p.diffuseShade E c z) }

/-- `drawPixel_Normal` (lines 414-432). -/
def drawPixel_Normal (p : Plot3D_TriShape) (x y : ℤ) (txtU txtV : ℚ) (z : NIFVertex) :
    Plot3D_TriShape :=
  let offs := p.pixelOffs x y
  match p.textureD with
  | none => p
  | some tD =>
    let c := p.diffuseColor tD txtU txtV z
    if c < p.alphaThresholdScaled then p
    else
      let p := { p with bufZ := Function.update p.bufZ offs z.z }
      let n := sampleT p.textureN (txtU * p.textureScaleN) (txtV * p.textureScaleN) p.mipLevel
      let r := p.normalMap E z.normalX z.normalY z.normalZ n
      { p with bufRGBW := Function.update p.bufRGBW offs (u32 (E.multiplyWithLight c r.1)) }

/-- `drawPixel_NormalEnv` (lines 434-454). -/
def drawPixel_NormalEnv (p : Plot3D_TriShape) (x y : ℤ) (txtU txtV : ℚ) (z : NIFVertex) :
    Plot3D_TriShape :=
  let offs := p.pixelOffs x y
  match p.textureD with
  | none => p
  | some tD =>
    let c := p.diffuseColor tD txtU txtV z
    if c < p.alphaThresholdScaled then p
    else
      let p := { p with bufZ := Function.update p.bufZ offs z.z }
      let n := sampleT p.textureN (txtU * p.textureScaleN) (txtV * p.textureScaleN) p.mipLevel
      let r := p.normalMap E z.normalX z.normalY z.normalZ n
      let c := u32 (E.multiplyWithLight c r.1)
      let c := p.addReflectionM E c
        (p.environmentMap r.2.1 r.2.2.1 r.2.2.2 x y E.envMapSmoothness) (n >>> 24)
      { p with bufRGBW := Function.update p.bufRGBW offs c }

/-- `drawPixel_NormalEnvM` (lines 456-481). -/
def drawPixel_NormalEnvM (p : Plot3D_TriShape) (x y : ℤ) (txtU txtV : ℚ) (z : NIFVertex) :
    Plot3D_TriShape :=
  let offs := p.pixelOffs x y
  match p.textureD with
  | none => p
  | some tD =>
    let c := p.diffuseColor tD txtU txtV z
    if c < p.alphaThresholdScaled then p
    else
      let p := { p with bufZ := Function.update p.bufZ offs z.z }
      let n := sampleT p.textureN (txtU * p.textureScaleN) (txtV * p.textureScaleN) p.mipLevel
      let r := p.normalMap E z.normalX z.normalY z.normalZ n
      let c := u32 (E.multiplyWithLight c r.1)
      let m := sampleT p.textureS (txtU * p.textureScaleS) (txtV * p.textureScaleS) p.mipLevel
      let c := if m &&& 0xFF ≠ 0 then
          p.addReflectionM E c (p.environmentMap r.2.1 r.2.2.1 r.2.2.2 x y E.envMapSmoothness) m
        else c
      { p with bufRGBW := Function.update p.bufRGBW offs c }

/-- `drawPixel_NormalEnvS` (lines 483-508). -/
def drawPixel_NormalEnvS (p : Plot3D_TriShape) (x y : ℤ) (txtU txtV : ℚ) (z : NIFVertex) :
    Plot3D_TriShape :=
  let offs := p.pixelOffs x y
  match p.textureD with
  | none => p
  | some tD =>
    let c := p.diffuseColor tD txtU txtV z
    if c < p.alphaThresholdScaled then p
    else
      let p := { p with bufZ := Function.update p.bufZ offs z.z }
      let n := sampleT p.textureN (txtU * p.textureScaleN) (txtV * p.textureScaleN) p.mipLevel
      let r := p.normalMap E z.normalX z.normalY z.normalZ n
      let c := u32 (E.multiplyWithLight c r.1)
      let m := sampleT p.textureS (txtU * p.textureScaleS) (txtV * p.textureScaleS) p.mipLevel
      let c := if m &&& 0xFF ≠ 0 then
          p.addReflectionM E c (p.environmentMap r.2.1 r.2.2.1 r.2.2.2 x y E.envMapSmoothness) m
        else c
      { p with bufRGBW := Function.update p.bufRGBW offs c }

/-- `drawPixel_NormalRefl` (lines 510-545). -/
def drawPixel_NormalRefl (p : Plot3D_TriShape) (x y : ℤ) (txtU txtV : ℚ) (z : NIFVertex) :
    Plot3D_TriShape :=
  let offs := p.pixelOffs x y
  match p.textureD with
  | none => p
  | some tD =>
    let c := p.diffuseColor tD txtU txtV z
    if c < p.alphaThresholdScaled then p
    else
      let p := { p with bufZ := Function.update p.bufZ offs z.z }
      let n := sampleT p.textureN (txtU * p.textureScaleN) (txtV * p.textureScaleN) p.mipLevel
      let r := sampleT p.textureR (txtU * p.textureScaleR) (txtV * p.textureScaleR) p.mipLevel
      let s := sampleT p.textureS (txtU * p.textureScaleS) (txtV * p.textureScaleS) p.mipLevel
      let nm := p.normalMap E z.normalX z.normalY z.normalZ n
      let l := nm.1
      if r &&& 0x00FFFFFF = 0 then
        { p with bufRGBW := Function.update p.bufRGBW offs (u32 (E.multiplyWithLight c l)) }
      else
        let r_r := r &&& 0xFF
        let r_g := (r >>> 8) &&& 0xFF
        let r_b := (r >>> 16) &&& 0xFF
        let m := if r_r > r_g then r_r else r_g
        let m := if r_b > m then r_b else m
        let c := u32 (E.multiplyWithLight c ((u32 (toU32 l * (256 - m) + 128) >>> 8 : ℕ) : ℤ))
        let c := p.addReflectionR c
          (p.environmentMap nm.2.1 nm.2.2.1 nm.2.2.2 x y (s &&& 0xFF)) r
        { p with bufRGBW := Function.update p.bufRGBW offs c }

/-- The call through the pointer `drawPixelFunction`. -/
def callDrawPixelFunction (p : Plot3D_TriShape) (x y : ℤ) (txtU txtV : ℚ) (z : NIFVertex) :
    Plot3D_TriShape :=
  match p.drawPixelFunction with
  | .Water => p.drawPixel_Water E x y txtU txtV z
  | .Debug => p.drawPixel_Debug E x y txtU txtV z
  | .Diffuse => p.drawPixel_Diffuse E x y txtU txtV z
  | .Normal => p.drawPixel_Normal E x y txtU txtV z
  | .NormalEnv => p.drawPixel_NormalEnv E x y txtU txtV z
  | .NormalEnvM => p.drawPixel_NormalEnvM E x y txtU txtV z
  | .NormalEnvS => p.drawPixel_NormalEnvS E x y txtU txtV z
  | .NormalRefl => p.drawPixel_NormalRefl E x y txtU txtV z

/-- `interpVertexColors` (lines 547-560); the `FloatVector4` arithmetic is a parameter. -/
def interpVertexColors (v0 v1 v2 : NIFVertex) (w0 w1 w2 : ℚ) : ℕ :=
  u32 (E.interpColors v0.vertexColor v1.vertexColor v2.vertexColor w0 w1 w2)

/-- Lines 572-578 of `drawPixel`: the vertex `v` handed to the shading function, with the
interpolated normal and vertex colour and the depth `v.z` set by the caller.  Its other
members are not read by the shading functions. -/
def fragmentVertex (f : Fragment) : NIFVertex :=
  let normalX := (f.v0.normalX * f.w0) + (f.v1.normalX * f.w1) + (f.v2.normalX * f.w2)
  let normalY := (f.v0.normalY * f.w0) + (f.v1.normalY * f.w1) + (f.v2.normalY * f.w2)
  let normalZ := (f.v0.normalZ * f.w0) + (f.v1.normalZ * f.w1) + (f.v2.normalZ * f.w2)
  let tmp := u32 f.v0.vertexColor &&& u32 f.v1.vertexColor &&& u32 f.v2.vertexColor
  let tmp := if tmp ≠ 0xFFFFFFFF then interpVertexColors E f.v0 f.v1 f.v2 f.w0 f.w1 f.w2 else tmp
  { x := 0, y := 0, z := f.z, normalX := normalX, normalY := normalY, normalZ := normalZ
    u := 0, v := 0, vertexColor := tmp }

/-- `drawPixel` (lines 562-580). -/
def drawPixel (p : Plot3D_TriShape) (f : Fragment) : Plot3D_TriShape :=
  if f.x < 0 ∨ f.x ≥ p.width ∨ f.y < 0 ∨ f.y ≥ p.height then p
  else if f.z < 0 ∨ p.bufZ (p.pixelOffs f.x f.y) ≤ f.z then p
  else p.callDrawPixelFunction E f.x f.y f.txtU f.txtV (fragmentVertex E f)


/-- The fragment `drawLine` passes to `drawPixel` at interpolation weight `w1`
(lines 601-603 and 624-626). -/
def lineFragment (v0 v1 : NIFVertex) (x y : ℤ) (w1 : ℚ) : Fragment :=
  let w0 : ℚ := 1 - w1
  { x := x, y := y, txtU := 0, txtV := 0, z := (v0.z * w0) + (v1.z * w1)
    v0 := v0, v1 := v1, v2 := v0, w0 := w0, w1 := w1, w2 := 0 }

/-- `drawLine` (lines 582-640), as the list of `drawPixel` calls it makes, in order.  The
`while (true)` loops step the independent variable from its start value to its end value, one
pixel at a time. -/
def drawLine (v0 v1 : NIFVertex) : List Fragment :=
  let x : ℤ := roundFloat v0.x
  let y : ℤ := roundFloat v0.y
  if fabs (v1.y - v0.y) ≥ 1 / 1024 then
    let dy1 : ℚ := 1 / (v1.y - v0.y)
    let y1 : ℤ := roundFloat v1.y
    (List.range ((y1 - y).natAbs + 1)).filterMap fun k =>
      let y : ℤ := if y < y1 then y + k else y - k
      let w1 : ℚ := ((y : ℚ) - v0.y) * dy1
      if w1 > -(1 / 1000000) ∧ w1 < 1000001 / 1000000 then
        let xf : ℚ := (v1.x - v0.x) * w1 + v0.x
        let x : ℤ := roundFloat xf
        if fabs (xf - (x : ℚ)) < 1 / 1024 then some (lineFragment v0 v1 x y w1) else none
      else none
  else if fabs (v1.x - v0.x) ≥ 1 / 1024 then
    let dx1 : ℚ := 1 / (v1.x - v0.x)
    let x1 : ℤ := roundFloat v1.x
    (List.range ((x1 - x).natAbs + 1)).filterMap fun k =>
      let x : ℤ := if x < x1 then x + k else x - k
      let w1 : ℚ := ((x : ℚ) - v0.x) * dx1
      if w1 > -(1 / 1000000) ∧ w1 < 1000001 / 1000000 then
        let yf : ℚ := (v1.y - v0.y) * w1 + v0.y
        let y : ℤ := roundFloat yf
        if fabs (yf - (y : ℚ)) < 1 / 1024 then some (lineFragment v0 v1 x y w1) else none
      else none
  else if fabs (v0.x - (x : ℚ)) < 1 / 1024 ∧ fabs (v0.y - (y : ℚ)) < 1 / 1024 then
    [{ x := x, y := y, txtU := 0, txtV := 0, z := v0.z
       v0 := v0, v1 := v0, v2 := v0, w0 := 1, w1 := 0, w2 := 0 }]
  else []

/-- `calculateTangent` (lines 642-658): the new value of `(x, y, z)`. -/
def calculateTangent (xyz : ℚ × ℚ × ℚ) (v0 v1 v2 x0 y0 z0 x1 y1 z1 x2 y2 z2 : ℚ) (n : Bool) :
    ℚ × ℚ × ℚ :=
  let tmpX := ((v2 - v0) * (x1 - x0)) - ((v1 - v0) * (x2 - x0))
  let tmpY := ((v2 - v0) * (y1 - y0)) - ((v1 - v0) * (y2 - y0))
  let tmpZ := ((v2 - v0) * (z1 - z0)) - ((v1 - v0) * (z2 - z0))
  let tmp := (tmpX * tmpX) + (tmpY * tmpY) + (tmpZ * tmpZ)
  if tmp > 0 then
    let tmp := (if ¬ n then (1 : ℚ) else -1) / E.sqrt tmp
    (tmpX * tmp, tmpY * tmp, tmpZ * tmp)
  else xyz

/-- The three vertices of a triangle after "sort vertices by Y coordinate" (lines 691-710). -/
def sortVerticesY (v0 v1 v2 : NIFVertex) : NIFVertex × NIFVertex × NIFVertex :=
  let a := if v0.y > v1.y then (v1, v0) else (v0, v1)
  let v0 := a.1
  let v1 := a.2
  if v1.y > v2.y then
    let b := if v0.y > v2.y then (v2, v0) else (v0, v2)
    let v0 := b.1
    let v2 := b.2
    (v0, v2, v1)
  else (v0, v1, v2)

/-- The texture coordinates of the three vertices, as `drawTriangles` interpolates them. -/
structure TriangleUV where
  txtU0 : ℚ
  txtV0 : ℚ
  txtU1 : ℚ
  txtV1 : ℚ
  txtU2 : ℚ
  txtV2 : ℚ
  deriving DecidableEq, Inhabited

/-- The inner `while` loop of the scanline code (lines 796-808) with the loop counter `fuel`,
in exact arithmetic: the `drawPixel` calls of one row, starting at pixel `x` with weights `w1`,
`w2`.  The weights are accumulated and passed on without rounding; `pixelLoopRounded` is the
same loop with the rounding of the `double` additions and of the conversions `float(w0)`,
`float(w1)`, `float(w2)`. -/
def pixelLoop (v0 v1 v2 : NIFVertex) (t : TriangleUV) (y : ℤ) (xStep : ℤ) (w1Step w2Step : ℚ) :
    ℕ → ℤ → ℚ → ℚ → List Fragment
  | 0, _, _, _ => []
  | fuel + 1, x, w1, w2 =>
    let w0 : ℚ := 1 - (w1 + w2)
    if w0 ≥ -(1 / 1000000) ∧ w2 ≥ -(1 / 1000000) then
      { x := x, y := y
        txtU := (t.txtU0 * w0) + (t.txtU1 * w1) + (t.txtU2 * w2)
        txtV := (t.txtV0 * w0) + (t.txtV1 * w1) + (t.txtV2 * w2)
        z := (v0.z * w0) + (v1.z * w1) + (v2.z * w2)
        v0 := v0, v1 := v1, v2 := v2, w0 := w0, w1 := w1, w2 := w2 }
        :: pixelLoop v0 v1 v2 t y xStep w1Step w2Step fuel (x + xStep) (w1 + w1Step)
            (w2 + w2Step)
    else []

/-- The number of iterations after which the inner loop has certainly stopped: while it runs,
`w1 = 1 - (w0 + w2)` is at most `1 + 2/1000000`, and `w1` grows by `w1Step` per pixel. -/
def pixelLoopBound (w1 w1Step : ℚ) : ℕ :=
  ⌈(1000002 / 1000000 - w1) / w1Step⌉.toNat + 1

/-- The coefficients of the scanline code (lines 711-717 and 774-783). -/
structure ScanCoeffs where
  x0 : ℚ
  y0 : ℚ
  x2 : ℚ
  dy2 : ℚ
  a1 : ℚ
  b1 : ℚ
  a2 : ℚ
  b2 : ℚ
  y : ℤ
  yMax : ℤ
  w1Step : ℚ
  w2Step : ℚ
  xStep : ℤ

/-- Lines 711-717 and 774-783 for vertices that are already sorted by y, in exact arithmetic:
`r2xArea`, `a1`, `b1`, `a2` and `b2` are the exact quotients and products, not the rounded
`double` values; `scanCoeffsRounded` is the same computation with every operation rounded. -/
def scanCoeffs (v0 v1 v2 : NIFVertex) : ScanCoeffs :=
  let x0 := v0.x
  let y0 := v0.y
  let x1 := v1.x
  let y1 := v1.y
  let x2 := v2.x
  let y2 := v2.y
  let r2xArea : ℚ := 1 / (((x1 - x0) * (y2 - y0)) - ((x2 - x0) * (y1 - y0)))
  let dy2 : ℚ := 1 / (y2 - y0)
  let a1 : ℚ := (y2 - y0) * r2xArea
  let b1 : ℚ := -((x2 - x0) * a1)
  let a2 : ℚ := (y0 - y1) * r2xArea
  let b2 : ℚ := 1 - ((x2 - x0) * a2)
  { x0 := x0, y0 := y0, x2 := x2, dy2 := dy2, a1 := a1, b1 := b1, a2 := a2, b2 := b2
    y := truncInt (y0 + (if y0 < 0 then -(1 / 2000000) else 1999999 / 2000000))
    yMax := truncInt (y2 + (if y2 < 0 then -(1999999 / 2000000) else 1 / 2000000))
    w1Step := if a1 < 0 then -a1 else a1
    w2Step := if a1 < 0 then -a2 else a2
    xStep := if a1 < 0 then -1 else 1 }

/-- The body of the `do ... while (++y <= yMax)` loop (lines 786-808) for row `y`, in exact
arithmetic: the start pixel is `roundFloat` of the exact position of the edge, without the
narrowing `float(...)` of line 787 and without the rounding of the `double` operations;
`scanRowRounded` is the same body with both. -/
def scanRow (v0 v1 v2 : NIFVertex) (t : TriangleUV) (c : ScanCoeffs) (y : ℤ) : List Fragment :=
  let yf : ℚ := ((y : ℚ) - c.y0) * c.dy2
  let x : ℤ := roundFloat ((c.x2 - c.x0) * yf + c.x0)
  let w1 : ℚ := (((x : ℚ) - c.x0) * c.a1) + (yf * c.b1)
  let x : ℤ := if w1 ≥ -(1 / 1000000) then x else x + c.xStep
  let w1 : ℚ := if w1 ≥ -(1 / 1000000) then w1 else w1 + c.w1Step
  let w2 : ℚ := (((x : ℚ) - c.x0) * c.a2) + (yf * c.b2)
  pixelLoop v0 v1 v2 t y c.xStep c.w1Step c.w2Step (pixelLoopBound w1 c.w1Step) x w1 w2

/-- The scanline loop of `drawTriangles` (lines 774-810) for vertices sorted by y, in exact
arithmetic, as the list of `drawPixel` calls it makes, in order.  The `do ... while` loop runs for the rows `y`,
`y + 1`, ... up to `yMax`, and at least once. -/
def scanline (v0 v1 v2 : NIFVertex) (t : TriangleUV) : List Fragment :=
  let c := scanCoeffs v0 v1 v2
  (List.range ((c.yMax - c.y).toNat + 1)).flatMap fun k => scanRow v0 v1 v2 t c (c.y + k)

/-- The result of the mip-level block of `drawTriangles` (lines 742-772). -/
structure MipResult where
  mipLevel : ℚ
  uv : TriangleUV

/-- Lines 742-772: the mip level and the rescaled texture coordinates.  `xyArea2` and
`uvArea2` are the absolute doubled areas, `r2xArea` the reciprocal of the signed doubled screen
area of the sorted vertices, `mipLevel` the value on entry (15). -/
def mipLevelBlock (tD : DDSTexture) (xyArea2 uvArea2 r2xArea mipLevel : ℚ) (t : TriangleUV) :
    MipResult :=
  if xyArea2 > uvArea2 then
    let txtW : ℚ := (tD.getWidth : ℚ)
    let txtH : ℚ := (tD.getHeight : ℚ)
    let uvArea2 := uvArea2 * (txtW * txtH)
    let mipLevel : ℚ := if uvArea2 > xyArea2 then E.log2 (fabs (r2xArea * uvArea2)) * (1 / 2) else 0
    let mipLevel_i : ℤ := truncInt mipLevel
    let mipLevel := mipLevel - (mipLevel_i : ℚ)
    let integerMipLevel : Bool := mipLevel < 1 / 16 ∨ mipLevel ≥ 15 / 16
    let mipLevel_i := if integerMipLevel then mipLevel_i + (if mipLevel ≥ 1 / 2 then 1 else 0)
      else mipLevel_i
    let mipLevel := if integerMipLevel then 0 else mipLevel
    let txtScale : ℚ := ((65536 >>> mipLevel_i.toNat : ℕ) : ℚ) * (1 / 65536)
    let txtW := txtW * txtScale
    let txtH := txtH * txtScale
    { mipLevel := mipLevel + (mipLevel_i : ℚ)
      uv := { txtU0 := t.txtU0 * txtW, txtV0 := t.txtV0 * txtH
              txtU1 := t.txtU1 * txtW, txtV1 := t.txtV1 * txtH
              txtU2 := t.txtU2 * txtW, txtV2 := t.txtV2 * txtH } }
  else { mipLevel := mipLevel, uv := t }

/-- The signed doubled screen-space area computed at lines 672-675. -/
def xyArea2Signed (v0 v1 v2 : NIFVertex) : ℚ :=
  ((v1.x - v0.x) * (v2.y - v0.y)) - ((v2.x - v0.x) * (v1.y - v0.y))

/-- Lines 719-773 of `drawTriangles` for sorted vertices: the texture coordinates, the
tangent and bitangent, and the mip level. -/
def triangleSetup (p : Plot3D_TriShape) (v0 v1 v2 : NIFVertex) (xyArea2 : ℚ) :
    Plot3D_TriShape × TriangleUV :=
  let r2xArea : ℚ := 1 / xyArea2Signed v0 v1 v2
  let t : TriangleUV :=
    { txtU0 := v0.u * p.textureScaleU + p.textureOffsetU
      txtV0 := v0.v * p.textureScaleV + p.textureOffsetV
      txtU1 := v1.u * p.textureScaleU + p.textureOffsetU
      txtV1 := v1.v * p.textureScaleV + p.textureOffsetV
      txtU2 := v2.u * p.textureScaleU + p.textureOffsetU
      txtV2 := v2.v * p.textureScaleV + p.textureOffsetV }
  match p.textureD with
  | none => (p, t)
  | some tD =>
    let uvArea2 : ℚ := ((t.txtU1 - t.txtU0) * (t.txtV2 - t.txtV0))
      - ((t.txtU2 - t.txtU0) * (t.txtV1 - t.txtV0))
    let p : Plot3D_TriShape :=
      if p.textureN.isSome ∧ uvArea2 ≠ 0 then
        let b := calculateTangent E (p.bitangentX, p.bitangentY, p.bitangentZ)
          t.txtV0 t.txtV1 t.txtV2 v0.x v0.y v0.z v1.x v1.y v1.z v2.x v2.y v2.z
          (decide (uvArea2 < 0))
        let g := calculateTangent E (p.tangentX, p.tangentY, p.tangentZ)
          t.txtU0 t.txtU2 t.txtU1 v0.x v0.y v0.z v2.x v2.y v2.z v1.x v1.y v1.z
          (decide (uvArea2 < 0))
        { p with bitangentX := b.1, bitangentY := b.2.1, bitangentZ := b.2.2
                 tangentX := g.1, tangentY := g.2.1, tangentZ := g.2.2 }
      else p
    let uvArea2 := fabs uvArea2
    let m := mipLevelBlock E tD xyArea2 uvArea2 r2xArea p.mipLevel t
    ({ p with mipLevel := m.mipLevel }, m.uv)

/-- Line 668-670: the vertex `vertexBuf[i]`. -/
def vertexAt (p : Plot3D_TriShape) (i : ℕ) : NIFVertex :=
  p.vertexBuf.getD i default

/-- Lines 664 and 676-682: the members that are reset at the start of every triangle;
`xyArea2` is the signed doubled screen-space area. -/
def triangleInit (p : Plot3D_TriShape) (xyArea2 : ℚ) : Plot3D_TriShape :=
  { p with
    mipLevel := 15
    invNormals := decide (xyArea2 ≥ 0)
    bitangentX := 1, bitangentY := 0, bitangentZ := 0
    tangentX := 0, tangentY := 1, tangentZ := 0 }

/-- One iteration of the loop of `drawTriangles` (lines 664-810) once the three vertices have
been fetched: the `drawPixel` calls it makes, in order, together with the state as the
triangle set-up leaves it before the first pixel is drawn. -/
def triangleFragmentsV (p : Plot3D_TriShape) (v0 v1 v2 : NIFVertex) :
    Plot3D_TriShape × List Fragment :=
  let xyArea2 : ℚ := xyArea2Signed v0 v1 v2
  let p := p.triangleInit xyArea2
  let xyArea2 := fabs xyArea2
  if xyArea2 < 1 / 1048576 then
    (p, drawLine v0 v1 ++ drawLine v1 v2 ++ drawLine v2 v0)
  else
    let s := sortVerticesY v0 v1 v2
    let r := p.triangleSetup E s.1 s.2.1 s.2.2 xyArea2
    (r.1, scanline s.1 s.2.1 s.2.2 r.2)

/-- The `drawPixel` calls made for one entry of `triangleBuf`, with the vertices fetched from
`vertexBuf` through `triangleData` (lines 667-671). -/
def triangleFragments (p : Plot3D_TriShape) (t : Triangle) : Plot3D_TriShape × List Fragment :=
  p.triangleFragmentsV E (p.vertexAt (p.triangleData t.n).v0) (p.vertexAt (p.triangleData t.n).v1)
    (p.vertexAt (p.triangleData t.n).v2)

/-- One iteration of the loop of `drawTriangles`. -/
def drawTriangle (p : Plot3D_TriShape) (t : Triangle) : Plot3D_TriShape :=
  let r := p.triangleFragments E t
  r.2.foldl (drawPixel E) r.1

/-- `drawTriangles` (lines 660-812). -/
def drawTriangles (p : Plot3D_TriShape) : Plot3D_TriShape :=
  p.triangleBuf.foldl (drawTriangle E) p


/-- The loop of `calculateWaterUV` (lines 31-44) over `vertexBuf`, from index `i` on: the
entries below `n` get the texture coordinates `uv i`. -/
def setWaterUV (uv : ℕ → ℚ × ℚ) (n : ℕ) : ℕ → List NIFVertex → List NIFVertex
  | _, [] => []
  | i, v :: vs =>
    (if i < n then { v with u := (uv i).1, v := (uv i).2 } else v) :: setWaterUV uv n (i + 1) vs

/-- `calculateWaterUV` (lines 22-45).  `convertToFloat16` stores the value that `getU()` /
`getV()` read back. -/
def calculateWaterUV (p : Plot3D_TriShape) (modelTransform : NIFVertexTransform) :
    Plot3D_TriShape :=
  let tmpUV : ℕ → ℚ × ℚ := fun i =>
    let v := p.vertexData i
    let t := modelTransform.transformXYZ v.x v.y v.z
    (t.1 * (2 / 4096), t.2.1 * (2 / 4096))
  let u0 : ℚ := if 0 < p.vertexCnt then (roundFloat (tmpUV 0).1 : ℚ) else 0
  let v0 : ℚ := if 0 < p.vertexCnt then (roundFloat (tmpUV 0).2 : ℚ) else 0
  { p with textureOffsetU := 0, textureOffsetV := 0, textureScaleU := 1, textureScaleV := 1
           vertexBuf := setWaterUV (fun i => ((tmpUV i).1 - u0, (tmpUV i).2 - v0)) p.vertexCnt 0
             p.vertexBuf }

/-- The combined transform of `transformVertexData` (lines 57-61). -/
def combinedTransform (p : Plot3D_TriShape) (modelTransform viewTransform : NIFVertexTransform) :
    NIFVertexTransform :=
  let vt := (p.vertexTransform.mul modelTransform).mul viewTransform
  if p.flags &&& 0x08 ≠ 0 then { vt with offsZ := vt.offsZ - 1 / 16 } else vt

/-- Lines 65-67: vertex `i` of the mesh, transformed into screen space. -/
def transformVertex (p : Plot3D_TriShape) (vt : NIFVertexTransform) (i : ℕ) : NIFVertex :=
  let v := p.vertexData i
  let t := vt.transformXYZ v.x v.y v.z
  { v with x := t.1, y := t.2.1, z := t.2.2 }

/-- Lines 79-94: snapping of x and y to near integers, rotation of the normal, and the
"tree" flag. -/
def finishVertex (p : Plot3D_TriShape) (vt : NIFVertexTransform) (v : NIFVertex) : NIFVertex :=
  let x : ℚ := (roundFloat v.x : ℚ)
  let y : ℚ := (roundFloat v.y : ℚ)
  let vx := if fabs (v.x - x) < VERTEX_XY_SNAP then x else v.x
  let vy := if fabs (v.y - y) < VERTEX_XY_SNAP then y else v.y
  let x := v.normalX
  let y := v.normalY
  let z := v.normalZ
  { v with
    x := vx, y := vy
    normalX := (x * vt.rotateXX) + (y * vt.rotateXY) + (z * vt.rotateXZ)
    normalY := (x * vt.rotateYX) + (y * vt.rotateYY) + (z * vt.rotateYZ)
    normalZ := (x * vt.rotateZX) + (y * vt.rotateZY) + (z * vt.rotateZZ)
    vertexColor := if p.flags &&& 0x20 ≠ 0 then v.vertexColor ||| 0xFF000000 else v.vertexColor }

/-- The bounds test of lines 70-72: the mesh lies entirely outside the visible volume. -/
def boundsOutside (p : Plot3D_TriShape) (b : NIFBounds) : Prop :=
  b.xMin ≥ (p.width : ℚ) - 1 / 2 ∨ b.xMax < -(1 / 2) ∨
  b.yMin ≥ (p.height : ℚ) - 1 / 2 ∨ b.yMax < -(1 / 2) ∨
  b.zMin ≥ 16777216 ∨ b.zMax < 0

instance (p : Plot3D_TriShape) (b : NIFBounds) : Decidable (p.boundsOutside b) := by
  unfold boundsOutside
  infer_instance

/-- The body of the triangle loop (lines 100-148) for the triangle `t` with index `i`: the
entry pushed to `triangleBuf`, if any.  `vb` is `vertexBuf`. -/
def triangleEntry (p : Plot3D_TriShape) (vb : List NIFVertex) (i : ℕ) (t : NIFTriangle) :
    Option Triangle :=
  if t.v0 ≥ p.vertexCnt ∨ t.v1 ≥ p.vertexCnt ∨ t.v2 ≥ p.vertexCnt then none
  else
    let v0 := vb.getD t.v0 default
    let v1 := vb.getD t.v1 default
    let v2 := vb.getD t.v2 default
    if p.flags &&& 0x10 = 0 ∧
        ((v1.x - v0.x) * (v2.y - v0.y)) > ((v2.x - v0.x) * (v1.y - v0.y)) then none
    else
      let x0 := truncInt v0.x
      let y0 := truncInt v0.y
      let x1 := truncInt v1.x
      let y1 := truncInt v1.y
      let x2 := truncInt v2.x
      let y2 := truncInt v2.y
      if (x0 < 0 ∧ x1 < 0 ∧ x2 < 0) ∨
          (x0 ≥ p.width ∧ x1 ≥ p.width ∧ x2 ≥ p.width) ∨
          (y0 < 0 ∧ y1 < 0 ∧ y2 < 0) ∨
          (y0 ≥ p.height ∧ y1 ≥ p.height ∧ y2 ≥ p.height) ∨
          (v0.z < 0 ∧ v1.z < 0 ∧ v2.z < 0) then none
      else if (x0 = x1 ∧ x0 = x2) ∧
          ((v0.x - (x0 : ℚ)) ≠ 0 ∧ (v1.x - (x1 : ℚ)) ≠ 0 ∧ (v2.x - (x2 : ℚ)) ≠ 0) then none
      else if (y0 = y1 ∧ y0 = y2) ∧
          ((v0.y - (y0 : ℚ)) ≠ 0 ∧ (v1.y - (y1 : ℚ)) ≠ 0 ∧ (v2.y - (y2 : ℚ)) ≠ 0) then none
      else some { z := v0.z + v1.z + v2.z, n := i }

/-- Modelled from the spec: `std::stable_sort` with `Triangle::operator<` (declared in
plot3d.hpp): a stable sort, ascending by the key `z`. -/
def sortTriangles (l : List Triangle) : List Triangle :=
  l.insertionSort (fun a b => a.z ≤ b.z)

/-- Lines 62-69: the bounds of the transformed vertices of the mesh. -/
def transformedBounds (p : Plot3D_TriShape) (modelTransform viewTransform : NIFVertexTransform) :
    NIFBounds :=
  ((List.range p.vertexCnt).map
    (p.transformVertex (p.combinedTransform modelTransform viewTransform))).foldl
    NIFBounds.add E.boundsInit

/-- The result of `transformVertexData`: the new state and the light vector, which is passed
by reference. -/
structure TransformResult where
  p : Plot3D_TriShape
  lightX : ℚ
  lightY : ℚ
  lightZ : ℚ

/-- `transformVertexData` (lines 47-152).  The return value is the length of `triangleBuf`
of the new state. -/
def transformVertexData (p : Plot3D_TriShape) (modelTransform viewTransform : NIFVertexTransform)
    (lightX lightY lightZ : ℚ) : TransformResult :=
  let vt := p.combinedTransform modelTransform viewTransform
  let vb := (List.range p.vertexCnt).map (p.transformVertex vt)
  let b := p.transformedBounds E modelTransform viewTransform
  let rest := p.vertexBuf.drop p.vertexCnt
  if p.boundsOutside b then
    { p := { p with vertexBuf := vb ++ rest, triangleBuf := [] }
      lightX := lightX, lightY := lightY, lightZ := lightZ }
  else
    let l := viewTransform.rotateXYZ lightX lightY lightZ
    let p1 : Plot3D_TriShape :=
      { p with vertexBuf := vb.map (p.finishVertex vt) ++ rest, triangleBuf := [] }
    let p2 := if p1.flags &&& 0x02 ≠ 0 then p1.calculateWaterUV modelTransform else p1
    let tb := (List.range p2.triangleCnt).filterMap fun i =>
      p2.triangleEntry p2.vertexBuf i (p2.triangleData i)
    { p := { p2 with triangleBuf := sortTriangles tb }
      lightX := l.1, lightY := l.2.1, lightZ := l.2.2 }

/-- The test `textureCnt >= k + 1 && textures[k]` of `drawTriShape`. -/
def slotPresent (textures : ℕ → Option DDSTexture) (textureCnt k : ℕ) : Prop :=
  textureCnt ≥ k + 1 ∧ (textures k).isSome

instance (textures : ℕ → Option DDSTexture) (textureCnt k : ℕ) :
    Decidable (slotPresent textures textureCnt k) := by
  unfold slotPresent
  infer_instance

/-- The ratio `float(t->getWidth()) / float(textureD->getWidth())` of lines 967, 982-985,
991-992 and 998-999. -/
def widthRatio (t d : Option DDSTexture) : ℚ :=
  match t, d with
  | some t, some d => (t.getWidth : ℚ) / (d.getWidth : ℚ)
  | _, _ => 1

/-- The test of lines 959-960: a normal map is bound and its aspect ratio is that of the
diffuse texture.  The products are those of `int` values; overflow is outside the model. -/
def sameAspect (d n : Option DDSTexture) : Prop :=
  match d, n with
  | some d, some n => d.getWidth * n.getHeight = d.getHeight * n.getWidth
  | _, _ => False

instance (d n : Option DDSTexture) : Decidable (sameAspect d n) := by
  unfold sameAspect
  split <;> infer_instance

/-- Lines 930-944 of `drawTriShape`: reset of the bound textures and shading parameters. -/
def resetShading (p : Plot3D_TriShape) (lightX lightY lightZ : ℚ) : Plot3D_TriShape :=
  { p with
    textureD := none, textureG := none, textureN := none
    textureE := none, textureS := none, textureR := none
    textureScaleN := 1, textureScaleS := 1, textureScaleR := 1
    mipLevel := 15
    alphaThresholdScaled := u32 (p.alphaThreshold <<< 24)
    light_X := lightX, light_Y := lightY, light_Z := lightZ
    reflectionLevel := 0 }

/-- Lines 945-950: binding of the diffuse, gradient and normal textures. -/
def bindTextures (p : Plot3D_TriShape) (textures : ℕ → Option DDSTexture) (textureCnt : ℕ) :
    Plot3D_TriShape :=
  let p := if textureCnt ≥ 1 then { p with textureD := textures 0 } else p
  let p := if textureCnt ≥ 4 then { p with textureG := textures 3 } else p
  if textureCnt ≥ 2 then { p with textureN := textures 1 } else p

/-- Lines 974-1005: the environment-mapped variants. -/
def selectEnvMap (p : Plot3D_TriShape) (textures : ℕ → Option DDSTexture) (textureCnt : ℕ) :
    Plot3D_TriShape :=
  let p := { p with
    textureE := textures 4
    reflectionLevel := roundFloat (((p.lightTable.getD 128 0 : ℤ) : ℚ)
      * (((p.envMapScale : ℕ) : ℚ) * ((7217095 / 10000000) / 32768))) }
  if textureCnt ≥ 10 ∧ (textures 8).isSome ∧ (textures 9).isSome then
    { p with
      textureR := textures 8, textureS := textures 9
      textureScaleR := widthRatio (textures 8) p.textureD
      textureScaleS := widthRatio (textures 9) p.textureD
      drawPixelFunction := .NormalRefl }
  else if slotPresent textures textureCnt 6 then
    { p with
      textureS := textures 6
      textureScaleS := widthRatio (textures 6) p.textureD
      drawPixelFunction := .NormalEnvS }
  else if slotPresent textures textureCnt 5 then
    { p with
      textureS := textures 5
      textureScaleS := widthRatio (textures 5) p.textureD
      drawPixelFunction := .NormalEnvM }
  else
    { p with drawPixelFunction := .NormalEnv }

/-- Lines 951-1007: selection of the shading function from the material. -/
def selectMaterial (p : Plot3D_TriShape) (textures : ℕ → Option DDSTexture) (textureCnt : ℕ) :
    Plot3D_TriShape :=
  if p.flags &&& 0x02 ≠ 0 then
    let p := if p.textureN.isNone then { p with textureN := p.textureD }
      else { p with textureD := p.textureN }
    { p with drawPixelFunction := .Water }
  else if ¬ sameAspect p.textureD p.textureN then
    { p with textureN := none, drawPixelFunction := .Diffuse }
  else
    let p := { p with textureScaleN := widthRatio p.textureN p.textureD }
    if ¬ slotPresent textures textureCnt 4 then
      { p with drawPixelFunction := .Normal }
    else p.selectEnvMap textures textureCnt

/-- Lines 930-1009 of `drawTriShape`: reset of the bound textures and shading parameters and
selection of the shading function. -/
def selectShading (p : Plot3D_TriShape) (lightX lightY lightZ : ℚ)
    (textures : ℕ → Option DDSTexture) (textureCnt : ℕ) : Plot3D_TriShape :=
  let p := ((p.resetShading lightX lightY lightZ).bindTextures textures textureCnt).selectMaterial
    textures textureCnt
  if p.debugMode ≠ 0 then { p with drawPixelFunction := .Debug } else p

/-- The guard of line 922: the draw call is abandoned at once unless a diffuse texture is
given or the mesh is water. -/
def drawGuard (p : Plot3D_TriShape) (textures : ℕ → Option DDSTexture) (textureCnt : ℕ) : Prop :=
  slotPresent textures textureCnt 0 ∨ p.flags &&& 0x02 ≠ 0

instance (p : Plot3D_TriShape) (textures : ℕ → Option DDSTexture) (textureCnt : ℕ) :
    Decidable (p.drawGuard textures textureCnt) := by
  unfold drawGuard
  infer_instance

/-- `drawTriShape` (lines 915-1011). -/
def drawTriShape (p : Plot3D_TriShape) (modelTransform viewTransform : NIFVertexTransform)
    (lightX lightY lightZ : ℚ) (textures : ℕ → Option DDSTexture) (textureCnt : ℕ) :
    Plot3D_TriShape :=
  if ¬ p.drawGuard textures textureCnt then p
  else
    let p := { p with viewTransformPtr := some viewTransform }
    let r := p.transformVertexData E modelTransform viewTransform lightX lightY lightZ
    if r.p.triangleBuf.length = 0 then r.p
    else
      (r.p.selectShading r.lightX r.lightY r.lightZ textures textureCnt).drawTriangles E

end Plot3D_TriShape

/-! ## `Renderer::threadFunction` (nif_view.cpp, lines 136-221): culling -/

namespace Renderer

/-- Modelled from the spec: the mesh record `NIFFile::NIFTriShape` as the culling loop of
`threadFunction` reads it: its material flags, and the bounds that `calculateBounds`
(declared outside the sources at hand) computes for it under a transform. -/
structure NIFTriShape where
  flags : ℕ
  calculateBounds : NIFVertexTransform → NIFBounds

/-- The flag constants of `BGSMFile` that `threadFunction` tests; their values are declared
outside the sources at hand and are parameters. -/
structure Flags where
  Flag_TSHidden : ℕ
  Flag_TSAlphaBlending : ℕ

/-- `TriShapeSortObject`: a mesh (by its index in `meshData`) and its sort key. -/
structure TriShapeSortObject where
  ts : ℕ
  z : ℚ
  deriving DecidableEq, Inhabited

/-- The condition of lines 153-156 under which a mesh is skipped. -/
def culled (b : NIFBounds) (viewOffsetY : List ℤ) (n : ℕ) : Prop :=
  roundFloat b.xMax < 0 ∨
  roundFloat b.yMin > viewOffsetY.getD (n + 1) 0 ∨
  roundFloat b.yMax < viewOffsetY.getD n 0 ∨
  b.zMax < 0

instance (b : NIFBounds) (viewOffsetY : List ℤ) (n : ℕ) : Decidable (culled b viewOffsetY n) := by
  unfold culled
  infer_instance

/-- The body of the mesh loop of `threadFunction` (lines 149-165) for mesh `i`: the entry
pushed to `sortBuf`, if any.  `mt` is the model transform composed with the view transform. -/
def sortEntry (F : Flags) (mt : NIFVertexTransform) (viewOffsetY : List ℤ) (n : ℕ)
    (i : ℕ) (m : NIFTriShape) : Option TriShapeSortObject :=
  if m.flags &&& F.Flag_TSHidden ≠ 0 then none
  else
    let b := m.calculateBounds mt
    if culled b viewOffsetY n then none
    else
      let z : ℚ := b.zMin
      some { ts := i, z := if m.flags &&& F.Flag_TSAlphaBlending ≠ 0 then 33554432 - z else z }

/-- The loop over `meshData` from index `i` on (lines 147-166). -/
def sortBufFrom (F : Flags) (mt : NIFVertexTransform) (viewOffsetY : List ℤ) (n : ℕ) :
    ℕ → List NIFTriShape → List TriShapeSortObject
  | _, [] => []
  | i, m :: ms =>
    match sortEntry F mt viewOffsetY n i m with
    | some e => e :: sortBufFrom F mt viewOffsetY n (i + 1) ms
    | none => sortBufFrom F mt viewOffsetY n (i + 1) ms

/-- The contents of `sortBuf` of band `n` before sorting (lines 141-166). -/
def sortBuf (F : Flags) (modelTransform viewTransform : NIFVertexTransform)
    (viewOffsetY : List ℤ) (n : ℕ) (meshData : List NIFTriShape) : List TriShapeSortObject :=
  sortBufFrom F (modelTransform.mul viewTransform) viewOffsetY n 0 meshData

end Renderer


/-! ## Concrete inputs used by the closed statements below -/

/-- An instance of the external functions.  The depth buffer, the triangle list and the
selected shading function do not depend on the choice made here. -/
def sampleExt : Ext :=
  { sqrt := fun q => q
    log2 := fun q => if q = 4 then 2 else 0
    multiplyWithLight := fun c _ => c
    interpColors := fun a _ _ _ _ _ => a
    envMapSmoothness := 255
    boundsInit := ⟨1073741824, 1073741824, 1073741824, -1073741824, -1073741824, -1073741824⟩ }

/-- The opaque white 1x1 texture. -/
def whiteTexture : DDSTexture :=
  { getWidth := 1, getHeight := 1, getMaxMipLevel := 0
    getPixelT := fun _ _ _ => 0xFFFFFFFF
    getPixelB := fun _ _ _ => 0xFFFFFFFF
    cubeMap := fun _ _ _ _ => 0xFFFFFFFF }

/-- A texture array that holds only the white diffuse texture in slot 0. -/
def whiteTextures : ℕ → Option DDSTexture :=
  fun i => if i = 0 then some whiteTexture else none

/-- A vertex at `(x, y, z)` facing the viewer, with opaque white vertex colour. -/
def mkVertex (x y z : ℚ) : NIFVertex :=
  { x := x, y := y, z := z, normalX := 0, normalY := 0, normalZ := -1, u := 0, v := 0
    vertexColor := 0xFFFFFFFF }

/-- A freshly constructed rasterizer over a `width` x `height` buffer whose depth values are
all 16777216, with no mesh assigned. -/
def emptyShape (width height : ℤ) : Plot3D_TriShape :=
  { vertexCnt := 0, triangleCnt := 0
    vertexData := fun _ => default, triangleData := fun _ => default
    vertexTransform := NIFVertexTransform.identity
    flags := 0, gradientMapV := 0, envMapScale := 0, alphaThreshold := 0
    specularSmoothness := 0
    textureOffsetU := 0, textureOffsetV := 0, textureScaleU := 1, textureScaleV := 1
    bufRGBW := fun _ => 0, bufZ := fun _ => 16777216
    width := width, height := height
    lightTable := List.replicate 512 65536, vclrTable := List.replicate 256 32768
    envMapUVScale := 1 / 4, debugMode := 0
    textureD := none, textureG := none, textureN := none
    textureE := none, textureS := none, textureR := none
    textureScaleN := 1, textureScaleS := 1, textureScaleR := 1
    mipLevel := 15, alphaThresholdScaled := 0
    light_X := 0, light_Y := 0, light_Z := 1
    reflectionLevel := 0, invNormals := false
    bitangentX := 1, bitangentY := 0, bitangentZ := 0
    tangentX := 0, tangentY := 1, tangentZ := 0
    drawPixelFunction := .Water, viewTransformPtr := none
    vertexBuf := [], triangleBuf := [] }

/-- Four vertices: a long thin triangle that lies to the left of `x = -1/2`, and a vertex at
the origin. -/
def sliverVertices : List NIFVertex :=
  [mkVertex (-1048576) (1 / 2) 1, mkVertex (-3 / 4) 1 1, mkVertex (-3 / 4) (3 / 4) 1,
   mkVertex 0 0 1]

/-- A mesh of the four vertices `sliverVertices` and the single triangle `(0, 1, 2)`, to be
drawn into a buffer of width 1 and height 2. -/
def sliverMesh : Plot3D_TriShape :=
  { emptyShape 1 2 with
    vertexCnt := 4, vertexData := fun i => sliverVertices.getD i default
    triangleCnt := 1, triangleData := fun i => [(⟨0, 1, 2⟩ : NIFTriangle)].getD i default }

/-- `drawTriShape` with identity transforms, light vector `(0, 0, 1)` and the white diffuse
texture. -/
def drawSample (p : Plot3D_TriShape) : Plot3D_TriShape :=
  p.drawTriShape sampleExt NIFVertexTransform.identity NIFVertexTransform.identity 0 0 1
    whiteTextures 1


/-! ## Definitions used to state the theorems -/

namespace Plot3D_TriShape

/-- The state with the colour and depth buffers blanked: two states with the same
`stripBuffers` differ at most in their buffers. -/
def stripBuffers (p : Plot3D_TriShape) : Plot3D_TriShape :=
  { p with bufZ := fun _ => 0, bufRGBW := fun _ => 0 }

/-- The state with the members that `drawTriangles` sets for each triangle blanked (mip level,
`invNormals`, tangent and bitangent). -/
def stripTriangleState (p : Plot3D_TriShape) : Plot3D_TriShape :=
  { p with
    mipLevel := 0, invNormals := false
    bitangentX := 0, bitangentY := 0, bitangentZ := 0
    tangentX := 0, tangentY := 0, tangentZ := 0 }

/-- The state with the vertex and triangle work buffers and the view transform pointer
blanked. -/
def stripWorkBuffers (p : Plot3D_TriShape) : Plot3D_TriShape :=
  { p with vertexBuf := [], triangleBuf := [], viewTransformPtr := none }

/-- The normal map and the diffuse texture of a texture array do not have the same aspect
ratio: `diffuse.width * normal.height != diffuse.height * normal.width`. -/
def aspectMismatch (textures : ℕ → Option DDSTexture) : Bool :=
  match textures 0, textures 1 with
  | some d, some n => decide (d.getWidth * n.getHeight ≠ d.getHeight * n.getWidth)
  | _, _ => true

/-- The decision list of the specification for the shading function of a draw call that is
not aborted; the first matching condition wins. -/
def shadingDecision (debugMode : ℕ) (isWater : Bool) (textures : ℕ → Option DDSTexture)
    (textureCnt : ℕ) : DrawPixelFunction :=
  if debugMode ≠ 0 then .Debug
  else if isWater then .Water
  else if ¬ slotPresent textures textureCnt 1 ∨ aspectMismatch textures then .Diffuse
  else if ¬ slotPresent textures textureCnt 4 then .Normal
  else if slotPresent textures textureCnt 8 ∧ slotPresent textures textureCnt 9 then .NormalRefl
  else if slotPresent textures textureCnt 6 then .NormalEnvS
  else if slotPresent textures textureCnt 5 then .NormalEnvM
  else .NormalEnv

end Plot3D_TriShape

namespace Plot3D_TriShape

/-- The signed doubled area of a triangle in normalised texture coordinates (the coordinates
`getU() * textureScaleU + textureOffsetU`, `getV() * textureScaleV + textureOffsetV` of its
vertices); multiplied by the width and height of the diffuse texture it is the doubled area
in texels. -/
def uvArea2Signed (p : Plot3D_TriShape) (v0 v1 v2 : NIFVertex) : ℚ :=
  (((v1.u * p.textureScaleU + p.textureOffsetU) - (v0.u * p.textureScaleU + p.textureOffsetU))
      * ((v2.v * p.textureScaleV + p.textureOffsetV) - (v0.v * p.textureScaleV + p.textureOffsetV)))
    - (((v2.u * p.textureScaleU + p.textureOffsetU) - (v0.u * p.textureScaleU + p.textureOffsetU))
      * ((v1.v * p.textureScaleV + p.textureOffsetV) - (v0.v * p.textureScaleV + p.textureOffsetV)))

end Plot3D_TriShape

/-- A 4x4 texture that is white everywhere. -/
def whiteTexture4 : DDSTexture :=
  { whiteTexture with getWidth := 4, getHeight := 4, getMaxMipLevel := 2 }

/-- A vertex at `(x, y, 1)` with texture coordinates `(u, v)`. -/
def mkVertexUV (x y u v : ℚ) : NIFVertex :=
  { mkVertex x y 1 with u := u, v := v }

/-- A rasterizer state holding one triangle with screen-space vertices `(0,0)`, `(4,0)`,
`(0,4)` (doubled area 16) and texture coordinates `(0,0)`, `(1/2,0)`, `(0,1/2)`, which on the
4x4 texture span a doubled area of 4 texels: the screen-space area is 4 times the area in
texels. -/
def magnifiedTriangle : Plot3D_TriShape :=
  { emptyShape 8 8 with
    textureD := some whiteTexture4
    drawPixelFunction := .Diffuse
    vertexCnt := 3, triangleCnt := 1
    triangleData := fun _ => ⟨0, 1, 2⟩
    vertexBuf := [mkVertexUV 0 0 0 0, mkVertexUV 4 0 (1 / 2) 0, mkVertexUV 0 4 0 (1 / 2)] }

namespace Renderer

/-- The test `flags & Flag_TSHidden` of line 149. -/
def isHidden (F : Flags) (m : NIFTriShape) : Prop :=
  m.flags &&& F.Flag_TSHidden ≠ 0

instance (F : Flags) (m : NIFTriShape) : Decidable (isHidden F m) := by
  unfold isHidden
  infer_instance

/-- The condition of the specification for keeping a mesh in band `n`, whose rows are
`viewOffsetY[n] ≤ y < viewOffsetY[n+1]`: the bounds are not entirely outside the band's
y-range, not entirely left of `x = 0`, and not entirely behind the near plane. -/
def visibleInBand (b : NIFBounds) (viewOffsetY : List ℤ) (n : ℕ) : Prop :=
  ¬ (b.yMax < (viewOffsetY.getD n 0 : ℚ) ∨ b.yMin ≥ (viewOffsetY.getD (n + 1) 0 : ℚ)) ∧
  ¬ (b.xMax < 0) ∧ b.zMax ≥ 0

instance (b : NIFBounds) (viewOffsetY : List ℤ) (n : ℕ) :
    Decidable (visibleInBand b viewOffsetY n) := by
  unfold visibleInBand
  infer_instance

/-- Sample values for the flag constants. -/
def sampleFlags : Flags :=
  { Flag_TSHidden := 0x8000, Flag_TSAlphaBlending := 0x1000 }

/-- A mesh that is not hidden and whose bounds are x in [10, 20], y in [105.25, 110],
z in [1, 2] under every transform. -/
def lowMesh : NIFTriShape :=
  { flags := 0, calculateBounds := fun _ => ⟨10, 421 / 4, 1, 20, 110, 2⟩ }

end Renderer

namespace Plot3D_TriShape

/-- The state with the triangle list of the mesh and the two work buffers replaced.  The
rasterization of a triangle whose vertices have been fetched does not read these members. -/
def withWork (p : Plot3D_TriShape) (tc : ℕ) (td : ℕ → NIFTriangle) (vb : List NIFVertex)
    (tb : List Triangle) : Plot3D_TriShape :=
  { p with triangleCnt := tc, triangleData := td, vertexBuf := vb, triangleBuf := tb }

/-- The mesh with triangle `k` removed from its triangle array. -/
def removeTriangle (p : Plot3D_TriShape) (k : ℕ) : Plot3D_TriShape :=
  { p with
    triangleCnt := p.triangleCnt - 1
    triangleData := fun i => if i < k then p.triangleData i else p.triangleData (i + 1) }

end Plot3D_TriShape

/-- A rasterizer over a 1x2 buffer with the white diffuse texture bound and the Diffuse
shading function selected. -/
def diffuseState : Plot3D_TriShape :=
  { emptyShape 1 2 with textureD := some whiteTexture, drawPixelFunction := .Diffuse }

/-- A fragment at pixel `(0, 1)` with depth 1. -/
def nearFragment : Fragment :=
  { x := 0, y := 1, txtU := 0, txtV := 0, z := 1
    v0 := mkVertex 0 0 1, v1 := mkVertex 0 0 1, v2 := mkVertex 0 0 1
    w0 := 1, w1 := 0, w2 := 0 }

/-- A fragment at pixel `(0, 1)` with depth 2. -/
def farFragment : Fragment :=
  { nearFragment with z := 2 }

/-- The mesh `sliverMesh` restricted to its first three vertices, all of which lie to the left
of `x = -1/2`. -/
def offscreenMesh : Plot3D_TriShape :=
  { sliverMesh with vertexCnt := 3 }

namespace Plot3D_TriShape

/-- The entry of `triangleBuf` that a triangle gets when triangle `k` is removed from the
triangle array: the indices above `k` move down by one. -/
def renumber (k : ℕ) (t : Triangle) : Triangle :=
  { t with n := if t.n < k then t.n else t.n - 1 }

/-- The three vertices of a triangle all lie in one of the half-spaces that the triangle loop
of `transformVertexData` rejects at once: `x ≤ -1`, `x ≥ width`, `y ≤ -1`, `y ≥ height` or
`z < 0`. -/
def rejectedOutside (p : Plot3D_TriShape) (v0 v1 v2 : NIFVertex) : Prop :=
  (v0.x ≤ -1 ∧ v1.x ≤ -1 ∧ v2.x ≤ -1) ∨
  (v0.x ≥ (p.width : ℚ) ∧ v1.x ≥ (p.width : ℚ) ∧ v2.x ≥ (p.width : ℚ)) ∨
  (v0.y ≤ -1 ∧ v1.y ≤ -1 ∧ v2.y ≤ -1) ∨
  (v0.y ≥ (p.height : ℚ) ∧ v1.y ≥ (p.height : ℚ) ∧ v2.y ≥ (p.height : ℚ)) ∨
  (v0.z < 0 ∧ v1.z < 0 ∧ v2.z < 0)

instance (p : Plot3D_TriShape) (v0 v1 v2 : NIFVertex) : Decidable (p.rejectedOutside v0 v1 v2) := by
  unfold rejectedOutside
  infer_instance

/-- The three vertices of a triangle all lie outside the screen/depth volume on the same side:
all `x < -0.5`, all `x ≥ width - 0.5`, all `y < -0.5`, all `y ≥ height - 0.5`, all `z < 0` or
all `z ≥ 16777216`. -/
def fullyOutside (p : Plot3D_TriShape) (v0 v1 v2 : NIFVertex) : Prop :=
  (v0.x < -(1 / 2) ∧ v1.x < -(1 / 2) ∧ v2.x < -(1 / 2)) ∨
  (v0.x ≥ (p.width : ℚ) - 1 / 2 ∧ v1.x ≥ (p.width : ℚ) - 1 / 2 ∧ v2.x ≥ (p.width : ℚ) - 1 / 2) ∨
  (v0.y < -(1 / 2) ∧ v1.y < -(1 / 2) ∧ v2.y < -(1 / 2)) ∨
  (v0.y ≥ (p.height : ℚ) - 1 / 2 ∧ v1.y ≥ (p.height : ℚ) - 1 / 2 ∧
    v2.y ≥ (p.height : ℚ) - 1 / 2) ∨
  (v0.z < 0 ∧ v1.z < 0 ∧ v2.z < 0) ∨
  (v0.z ≥ 16777216 ∧ v1.z ≥ 16777216 ∧ v2.z ≥ 16777216)

instance (p : Plot3D_TriShape) (v0 v1 v2 : NIFVertex) : Decidable (p.fullyOutside v0 v1 v2) := by
  unfold fullyOutside
  infer_instance

end Plot3D_TriShape

namespace Plot3D_TriShape

/-- The state of `transformVertexData` when its vertex loop (lines 73-97) is done and the
triangle loop starts, for a mesh that the bounds test lets through. -/
def vertexPass (p : Plot3D_TriShape) (modelTransform viewTransform : NIFVertexTransform) :
    Plot3D_TriShape :=
  let vt := p.combinedTransform modelTransform viewTransform
  let p1 : Plot3D_TriShape :=
    { p with
      vertexBuf := ((List.range p.vertexCnt).map (p.transformVertex vt)).map (p.finishVertex vt)
        ++ p.vertexBuf.drop p.vertexCnt
      triangleBuf := [] }
  if p1.flags &&& 0x02 ≠ 0 then p1.calculateWaterUV modelTransform else p1

/-- The per-draw shading state of the rasterizer: the bound textures, the texture scales, the
mip level, the scaled alpha threshold, the light vector, the reflection level, the selected
shading function, `invNormals`, the tangent and bitangent, and the contents of the vertex and
triangle work buffers. -/
structure DrawState where
  textureD : Option DDSTexture
  textureG : Option DDSTexture
  textureN : Option DDSTexture
  textureE : Option DDSTexture
  textureS : Option DDSTexture
  textureR : Option DDSTexture
  textureScaleN : ℚ
  textureScaleS : ℚ
  textureScaleR : ℚ
  mipLevel : ℚ
  alphaThresholdScaled : ℕ
  light_X : ℚ
  light_Y : ℚ
  light_Z : ℚ
  reflectionLevel : ℤ
  invNormals : Bool
  bitangentX : ℚ
  bitangentY : ℚ
  bitangentZ : ℚ
  tangentX : ℚ
  tangentY : ℚ
  tangentZ : ℚ
  drawPixelFunction : DrawPixelFunction
  vertexBuf : List NIFVertex
  triangleBuf : List Triangle

/-- The state `p` with its per-draw shading state replaced by `d`; the mesh data, the buffers,
the lighting and vertex-colour tables and the debug mode are those of `p`. -/
def withDrawState (p : Plot3D_TriShape) (d : DrawState) : Plot3D_TriShape :=
  { p with
    textureD := d.textureD, textureG := d.textureG, textureN := d.textureN
    textureE := d.textureE, textureS := d.textureS, textureR := d.textureR
    textureScaleN := d.textureScaleN, textureScaleS := d.textureScaleS
    textureScaleR := d.textureScaleR
    mipLevel := d.mipLevel
    alphaThresholdScaled := d.alphaThresholdScaled
    light_X := d.light_X, light_Y := d.light_Y, light_Z := d.light_Z
    reflectionLevel := d.reflectionLevel
    invNormals := d.invNormals
    bitangentX := d.bitangentX, bitangentY := d.bitangentY, bitangentZ := d.bitangentZ
    tangentX := d.tangentX, tangentY := d.tangentY, tangentZ := d.tangentZ
    drawPixelFunction := d.drawPixelFunction
    vertexBuf := d.vertexBuf, triangleBuf := d.triangleBuf }

/-- The state `p` with the members replaced that lines 930-944 of `drawTriShape` do not reset:
the shading function, `invNormals`, the bitangent `b`, the tangent `g` and the vertex and
triangle work buffers. -/
def withKept (p : Plot3D_TriShape) (f : DrawPixelFunction) (inv : Bool) (b g : ℚ × ℚ × ℚ)
    (vb : List NIFVertex) (tb : List Triangle) : Plot3D_TriShape :=
  { p with
    drawPixelFunction := f, invNormals := inv
    bitangentX := b.1, bitangentY := b.2.1, bitangentZ := b.2.2
    tangentX := g.1, tangentY := g.2.1, tangentZ := g.2.2
    vertexBuf := vb, triangleBuf := tb }

end Plot3D_TriShape

/-- A mesh of two triangles to be drawn into a 2x2 buffer: triangle 0 lies to the left of
`x = -1`, triangle 1 covers the pixel `(0, 0)`. -/
def twoTriangleMesh : Plot3D_TriShape :=
  { emptyShape 2 2 with
    vertexCnt := 6
    vertexData := fun i =>
      [mkVertex (-3) 0 1, mkVertex (-2) 1 1, mkVertex (-2) 0 1,
       mkVertex 0 0 1, mkVertex 0 1 1, mkVertex 1 0 1].getD i default
    triangleCnt := 2
    triangleData := fun i => [(⟨0, 1, 2⟩ : NIFTriangle), ⟨3, 4, 5⟩].getD i default }

/-! ## Definitions for the draw order, the texture cache and the error slots -/

namespace Renderer

/-- Modelled from the spec: `std::stable_sort(sortBuf.begin(), sortBuf.end())` of line 169
with `TriShapeSortObject::operator<` (declared in nif_view.hpp): a stable sort, ascending by
the key `z`.  The result is the order in which the meshes of band `n` are drawn. -/
def drawOrder (F : Flags) (modelTransform viewTransform : NIFVertexTransform)
    (viewOffsetY : List ℤ) (n : ℕ) (meshData : List NIFTriShape) : List TriShapeSortObject :=
  (sortBuf F modelTransform viewTransform viewOffsetY n meshData).insertionSort
    (fun a b => a.z ≤ b.z)

/-- The test `flags & Flag_TSAlphaBlending` of line 163. -/
def isAlphaBlended (F : Flags) (m : NIFTriShape) : Prop :=
  m.flags &&& F.Flag_TSAlphaBlending ≠ 0

instance (F : Flags) (m : NIFTriShape) : Decidable (isAlphaBlended F m) := by
  unfold isAlphaBlended
  infer_instance

/-- A mesh with the alpha blending flag whose bounds are x in [10, 20], y in [105.25, 110],
z in [15000000, 15000001] under every transform. -/
def alphaMesh : NIFTriShape :=
  { flags := 0x1000, calculateBounds := fun _ => ⟨10, 421 / 4, 15000000, 20, 110, 15000001⟩ }

/-- A mesh without the alpha blending flag whose bounds are x in [10, 20], y in
[105.25, 110], z in [20000000, 20000001] under every transform. -/
def farMesh : NIFTriShape :=
  { flags := 0, calculateBounds := fun _ => ⟨10, 421 / 4, 20000000, 20, 110, 20000001⟩ }

end Renderer

namespace Renderer

/-- The outcome of the inner `try` block of `loadTexture` (lines 109-119), in which
`ba2File->extractFile` and the constructor of `DDSTexture` (both declared outside the sources
at hand) run: a new texture object, an `FO76UtilsError`, or any other exception. -/
inductive DecodeResult (τ : Type) where
  | ok (t : τ)
  | utilsError
  | otherError
  deriving DecidableEq

/-- The effect of one call of `loadTexture`: the pointer returned (`none` is the null
pointer), the cache `textureSet` after the call, and whether `extractFile` was called. -/
structure LoadResult (τ : Type) where
  texture : Option τ
  textureSet : String → Option (Option τ)
  attempted : Bool

/-- `Renderer::loadTexture` (lines 97-134).  `hasArchive` is `ba2File != nullptr`,
`textureSet` maps a path to the cached pointer if the path has an entry, and `decode` is what
extracting and decoding the file at a path results in at this call.  An exception other than
`FO76UtilsError` reaches the outer handler, which returns the null pointer and inserts
nothing. -/
def loadTexture {τ : Type} (hasArchive : Bool) (textureSet : String → Option (Option τ))
    (texturePath : Option String) (decode : String → DecodeResult τ) : LoadResult τ :=
  match texturePath with
  | none => { texture := none, textureSet := textureSet, attempted := false }
  | some path =>
    if path = "" ∨ hasArchive = false then
      { texture := none, textureSet := textureSet, attempted := false }
    else
      match textureSet path with
      | some t => { texture := t, textureSet := textureSet, attempted := false }
      | none =>
        match decode path with
        | .ok t =>
          { texture := some t, textureSet := Function.update textureSet path (some (some t))
            attempted := true }
        | .utilsError =>
          { texture := none, textureSet := Function.update textureSet path (some none)
            attempted := true }
        | .otherError => { texture := none, textureSet := textureSet, attempted := true }

/-- The cache after a sequence of `loadTexture` calls, each given by its path argument and
by what extracting and decoding results in at that call. -/
def loadTextures {τ : Type} (hasArchive : Bool) :
    (String → Option (Option τ)) → List (Option String × (String → DecodeResult τ)) →
      (String → Option (Option τ))
  | textureSet, [] => textureSet
  | textureSet, c :: cs =>
    loadTextures hasArchive (loadTexture hasArchive textureSet c.1 c.2).textureSet cs

/-- The empty texture cache. -/
def emptyTextureSet : String → Option (Option ℕ) := fun _ => none

end Renderer

namespace Renderer

/-- The error handling of `threadFunction` (lines 138-140 and 215-220): the contents of the
slot `threadErrMsg[n]` when the worker of band `n` has finished.  `outcome` is `none` when the
body of the `try` block ran to its end, and `some msg` when it threw a `std::exception` whose
`what()` is `msg`. -/
def threadErrMsg (outcome : Option String) : String :=
  match outcome with
  | none => ""
  | some msg => if msg = "" then "unknown error in render thread" else msg

/-- What `renderModel` does, as far as its caller can tell: the message of the
`FO76UtilsError` that leaves it, if any, and the workers that were joined, in order. -/
structure RenderResult where
  error : Option String
  joined : List ℕ
  deriving DecidableEq

/-- The second loop of `renderModel` (lines 232-242) from thread `i` on, with `k` threads
left, followed by the handler of lines 244-254 when the loop throws: the handler joins the
threads whose pointer is still set, which are those after `i`, and rethrows. -/
def joinLoop (slots : List String) : ℕ → ℕ → List ℕ → RenderResult
  | 0, _, joined => { error := none, joined := joined }
  | k + 1, i, joined =>
    if slots.getD i "" ≠ "" then
      { error := some (slots.getD i ""), joined := joined ++ [i] ++ List.range' (i + 1) k }
    else joinLoop slots k (i + 1) (joined ++ [i])

/-- `Renderer::renderModel` (lines 223-254), each worker modelled by what its body results in
(see `threadErrMsg`); the creation of the threads is taken to succeed. -/
def renderModel (outcomes : List (Option String)) : RenderResult :=
  joinLoop (outcomes.map threadErrMsg) outcomes.length 0 []

end Renderer

namespace Plot3D_TriShape

/-- The shading function is one of the six that sample the diffuse texture and apply the
alpha test: Diffuse, Normal, NormalEnv, NormalEnvM, NormalEnvS or NormalRefl. -/
def alphaTested (f : DrawPixelFunction) : Prop :=
  f = .Diffuse ∨ f = .Normal ∨ f = .NormalEnv ∨ f = .NormalEnvM ∨ f = .NormalEnvS ∨
    f = .NormalRefl

instance (f : DrawPixelFunction) : Decidable (alphaTested f) := by
  unfold alphaTested
  infer_instance

end Plot3D_TriShape

namespace Plot3D_TriShape

/-- What `renderWater` uses that is declared outside the sources at hand: the function
`blendRGBA32` (common.hpp), the member `lightingPolynomial[0]`, which no other modelled
function reads, and the default value of the argument `smoothness` of `environmentMap`
(plot3d.hpp). -/
structure WaterExt where
  blendRGBA32 : ℕ → ℕ → ℤ → ℕ
  lightingPolynomial0 : ℚ
  smoothness : ℕ

/-- Lines 1033-1056 of `renderWater` for the pixel `(x, y)` whose buffer element holds `c`:
the new value of the member `reflectionLevel` and the colour stored. -/
def waterPixel (E : Ext) (W : WaterExt) (p : Plot3D_TriShape) (waterColor : ℕ)
    (envMap : Option DDSTexture) (envMapLevel : ℚ) (x y : ℤ) (c : ℕ) : ℤ × ℕ :=
  let normalX : ℚ := (((((c >>> 16) &&& 0xFF : ℕ) : ℤ) - 128 : ℤ) : ℚ) * (1 / 126)
  let normalY : ℚ := (((((c >>> 24) &&& 0xFF : ℕ) : ℤ) - 128 : ℤ) : ℚ) * (1 / 126)
  let normalXY2 : ℚ := (normalX * normalX) + (normalY * normalY)
  let big : Bool := decide (normalXY2 ≥ 1)
  let s : ℚ := (3 - normalXY2) * (1 / 2)
  let normalZ : ℚ := if big then 0 else -(E.sqrt (10001 / 10000 - normalXY2))
  let normalX : ℚ := if big then normalX * s else normalX
  let normalY : ℚ := if big then normalY * s else normalY
  let normalXY2 : ℚ := if big then 1 else normalXY2
  let l := p.calculateLighting E normalX normalY normalZ
  let tmp := u32 (E.multiplyWithLight waterColor l)
  let c := ((c &&& 0x001F) <<< 3) ||| ((c &&& 0x07E0) <<< 5) ||| ((c &&& 0xF800) <<< 8)
  let c := u32 (W.blendRGBA32 c tmp ((waterColor >>> 24 : ℕ) : ℤ))
  if envMap.isSome then
    let p := { p with
      reflectionLevel := roundFloat (envMapLevel * (normalXY2 * (3 / 4) + 1 / 4)) }
    (p.reflectionLevel,
      p.addReflection E c (p.environmentMap normalX normalY normalZ x y W.smoothness))
  else (p.reflectionLevel, c)

/-- The body of the inner loop of `renderWater` (lines 1030-1057) for the pixel `(x, y)`,
which is element `offs` of the colour buffer. -/
def renderWaterPixel (E : Ext) (W : WaterExt) (p : Plot3D_TriShape) (waterColor : ℕ)
    (envMap : Option DDSTexture) (envMapLevel : ℚ) (x y : ℤ) (offs : ℕ) : Plot3D_TriShape :=
  let c := u32 (p.bufRGBW offs)
  if (u32 (c + 0x01000000) &&& 0xFE000000) = 0 then p
  else
    let r := p.waterPixel E W waterColor envMap envMapLevel x y c
    { p with reflectionLevel := r.1, bufRGBW := Function.update p.bufRGBW offs r.2 }

/-- `renderWater` (lines 1013-1061).  The pointer `p` of the source starts at `bufRGBW` and is
advanced once per pixel, so that pixel `(x, y)` is element `y * width + x`. -/
def renderWater (E : Ext) (W : WaterExt) (p : Plot3D_TriShape)
    (viewTransform : NIFVertexTransform) (waterColor : ℕ) (lightX lightY lightZ : ℚ)
    (envMap : Option DDSTexture) (envMapLevel : ℚ) : Plot3D_TriShape :=
  let l := viewTransform.rotateXYZ lightX lightY lightZ
  let envMapLevel := envMapLevel * (W.lightingPolynomial0 * 256)
  let p : Plot3D_TriShape :=
    { p with
      viewTransformPtr := some viewTransform
      textureE := envMap
      light_X := l.1, light_Y := l.2.1, light_Z := l.2.2 }
  (List.range p.height.toNat).foldl
    (fun q (y : ℕ) => (List.range p.width.toNat).foldl
      (fun q (x : ℕ) => q.renderWaterPixel E W waterColor envMap envMapLevel (x : ℤ) (y : ℤ)
        (y * p.width.toNat + x)) q) p

/-- Element `i` of the buffers is a pixel of the rasterizer: `i = y * width + x` for some
`0 ≤ x < width` and `0 ≤ y < height`. -/
def inSlice (p : Plot3D_TriShape) (i : ℕ) : Prop :=
  ∃ x y : ℤ, 0 ≤ x ∧ x < p.width ∧ 0 ≤ y ∧ y < p.height ∧ i = p.pixelOffs x y

/-- The state `q` has the buffer dimensions of `p`, and its buffers differ from those of `p`
at most at pixels of the rasterizer. -/
def sameOutside (p q : Plot3D_TriShape) : Prop :=
  q.width = p.width ∧ q.height = p.height ∧
    ∀ i, ¬ p.inSlice i → q.bufZ i = p.bufZ i ∧ q.bufRGBW i = p.bufRGBW i

end Plot3D_TriShape

namespace Renderer

/-- Modelled from the spec: what the texture set-up of `threadFunction` (lines 173-209) reads
from the mesh record `NIFFile::NIFTriShape` (declared outside the sources at hand): the
material flags `m.flags`, the mask `m.texturePathMask` of the texture paths that are set, and
`m.envMapScale`. -/
structure TriShapeMaterial where
  flags : ℕ
  texturePathMask : ℕ
  envMapScale : ℕ

/-- The places of `threadFunction` at which `loadTexture` is called for a mesh: with
`ts.texturePaths[j]` in the loop of lines 193-200, with `waterTexture` (line 177) and with
`defaultEnvMap` (lines 179 and 208). -/
inductive TextureRequest where
  | slot (j : ℕ)
  | waterTexture
  | defaultEnvMap
  deriving DecidableEq

/-- The array `textures` and the mask `textureMask` that `threadFunction` passes to
`drawTriShape`, and the calls of `loadTexture` made for the mesh, in order. -/
structure TextureArgs (τ : Type) where
  textures : ℕ → Option τ
  textureMask : ℕ
  requested : List TextureRequest

/-- The body of the loop of lines 193-200 for slot `j`; `texturePathMask` is the value before
the loop, which the loop has shifted right `j` times when it tests bit 0. -/
def loadSlot {τ : Type} (load : TextureRequest → Option τ) (texturePathMask : ℕ)
    (s : TextureArgs τ) (j : ℕ) : TextureArgs τ :=
  if (texturePathMask >>> j) &&& 1 ≠ 0 then
    { textures := Function.update s.textures j (load (.slot j))
      textureMask :=
        if (load (.slot j)).isSome then s.textureMask ||| (1 <<< j) else s.textureMask
      requested := s.requested ++ [.slot j] }
  else s

/-- Lines 201-205: without a diffuse texture, slot 0 is set to the white texture. -/
def defaultDiffuse {τ : Type} (whiteTexture : τ) (s : TextureArgs τ) : TextureArgs τ :=
  if s.textureMask &&& 0x0001 = 0 then
    { s with
      textures := Function.update s.textures 0 (some whiteTexture)
      textureMask := s.textureMask ||| 0x0001 }
  else s

/-- Lines 206-210: without an environment map, and with a positive `envMapScale`, the
default environment map is loaded into slot 4. -/
def defaultEnvMapSlot {τ : Type} (load : TextureRequest → Option τ) (envMapScale : ℕ)
    (s : TextureArgs τ) : TextureArgs τ :=
  if s.textureMask &&& 0x0010 = 0 ∧ envMapScale > 0 then
    { textures := Function.update s.textures 4 (load .defaultEnvMap)
      textureMask :=
        if (load .defaultEnvMap).isSome then s.textureMask ||| 0x0010 else s.textureMask
      requested := s.requested ++ [.defaultEnvMap] }
  else s

/-- Lines 173-209 of `threadFunction`: the texture arguments for one mesh.  `load` is what
`loadTexture` returns at each place it is called from, `whiteTexture` is the member of that
name, `uninit` is the contents of the uninitialised array `textures`, and `Flag_TSWater`,
`Flag_Glow` are the flag constants of `BGSMFile`. -/
def meshTextures {τ : Type} (Flag_TSWater Flag_Glow : ℕ) (m : TriShapeMaterial)
    (whiteTexture : τ) (uninit : ℕ → Option τ) (load : TextureRequest → Option τ) :
    TextureArgs τ :=
  let s0 : TextureArgs τ := { textures := uninit, textureMask := 0, requested := [] }
  if m.flags &&& Flag_TSWater ≠ 0 then
    let t1 := load .waterTexture
    let t4 := load .defaultEnvMap
    let mask1 := if t1.isSome then s0.textureMask ||| 0x0002 else s0.textureMask
    { textures := Function.update (Function.update s0.textures 1 t1) 4 t4
      textureMask := if t4.isSome then mask1 ||| 0x0010 else mask1
      requested := [.waterTexture, .defaultEnvMap] }
  else
    let texturePathMask :=
      (if m.flags &&& Flag_Glow = 0 then 0x037B else 0x037F) &&& m.texturePathMask
    defaultEnvMapSlot load m.envMapScale
      (defaultDiffuse whiteTexture ((List.range 10).foldl (loadSlot load texturePathMask) s0))

/-- A non-water mesh without glow whose diffuse, normal and glow texture paths are set, with
an environment map scale of 0. -/
def sampleMaterial : TriShapeMaterial :=
  { flags := 0, texturePathMask := 0x0007, envMapScale := 0 }

/-- A loader that finds the texture of slot 1 only, as texture object 1. -/
def sampleLoad : TextureRequest → Option ℕ :=
  fun q => if q = .slot 1 then some 1 else none

end Renderer

namespace Plot3D_TriShape

/-- Triangle `i` of the mesh passes the tests of `transformVertexData`: the bounds test of
lines 70-72 for the mesh and the tests of the triangle loop (lines 100-144) for the
triangle, so that it gets an entry in `triangleBuf`. -/
def survives (E : Ext) (p : Plot3D_TriShape) (modelTransform viewTransform : NIFVertexTransform)
    (i : ℕ) : Bool :=
  decide (¬ p.boundsOutside (p.transformedBounds E modelTransform viewTransform)) &&
    ((p.vertexPass modelTransform viewTransform).triangleEntry
      (p.vertexPass modelTransform viewTransform).vertexBuf i (p.triangleData i)).isSome

/-- A mesh of three vertices whose triangle 0 refers to the vertex index 7, which is out of
range, and whose triangle 1 is `(0, 1, 2)`. -/
def badIndexMesh : Plot3D_TriShape :=
  { emptyShape 8 8 with
    vertexCnt := 3
    vertexData := fun i => [mkVertex 0 0 1, mkVertex 0 4 1, mkVertex 4 0 1].getD i default
    triangleCnt := 2
    triangleData := fun i => [(⟨0, 7, 2⟩ : NIFTriangle), ⟨0, 1, 2⟩].getD i default }

end Plot3D_TriShape

namespace Plot3D_TriShape

/-- Lines 746-753 of `drawTriangles`: the value of `mipLevel` before it is split into its
integer and fractional parts, for a triangle with `xyArea2 > uvArea2`. -/
def rawMipLevel (E : Ext) (tD : DDSTexture) (xyArea2 uvArea2 r2xArea : ℚ) : ℚ :=
  let txtW : ℚ := (tD.getWidth : ℚ)
  let txtH : ℚ := (tD.getHeight : ℚ)
  let uvArea2 := uvArea2 * (txtW * txtH)
  if uvArea2 > xyArea2 then E.log2 (fabs (r2xArea * uvArea2)) * (1 / 2) else 0

/-- The texture coordinates `t` with the U coordinates multiplied by `w` and the V
coordinates by `h`. -/
def scaleUV (t : TriangleUV) (w h : ℚ) : TriangleUV :=
  { txtU0 := t.txtU0 * w, txtV0 := t.txtV0 * h
    txtU1 := t.txtU1 * w, txtV1 := t.txtV1 * h
    txtU2 := t.txtU2 * w, txtV2 := t.txtV2 * h }

/-- External functions whose `log2` is exact at 4. -/
def wideExt : Ext :=
  { sampleExt with log2 := fun q => if q = 4 then 2 else 0 }

/-- Texture coordinates with `txtU1 = 1` and `txtV2 = 1`, all others 0. -/
def unitUV : TriangleUV :=
  { txtU0 := 0, txtV0 := 0, txtU1 := 1, txtV1 := 0, txtU2 := 0, txtV2 := 1 }

end Plot3D_TriShape

/-! ## Definitions for the light table, the colour arithmetic and the water encoding -/

namespace Plot3D_TriShape

/-- The table index `(x >> 8) mod 512` that `getLightLevel` uses for the dot product `d`, where
`x = roundFloat(d * 32768)` and the shift is that of the two's complement representation. -/
def lightIndex (d : ℚ) : ℕ :=
  ((roundFloat (d * 32768) / 256) % 512).toNat

/-- The interpolation weight `x mod 256` that `getLightLevel` uses for the dot product `d`. -/
def lightFraction (d : ℚ) : ℤ :=
  roundFloat (d * 32768) % 256

/-- Entry `i` of the light table. -/
def lightEntry (p : Plot3D_TriShape) (i : ℕ) : ℤ :=
  p.lightTable.getD i 0

end Plot3D_TriShape



/-- Byte `k` of a packed colour: `(c >> (8 * k)) & 0xFF`.  Byte 0 is red, byte 1 green, byte 2
blue and byte 3 alpha. -/
def byteOf (c k : ℕ) : ℕ :=
  (c >>> (8 * k)) &&& 0xFF

namespace Plot3D_TriShape

/-- The table `vclrTable` as the constructor builds it (lines 849-854): entry 0 is 0 and entry
`i` is `roundFloat(pow(i / 255, 1 / vclrGamma) * 32768)`, stored as `unsigned short`.  The
function `std::pow` is a parameter. -/
def vclrTableInit (pow : ℚ → ℚ → ℚ) (vclrGamma : ℚ) : List ℕ :=
  (List.range 256).map fun (i : ℕ) =>
    if i = 0 then 0
    else (roundFloat (pow ((i : ℚ) * (1 / 255)) (1 / vclrGamma) * 32768) % 65536).toNat

/-- A stand-in for `std::pow` that returns its first argument. -/
def samplePow : ℚ → ℚ → ℚ := fun x _ => x

/-- A freshly constructed rasterizer whose vertex colour table is built with `samplePow` for
the gamma 2.2. -/
def gammaShape : Plot3D_TriShape :=
  { emptyShape 1 2 with vclrTable := vclrTableInit samplePow (11 / 5) }

end Plot3D_TriShape



namespace Plot3D_TriShape

/-- The normal `(normalX, normalY)` that `drawPixel_Water` encodes (lines 293-300): the
outputs of `normalMap` for the interpolated vertex normal and the sampled normal map. -/
def waterNormal (E : Ext) (p : Plot3D_TriShape) (txtU txtV : ℚ) (z : NIFVertex) : ℚ × ℚ :=
  let n : ℕ := match p.textureN with
    | some tN => u32 (tN.getPixelT txtU txtV p.mipLevel)
    | none => 0xFFFF8080
  let r := p.normalMap E z.normalX z.normalY z.normalZ n
  (r.2.1, r.2.2.1)

/-- Lines 285-288 of `drawPixel_Water`: the conversion of the colour `c` of pixel `(x, y)`
from R8G8B8 to R5G6B5, with ordered dithering. -/
def toR5G6B5 (c : ℕ) (x y : ℤ) : ℕ :=
  let c := c &&& 0x00FEFEFE
  let c := u32 (c + (((x % 2).toNat ||| ((((x % 2).toNat ^^^ (y % 2).toNat) &&& 1) <<< 1))
    * 0x00020102))
  let c := toU32 ((c : ℤ) - (((c >>> 7) &&& 0x00020202 : ℕ) : ℤ))
  ((c >>> 3) &&& 0x001F) ||| ((c >>> 5) &&& 0x07E0) ||| ((c >>> 8) &&& 0xF800)

/-- Line 1051 of `renderWater`: the expansion of an R5G6B5 value to R8G8B8. -/
def fromR5G6B5 (c : ℕ) : ℕ :=
  ((c &&& 0x001F) <<< 3) ||| ((c &&& 0x07E0) <<< 5) ||| ((c &&& 0xF800) <<< 8)

/-- The marker test of `renderWater` (line 1031): the pixel value `c` is water-encoded. -/
def waterEncoded (c : ℕ) : Prop :=
  (u32 (u32 c + 0x01000000) &&& 0xFE000000) ≠ 0

instance (c : ℕ) : Decidable (waterEncoded c) := by
  unfold waterEncoded
  infer_instance

end Plot3D_TriShape

namespace Plot3D_TriShape

/-- The same-column test of `transformVertexData` (lines 125-132): the three x coordinates
convert to the same `int` and none of them is an exact integer. -/
def sameColumn (v0 v1 v2 : NIFVertex) : Prop :=
  (truncInt v0.x = truncInt v1.x ∧ truncInt v0.x = truncInt v2.x) ∧
    ((v0.x - (truncInt v0.x : ℚ)) ≠ 0 ∧ (v1.x - (truncInt v1.x : ℚ)) ≠ 0 ∧
      (v2.x - (truncInt v2.x : ℚ)) ≠ 0)

instance (v0 v1 v2 : NIFVertex) : Decidable (sameColumn v0 v1 v2) := by
  unfold sameColumn
  infer_instance

/-- Three vertices of a thin triangle around the pixel column `x = 0`: `(-1/2, 0)`,
`(1/4, 3)` and `(1/2, 0)`. -/
def straddleVertices : List NIFVertex :=
  [mkVertex (-1 / 2) 0 1, mkVertex (1 / 4) 3 1, mkVertex (1 / 2) 0 1]

/-- A mesh of the single triangle `straddleVertices`, to be drawn into an 8x8 buffer. -/
def straddleMesh : Plot3D_TriShape :=
  { emptyShape 8 8 with
    vertexCnt := 3, vertexData := fun i => straddleVertices.getD i default
    triangleCnt := 1, triangleData := fun i => [(⟨0, 1, 2⟩ : NIFTriangle)].getD i default
    textureD := some whiteTexture, drawPixelFunction := .Diffuse }

end Plot3D_TriShape

namespace Plot3D_TriShape

/-- A rasterizer over a 2x2 buffer whose pixels all hold the opaque colour 0xFF0000FE (red
254, green 0, blue 0). -/
def brightShape : Plot3D_TriShape :=
  { emptyShape 2 2 with bufRGBW := fun _ => 0xFF0000FE }

/-- Functions for `renderWater` whose `blendRGBA32` returns its first argument, as blending
with a fully transparent colour does. -/
def sampleWaterExt : WaterExt :=
  { blendRGBA32 := fun c _ _ => c, lightingPolynomial0 := 1, smoothness := 255 }

end Plot3D_TriShape



namespace Plot3D_TriShape

/-- The value `a` of `gradientMapAndVColor` (lines 372 and 377): the product of the texture
alpha and the vertex alpha, scaled by 65793 and offset by 0x00800000, in `unsigned int`
arithmetic.  Its top byte is the alpha of the result. -/
def vertexAlpha (c vColor : ℕ) : ℕ :=
  u32 (((c >>> 24) &&& 0xFF) * ((vColor >>> 24) &&& 0xFF) * 65793 + 0x00800000)

end Plot3D_TriShape

namespace Plot3D_TriShape

/-- The body of the loop of `setLightingFunction` (lines 892-900): entry `i` of the light
table for the polynomial coefficients `a[0..5]`. -/
def lightTableEntry (a : ℕ → ℚ) (i : ℕ) : ℤ :=
  let x : ℚ := ((if i < 256 then (if i < 128 then (i : ℤ) else 128)
    else (if i < 384 then -128 else (i : ℤ) - 512) : ℤ) : ℚ) * (1 / 128)
  let y : ℚ := ((((x * a 5 + a 4) * x + a 3) * x + a 2) * x + a 1) * x + a 0
  let tmp : ℤ := roundFloat (y * 65536)
  if tmp > 0 then (if tmp < 0x0003FF00 then tmp else 0x0003FF00) else 0

/-- `setLightingFunction` (lines 886-901).  The member `lightingPolynomial`, which only
`renderWater` and `getLightingFunction` read, is not part of the state. -/
def setLightingFunction (p : Plot3D_TriShape) (a : ℕ → ℚ) : Plot3D_TriShape :=
  { p with lightTable := (List.range 512).map (lightTableEntry a) }

end Plot3D_TriShape

/-- A variant of `sampleExt` whose `sqrt` is positive and never below the true square root. -/
def upperExt : Ext :=
  { sampleExt with sqrt := fun q => q + 1 }

/-! ## The scanline code of `drawTriangles` with rounding

The definitions of this section follow lines 672-684, 717 and 774-808 of plot3d.cpp operation
by operation and round the result of every operation as IEEE 754 arithmetic does: a `double`
result to a 53-bit significand, a `float` result to a 24-bit significand, ties to the even
significand.  Every operation is rounded on its own (no fused multiply-add), and the exponent
range is not limited: overflow, subnormal numbers, infinities and NaN are outside the model. -/

/-- The power `2^s` for an integer exponent. -/
def pow2 (s : ℤ) : ℚ :=
  if 0 ≤ s then ((2 ^ s.toNat : ℕ) : ℚ) else 1 / ((2 ^ (-s).toNat : ℕ) : ℚ)

/-- The number of halvings that bring `n` below 2, counted with at most `fuel` steps: the
integer part of the binary logarithm of `n` when `fuel` is at least `n`. -/
def ilog2 : ℕ → ℕ → ℕ
  | 0, _ => 0
  | fuel + 1, n => if n < 2 then 0 else ilog2 fuel (n / 2) + 1

/-- The value with a `p`-bit significand nearest to `x`, ties going to the even significand:
with `2^e ≤ |x| < 2^(e+1)`, `|x|` is rounded to a multiple of `2^(e - p + 1)`. -/
def roundSig (p : ℕ) (x : ℚ) : ℚ :=
  if x = 0 then 0
  else
    let a : ℚ := fabs x
    let e0 : ℤ := (ilog2 a.num.natAbs a.num.natAbs : ℤ) - (ilog2 a.den a.den : ℤ)
    let e : ℤ := if a < pow2 e0 then e0 - 1 else e0
    let s : ℤ := (p : ℤ) - 1 - e
    let r : ℚ := (roundFloat (a * pow2 s) : ℚ) * pow2 (-s)
    if x < 0 then -r else r

/-- The result of an operation of type `double`. -/
def toDouble (x : ℚ) : ℚ := roundSig 53 x

/-- The result of an operation of type `float`, and the conversion `float(x)`. -/
def toFloat (x : ℚ) : ℚ := roundSig 24 x

namespace Plot3D_TriShape

/-- The `double` expression `((x1 - x0) * (y2 - y0)) - ((x2 - x0) * (y1 - y0))` of lines
672-675 and 717. -/
def xyArea2Double (v0 v1 v2 : NIFVertex) : ℚ :=
  toDouble (toDouble (toDouble (v1.x - v0.x) * toDouble (v2.y - v0.y))
    - toDouble (toDouble (v2.x - v0.x) * toDouble (v1.y - v0.y)))

/-- Lines 672-675 and 683: the `float` variable `xyArea2` that the test of line 684 compares
with 2^-20, for the vertices in the order of the triangle. -/
def xyArea2Float (v0 v1 v2 : NIFVertex) : ℚ :=
  toFloat (fabs (toFloat (xyArea2Double v0 v1 v2)))

/-- The `double` literal `-0.000001` of lines 789 and 796. -/
def weightLimit : ℚ := toDouble (-(1 / 1000000))

/-- Lines 711-717 and 774-783 for vertices that are already sorted by y, every operation
rounded to `double`.  (Where the divisor of line 717 is zero the C++ value of `r2xArea` is an
infinity, which has no counterpart here.) -/
def scanCoeffsRounded (v0 v1 v2 : NIFVertex) : ScanCoeffs :=
  let x0 := v0.x
  let y0 := v0.y
  let y1 := v1.y
  let x2 := v2.x
  let y2 := v2.y
  let r2xArea : ℚ := toDouble (1 / xyArea2Double v0 v1 v2)
  let dy2 : ℚ := toDouble (1 / toDouble (y2 - y0))
  let a1 : ℚ := toDouble (toDouble (y2 - y0) * r2xArea)
  let b1 : ℚ := -(toDouble (toDouble (x2 - x0) * a1))
  let a2 : ℚ := toDouble (toDouble (y0 - y1) * r2xArea)
  let b2 : ℚ := toDouble (1 - toDouble (toDouble (x2 - x0) * a2))
  { x0 := x0, y0 := y0, x2 := x2, dy2 := dy2, a1 := a1, b1 := b1, a2 := a2, b2 := b2
    y := truncInt (toDouble (y0 + (if y0 < 0 then toDouble (-(1 / 2000000))
      else toDouble (1999999 / 2000000))))
    yMax := truncInt (toDouble (y2 + (if y2 < 0 then toDouble (-(1999999 / 2000000))
      else toDouble (1 / 2000000))))
    w1Step := if a1 < 0 then -a1 else a1
    w2Step := if a1 < 0 then -a2 else a2
    xStep := if a1 < 0 then -1 else 1 }

/-- Lines 786-795 for row `y`: the pixel `x` and the weights `w1`, `w2` with which the inner
loop is entered. -/
def rowStartRounded (c : ScanCoeffs) (y : ℤ) : ℤ × ℚ × ℚ :=
  let yf : ℚ := toDouble (toDouble ((y : ℚ) - c.y0) * c.dy2)
  let x : ℤ := roundFloat (toFloat (toDouble (toDouble (toDouble (c.x2 - c.x0) * yf) + c.x0)))
  let w1 : ℚ := toDouble (toDouble (toDouble ((x : ℚ) - c.x0) * c.a1) + toDouble (yf * c.b1))
  let x : ℤ := if w1 ≥ weightLimit then x else x + c.xStep
  let w1 : ℚ := if w1 ≥ weightLimit then w1 else toDouble (w1 + c.w1Step)
  let w2 : ℚ := toDouble (toDouble (toDouble ((x : ℚ) - c.x0) * c.a2) + toDouble (yf * c.b2))
  (x, w1, w2)

/-- The `float` expression `(a0 * float(w0)) + (a1 * float(w1)) + (a2 * float(w2))` of lines
798-801. -/
def interpolateFloat (a0 a1 a2 w0 w1 w2 : ℚ) : ℚ :=
  toFloat (toFloat (toFloat (a0 * toFloat w0) + toFloat (a1 * toFloat w1))
    + toFloat (a2 * toFloat w2))

/-- The inner `while` loop (lines 796-808) with the loop counter `fuel`, every operation
rounded: the `drawPixel` calls of one row, starting at pixel `x` with the `double` weights
`w1`, `w2`; the weights are passed as `float(w0)`, `float(w1)`, `float(w2)`. -/
def pixelLoopRounded (v0 v1 v2 : NIFVertex) (t : TriangleUV) (y : ℤ) (xStep : ℤ)
    (w1Step w2Step : ℚ) : ℕ → ℤ → ℚ → ℚ → List Fragment
  | 0, _, _, _ => []
  | fuel + 1, x, w1, w2 =>
    let w0 : ℚ := toDouble (1 - toDouble (w1 + w2))
    if w0 ≥ weightLimit ∧ w2 ≥ weightLimit then
      { x := x, y := y
        txtU := interpolateFloat t.txtU0 t.txtU1 t.txtU2 w0 w1 w2
        txtV := interpolateFloat t.txtV0 t.txtV1 t.txtV2 w0 w1 w2
        z := interpolateFloat v0.z v1.z v2.z w0 w1 w2
        v0 := v0, v1 := v1, v2 := v2, w0 := toFloat w0, w1 := toFloat w1, w2 := toFloat w2 }
        :: pixelLoopRounded v0 v1 v2 t y xStep w1Step w2Step fuel (x + xStep)
            (toDouble (w1 + w1Step)) (toDouble (w2 + w2Step))
    else []

/-- The body of the `do ... while (++y <= yMax)` loop (lines 786-808) for row `y`, every
operation rounded, the inner loop running for at most `fuel` iterations. -/
def scanRowRounded (v0 v1 v2 : NIFVertex) (t : TriangleUV) (c : ScanCoeffs) (y : ℤ)
    (fuel : ℕ) : List Fragment :=
  pixelLoopRounded v0 v1 v2 t y c.xStep c.w1Step c.w2Step fuel (rowStartRounded c y).1
    (rowStartRounded c y).2.1 (rowStartRounded c y).2.2

/-- The scanline loop of `drawTriangles` (lines 774-810) for vertices sorted by y, every
operation rounded, as the list of `drawPixel` calls it makes, in order, the inner loop of
each row running for at most `fuel` iterations. -/
def scanlineRounded (v0 v1 v2 : NIFVertex) (t : TriangleUV) (fuel : ℕ) : List Fragment :=
  let c := scanCoeffsRounded v0 v1 v2
  (List.range ((c.yMax - c.y).toNat + 1)).flatMap fun k =>
    scanRowRounded v0 v1 v2 t c (c.y + k) fuel

/-- The first vertex `(0, 0)` of a sliver triangle. -/
def sliverV0 : NIFVertex := mkVertex 0 0 1

/-- The second vertex `(1/32 + 2^-28, 1/32)` of the sliver triangle. -/
def sliverV1 : NIFVertex := mkVertex (1 / 32 + 1 / 268435456) (1 / 32) 1

/-- The third vertex `(1000, 1000)` of the sliver triangle. -/
def sliverV2 : NIFVertex := mkVertex 1000 1000 1

/-- The first vertex `(244346.0625, 61006.12109375)` of a thin triangle. -/
def thinV0 : NIFVertex := mkVertex (3909537 / 16) (15617567 / 256) 1

/-- The second vertex `(10352603 / 2^22, 81391 / 2^17)`, about `(2.468253, 0.620964)`, of
the thin triangle. -/
def thinV1 : NIFVertex := mkVertex (10352603 / 4194304) (81391 / 131072) 1

/-- The third vertex `(-675248.75, -168590)` of the thin triangle. -/
def thinV2 : NIFVertex := mkVertex (-(2700995 / 4)) (-168590) 1

end Plot3D_TriShape

/-! ## Theorems -/

theorem roundFloat_intCast (n : ℤ) : roundFloat (n : ℚ) = n := by
  simp [roundFloat]

theorem roundFloat_zero : roundFloat 0 = 0 := by
  simpa using roundFloat_intCast 0

theorem roundFloat_le_add_half (x : ℚ) : (roundFloat x : ℚ) ≤ x + 1 / 2 := by
  have h1 := Int.floor_le x
  unfold roundFloat
  simp only
  split_ifs with h₁ h₂ h₃
  · linarith
  · push_cast; linarith
  · linarith
  · push_cast
    have : x - (⌊x⌋ : ℚ) = 1 / 2 := le_antisymm (not_lt.mp h₂) (not_lt.mp h₁)
    linarith

theorem sub_half_le_roundFloat (x : ℚ) : x - 1 / 2 ≤ (roundFloat x : ℚ) := by
  have h1 := Int.lt_floor_add_one x
  unfold roundFloat
  simp only
  split_ifs with h₁ h₂ h₃
  · linarith
  · push_cast; linarith
  · have : x - (⌊x⌋ : ℚ) = 1 / 2 := le_antisymm (not_lt.mp h₂) (not_lt.mp h₁)
    linarith
  · push_cast; linarith

theorem roundFloat_floor_le (x : ℚ) : ⌊x⌋ ≤ roundFloat x := by
  unfold roundFloat
  simp only
  split_ifs <;> omega

theorem roundFloat_le_floor_succ (x : ℚ) : roundFloat x ≤ ⌊x⌋ + 1 := by
  unfold roundFloat
  simp only
  split_ifs <;> omega

theorem roundFloat_mono {x y : ℚ} (h : x ≤ y) : roundFloat x ≤ roundFloat y := by
  have hf : ⌊x⌋ ≤ ⌊y⌋ := Int.floor_le_floor h
  rcases hf.lt_or_eq with hlt | heq
  · calc roundFloat x ≤ ⌊x⌋ + 1 := roundFloat_le_floor_succ x
      _ ≤ ⌊y⌋ := hlt
      _ ≤ roundFloat y := roundFloat_floor_le y
  · unfold roundFloat
    simp only
    rw [← heq]
    have hxy : x - (⌊x⌋ : ℚ) ≤ y - (⌊x⌋ : ℚ) := by linarith
    split_ifs <;> first | omega | (exfalso; linarith)

theorem roundFloat_lt_of_one_lt {x y : ℚ} (h : x + 1 < y) : roundFloat x < roundFloat y := by
  have h1 := roundFloat_le_add_half x
  have h2 := sub_half_le_roundFloat y
  have : (roundFloat x : ℚ) < (roundFloat y : ℚ) := by linarith
  exact_mod_cast this


set_option maxHeartbeats 4000000 in
open Renderer in
theorem setBuffers_offsets_aux (T : ℕ) (W H : ℤ) (hT1 : 1 ≤ T) (hT8 : T ≤ 8) (hH : 0 ≤ H) :
    (viewOffsetY T W H).length = T + 1 ∧
    (viewOffsetY T W H)[0]? = some 0 ∧
    (viewOffsetY T W H)[T]? = some H ∧
    (∀ i, i < T → ∃ a b, (viewOffsetY T W H)[i]? = some a ∧
        (viewOffsetY T W H)[i + 1]? = some b ∧ a ≤ b ∧ (64 ≤ H → a < b) ∧
        (bandBuffers T W H)[i]? = some ⟨a * W, W, b - a⟩) := by
  have hHq : (0 : ℚ) ≤ (H : ℚ) := by exact_mod_cast hH
  have hlast : ∀ c : ℚ, c ≤ 1 → roundFloat (c * H) ≤ H := by
    intro c hc
    have h1 : c * (H : ℚ) ≤ (H : ℚ) := by nlinarith
    simpa [roundFloat_intCast] using roundFloat_mono h1
  have hlast2 : ∀ c : ℚ, c ≤ 7 / 8 → 64 ≤ H → roundFloat (c * H) < H := by
    intro c hc h64
    have h64q : (64 : ℚ) ≤ (H : ℚ) := by exact_mod_cast h64
    have h1 : c * (H : ℚ) + 1 < (H : ℚ) := by nlinarith
    simpa [roundFloat_intCast] using roundFloat_lt_of_one_lt h1
  have hfirst : ∀ c : ℚ, 0 ≤ c → 0 ≤ roundFloat (c * H) := by
    intro c hc
    have h1 : (0 : ℚ) ≤ c * (H : ℚ) := by positivity
    simpa [roundFloat_zero] using roundFloat_mono h1
  have hfirst2 : ∀ c : ℚ, 1 / 8 ≤ c → 64 ≤ H → 0 < roundFloat (c * H) := by
    intro c hc h64
    have h64q : (64 : ℚ) ≤ (H : ℚ) := by exact_mod_cast h64
    have h1 : (0 : ℚ) + 1 < c * (H : ℚ) := by nlinarith
    simpa [roundFloat_zero] using roundFloat_lt_of_one_lt h1
  have hmid : ∀ c d : ℚ, c ≤ d → roundFloat (c * H) ≤ roundFloat (d * H) := by
    intro c d hcd
    exact roundFloat_mono (by nlinarith)
  have hmid2 : ∀ c d : ℚ, c + 1 / 50 ≤ d → 64 ≤ H → roundFloat (c * H) < roundFloat (d * H) := by
    intro c d hcd h64
    have h64q : (64 : ℚ) ≤ (H : ℚ) := by exact_mod_cast h64
    exact roundFloat_lt_of_one_lt (by nlinarith)
  have hT : T = 1 ∨ 2 ≤ T := by omega
  rcases hT with rfl | hT2
  · simp [viewOffsetY, bandBuffers, setBuffersLoop, roundFloat_zero]
    omega
  interval_cases T <;>
    simp [viewOffsetY, bandBuffers, setBuffersLoop, bandY1, roundFloat_zero] <;>
    norm_num <;>
    intro i hi <;>
    interval_cases i <;>
    simp only [List.getElem?_cons_succ, List.getElem?_cons_zero, Option.some.injEq,
      exists_eq_left', zero_mul, sub_zero, true_and, and_true] <;>
    refine ⟨?_, fun h64 => ?_⟩ <;>
    first
    | omega
    | exact hfirst _ (by norm_num)
    | exact hfirst2 _ (by norm_num) h64
    | exact hlast _ (by norm_num)
    | exact hlast2 _ (by norm_num) h64
    | exact hmid _ _ (by norm_num)
    | exact hmid2 _ _ (by norm_num) h64

theorem exists_unique_band_aux (l : List ℤ) (T : ℕ) (H : ℤ)
    (h0 : l[0]? = some 0) (hT : l[T]? = some H)
    (hmono : ∀ i, i < T → ∃ a b, l[i]? = some a ∧ l[i + 1]? = some b ∧ a ≤ b)
    (y : ℤ) (hy0 : 0 ≤ y) (hyH : y < H) :
    ∃! i, i < T ∧ ∃ a b, l[i]? = some a ∧ l[i + 1]? = some b ∧ a ≤ y ∧ y < b := by
  -- the boundaries as a function
  have hget : ∀ i, i ≤ T → ∃ a, l[i]? = some a := by
    intro i hi
    rcases Nat.eq_zero_or_pos i with h | h
    · exact ⟨0, h ▸ h0⟩
    · obtain ⟨a, b, _, hb, _⟩ := hmono (i - 1) (by omega)
      exact ⟨b, by rw [← hb]; congr 1; omega⟩
  have hmonoAll : ∀ j, j ≤ T → ∀ i, i ≤ j → ∀ a b, l[i]? = some a → l[j]? = some b → a ≤ b := by
    intro j
    induction j with
    | zero =>
      intro _ i hi a b ha hb
      have : i = 0 := by omega
      subst this
      rw [ha] at hb
      exact le_of_eq (Option.some.inj hb)
    | succ j ih =>
      intro hj i hi a b ha hb
      rcases Nat.lt_or_ge i (j + 1) with hlt | hge
      · obtain ⟨c, d, hc, hd, hcd⟩ := hmono j (by omega)
        rw [hb] at hd
        cases hd
        exact le_trans (ih (by omega) i (by omega) a c ha hc) hcd
      · have : i = j + 1 := by omega
        subst this
        rw [ha] at hb
        exact le_of_eq (Option.some.inj hb)
  have hTpos : 0 < T := by
    rcases Nat.eq_zero_or_pos T with h | h
    · subst h
      rw [h0] at hT
      cases hT
      omega
    · exact h
  -- the first band whose upper boundary is above y
  have hex : ∃ i, i < T ∧ ∀ b, l[i + 1]? = some b → y < b := by
    refine ⟨T - 1, by omega, ?_⟩
    intro b hb
    have : T - 1 + 1 = T := by omega
    rw [this, hT] at hb
    cases hb
    exact hyH
  classical
  let i := Nat.find hex
  have hi : i < T ∧ ∀ b, l[i + 1]? = some b → y < b := Nat.find_spec hex
  have hmin : ∀ j, j < i → ¬ (j < T ∧ ∀ b, l[j + 1]? = some b → y < b) :=
    fun j hj => Nat.find_min hex hj
  obtain ⟨a, b, ha, hb, _⟩ := hmono i hi.1
  have hay : a ≤ y := by
    rcases Nat.eq_zero_or_pos i with h | h
    · rw [h, h0] at ha
      cases ha
      exact hy0
    · have := hmin (i - 1) (by omega)
      by_contra hcon
      apply this
      refine ⟨by omega, ?_⟩
      intro c hc
      have e : i - 1 + 1 = i := by omega
      rw [e, ha] at hc
      cases hc
      omega
  refine ⟨i, ⟨hi.1, a, b, ha, hb, hay, hi.2 b hb⟩, ?_⟩
  rintro j ⟨hj, c, d, hc, hd, hcy, hyd⟩
  by_contra hne
  rcases Nat.lt_or_gt_of_ne hne with hlt | hgt
  · -- j < i : upper boundary of j is at most a
    have := hmonoAll i (by omega) (j + 1) (by omega) d a hd ha
    omega
  · have := hmonoAll j (by omega) (i + 1) (by omega) b c hb hc
    have := hi.2 b hb
    omega

/-- C1: for every image height `H ≥ 0` and band count `T` in `1..8`, the row offsets computed
by `Renderer::setBuffers` start at 0, end at `H`, are non-decreasing (strictly increasing when
`H ≥ 64`), band `i` is handed exactly the rows from `viewOffsetY[i]` up to `viewOffsetY[i+1]`,
and every row of `[0, H)` belongs to exactly one band. -/
theorem setBuffers_partition (T : ℕ) (W H : ℤ) (hT1 : 1 ≤ T) (hT8 : T ≤ 8) (hH : 0 ≤ H) :
    (Renderer.viewOffsetY T W H).length = T + 1 ∧
    (Renderer.viewOffsetY T W H)[0]? = some 0 ∧
    (Renderer.viewOffsetY T W H)[T]? = some H ∧
    (∀ i, i < T → ∃ a b, (Renderer.viewOffsetY T W H)[i]? = some a ∧
        (Renderer.viewOffsetY T W H)[i + 1]? = some b ∧ a ≤ b ∧ (64 ≤ H → a < b) ∧
        (Renderer.bandBuffers T W H)[i]? = some ⟨a * W, W, b - a⟩) ∧
    (∀ y, 0 ≤ y → y < H → ∃! i, i < T ∧ ∃ a b, (Renderer.viewOffsetY T W H)[i]? = some a ∧
        (Renderer.viewOffsetY T W H)[i + 1]? = some b ∧ a ≤ y ∧ y < b) := by
  obtain ⟨h1, h2, h3, h4⟩ := setBuffers_offsets_aux T W H hT1 hT8 hH
  refine ⟨h1, h2, h3, h4, ?_⟩
  intro y hy0 hyH
  refine exists_unique_band_aux _ T H h2 h3 ?_ y hy0 hyH
  intro i hi
  obtain ⟨a, b, ha, hb, hab, _⟩ := h4 i hi
  exact ⟨a, b, ha, hb, hab⟩

theorem setBuffers_partition_witness :
    (Renderer.viewOffsetY 8 640 480).length = 8 + 1 ∧
    (Renderer.viewOffsetY 8 640 480)[0]? = some 0 ∧
    (Renderer.viewOffsetY 8 640 480)[8]? = some 480 ∧
    (∀ i, i < 8 → ∃ a b, (Renderer.viewOffsetY 8 640 480)[i]? = some a ∧
        (Renderer.viewOffsetY 8 640 480)[i + 1]? = some b ∧ a ≤ b ∧ ((64 : ℤ) ≤ 480 → a < b) ∧
        (Renderer.bandBuffers 8 640 480)[i]? = some ⟨a * 640, 640, b - a⟩) ∧
    (∀ y : ℤ, 0 ≤ y → y < 480 → ∃! i, i < 8 ∧ ∃ a b, (Renderer.viewOffsetY 8 640 480)[i]? = some a ∧
        (Renderer.viewOffsetY 8 640 480)[i + 1]? = some b ∧ a ≤ y ∧ y < b) :=
  setBuffers_partition 8 640 480 (by decide) (by decide) (by decide)


/-! ### Effect of `drawPixel` (C2, C3) -/

open Plot3D_TriShape

theorem callDrawPixelFunction_effect (E : Ext) (p : Plot3D_TriShape) (x y : ℤ) (txtU txtV : ℚ)
    (z : NIFVertex) :
    p.callDrawPixelFunction E x y txtU txtV z = p ∨
    ∃ c, p.callDrawPixelFunction E x y txtU txtV z = p.written (p.pixelOffs x y) z.z c := by
  unfold callDrawPixelFunction
  cases p.drawPixelFunction
  · right
    exact ⟨_, rfl⟩
  · simp only [drawPixel_Debug]
    split
    · left; rfl
    · split_ifs <;> exact Or.inr ⟨_, rfl⟩
  all_goals
    simp only [drawPixel_Diffuse, drawPixel_Normal, drawPixel_NormalEnv, drawPixel_NormalEnvM,
      drawPixel_NormalEnvS, drawPixel_NormalRefl]
    split
    · left; rfl
    · split_ifs <;> first | exact Or.inl rfl | exact Or.inr ⟨_, rfl⟩

theorem drawPixel_effect (E : Ext) (p : Plot3D_TriShape) (f : Fragment) :
    p.drawPixel E f = p ∨
    (0 ≤ f.x ∧ f.x < p.width ∧ 0 ≤ f.y ∧ f.y < p.height ∧ 0 ≤ f.z ∧
      f.z < p.bufZ (p.pixelOffs f.x f.y) ∧
      ∃ c, p.drawPixel E f = p.written (p.pixelOffs f.x f.y) f.z c) := by
  unfold drawPixel
  split_ifs with h1 h2
  · exact Or.inl rfl
  · exact Or.inl rfl
  · rcases callDrawPixelFunction_effect E p f.x f.y f.txtU f.txtV (fragmentVertex E f) with h | h
    · exact Or.inl h
    · right
      simp only [not_or, not_lt, not_le, ge_iff_le] at h1 h2
      exact ⟨h1.1, h1.2.1, h1.2.2.1, h1.2.2.2, h2.1, h2.2, h⟩

/-- C2: every call of `drawPixel`, with any of the eight shading functions selected, either
leaves the state unchanged or stores the depth `f.z` and a colour at one pixel whose old depth
is strictly greater than `f.z`; so at every pixel either depth and colour are as before or
the depth has strictly decreased, and no depth value increases over any sequence of calls. -/
theorem drawPixel_depth_decreases (E : Ext) :
    (∀ (p : Plot3D_TriShape) (f : Fragment),
      p.drawPixel E f = p ∨
      (f.z < p.bufZ (p.pixelOffs f.x f.y) ∧
        ∃ c, p.drawPixel E f = p.written (p.pixelOffs f.x f.y) f.z c)) ∧
    (∀ (p : Plot3D_TriShape) (f : Fragment) (i : ℕ),
      ((p.drawPixel E f).bufZ i = p.bufZ i ∧ (p.drawPixel E f).bufRGBW i = p.bufRGBW i) ∨
      (p.drawPixel E f).bufZ i < p.bufZ i) ∧
    (∀ (p : Plot3D_TriShape) (f : Fragment) (i : ℕ), (p.drawPixel E f).bufZ i ≤ p.bufZ i) ∧
    (∀ (fs : List Fragment) (p : Plot3D_TriShape) (i : ℕ),
      (fs.foldl (drawPixel E) p).bufZ i ≤ p.bufZ i) := by
  have h1 : ∀ (p : Plot3D_TriShape) (f : Fragment) (i : ℕ),
      ((p.drawPixel E f).bufZ i = p.bufZ i ∧ (p.drawPixel E f).bufRGBW i = p.bufRGBW i) ∨
      (p.drawPixel E f).bufZ i < p.bufZ i := by
    intro p f i
    rcases drawPixel_effect E p f with h | ⟨_, _, _, _, _, hz, c, h⟩
    · rw [h]
      exact Or.inl ⟨rfl, rfl⟩
    · rw [h]
      by_cases hi : i = p.pixelOffs f.x f.y
      · subst hi
        right
        simpa [written] using hz
      · left
        simp [written, Function.update_noteq hi]
  have h2 : ∀ (p : Plot3D_TriShape) (f : Fragment) (i : ℕ),
      (p.drawPixel E f).bufZ i ≤ p.bufZ i := by
    intro p f i
    rcases h1 p f i with h | h
    · exact le_of_eq h.1
    · exact le_of_lt h
  refine ⟨?_, h1, h2, ?_⟩
  · intro p f
    rcases drawPixel_effect E p f with h | ⟨_, _, _, _, _, hz, c, h⟩
    · exact Or.inl h
    · exact Or.inr ⟨hz, c, h⟩
  intro fs
  induction fs with
  | nil => intro p i; exact le_refl _
  | cons f fs ih =>
    intro p i
    exact le_trans (ih (p.drawPixel E f) i) (h2 p f i)

theorem pixelOffs_written (p : Plot3D_TriShape) (o : ℕ) (z : ℚ) (c : ℕ) (x y : ℤ) :
    (p.written o z c).pixelOffs x y = p.pixelOffs x y := rfl

theorem diffuseShade_written (E : Ext) (p : Plot3D_TriShape) (o : ℕ) (z : ℚ) (c : ℕ) (c1 : ℕ)
    (v : NIFVertex) : (p.written o z c).diffuseShade E c1 v = p.diffuseShade E c1 v := rfl

theorem diffuseColor_written (p : Plot3D_TriShape) (o : ℕ) (z : ℚ) (c : ℕ) (tD : DDSTexture)
    (txtU txtV : ℚ) (v : NIFVertex) :
    (p.written o z c).diffuseColor tD txtU txtV v = p.diffuseColor tD txtU txtV v := rfl

theorem written_written (p : Plot3D_TriShape) (o : ℕ) (z z1 : ℚ) (c c1 : ℕ) :
    (p.written o z c).written o z1 c1 = p.written o z1 c1 := by
  simp [written, Function.update_idem]

theorem drawPixel_diffuse_eq (E : Ext) (p : Plot3D_TriShape) (f : Fragment) (tD : DDSTexture)
    (hD : p.drawPixelFunction = .Diffuse) (hT : p.textureD = some tD)
    (hb : 0 ≤ f.x ∧ f.x < p.width ∧ 0 ≤ f.y ∧ f.y < p.height)
    (ha : ¬ p.diffuseColor tD f.txtU f.txtV (fragmentVertex E f) < p.alphaThresholdScaled) :
    p.drawPixel E f =
      if f.z < 0 ∨ p.bufZ (p.pixelOffs f.x f.y) ≤ f.z then p
      else p.written (p.pixelOffs f.x f.y) f.z
        (p.diffuseShade E (p.diffuseColor tD f.txtU f.txtV (fragmentVertex E f))
          (fragmentVertex E f)) := by
  have hb' : ¬ (f.x < 0 ∨ f.x ≥ p.width ∨ f.y < 0 ∨ f.y ≥ p.height) := by
    rintro (h | h | h | h) <;> omega
  unfold drawPixel
  rw [if_neg hb']
  split_ifs with h
  · rfl
  · unfold callDrawPixelFunction
    rw [hD]
    show p.drawPixel_Diffuse E f.x f.y f.txtU f.txtV (fragmentVertex E f) = _
    unfold drawPixel_Diffuse
    split
    · rename_i hn
      rw [hT] at hn
      cases hn
    · rename_i tD2 hs
      rw [hT] at hs
      cases hs
      simp only []
      rw [if_neg ha]
      rfl

/-- C3: for a pixel inside the buffer and two fragments at that pixel with depths
`0 ≤ z1 < z2` that both pass the alpha test, drawn through `drawPixel` with the Diffuse shading
function, the resulting state is the same whichever fragment is drawn first; and when the
initial depth is greater than `z1`, the final depth and colour of the pixel are those of the
nearer fragment. -/
theorem diffuse_fragments_commute (E : Ext) (p : Plot3D_TriShape) (f1 f2 : Fragment)
    (tD : DDSTexture)
    (hD : p.drawPixelFunction = .Diffuse) (hT : p.textureD = some tD)
    (hx : f2.x = f1.x) (hy : f2.y = f1.y)
    (hb : 0 ≤ f1.x ∧ f1.x < p.width ∧ 0 ≤ f1.y ∧ f1.y < p.height)
    (hz1 : 0 ≤ f1.z) (hz : f1.z < f2.z)
    (ha1 : ¬ p.diffuseColor tD f1.txtU f1.txtV (fragmentVertex E f1) < p.alphaThresholdScaled)
    (ha2 : ¬ p.diffuseColor tD f2.txtU f2.txtV (fragmentVertex E f2) < p.alphaThresholdScaled) :
    (p.drawPixel E f1).drawPixel E f2 = (p.drawPixel E f2).drawPixel E f1 ∧
    (f1.z < p.bufZ (p.pixelOffs f1.x f1.y) →
      ((p.drawPixel E f1).drawPixel E f2).bufZ (p.pixelOffs f1.x f1.y) = f1.z ∧
      ((p.drawPixel E f1).drawPixel E f2).bufRGBW (p.pixelOffs f1.x f1.y) =
        p.diffuseShade E (p.diffuseColor tD f1.txtU f1.txtV (fragmentVertex E f1))
          (fragmentVertex E f1)) := by
  have hb2 : 0 ≤ f2.x ∧ f2.x < p.width ∧ 0 ≤ f2.y ∧ f2.y < p.height := by
    rw [hx, hy]; exact hb
  have e1 := drawPixel_diffuse_eq E p f1 tD hD hT hb ha1
  have e2 := drawPixel_diffuse_eq E p f2 tD hD hT hb2 ha2
  have hz2 : ¬ f2.z < 0 := not_lt.mpr (le_trans hz1 (le_of_lt hz))
  have hz1' : ¬ f1.z < 0 := not_lt.mpr hz1
  rw [hx, hy] at e2
  set o := p.pixelOffs f1.x f1.y with ho
  by_cases c1 : p.bufZ o ≤ f1.z
  · -- both fragments are behind the stored depth
    have c2 : p.bufZ o ≤ f2.z := le_trans c1 (le_of_lt hz)
    rw [if_pos (Or.inr c1)] at e1
    rw [if_pos (Or.inr c2)] at e2
    rw [e1, e2, e1]
    exact ⟨rfl, fun h => absurd c1 (not_le.mpr h)⟩
  · have n1 : ¬ (f1.z < 0 ∨ p.bufZ o ≤ f1.z) := by
      rintro (h | h)
      · exact hz1' h
      · exact c1 h
    rw [if_neg n1] at e1
    -- the state after the nearer fragment
    have e12 := drawPixel_diffuse_eq E (p.drawPixel E f1) f2 tD (by rw [e1]; exact hD)
      (by rw [e1]; exact hT) (by rw [e1, hx, hy]; exact hb) (by rw [e1]; exact ha2)
    have r12 : (p.drawPixel E f1).drawPixel E f2 = p.drawPixel E f1 := by
      rw [e12, if_pos]
      right
      rw [e1, hx, hy]
      show Function.update p.bufZ o f1.z o ≤ f2.z
      rw [Function.update_same]
      exact le_of_lt hz
    by_cases c2 : p.bufZ o ≤ f2.z
    · rw [if_pos (Or.inr c2)] at e2
      rw [r12, e2]
      refine ⟨rfl, fun _ => ?_⟩
      rw [e1]
      exact ⟨by simp [written], by simp [written]⟩
    · have n2 : ¬ (f2.z < 0 ∨ p.bufZ o ≤ f2.z) := by
        rintro (h | h)
        · exact hz2 h
        · exact c2 h
      rw [if_neg n2] at e2
      have e21 := drawPixel_diffuse_eq E (p.drawPixel E f2) f1 tD (by rw [e2]; exact hD)
        (by rw [e2]; exact hT) (by rw [e2]; exact hb) (by rw [e2]; exact ha1)
      have n21 : ¬ (f1.z < 0 ∨ (p.drawPixel E f2).bufZ
          ((p.drawPixel E f2).pixelOffs f1.x f1.y) ≤ f1.z) := by
        rintro (h | h)
        · exact hz1' h
        · rw [e2] at h
          change Function.update p.bufZ o f2.z o ≤ f1.z at h
          rw [Function.update_same] at h
          exact absurd hz (not_lt.mpr h)
      rw [if_neg n21] at e21
      rw [r12, e21, e1, e2]
      refine ⟨?_, fun _ => ⟨by simp [written], by simp [written]⟩⟩
      rw [pixelOffs_written, diffuseShade_written, diffuseColor_written, ← ho, written_written]

theorem diffuse_fragments_commute_witness :
    (((diffuseState.drawPixel sampleExt nearFragment).drawPixel sampleExt farFragment =
        (diffuseState.drawPixel sampleExt farFragment).drawPixel sampleExt nearFragment) ∧
      ((nearFragment.z < diffuseState.bufZ (diffuseState.pixelOffs nearFragment.x nearFragment.y)) →
        ((diffuseState.drawPixel sampleExt nearFragment).drawPixel sampleExt farFragment).bufZ
            (diffuseState.pixelOffs nearFragment.x nearFragment.y) = nearFragment.z ∧
        ((diffuseState.drawPixel sampleExt nearFragment).drawPixel sampleExt farFragment).bufRGBW
            (diffuseState.pixelOffs nearFragment.x nearFragment.y) =
          diffuseState.diffuseShade sampleExt
            (diffuseState.diffuseColor whiteTexture nearFragment.txtU nearFragment.txtV
              (fragmentVertex sampleExt nearFragment))
            (fragmentVertex sampleExt nearFragment))) :=
  diffuse_fragments_commute sampleExt diffuseState nearFragment farFragment whiteTexture
    rfl rfl rfl rfl (by decide) (by decide!) (by decide!) (by decide!) (by decide!)


/-! ### Frame properties, shading selection (C7) and off-screen meshes (C9) -/

theorem stripBuffers_drawPixel (E : Ext) (p : Plot3D_TriShape) (f : Fragment) :
    (p.drawPixel E f).stripBuffers = p.stripBuffers := by
  rcases drawPixel_effect E p f with h | ⟨_, _, _, _, _, _, c, h⟩ <;> rw [h]
  rfl

theorem stripBuffers_foldl_drawPixel (E : Ext) (fs : List Fragment) :
    ∀ p : Plot3D_TriShape, (fs.foldl (drawPixel E) p).stripBuffers = p.stripBuffers := by
  induction fs with
  | nil => intro p; rfl
  | cons f fs ih =>
    intro p
    rw [List.foldl_cons, ih, stripBuffers_drawPixel]

theorem stripTriangleState_triangleSetup (E : Ext) (p : Plot3D_TriShape) (v0 v1 v2 : NIFVertex)
    (a : ℚ) : (p.triangleSetup E v0 v1 v2 a).1.stripTriangleState = p.stripTriangleState := by
  unfold triangleSetup
  simp only
  split
  · rfl
  · split_ifs <;> rfl

theorem stripTriangleState_triangleFragmentsV (E : Ext) (p : Plot3D_TriShape)
    (v0 v1 v2 : NIFVertex) :
    (p.triangleFragmentsV E v0 v1 v2).1.stripTriangleState = p.stripTriangleState := by
  unfold triangleFragmentsV
  simp only
  split_ifs
  · rfl
  · rw [stripTriangleState_triangleSetup]
    rfl

theorem stripTriangleState_triangleFragments (E : Ext) (p : Plot3D_TriShape) (t : Triangle) :
    (p.triangleFragments E t).1.stripTriangleState = p.stripTriangleState :=
  stripTriangleState_triangleFragmentsV E p _ _ _

theorem strip_drawTriangle (E : Ext) (p : Plot3D_TriShape) (t : Triangle) :
    (p.drawTriangle E t).stripBuffers.stripTriangleState =
      p.stripBuffers.stripTriangleState := by
  unfold drawTriangle
  simp only
  rw [stripBuffers_foldl_drawPixel]
  have h := stripTriangleState_triangleFragments E p t
  have : ∀ q : Plot3D_TriShape, q.stripBuffers.stripTriangleState
      = q.stripTriangleState.stripBuffers := fun q => rfl
  rw [this, h]
  rfl

theorem strip_drawTriangles_aux (E : Ext) (ts : List Triangle) :
    ∀ p : Plot3D_TriShape, (ts.foldl (drawTriangle E) p).stripBuffers.stripTriangleState =
      p.stripBuffers.stripTriangleState := by
  induction ts with
  | nil => intro p; rfl
  | cons t ts ih =>
    intro p
    rw [List.foldl_cons, ih, strip_drawTriangle]

theorem strip_drawTriangles (E : Ext) (p : Plot3D_TriShape) :
    (p.drawTriangles E).stripBuffers.stripTriangleState = p.stripBuffers.stripTriangleState :=
  strip_drawTriangles_aux E p.triangleBuf p

theorem drawPixelFunction_drawTriangles (E : Ext) (p : Plot3D_TriShape) :
    (p.drawTriangles E).drawPixelFunction = p.drawPixelFunction := by
  have h := congrArg Plot3D_TriShape.drawPixelFunction (strip_drawTriangles E p)
  exact h

theorem bindTextures_fields (p : Plot3D_TriShape) (textures : ℕ → Option DDSTexture)
    (textureCnt : ℕ) :
    (p.bindTextures textures textureCnt).flags = p.flags ∧
    (p.bindTextures textures textureCnt).debugMode = p.debugMode ∧
    (p.bindTextures textures textureCnt).textureD
      = (if textureCnt ≥ 1 then textures 0 else p.textureD) ∧
    (p.bindTextures textures textureCnt).textureN
      = (if textureCnt ≥ 2 then textures 1 else p.textureN) := by
  unfold bindTextures
  simp only
  split_ifs <;> exact ⟨rfl, rfl, rfl, rfl⟩

theorem selectEnvMap_fields (p : Plot3D_TriShape) (textures : ℕ → Option DDSTexture)
    (textureCnt : ℕ) :
    (p.selectEnvMap textures textureCnt).debugMode = p.debugMode ∧
    (p.selectEnvMap textures textureCnt).drawPixelFunction =
      (if slotPresent textures textureCnt 8 ∧ slotPresent textures textureCnt 9 then .NormalRefl
       else if slotPresent textures textureCnt 6 then .NormalEnvS
       else if slotPresent textures textureCnt 5 then .NormalEnvM
       else .NormalEnv) := by
  have h89 : (slotPresent textures textureCnt 8 ∧ slotPresent textures textureCnt 9) ↔
      (textureCnt ≥ 10 ∧ (textures 8).isSome ∧ (textures 9).isSome) := by
    unfold slotPresent
    constructor
    · rintro ⟨⟨_, h8⟩, h, h9⟩
      exact ⟨h, h8, h9⟩
    · rintro ⟨h, h8, h9⟩
      exact ⟨⟨by omega, h8⟩, h, h9⟩
  unfold selectEnvMap
  simp only [h89]
  split_ifs <;> exact ⟨rfl, rfl⟩

theorem selectMaterial_fields (p : Plot3D_TriShape) (textures : ℕ → Option DDSTexture)
    (textureCnt : ℕ) :
    (p.selectMaterial textures textureCnt).debugMode = p.debugMode ∧
    (p.selectMaterial textures textureCnt).drawPixelFunction =
      (if p.flags &&& 0x02 ≠ 0 then .Water
       else if ¬ sameAspect p.textureD p.textureN then .Diffuse
       else if ¬ slotPresent textures textureCnt 4 then .Normal
       else if slotPresent textures textureCnt 8 ∧ slotPresent textures textureCnt 9 then
         .NormalRefl
       else if slotPresent textures textureCnt 6 then .NormalEnvS
       else if slotPresent textures textureCnt 5 then .NormalEnvM
       else .NormalEnv) := by
  unfold selectMaterial
  by_cases hw : p.flags &&& 0x02 ≠ 0
  · rw [if_pos hw, if_pos hw]
    split_ifs <;> exact ⟨rfl, rfl⟩
  · rw [if_neg hw, if_neg hw]
    by_cases ha : ¬ sameAspect p.textureD p.textureN
    · rw [if_pos ha, if_pos ha]
      exact ⟨rfl, rfl⟩
    · rw [if_neg ha, if_neg ha]
      simp only
      by_cases h4 : ¬ slotPresent textures textureCnt 4
      · rw [if_pos h4, if_pos h4]
        exact ⟨rfl, rfl⟩
      · rw [if_neg h4, if_neg h4]
        exact selectEnvMap_fields _ textures textureCnt

theorem sameAspect_iff (textures : ℕ → Option DDSTexture) (textureCnt : ℕ)
    (h0 : slotPresent textures textureCnt 0) :
    sameAspect (if textureCnt ≥ 1 then textures 0 else none)
      (if textureCnt ≥ 2 then textures 1 else none) ↔
    ¬ (¬ slotPresent textures textureCnt 1 ∨ aspectMismatch textures = true) := by
  obtain ⟨h1, hs⟩ := h0
  rw [if_pos h1]
  unfold slotPresent aspectMismatch sameAspect
  by_cases h2 : textureCnt ≥ 2
  · rw [if_pos h2]
    cases hd : textures 0 with
    | none => simp [hd] at hs
    | some d =>
      cases hn : textures 1 with
      | none => simp
      | some n => simp [h2]
  · rw [if_neg h2]
    have : ¬ (textureCnt ≥ 1 + 1) := h2
    cases hd : textures 0 <;> simp [this]

theorem selectShading_drawPixelFunction (p : Plot3D_TriShape) (lightX lightY lightZ : ℚ)
    (textures : ℕ → Option DDSTexture) (textureCnt : ℕ)
    (hg : p.drawGuard textures textureCnt) :
    (p.selectShading lightX lightY lightZ textures textureCnt).drawPixelFunction =
      shadingDecision p.debugMode (decide (p.flags &&& 0x02 ≠ 0)) textures textureCnt := by
  have hb := bindTextures_fields (p.resetShading lightX lightY lightZ) textures textureCnt
  have hm := selectMaterial_fields
    ((p.resetShading lightX lightY lightZ).bindTextures textures textureCnt) textures textureCnt
  have hdm : (((p.resetShading lightX lightY lightZ).bindTextures textures
      textureCnt).selectMaterial textures textureCnt).debugMode = p.debugMode := by
    rw [hm.1, hb.2.1]
    rfl
  unfold selectShading shadingDecision
  simp only
  rw [hdm]
  by_cases hdbg : p.debugMode = 0
  · have hnd : ¬ (p.debugMode ≠ 0) := not_not.mpr hdbg
    rw [if_neg hnd, if_neg hnd, hm.2, hb.1, hb.2.2.1, hb.2.2.2]
    have hf : (p.resetShading lightX lightY lightZ).flags = p.flags := rfl
    have hD : (p.resetShading lightX lightY lightZ).textureD = none := rfl
    have hN : (p.resetShading lightX lightY lightZ).textureN = none := rfl
    rw [hf, hD, hN]
    by_cases hw : p.flags &&& 0x02 ≠ 0
    · simp only [hw, if_true, decide_True, not_false_eq_true, ne_eq]
    · have h0 : slotPresent textures textureCnt 0 := by
        rcases hg with h | h
        · exact h
        · exact absurd h hw
      rw [if_neg hw]
      have hwd : decide (p.flags &&& 0x02 ≠ 0) = false := by simpa using hw
      rw [hwd]
      simp only [Bool.false_eq_true, if_false]
      by_cases hs : sameAspect (if textureCnt ≥ 1 then textures 0 else none)
          (if textureCnt ≥ 2 then textures 1 else none)
      · have hs2 := (sameAspect_iff textures textureCnt h0).mp hs
        rw [if_neg (not_not.mpr hs), if_neg hs2]
      · have hs2 : ¬ slotPresent textures textureCnt 1 ∨ aspectMismatch textures = true := by
          by_contra hc
          exact hs ((sameAspect_iff textures textureCnt h0).mpr hc)
        rw [if_pos hs, if_pos hs2]
  · rw [if_pos hdbg, if_pos hdbg]

theorem transformVertexData_flags (E : Ext) (p : Plot3D_TriShape)
    (mt vt : NIFVertexTransform) (lx ly lz : ℚ) :
    (p.transformVertexData E mt vt lx ly lz).p.flags = p.flags ∧
    (p.transformVertexData E mt vt lx ly lz).p.debugMode = p.debugMode := by
  unfold transformVertexData
  simp only
  split_ifs <;> exact ⟨rfl, rfl⟩



theorem transformVertexData_outside (E : Ext) (p : Plot3D_TriShape)
    (mt vt : NIFVertexTransform) (lx ly lz : ℚ)
    (h : p.boundsOutside (p.transformedBounds E mt vt)) :
    p.transformVertexData E mt vt lx ly lz =
      { p := { p with
          vertexBuf := (List.range p.vertexCnt).map
              (p.transformVertex (p.combinedTransform mt vt)) ++ p.vertexBuf.drop p.vertexCnt
          triangleBuf := [] }
        lightX := lx, lightY := ly, lightZ := lz } := by
  unfold transformVertexData
  simp only
  rw [if_pos h]

/-- C9: for a mesh whose transformed vertex bounds lie entirely outside the visible volume
(`xMin ≥ width - 0.5`, `xMax < -0.5`, `yMin ≥ height - 0.5`, `yMax < -0.5`, `zMin ≥ 16777216`
or `zMax < 0`), `transformVertexData` returns 0 with an empty triangle list, and `drawTriShape`
changes nothing but the vertex and triangle work buffers and the view transform pointer: the
colour buffer, the depth buffer, the bound textures and the shading parameters are as
before. -/
theorem drawTriShape_outside (E : Ext) (p : Plot3D_TriShape)
    (mt vt : NIFVertexTransform) (lx ly lz : ℚ) (textures : ℕ → Option DDSTexture)
    (textureCnt : ℕ)
    (h : p.boundsOutside (p.transformedBounds E mt vt)) :
    (p.transformVertexData E mt vt lx ly lz).p.triangleBuf.length = 0 ∧
    (p.transformVertexData E mt vt lx ly lz).p.triangleBuf = [] ∧
    (p.drawTriShape E mt vt lx ly lz textures textureCnt).stripWorkBuffers
      = p.stripWorkBuffers := by
  refine ⟨?_, ?_, ?_⟩
  · rw [transformVertexData_outside E p mt vt lx ly lz h]
    rfl
  · rw [transformVertexData_outside E p mt vt lx ly lz h]
  · have h2 : ({ p with viewTransformPtr := some vt } : Plot3D_TriShape).boundsOutside
        (({ p with viewTransformPtr := some vt } : Plot3D_TriShape).transformedBounds E mt vt) :=
      h
    have h3 := transformVertexData_outside E _ mt vt lx ly lz h2
    unfold drawTriShape
    by_cases hg : p.drawGuard textures textureCnt
    · rw [if_neg (not_not.mpr hg)]
      dsimp only
      rw [h3]
      rfl
    · rw [if_pos hg]

theorem drawTriShape_outside_witness :
    (offscreenMesh.transformVertexData sampleExt NIFVertexTransform.identity
        NIFVertexTransform.identity 0 0 1).p.triangleBuf.length = 0 ∧
    (offscreenMesh.transformVertexData sampleExt NIFVertexTransform.identity
        NIFVertexTransform.identity 0 0 1).p.triangleBuf = [] ∧
    (drawSample offscreenMesh).stripWorkBuffers = offscreenMesh.stripWorkBuffers :=
  drawTriShape_outside sampleExt offscreenMesh NIFVertexTransform.identity
    NIFVertexTransform.identity 0 0 1 whiteTextures 1 (by decide!)

theorem transformVertexData_viewTransformPtr (E : Ext) (p : Plot3D_TriShape)
    (x : Option NIFVertexTransform) (mt vt : NIFVertexTransform) (lx ly lz : ℚ) :
    ({ p with viewTransformPtr := x } : Plot3D_TriShape).transformVertexData E mt vt lx ly lz =
      { p := { (p.transformVertexData E mt vt lx ly lz).p with viewTransformPtr := x }
        lightX := (p.transformVertexData E mt vt lx ly lz).lightX
        lightY := (p.transformVertexData E mt vt lx ly lz).lightY
        lightZ := (p.transformVertexData E mt vt lx ly lz).lightZ } := by
  unfold transformVertexData
  by_cases h : p.boundsOutside (p.transformedBounds E mt vt)
  · have h2 : ({ p with viewTransformPtr := x } : Plot3D_TriShape).boundsOutside
        (({ p with viewTransformPtr := x } : Plot3D_TriShape).transformedBounds E mt vt) := h
    dsimp only
    rw [if_pos h, if_pos h2]
    rfl
  · have h2 : ¬ ({ p with viewTransformPtr := x } : Plot3D_TriShape).boundsOutside
        (({ p with viewTransformPtr := x } : Plot3D_TriShape).transformedBounds E mt vt) := h
    dsimp only
    rw [if_neg h, if_neg h2]
    by_cases hw : p.flags &&& 0x02 ≠ 0
    · rw [if_pos hw, if_pos hw]
      rfl
    · rw [if_neg hw, if_neg hw]
      rfl


/-- C7: for every call of `drawTriShape` that is not aborted (the guard of line 922 holds and
`transformVertexData` returns a non-zero triangle count), the shading function selected is the
one given by the decision list `shadingDecision`: debug mode, water, Diffuse (no normal map in
slot 1 or aspect-ratio mismatch), Normal (no environment map in slot 4), NormalRefl (slots 8
and 9), NormalEnvS (slot 6), NormalEnvM (slot 5), NormalEnv; first match wins. -/
theorem drawTriShape_shading (E : Ext) (p : Plot3D_TriShape)
    (mt vt : NIFVertexTransform) (lx ly lz : ℚ) (textures : ℕ → Option DDSTexture)
    (textureCnt : ℕ)
    (hg : p.drawGuard textures textureCnt)
    (hn : (p.transformVertexData E mt vt lx ly lz).p.triangleBuf.length ≠ 0) :
    (p.drawTriShape E mt vt lx ly lz textures textureCnt).drawPixelFunction =
      shadingDecision p.debugMode (decide (p.flags &&& 0x02 ≠ 0)) textures textureCnt := by
  have hf := transformVertexData_flags E p mt vt lx ly lz
  unfold drawTriShape
  rw [if_neg (not_not.mpr hg)]
  dsimp only
  rw [transformVertexData_viewTransformPtr]
  dsimp only
  rw [if_neg hn, drawPixelFunction_drawTriangles, selectShading_drawPixelFunction]
  · show shadingDecision (p.transformVertexData E mt vt lx ly lz).p.debugMode
      (decide ((p.transformVertexData E mt vt lx ly lz).p.flags &&& 0x02 ≠ 0)) textures textureCnt = _
    rw [hf.1, hf.2]
  · show slotPresent textures textureCnt 0 ∨
      (p.transformVertexData E mt vt lx ly lz).p.flags &&& 0x02 ≠ 0
    rw [hf.1]
    exact hg

theorem drawTriShape_shading_witness :
    (drawSample sliverMesh).drawPixelFunction = DrawPixelFunction.Diffuse :=
  drawTriShape_shading sampleExt sliverMesh NIFVertexTransform.identity
    NIFVertexTransform.identity 0 0 1 whiteTextures 1 (by decide!) (by decide!)


/-! ### Coverage of the scanline loop in exact arithmetic -/

theorem truncInt_start_le (q : ℚ) (n : ℤ) (h : q ≤ n) :
    truncInt (q + (if q < 0 then -(1 / 2000000) else 1999999 / 2000000)) ≤ n := by
  unfold truncInt
  by_cases hq : q < 0
  · rw [if_pos hq]
    have : ¬ (0 ≤ q + -(1 / 2000000)) := by linarith
    rw [if_neg this]
    rw [Int.ceil_le]
    linarith
  · rw [if_neg hq]
    have : 0 ≤ q + 1999999 / 2000000 := by linarith
    rw [if_pos this]
    have h2 : ⌊q + 1999999 / 2000000⌋ < n + 1 := by
      rw [Int.floor_lt]
      push_cast
      linarith
    omega

theorem le_truncInt_end (q : ℚ) (n : ℤ) (h : (n : ℚ) ≤ q) :
    n ≤ truncInt (q + (if q < 0 then -(1999999 / 2000000) else 1 / 2000000)) := by
  unfold truncInt
  by_cases hq : q < 0
  · rw [if_pos hq]
    have : ¬ (0 ≤ q + -(1999999 / 2000000)) := by linarith
    rw [if_neg this]
    have h2 : n - 1 < ⌈q + -(1999999 / 2000000)⌉ := by
      rw [Int.lt_ceil]
      push_cast
      linarith
    omega
  · rw [if_neg hq]
    have : 0 ≤ q + 1 / 2000000 := by linarith
    rw [if_pos this]
    rw [Int.le_floor]
    linarith

theorem pixelLoop_mem (v0 v1 v2 : NIFVertex) (t : TriangleUV) (y xStep : ℤ) (w1Step w2Step : ℚ) :
    ∀ (fuel : ℕ) (x : ℤ) (w1 w2 : ℚ) (j : ℕ), j < fuel →
      (∀ i : ℕ, i ≤ j →
        1 - ((w1 + i * w1Step) + (w2 + i * w2Step)) ≥ -(1 / 1000000) ∧
        (w2 + i * w2Step) ≥ -(1 / 1000000)) →
      ∃ f ∈ pixelLoop v0 v1 v2 t y xStep w1Step w2Step fuel x w1 w2,
        f.x = x + j * xStep ∧ f.y = y ∧ f.w1 = w1 + j * w1Step ∧ f.w2 = w2 + j * w2Step ∧
        f.w0 = 1 - ((w1 + j * w1Step) + (w2 + j * w2Step)) ∧
        f.v0 = v0 ∧ f.v1 = v1 ∧ f.v2 = v2 := by
  intro fuel
  induction fuel with
  | zero => intro x w1 w2 j hj; omega
  | succ n ih =>
    intro x w1 w2 j hj hc
    have h0 := hc 0 (Nat.zero_le _)
    simp only [Nat.cast_zero, zero_mul, add_zero] at h0
    unfold pixelLoop
    simp only
    rw [if_pos h0]
    cases j with
    | zero =>
      refine ⟨_, List.mem_cons_self _ _, ?_⟩
      simp
    | succ j =>
      have hc2 : ∀ i : ℕ, i ≤ j →
          1 - ((w1 + w1Step + i * w1Step) + (w2 + w2Step + i * w2Step)) ≥ -(1 / 1000000) ∧
          (w2 + w2Step + i * w2Step) ≥ -(1 / 1000000) := by
        intro i hi
        have := hc (i + 1) (by omega)
        push_cast at this
        constructor
        · have h := this.1
          linarith
        · have h := this.2
          linarith
      obtain ⟨f, hf, e1, e2, e3, e4, e5, e6⟩ :=
        ih (x + xStep) (w1 + w1Step) (w2 + w2Step) j (by omega) hc2
      refine ⟨f, List.mem_cons_of_mem _ hf, ?_, e2, ?_, ?_, ?_, e6⟩
      · rw [e1]; push_cast; ring
      · rw [e3]; push_cast; ring
      · rw [e4]; push_cast; ring
      · rw [e5]; push_cast; ring


theorem lt_pixelLoopBound (j : ℕ) (w1 w1Step : ℚ) (hs : 0 < w1Step)
    (h : w1 + j * w1Step ≤ 1) : j < pixelLoopBound w1 w1Step := by
  unfold pixelLoopBound
  have h1 : (j : ℚ) ≤ (1000002 / 1000000 - w1) / w1Step := by
    rw [le_div_iff₀ hs]
    linarith
  have h2 : (j : ℤ) ≤ ⌈(1000002 / 1000000 - w1) / w1Step⌉ := by
    have := Int.le_ceil ((1000002 / 1000000 - w1) / w1Step)
    have h3 : ((j : ℤ) : ℚ) ≤ ((⌈(1000002 / 1000000 - w1) / w1Step⌉ : ℤ) : ℚ) := by
      push_cast
      linarith
    exact_mod_cast h3
  omega

/-- The pixels of one row: stepping from the start pixel in the direction of growing `w1`
reaches every pixel whose three weights are non-negative. -/
theorem scanRow_mem (v0 v1 v2 : NIFVertex) (t : TriangleUV) (c : ScanCoeffs) (y x : ℤ)
    (hb1 : c.b1 = -((c.x2 - c.x0) * c.a1)) (hb2 : c.b2 = 1 - ((c.x2 - c.x0) * c.a2))
    (hw1s : c.w1Step = if c.a1 < 0 then -c.a1 else c.a1)
    (hw2s : c.w2Step = if c.a1 < 0 then -c.a2 else c.a2)
    (hxs : c.xStep = if c.a1 < 0 then -1 else 1)
    (ha1 : c.a1 ≠ 0) (h12 : c.a1 * c.a2 ≤ 0) (h10 : 0 ≤ c.a1 * (c.a1 + c.a2))
    (hW1 : 0 ≤ ((x : ℚ) - c.x0) * c.a1 + (((y : ℚ) - c.y0) * c.dy2) * c.b1)
    (hW2 : 0 ≤ ((x : ℚ) - c.x0) * c.a2 + (((y : ℚ) - c.y0) * c.dy2) * c.b2)
    (hW0 : 0 ≤ 1 - ((((x : ℚ) - c.x0) * c.a1 + (((y : ℚ) - c.y0) * c.dy2) * c.b1)
      + (((x : ℚ) - c.x0) * c.a2 + (((y : ℚ) - c.y0) * c.dy2) * c.b2))) :
    ∃ f ∈ scanRow v0 v1 v2 t c y, f.x = x ∧ f.y = y ∧
      f.w1 = ((x : ℚ) - c.x0) * c.a1 + (((y : ℚ) - c.y0) * c.dy2) * c.b1 ∧
      f.w2 = ((x : ℚ) - c.x0) * c.a2 + (((y : ℚ) - c.y0) * c.dy2) * c.b2 ∧
      f.w0 = 1 - (f.w1 + f.w2) ∧ f.v0 = v0 ∧ f.v1 = v1 ∧ f.v2 = v2 := by
  unfold scanRow
  simp only
  set yf : ℚ := ((y : ℚ) - c.y0) * c.dy2 with hyf
  set xe : ℚ := (c.x2 - c.x0) * yf + c.x0 with hxe
  set xs : ℤ := roundFloat xe with hxs0
  have hr1 := roundFloat_le_add_half xe
  have hr2 := sub_half_le_roundFloat xe
  rw [← hxs0] at hr1 hr2
  clear_value xs xe yf
  -- the weights as functions of the pixel
  have eW1 : ∀ q : ℚ, (q - c.x0) * c.a1 + yf * c.b1 = (q - xe) * c.a1 := by
    intro q; rw [hb1, hxe]; ring
  have eW2 : ∀ q : ℚ, (q - c.x0) * c.a2 + yf * c.b2 = (q - xe) * c.a2 + yf := by
    intro q; rw [hb2, hxe]; ring
  rw [eW1] at hW1 hW0 ⊢
  rw [eW2] at hW2 hW0 ⊢
  simp only [eW1, eW2]
  rcases lt_or_gt_of_ne ha1 with hneg | hpos
  · -- a1 < 0 : the row is scanned to the left
    have hs1 : c.w1Step = -c.a1 := by rw [hw1s, if_pos hneg]
    have hs2 : c.w2Step = -c.a2 := by rw [hw2s, if_pos hneg]
    have hs : c.xStep = -1 := by rw [hxs, if_pos hneg]
    have hstp : 0 < -c.a1 := by linarith
    have ha2 : 0 ≤ c.a2 := by
      by_contra hc
      push_neg at hc
      have := mul_pos_of_neg_of_neg hneg hc
      linarith
    have ha0 : c.a1 + c.a2 ≤ 0 := by
      by_contra hc
      push_neg at hc
      have := mul_neg_of_neg_of_pos hneg hc
      linarith
    have hxle : (x : ℚ) ≤ xe := by
      by_contra hc
      push_neg at hc
      have := mul_neg_of_pos_of_neg (sub_pos.mpr hc) hneg
      linarith
    rw [hs1, hs2, hs]
    have main : ∀ (xb : ℤ) (j : ℕ), x = xb - j →
        ∃ f ∈ pixelLoop v0 v1 v2 t y (-1) (-c.a1) (-c.a2)
          (pixelLoopBound (((xb : ℚ) - xe) * c.a1) (-c.a1)) xb (((xb : ℚ) - xe) * c.a1)
          (((xb : ℚ) - xe) * c.a2 + yf),
          f.x = x ∧ f.y = y ∧ f.w1 = ((x : ℚ) - xe) * c.a1 ∧
          f.w2 = ((x : ℚ) - xe) * c.a2 + yf ∧ f.w0 = 1 - (f.w1 + f.w2) ∧
          f.v0 = v0 ∧ f.v1 = v1 ∧ f.v2 = v2 := by
      intro xb j hj
      have hjq : (x : ℚ) = (xb : ℚ) - (j : ℚ) := by rw [hj]; push_cast; ring
      rw [hjq] at hW0 hW2
      obtain ⟨f, hf, e1, e2, e3, e4, e5, e6⟩ := pixelLoop_mem v0 v1 v2 t y (-1) (-c.a1) (-c.a2)
        (pixelLoopBound (((xb : ℚ) - xe) * c.a1) (-c.a1)) xb (((xb : ℚ) - xe) * c.a1)
        (((xb : ℚ) - xe) * c.a2 + yf) j
        (by
          apply lt_pixelLoopBound _ _ _ hstp
          have e : ((xb : ℚ) - xe) * c.a1 + (j : ℚ) * (-c.a1) = ((xb : ℚ) - j - xe) * c.a1 := by
            ring
          rw [e]
          linarith)
        (by
          intro i hi
          have hiq : (i : ℚ) ≤ (j : ℚ) := by exact_mod_cast hi
          have p1 := mul_nonneg (sub_nonneg.mpr hiq) (neg_nonneg.mpr ha0)
          have p2 := mul_nonneg (sub_nonneg.mpr hiq) ha2
          constructor
          · have e : 1 - ((((xb : ℚ) - xe) * c.a1 + (i : ℚ) * (-c.a1))
                + (((xb : ℚ) - xe) * c.a2 + yf + (i : ℚ) * (-c.a2)))
                = (1 - ((((xb : ℚ) - j - xe) * c.a1) + (((xb : ℚ) - j - xe) * c.a2 + yf)))
                  + ((j : ℚ) - i) * (-(c.a1 + c.a2)) := by ring
            rw [e]
            linarith
          · have e : ((xb : ℚ) - xe) * c.a2 + yf + (i : ℚ) * (-c.a2)
                = (((xb : ℚ) - j - xe) * c.a2 + yf) + ((j : ℚ) - i) * c.a2 := by ring
            rw [e]
            linarith)
      refine ⟨f, hf, ?_, e2, ?_, ?_, ?_, e6⟩
      · rw [e1, hj]; ring
      · rw [e3, hjq]; ring
      · rw [e4, hjq]; ring
      · rw [e5, e3, e4]
    by_cases hstep : ((xs : ℚ) - xe) * c.a1 ≥ -(1 / 1000000)
    · rw [if_pos hstep, if_pos hstep]
      have hxx : x ≤ xs := by
        have : (x : ℚ) < (xs : ℚ) + 1 := by linarith
        have : x < xs + 1 := by exact_mod_cast this
        omega
      exact main xs (xs - x).toNat (by omega)
    · rw [if_neg hstep, if_neg hstep]
      have hlt : xe < (xs : ℚ) := by
        by_contra hc
        push_neg at hc
        have := mul_nonneg_of_nonpos_of_nonpos (sub_nonpos.mpr hc) hneg.le
        apply hstep
        linarith
      have hxx : x ≤ xs - 1 := by
        have : (x : ℚ) < (xs : ℚ) := by linarith
        have : x < xs := by exact_mod_cast this
        omega
      have := main (xs + -1) ((xs + -1) - x).toNat (by omega)
      have e : (((xs + -1 : ℤ) : ℚ) - xe) * c.a1 = ((xs : ℚ) - xe) * c.a1 + -c.a1 := by
        push_cast; ring
      rw [e] at this
      exact this
  · -- a1 > 0 : the row is scanned to the right
    have hs1 : c.w1Step = c.a1 := by rw [hw1s, if_neg (not_lt.mpr hpos.le)]
    have hs2 : c.w2Step = c.a2 := by rw [hw2s, if_neg (not_lt.mpr hpos.le)]
    have hs : c.xStep = 1 := by rw [hxs, if_neg (not_lt.mpr hpos.le)]
    have ha2 : c.a2 ≤ 0 := by
      by_contra hc
      push_neg at hc
      have := mul_pos hpos hc
      linarith
    have ha0 : 0 ≤ c.a1 + c.a2 := by
      by_contra hc
      push_neg at hc
      have := mul_neg_of_pos_of_neg hpos hc
      linarith
    have hxge : xe ≤ (x : ℚ) := by
      by_contra hc
      push_neg at hc
      have := mul_neg_of_neg_of_pos (sub_neg.mpr hc) hpos
      linarith
    rw [hs1, hs2, hs]
    -- the loop started at pixel `xb` with weights of `xb` reaches `x = xb + j`
    have main : ∀ (xb : ℤ) (j : ℕ), x = xb + j →
        ∃ f ∈ pixelLoop v0 v1 v2 t y 1 c.a1 c.a2
          (pixelLoopBound (((xb : ℚ) - xe) * c.a1) c.a1) xb (((xb : ℚ) - xe) * c.a1)
          (((xb : ℚ) - xe) * c.a2 + yf),
          f.x = x ∧ f.y = y ∧ f.w1 = ((x : ℚ) - xe) * c.a1 ∧
          f.w2 = ((x : ℚ) - xe) * c.a2 + yf ∧ f.w0 = 1 - (f.w1 + f.w2) ∧
          f.v0 = v0 ∧ f.v1 = v1 ∧ f.v2 = v2 := by
      intro xb j hj
      have hjq : (x : ℚ) = (xb : ℚ) + (j : ℚ) := by rw [hj]; push_cast; ring
      rw [hjq] at hW0 hW2
      obtain ⟨f, hf, e1, e2, e3, e4, e5, e6⟩ := pixelLoop_mem v0 v1 v2 t y 1 c.a1 c.a2
        (pixelLoopBound (((xb : ℚ) - xe) * c.a1) c.a1) xb (((xb : ℚ) - xe) * c.a1)
        (((xb : ℚ) - xe) * c.a2 + yf) j
        (by
          apply lt_pixelLoopBound _ _ _ hpos
          have e : ((xb : ℚ) - xe) * c.a1 + (j : ℚ) * c.a1 = ((xb : ℚ) + j - xe) * c.a1 := by
            ring
          rw [e]
          linarith)
        (by
          intro i hi
          have hiq : (i : ℚ) ≤ (j : ℚ) := by exact_mod_cast hi
          have p1 := mul_nonneg (sub_nonneg.mpr hiq) ha0
          have p2 := mul_nonneg (sub_nonneg.mpr hiq) (neg_nonneg.mpr ha2)
          constructor
          · have e : 1 - ((((xb : ℚ) - xe) * c.a1 + (i : ℚ) * c.a1)
                + (((xb : ℚ) - xe) * c.a2 + yf + (i : ℚ) * c.a2))
                = (1 - ((((xb : ℚ) + j - xe) * c.a1) + (((xb : ℚ) + j - xe) * c.a2 + yf)))
                  + ((j : ℚ) - i) * (c.a1 + c.a2) := by ring
            rw [e]
            linarith
          · have e : ((xb : ℚ) - xe) * c.a2 + yf + (i : ℚ) * c.a2
                = (((xb : ℚ) + j - xe) * c.a2 + yf) + ((j : ℚ) - i) * (-c.a2) := by ring
            rw [e]
            linarith)
      refine ⟨f, hf, ?_, e2, ?_, ?_, ?_, e6⟩
      · rw [e1, hj]; ring
      · rw [e3, hjq]; ring
      · rw [e4, hjq]; ring
      · rw [e5, e3, e4]
    by_cases hstep : ((xs : ℚ) - xe) * c.a1 ≥ -(1 / 1000000)
    · rw [if_pos hstep, if_pos hstep]
      have hxx : xs ≤ x := by
        have : (xs : ℚ) < (x : ℚ) + 1 := by linarith
        have : xs < x + 1 := by exact_mod_cast this
        omega
      exact main xs (x - xs).toNat (by omega)
    · rw [if_neg hstep, if_neg hstep]
      have hlt : (xs : ℚ) < xe := by
        by_contra hc
        push_neg at hc
        have := mul_nonneg (sub_nonneg.mpr hc) hpos.le
        apply hstep
        linarith
      have hxx : xs + 1 ≤ x := by
        have : (xs : ℚ) < (x : ℚ) := by linarith
        have : xs < x := by exact_mod_cast this
        omega
      have := main (xs + 1) (x - (xs + 1)).toNat (by omega)
      have e : (((xs + 1 : ℤ) : ℚ) - xe) * c.a1 = ((xs : ℚ) - xe) * c.a1 + c.a1 := by
        push_cast; ring
      rw [e] at this
      exact this

/-- In exact arithmetic, for a non-degenerate triangle (doubled area at least 2^-20 in absolute
value) whose vertices are sorted by y, the scanline loop `scanline` calls `drawPixel` for every
integer pixel `(x, y)` whose barycentric weights `w0`, `w1`, `w2` with respect to the three
screen-space vertices are all non-negative, and it passes exactly these weights. -/
theorem scanline_covers (v0 v1 v2 : NIFVertex) (t : TriangleUV)
    (h01 : v0.y ≤ v1.y) (h12 : v1.y ≤ v2.y)
    (hD : 1 / 1048576 ≤ |xyArea2Signed v0 v1 v2|)
    (x y : ℤ) (w0 w1 w2 : ℚ) (hsum : w0 + w1 + w2 = 1)
    (hx : w0 * v0.x + w1 * v1.x + w2 * v2.x = (x : ℚ))
    (hy : w0 * v0.y + w1 * v1.y + w2 * v2.y = (y : ℚ))
    (hw0 : 0 ≤ w0) (hw1 : 0 ≤ w1) (hw2 : 0 ≤ w2) :
    ∃ f ∈ scanline v0 v1 v2 t, f.x = x ∧ f.y = y ∧ f.w0 = w0 ∧ f.w1 = w1 ∧ f.w2 = w2 ∧
      f.v0 = v0 ∧ f.v1 = v1 ∧ f.v2 = v2 := by
  have hDne : xyArea2Signed v0 v1 v2 ≠ 0 := by
    intro h0
    rw [h0, abs_zero] at hD
    norm_num at hD
  have hDdef : xyArea2Signed v0 v1 v2
      = ((v1.x - v0.x) * (v2.y - v0.y)) - ((v2.x - v0.x) * (v1.y - v0.y)) := rfl
  have hy20 : v0.y < v2.y := by
    by_contra hc
    push_neg at hc
    have e1 : v1.y = v0.y := le_antisymm (le_trans h12 hc) h01
    have e2 : v2.y = v0.y := le_antisymm hc (le_trans h01 h12)
    apply hDne
    rw [hDdef, e1, e2]
    ring
  have hyne : v2.y - v0.y ≠ 0 := by linarith
  set D := xyArea2Signed v0 v1 v2 with hDs
  -- the barycentric weights in closed form
  have hw0e : w0 = 1 - (w1 + w2) := by linarith
  have e1 : w1 * D = ((x : ℚ) - v0.x) * (v2.y - v0.y) - (v2.x - v0.x) * ((y : ℚ) - v0.y) := by
    rw [hDdef, ← hx, ← hy, hw0e]
    ring
  have e2 : w2 * D = (v1.x - v0.x) * ((y : ℚ) - v0.y) - ((x : ℚ) - v0.x) * (v1.y - v0.y) := by
    rw [hDdef, ← hx, ← hy, hw0e]
    ring
  -- the coefficients of the scanline code
  set c := scanCoeffs v0 v1 v2 with hc
  have ca1 : c.a1 = (v2.y - v0.y) * (1 / D) := rfl
  have ca2 : c.a2 = (v0.y - v1.y) * (1 / D) := rfl
  have cb1 : c.b1 = -((c.x2 - c.x0) * c.a1) := rfl
  have cb2 : c.b2 = 1 - ((c.x2 - c.x0) * c.a2) := rfl
  have cx0 : c.x0 = v0.x := rfl
  have cx2 : c.x2 = v2.x := rfl
  have cy0 : c.y0 = v0.y := rfl
  have cdy2 : c.dy2 = 1 / (v2.y - v0.y) := rfl
  have hW1 : ((x : ℚ) - c.x0) * c.a1 + (((y : ℚ) - c.y0) * c.dy2) * c.b1 = w1 := by
    rw [cb1, ca1, cx0, cx2, cy0, cdy2]
    field_simp
    linear_combination (-(v2.y - v0.y) * D) * e1
  have hW2 : ((x : ℚ) - c.x0) * c.a2 + (((y : ℚ) - c.y0) * c.dy2) * c.b2 = w2 := by
    rw [cb2, ca2, cx0, cx2, cy0, cdy2]
    field_simp
    linear_combination (D * ((y : ℚ) - v0.y)) * hDdef + (-(v2.y - v0.y) * D) * e2
  have hD2 : 0 < D * D := mul_self_pos.mpr hDne
  have hs12 : c.a1 * c.a2 ≤ 0 := by
    rw [ca1, ca2]
    have : (v2.y - v0.y) * (1 / D) * ((v0.y - v1.y) * (1 / D))
        = ((v2.y - v0.y) * (v0.y - v1.y)) / (D * D) := by
      field_simp
    rw [this]
    apply div_nonpos_of_nonpos_of_nonneg _ hD2.le
    exact mul_nonpos_of_nonneg_of_nonpos (by linarith) (by linarith)
  have hs10 : 0 ≤ c.a1 * (c.a1 + c.a2) := by
    rw [ca1, ca2]
    have : (v2.y - v0.y) * (1 / D) * ((v2.y - v0.y) * (1 / D) + (v0.y - v1.y) * (1 / D))
        = ((v2.y - v0.y) * (v2.y - v1.y)) / (D * D) := by
      field_simp
    rw [this]
    apply div_nonneg _ hD2.le
    exact mul_nonneg (by linarith) (by linarith)
  have ha1 : c.a1 ≠ 0 := by
    rw [ca1]
    exact mul_ne_zero hyne (one_div_ne_zero hDne)
  -- the row of the pixel is one of the rows of the loop
  have hyq0 : v0.y ≤ (y : ℚ) := by
    rw [← hy, hw0e]
    have p1 := mul_nonneg hw1 (sub_nonneg.mpr h01)
    have p2 := mul_nonneg hw2 (sub_nonneg.mpr (le_trans h01 h12))
    linarith
  have hyq2 : (y : ℚ) ≤ v2.y := by
    rw [← hy]
    have p0 := mul_nonneg hw0 (sub_nonneg.mpr (le_trans h01 h12))
    have p1 := mul_nonneg hw1 (sub_nonneg.mpr h12)
    have hw2e : w2 = 1 - (w0 + w1) := by linarith
    rw [hw2e]
    linarith
  have hrow1 : c.y ≤ y := truncInt_start_le v0.y y hyq0
  have hrow2 : y ≤ c.yMax := le_truncInt_end v2.y y hyq2
  obtain ⟨f, hf, f1, f2, f3, f4, f5, f6⟩ := scanRow_mem v0 v1 v2 t c y x cb1 cb2 rfl rfl rfl
    ha1 hs12 hs10 (by rw [hW1]; exact hw1) (by rw [hW2]; exact hw2)
    (by rw [hW1, hW2, ← hw0e]; exact hw0)
  have hmem : f ∈ (List.range ((c.yMax - c.y).toNat + 1)).flatMap
      (fun k => scanRow v0 v1 v2 t c (c.y + k)) := by
    rw [List.mem_flatMap]
    refine ⟨(y - c.y).toNat, ?_, ?_⟩
    · rw [List.mem_range]
      omega
    · have : c.y + ((y - c.y).toNat : ℤ) = y := by omega
      rw [this]
      exact hf
  refine ⟨f, hmem, f1, f2, ?_, ?_, ?_, f6⟩
  · rw [f5, f3, f4, hW1, hW2, ← hw0e]
  · rw [f3, hW1]
  · rw [f4, hW2]

theorem scanline_covers_witness :
    ∃ f ∈ scanline (mkVertex 0 0 1) (mkVertex 4 0 1) (mkVertex 0 4 1) default,
      f.x = 1 ∧ f.y = 1 ∧ f.w0 = 1 / 2 ∧ f.w1 = 1 / 4 ∧ f.w2 = 1 / 4 ∧
      f.v0 = mkVertex 0 0 1 ∧ f.v1 = mkVertex 4 0 1 ∧ f.v2 = mkVertex 0 4 1 :=
  scanline_covers (mkVertex 0 0 1) (mkVertex 4 0 1) (mkVertex 0 4 1) default
    (by decide!) (by decide!) (by decide!) 1 1 (1 / 2) (1 / 4) (1 / 4)
    (by decide!) (by decide!) (by decide!) (by decide!) (by decide!) (by decide!)


/-! ### Mip level (C6) -/

theorem fabs_eq_abs (x : ℚ) : fabs x = |x| := by
  unfold fabs
  split_ifs with h
  · rw [abs_of_neg h]
  · rw [abs_of_nonneg (not_lt.mp h)]

theorem truncInt_intCast (n : ℤ) : truncInt (n : ℚ) = n := by
  unfold truncInt
  split_ifs <;> simp

theorem mipLevelBlock_magnified (E : Ext) (tD : DDSTexture) (xyArea2 uvArea2 r2xArea m : ℚ)
    (t : TriangleUV) (hpos : 0 < xyArea2) (huv : 0 ≤ uvArea2)
    (hW : 1 ≤ tD.getWidth) (hH : 1 ≤ tD.getHeight)
    (h : xyArea2 = 4 * (uvArea2 * ((tD.getWidth : ℚ) * (tD.getHeight : ℚ)))) :
    (mipLevelBlock E tD xyArea2 uvArea2 r2xArea m t).mipLevel = 0 := by
  have hWq : (1 : ℚ) ≤ (tD.getWidth : ℚ) := by exact_mod_cast hW
  have hHq : (1 : ℚ) ≤ (tD.getHeight : ℚ) := by exact_mod_cast hH
  have hWH : (1 : ℚ) ≤ (tD.getWidth : ℚ) * (tD.getHeight : ℚ) := by nlinarith
  have huvpos : 0 < uvArea2 := by
    rcases huv.lt_or_eq with h1 | h1
    · exact h1
    · rw [← h1] at h
      simp at h
      linarith
  have h1 : xyArea2 > uvArea2 := by
    have := mul_le_mul_of_nonneg_left hWH huv
    linarith
  have h2 : ¬ (uvArea2 * ((tD.getWidth : ℚ) * (tD.getHeight : ℚ)) > xyArea2) := by
    have := mul_pos huvpos (lt_of_lt_of_le one_pos hWH)
    linarith
  unfold mipLevelBlock
  rw [if_pos h1]
  simp only
  rw [if_neg h2]
  have e0 : truncInt (0 : ℚ) = 0 := by simpa using truncInt_intCast 0
  simp [e0]

theorem mipLevelBlock_minified (E : Ext) (tD : DDSTexture) (xyArea2 uvArea2 r2xArea m : ℚ)
    (t : TriangleUV) (hpos : 0 < xyArea2)
    (hr : |r2xArea| = 1 / xyArea2)
    (hlog : E.log2 4 = 2)
    (hWH : 4 < (tD.getWidth : ℚ) * (tD.getHeight : ℚ))
    (h : uvArea2 * ((tD.getWidth : ℚ) * (tD.getHeight : ℚ)) = 4 * xyArea2) :
    (mipLevelBlock E tD xyArea2 uvArea2 r2xArea m t).mipLevel = 1 := by
  have h1 : xyArea2 > uvArea2 := by
    by_contra hc
    push_neg at hc
    have hp : 0 < (tD.getWidth : ℚ) * (tD.getHeight : ℚ) := by linarith
    have := mul_le_mul_of_nonneg_right hc hp.le
    nlinarith
  have h2 : uvArea2 * ((tD.getWidth : ℚ) * (tD.getHeight : ℚ)) > xyArea2 := by linarith
  have h3 : fabs (r2xArea * (uvArea2 * ((tD.getWidth : ℚ) * (tD.getHeight : ℚ)))) = 4 := by
    rw [fabs_eq_abs, h, abs_mul, hr, abs_of_pos (by linarith : (0 : ℚ) < 4 * xyArea2)]
    field_simp
  unfold mipLevelBlock
  rw [if_pos h1]
  simp only
  rw [if_pos h2, h3, hlog]
  have e1 : truncInt (1 : ℚ) = 1 := by simpa using truncInt_intCast 1
  have e2 : ((2 : ℚ) * (1 / 2)) = 1 := by norm_num
  rw [e2]
  simp [e1]

theorem triangleSetup_mipLevel (E : Ext) (p : Plot3D_TriShape) (tD : DDSTexture)
    (v0 v1 v2 : NIFVertex) (a : ℚ) (hT : p.textureD = some tD) :
    ∃ t, (p.triangleSetup E v0 v1 v2 a).1.mipLevel =
      (mipLevelBlock E tD a (fabs (p.uvArea2Signed v0 v1 v2)) (1 / xyArea2Signed v0 v1 v2)
        p.mipLevel t).mipLevel := by
  unfold triangleSetup
  simp only
  split
  · rename_i hn
    rw [hT] at hn
    cases hn
  · rename_i tD2 hs
    rw [hT] at hs
    cases hs
    split_ifs <;> exact ⟨_, rfl⟩

/-- C6 (amended): the mip level that `drawTriangles` computes for a non-degenerate triangle is 0
when the screen-space area is exactly 4 times the area in texels of the diffuse texture, and
it is 1 when the area in texels is exactly 4 times the screen-space area (for a texture of
more than 4 texels, and a base-2 logarithm that is exact at 4). -/
theorem mipLevel_of_area_ratio (E : Ext) (p : Plot3D_TriShape) (tD : DDSTexture)
    (v0 v1 v2 : NIFVertex) (hT : p.textureD = some tD)
    (hnd : xyArea2Signed v0 v1 v2 ≠ 0)
    (hW : 1 ≤ tD.getWidth) (hH : 1 ≤ tD.getHeight) :
    (|xyArea2Signed v0 v1 v2| =
        4 * (|p.uvArea2Signed v0 v1 v2| * ((tD.getWidth : ℚ) * (tD.getHeight : ℚ))) →
      (p.triangleSetup E v0 v1 v2 (fabs (xyArea2Signed v0 v1 v2))).1.mipLevel = 0) ∧
    (|p.uvArea2Signed v0 v1 v2| * ((tD.getWidth : ℚ) * (tD.getHeight : ℚ)) =
        4 * |xyArea2Signed v0 v1 v2| →
      4 < (tD.getWidth : ℚ) * (tD.getHeight : ℚ) → E.log2 4 = 2 →
      (p.triangleSetup E v0 v1 v2 (fabs (xyArea2Signed v0 v1 v2))).1.mipLevel = 1) := by
  obtain ⟨t, ht⟩ := triangleSetup_mipLevel E p tD v0 v1 v2 (fabs (xyArea2Signed v0 v1 v2)) hT
  have hpos : 0 < |xyArea2Signed v0 v1 v2| := abs_pos.mpr hnd
  rw [ht, fabs_eq_abs, fabs_eq_abs]
  constructor
  · intro h
    exact mipLevelBlock_magnified E tD _ _ _ _ t hpos (abs_nonneg _) hW hH h
  · intro h hWH hlog
    refine mipLevelBlock_minified E tD _ _ _ _ t hpos ?_ hlog hWH h
    rw [abs_div, abs_one]

theorem mipLevel_of_area_ratio_witness :
    (magnifiedTriangle.triangleSetup sampleExt (mkVertexUV 0 0 0 0) (mkVertexUV 4 0 (1 / 2) 0)
      (mkVertexUV 0 4 0 (1 / 2))
      (fabs (xyArea2Signed (mkVertexUV 0 0 0 0) (mkVertexUV 4 0 (1 / 2) 0)
        (mkVertexUV 0 4 0 (1 / 2))))).1.mipLevel = 0 ∧
    (magnifiedTriangle.triangleSetup sampleExt (mkVertexUV 0 0 0 0) (mkVertexUV 1 0 (1 / 2) 0)
      (mkVertexUV 0 1 0 (1 / 2))
      (fabs (xyArea2Signed (mkVertexUV 0 0 0 0) (mkVertexUV 1 0 (1 / 2) 0)
        (mkVertexUV 0 1 0 (1 / 2))))).1.mipLevel = 1 :=
  ⟨(mipLevel_of_area_ratio sampleExt magnifiedTriangle whiteTexture4 (mkVertexUV 0 0 0 0)
      (mkVertexUV 4 0 (1 / 2) 0) (mkVertexUV 0 4 0 (1 / 2)) rfl (by decide!) (by decide)
      (by decide)).1 (by decide!),
   (mipLevel_of_area_ratio sampleExt magnifiedTriangle whiteTexture4 (mkVertexUV 0 0 0 0)
      (mkVertexUV 1 0 (1 / 2) 0) (mkVertexUV 0 1 0 (1 / 2)) rfl (by decide!) (by decide)
      (by decide)).2 (by decide!) (by decide!) (by decide!)⟩

/-- C6 (counterexample): a triangle whose screen-space area (doubled: 16) is exactly 4 times
its area in texels of the 4x4 diffuse texture (doubled: 4) gets mip level 0, not 1. -/
theorem mipLevel_counterexample :
    fabs (xyArea2Signed (magnifiedTriangle.vertexAt 0) (magnifiedTriangle.vertexAt 1)
        (magnifiedTriangle.vertexAt 2)) =
      4 * (fabs (magnifiedTriangle.uvArea2Signed (magnifiedTriangle.vertexAt 0)
        (magnifiedTriangle.vertexAt 1) (magnifiedTriangle.vertexAt 2)) * (4 * 4)) ∧
    (magnifiedTriangle.triangleFragments sampleExt ⟨3, 0⟩).1.mipLevel = 0 ∧
    (magnifiedTriangle.triangleFragments sampleExt ⟨3, 0⟩).1.mipLevel ≠ 1 ∧
    (magnifiedTriangle.drawTriangle sampleExt ⟨3, 0⟩).mipLevel ≠ 1 := by
  decide!


/-! ### Culling in `threadFunction` (C10) -/

open Renderer

theorem sortEntry_ts (F : Flags) (mt : NIFVertexTransform) (vo : List ℤ) (n i : ℕ)
    (m : NIFTriShape) (e : TriShapeSortObject) (h : sortEntry F mt vo n i m = some e) :
    e.ts = i := by
  unfold sortEntry at h
  by_cases h1 : m.flags &&& F.Flag_TSHidden ≠ 0
  · rw [if_pos h1] at h
    cases h
  · rw [if_neg h1] at h
    by_cases h2 : culled (m.calculateBounds mt) vo n
    · simp only [h2, if_true] at h
      cases h
    · simp only [h2, if_false, Option.some.injEq] at h
      rw [← h]

theorem sortEntry_isSome_iff (F : Flags) (mt : NIFVertexTransform) (vo : List ℤ) (n i : ℕ)
    (m : NIFTriShape) :
    (∃ e, sortEntry F mt vo n i m = some e) ↔
      (¬ isHidden F m ∧ ¬ culled (m.calculateBounds mt) vo n) := by
  unfold sortEntry isHidden
  split_ifs with h1 h2
  · simp [h1]
  · simp [h1, h2]
  · simp [h1, h2]

theorem sortBufFrom_mem (F : Flags) (mt : NIFVertexTransform) (vo : List ℤ) (n : ℕ)
    (e : TriShapeSortObject) :
    ∀ (l : List NIFTriShape) (k : ℕ),
      e ∈ sortBufFrom F mt vo n k l ↔
        ∃ j m, l[j]? = some m ∧ sortEntry F mt vo n (k + j) m = some e := by
  intro l
  induction l with
  | nil =>
    intro k
    simp [sortBufFrom]
  | cons a l ih =>
    intro k
    have hstep : (∃ j m, (a :: l)[j]? = some m ∧ sortEntry F mt vo n (k + j) m = some e) ↔
        (sortEntry F mt vo n k a = some e ∨
          ∃ j m, l[j]? = some m ∧ sortEntry F mt vo n (k + 1 + j) m = some e) := by
      constructor
      · rintro ⟨j, m, hj, he⟩
        cases j with
        | zero =>
          simp only [List.getElem?_cons_zero, Option.some.injEq] at hj
          subst hj
          exact Or.inl he
        | succ j =>
          simp only [List.getElem?_cons_succ] at hj
          refine Or.inr ⟨j, m, hj, ?_⟩
          have : k + 1 + j = k + (j + 1) := by omega
          rw [this]
          exact he
      · rintro (he | ⟨j, m, hj, he⟩)
        · exact ⟨0, a, by simp, he⟩
        · refine ⟨j + 1, m, by simpa using hj, ?_⟩
          have : k + (j + 1) = k + 1 + j := by omega
          rw [this]
          exact he
    rw [hstep]
    unfold sortBufFrom
    cases hs : sortEntry F mt vo n k a with
    | none =>
      simp only [ih (k + 1)]
      simp
    | some e2 =>
      simp only [List.mem_cons, ih (k + 1), Option.some.injEq]
      constructor
      · rintro (h | h)
        · exact Or.inl h.symm
        · exact Or.inr h
      · rintro (h | h)
        · exact Or.inl h.symm
        · exact Or.inr h

theorem not_culled_iff (b : NIFBounds) (vo : List ℤ) (n : ℕ) :
    ¬ culled b vo n ↔
      (0 ≤ roundFloat b.xMax ∧ roundFloat b.yMin ≤ vo.getD (n + 1) 0 ∧
        vo.getD n 0 ≤ roundFloat b.yMax ∧ 0 ≤ b.zMax) := by
  unfold culled
  simp only [not_or, not_lt, gt_iff_lt]

/-- C10 (amended): `Renderer::threadFunction` puts mesh `i` in the draw list of band `n` if and
only if the mesh is not hidden and its transformed bounds, rounded to the nearest integer,
satisfy `roundFloat(xMax) ≥ 0`, `roundFloat(yMin) ≤ viewOffsetY[n+1]`,
`roundFloat(yMax) ≥ viewOffsetY[n]`, and `zMax ≥ 0`; in particular every mesh that is not
hidden and not entirely outside the band's y-range, not entirely left of `x = 0` and not
entirely behind the near plane is in the list. -/
theorem sortBuf_mem_iff (F : Flags) (modelTransform viewTransform : NIFVertexTransform)
    (viewOffsetY : List ℤ) (n : ℕ) (meshData : List NIFTriShape) (i : ℕ) (m : NIFTriShape)
    (hm : meshData[i]? = some m) :
    ((∃ e ∈ sortBuf F modelTransform viewTransform viewOffsetY n meshData, e.ts = i) ↔
      (¬ isHidden F m ∧
        0 ≤ roundFloat (m.calculateBounds (modelTransform.mul viewTransform)).xMax ∧
        roundFloat (m.calculateBounds (modelTransform.mul viewTransform)).yMin
          ≤ viewOffsetY.getD (n + 1) 0 ∧
        viewOffsetY.getD n 0
          ≤ roundFloat (m.calculateBounds (modelTransform.mul viewTransform)).yMax ∧
        0 ≤ (m.calculateBounds (modelTransform.mul viewTransform)).zMax)) ∧
    ((¬ isHidden F m ∧
        visibleInBand (m.calculateBounds (modelTransform.mul viewTransform)) viewOffsetY n) →
      ∃ e ∈ sortBuf F modelTransform viewTransform viewOffsetY n meshData, e.ts = i) := by
  have key : (∃ e ∈ sortBuf F modelTransform viewTransform viewOffsetY n meshData, e.ts = i) ↔
      (¬ isHidden F m ∧
        ¬ culled (m.calculateBounds (modelTransform.mul viewTransform)) viewOffsetY n) := by
    rw [← sortEntry_isSome_iff F (modelTransform.mul viewTransform) viewOffsetY n i m]
    unfold sortBuf
    constructor
    · rintro ⟨e, he, hts⟩
      rw [sortBufFrom_mem] at he
      obtain ⟨j, m2, hj, hs⟩ := he
      have h1 := sortEntry_ts _ _ _ _ _ _ _ hs
      have hji : j = i := by omega
      subst hji
      rw [hm] at hj
      cases hj
      refine ⟨e, ?_⟩
      simpa using hs
    · rintro ⟨e, he⟩
      refine ⟨e, ?_, sortEntry_ts _ _ _ _ _ _ _ he⟩
      rw [sortBufFrom_mem]
      exact ⟨i, m, hm, by simpa using he⟩
  refine ⟨?_, ?_⟩
  · rw [key, not_culled_iff]
  · rintro ⟨hh, hv⟩
    rw [key, not_culled_iff]
    unfold visibleInBand at hv
    obtain ⟨hy, hx, hz⟩ := hv
    simp only [not_or, not_lt, ge_iff_le, not_le] at hy hx
    refine ⟨hh, ?_, ?_, ?_, hz⟩
    · simpa [roundFloat_zero] using roundFloat_mono hx
    · simpa [roundFloat_intCast] using roundFloat_mono hy.2.le
    · simpa [roundFloat_intCast] using roundFloat_mono hy.1

theorem sortBuf_mem_iff_witness :
    (∃ e ∈ sortBuf sampleFlags NIFVertexTransform.identity NIFVertexTransform.identity
      (viewOffsetY 8 640 480) 1 [lowMesh], e.ts = 0) :=
  (sortBuf_mem_iff sampleFlags NIFVertexTransform.identity NIFVertexTransform.identity
    (viewOffsetY 8 640 480) 1 [lowMesh] 0 lowMesh rfl).2 (by decide!)

/-- C10 (counterexample): with the band boundaries of a 640x480 image and 8 bands, band 0 has
the rows 0..104; a mesh whose bounds span the rows 105.25..110 lies entirely outside that
y-range, and is nevertheless put in the draw list of band 0. -/
theorem cull_counterexample :
    ¬ ((∃ e ∈ sortBuf sampleFlags NIFVertexTransform.identity NIFVertexTransform.identity
          (viewOffsetY 8 640 480) 0 [lowMesh], e.ts = 0) ↔
        (¬ isHidden sampleFlags lowMesh ∧
          visibleInBand (lowMesh.calculateBounds
            (NIFVertexTransform.identity.mul NIFVertexTransform.identity))
            (viewOffsetY 8 640 480) 0)) := by
  decide!

/-! ### Removal of a rejected triangle, and independence of the previous draw state -/

section withWork
variable (E : Ext) (p : Plot3D_TriShape) (tc : ℕ) (td : ℕ → NIFTriangle) (vb : List NIFVertex)
  (tb : List Triangle)

theorem pixelOffs_withWork (x y : ℤ) :
    (p.withWork tc td vb tb).pixelOffs x y = p.pixelOffs x y := rfl

theorem diffuseColor_withWork (tD : DDSTexture) (u v : ℚ) (z : NIFVertex) :
    (p.withWork tc td vb tb).diffuseColor tD u v z = p.diffuseColor tD u v z := rfl

theorem diffuseShade_withWork (c : ℕ) (z : NIFVertex) :
    (p.withWork tc td vb tb).diffuseShade E c z = p.diffuseShade E c z := rfl

theorem normalMap_withWork (a b c : ℚ) (n : ℕ) :
    (p.withWork tc td vb tb).normalMap E a b c n = p.normalMap E a b c n := rfl

theorem environmentMap_withWork (a b c : ℚ) (x y : ℤ) (s : ℕ) :
    (p.withWork tc td vb tb).environmentMap a b c x y s = p.environmentMap a b c x y s := rfl

theorem addReflectionM_withWork (c e m : ℕ) :
    (p.withWork tc td vb tb).addReflectionM E c e m = p.addReflectionM E c e m := rfl

theorem addReflectionR_withWork (c e m : ℕ) :
    (p.withWork tc td vb tb).addReflectionR c e m = p.addReflectionR c e m := rfl

theorem callDrawPixelFunction_withWork (x y : ℤ) (txtU txtV : ℚ) (z : NIFVertex) :
    (p.withWork tc td vb tb).callDrawPixelFunction E x y txtU txtV z =
      (p.callDrawPixelFunction E x y txtU txtV z).withWork tc td vb tb := by
  unfold callDrawPixelFunction
  show (match p.drawPixelFunction with
    | .Water => (p.withWork tc td vb tb).drawPixel_Water E x y txtU txtV z
    | .Debug => (p.withWork tc td vb tb).drawPixel_Debug E x y txtU txtV z
    | .Diffuse => (p.withWork tc td vb tb).drawPixel_Diffuse E x y txtU txtV z
    | .Normal => (p.withWork tc td vb tb).drawPixel_Normal E x y txtU txtV z
    | .NormalEnv => (p.withWork tc td vb tb).drawPixel_NormalEnv E x y txtU txtV z
    | .NormalEnvM => (p.withWork tc td vb tb).drawPixel_NormalEnvM E x y txtU txtV z
    | .NormalEnvS => (p.withWork tc td vb tb).drawPixel_NormalEnvS E x y txtU txtV z
    | .NormalRefl => (p.withWork tc td vb tb).drawPixel_NormalRefl E x y txtU txtV z) = _
  cases p.drawPixelFunction
  · rfl
  · simp only [drawPixel_Debug]
    simp only [pixelOffs_withWork, diffuseColor_withWork, diffuseShade_withWork,
      normalMap_withWork, environmentMap_withWork, addReflectionM_withWork,
      addReflectionR_withWork]
    dsimp only [withWork]
    split
    · rfl
    · split_ifs <;> rfl
  all_goals
    simp only [drawPixel_Diffuse, drawPixel_Normal, drawPixel_NormalEnv, drawPixel_NormalEnvM,
      drawPixel_NormalEnvS, drawPixel_NormalRefl]
    simp only [pixelOffs_withWork, diffuseColor_withWork, diffuseShade_withWork,
      normalMap_withWork, environmentMap_withWork, addReflectionM_withWork,
      addReflectionR_withWork]
    dsimp only [withWork]
    split
    · rfl
    · split_ifs <;> rfl

theorem drawPixel_withWork (f : Fragment) :
    (p.withWork tc td vb tb).drawPixel E f = (p.drawPixel E f).withWork tc td vb tb := by
  unfold drawPixel
  rw [callDrawPixelFunction_withWork]
  rw [pixelOffs_withWork]
  dsimp only [withWork]
  split_ifs <;> rfl

theorem foldl_drawPixel_withWork (fs : List Fragment) :
    ∀ p : Plot3D_TriShape, fs.foldl (drawPixel E) (p.withWork tc td vb tb) =
      (fs.foldl (drawPixel E) p).withWork tc td vb tb := by
  induction fs with
  | nil => intro p; rfl
  | cons f fs ih =>
    intro p
    rw [List.foldl_cons, List.foldl_cons, drawPixel_withWork, ih]

theorem triangleSetup_withWork (v0 v1 v2 : NIFVertex) (a : ℚ) :
    (p.withWork tc td vb tb).triangleSetup E v0 v1 v2 a =
      ((p.triangleSetup E v0 v1 v2 a).1.withWork tc td vb tb,
        (p.triangleSetup E v0 v1 v2 a).2) := by
  unfold triangleSetup
  dsimp only [withWork]
  split
  · rfl
  · split_ifs <;> rfl

theorem triangleFragmentsV_withWork (v0 v1 v2 : NIFVertex) :
    (p.withWork tc td vb tb).triangleFragmentsV E v0 v1 v2 =
      ((p.triangleFragmentsV E v0 v1 v2).1.withWork tc td vb tb,
        (p.triangleFragmentsV E v0 v1 v2).2) := by
  unfold triangleFragmentsV
  have h : ∀ a : ℚ, (p.withWork tc td vb tb).triangleInit a =
      (p.triangleInit a).withWork tc td vb tb := fun _ => rfl
  simp only [h, triangleSetup_withWork]
  split_ifs <;> rfl

theorem drawTriangle_withWork (t t2 : Triangle)
    (h0 : vb.getD (td t2.n).v0 default = p.vertexBuf.getD (p.triangleData t.n).v0 default)
    (h1 : vb.getD (td t2.n).v1 default = p.vertexBuf.getD (p.triangleData t.n).v1 default)
    (h2 : vb.getD (td t2.n).v2 default = p.vertexBuf.getD (p.triangleData t.n).v2 default) :
    (p.withWork tc td vb tb).drawTriangle E t2 = (p.drawTriangle E t).withWork tc td vb tb := by
  unfold drawTriangle triangleFragments
  have e0 : (p.withWork tc td vb tb).vertexAt ((p.withWork tc td vb tb).triangleData t2.n).v0
      = p.vertexAt (p.triangleData t.n).v0 := h0
  have e1 : (p.withWork tc td vb tb).vertexAt ((p.withWork tc td vb tb).triangleData t2.n).v1
      = p.vertexAt (p.triangleData t.n).v1 := h1
  have e2 : (p.withWork tc td vb tb).vertexAt ((p.withWork tc td vb tb).triangleData t2.n).v2
      = p.vertexAt (p.triangleData t.n).v2 := h2
  rw [e0, e1, e2, triangleFragmentsV_withWork]
  exact foldl_drawPixel_withWork E tc td vb tb _ _

end withWork

theorem drawTriangle_keeps (E : Ext) (p : Plot3D_TriShape) (t : Triangle) :
    (p.drawTriangle E t).vertexBuf = p.vertexBuf ∧
    (p.drawTriangle E t).triangleData = p.triangleData := by
  have h := strip_drawTriangle E p t
  have h1 := congrArg Plot3D_TriShape.vertexBuf h
  have h2 := congrArg Plot3D_TriShape.triangleData h
  exact ⟨h1, h2⟩

/-- Simulation of the triangle loop: two runs over triangle lists that fetch the same vertices
stay equal up to the triangle array and the work buffers. -/
theorem foldl_drawTriangle_withWork (E : Ext) (tc : ℕ) (td : ℕ → NIFTriangle)
    (vb : List NIFVertex) (tb : List Triangle) (vb0 : List NIFVertex) (td0 : ℕ → NIFTriangle) :
    ∀ (l : List (Triangle × Triangle)) (p : Plot3D_TriShape),
      p.vertexBuf = vb0 → p.triangleData = td0 →
      (∀ tt ∈ l,
        vb.getD (td tt.2.n).v0 default = vb0.getD (td0 tt.1.n).v0 default ∧
        vb.getD (td tt.2.n).v1 default = vb0.getD (td0 tt.1.n).v1 default ∧
        vb.getD (td tt.2.n).v2 default = vb0.getD (td0 tt.1.n).v2 default) →
      (l.map Prod.snd).foldl (drawTriangle E) (p.withWork tc td vb tb) =
        ((l.map Prod.fst).foldl (drawTriangle E) p).withWork tc td vb tb := by
  intro l
  induction l with
  | nil => intro p _ _ _; rfl
  | cons tt l ih =>
    intro p hvb htd hl
    obtain ⟨h0, h1, h2⟩ := hl tt (List.mem_cons_self _ _)
    rw [← hvb, ← htd] at h0 h1 h2
    simp only [List.map_cons, List.foldl_cons]
    rw [drawTriangle_withWork E p tc td vb tb tt.1 tt.2 h0 h1 h2]
    have hk := drawTriangle_keeps E p tt.1
    exact ih (p.drawTriangle E tt.1) (by rw [hk.1, hvb]) (by rw [hk.2, htd])
      (fun x hx => hl x (List.mem_cons_of_mem _ hx))

theorem triangleEntry_index (p : Plot3D_TriShape) (vb : List NIFVertex) (i j : ℕ)
    (t : NIFTriangle) :
    p.triangleEntry vb i t = (p.triangleEntry vb j t).map (fun x => { x with n := i }) := by
  unfold triangleEntry
  simp only
  split_ifs <;> rfl

theorem triangleEntry_n (p : Plot3D_TriShape) (vb : List NIFVertex) (i : ℕ)
    (t : NIFTriangle) (e : Triangle) (h : p.triangleEntry vb i t = some e) : e.n = i := by
  unfold triangleEntry at h
  simp only at h
  split_ifs at h
  cases h
  rfl

theorem triangleEntry_valid (p : Plot3D_TriShape) (vb : List NIFVertex) (i : ℕ)
    (t : NIFTriangle) (e : Triangle) (h : p.triangleEntry vb i t = some e) :
    t.v0 < p.vertexCnt ∧ t.v1 < p.vertexCnt ∧ t.v2 < p.vertexCnt := by
  unfold triangleEntry at h
  simp only at h
  split_ifs at h with h1
  simp only [not_or, not_le, ge_iff_le] at h1
  exact h1

theorem truncInt_neg_of_le (x : ℚ) (h : x ≤ -1) : truncInt x < 0 := by
  unfold truncInt
  have : ¬ (0 ≤ x) := by linarith
  rw [if_neg this]
  have h2 : ⌈x⌉ ≤ -1 := by
    rw [Int.ceil_le]
    simpa using h
  omega

theorem le_truncInt_of_le (x : ℚ) (w : ℤ) (h : (w : ℚ) ≤ x) : w ≤ truncInt x := by
  unfold truncInt
  split_ifs with h0
  · exact Int.le_floor.mpr h
  · have h1 : (w : ℚ) ≤ (⌈x⌉ : ℚ) := le_trans h (Int.le_ceil x)
    exact_mod_cast h1

theorem triangleEntry_rejectedOutside (p : Plot3D_TriShape) (vb : List NIFVertex) (i : ℕ)
    (t : NIFTriangle)
    (h : p.rejectedOutside (vb.getD t.v0 default) (vb.getD t.v1 default)
      (vb.getD t.v2 default)) :
    p.triangleEntry vb i t = none := by
  have key : (truncInt (vb.getD t.v0 default).x < 0 ∧
        truncInt (vb.getD t.v1 default).x < 0 ∧ truncInt (vb.getD t.v2 default).x < 0) ∨
      (truncInt (vb.getD t.v0 default).x ≥ p.width ∧
          truncInt (vb.getD t.v1 default).x ≥ p.width ∧
          truncInt (vb.getD t.v2 default).x ≥ p.width) ∨
      (truncInt (vb.getD t.v0 default).y < 0 ∧
            truncInt (vb.getD t.v1 default).y < 0 ∧ truncInt (vb.getD t.v2 default).y < 0) ∨
      (truncInt (vb.getD t.v0 default).y ≥ p.height ∧
              truncInt (vb.getD t.v1 default).y ≥ p.height ∧
              truncInt (vb.getD t.v2 default).y ≥ p.height) ∨
      ((vb.getD t.v0 default).z < 0 ∧ (vb.getD t.v1 default).z < 0 ∧
        (vb.getD t.v2 default).z < 0) := by
    rcases h with h | h | h | h | h
    · exact Or.inl ⟨truncInt_neg_of_le _ h.1, truncInt_neg_of_le _ h.2.1,
        truncInt_neg_of_le _ h.2.2⟩
    · exact Or.inr (Or.inl ⟨le_truncInt_of_le _ _ h.1, le_truncInt_of_le _ _ h.2.1,
        le_truncInt_of_le _ _ h.2.2⟩)
    · exact Or.inr (Or.inr (Or.inl ⟨truncInt_neg_of_le _ h.1, truncInt_neg_of_le _ h.2.1,
        truncInt_neg_of_le _ h.2.2⟩))
    · exact Or.inr (Or.inr (Or.inr (Or.inl ⟨le_truncInt_of_le _ _ h.1,
        le_truncInt_of_le _ _ h.2.1, le_truncInt_of_le _ _ h.2.2⟩)))
    · exact Or.inr (Or.inr (Or.inr (Or.inr h)))
  unfold triangleEntry
  simp only
  split_ifs <;> rfl

theorem filterMap_range_remove (g : ℕ → Option Triangle) (k : ℕ) (hk : g k = none)
    (hg : ∀ i t, g i = some t → t.n = i) (m : ℕ) :
    (m ≤ k → (List.range m).filterMap
        (fun i => (g (if i < k then i else i + 1)).map (fun x => { x with n := i })) =
      ((List.range m).filterMap g).map (renumber k)) ∧
    (k ≤ m → (List.range m).filterMap
        (fun i => (g (if i < k then i else i + 1)).map (fun x => { x with n := i })) =
      ((List.range (m + 1)).filterMap g).map (renumber k)) := by
  induction m with
  | zero =>
    refine ⟨fun _ => rfl, fun h => ?_⟩
    have : k = 0 := by omega
    subst this
    simp [List.range_succ, hk]
  | succ m ih =>
    have h1 : m + 1 ≤ k → (List.range (m + 1)).filterMap
        (fun i => (g (if i < k then i else i + 1)).map (fun x => { x with n := i })) =
      ((List.range (m + 1)).filterMap g).map (renumber k) := by
      intro h
      have hm : m < k := by omega
      rw [List.range_succ, List.filterMap_append, List.filterMap_append, List.map_append,
        ih.1 (by omega)]
      congr 1
      cases hgm : g m with
      | none => simp [hgm, hm]
      | some t =>
        have := hg m t hgm
        subst this
        simp [hgm, hm, renumber]
    refine ⟨h1, ?_⟩
    intro h
    by_cases hm : m < k
    · have hkm : k = m + 1 := by omega
      rw [h1 (by omega)]
      conv_rhs => rw [List.range_succ, List.filterMap_append, List.map_append]
      have : List.filterMap g [m + 1] = [] := by
        rw [← hkm]
        simp [hk]
      rw [this]
      simp
    · conv_rhs => rw [List.range_succ, List.filterMap_append, List.map_append]
      conv_lhs => rw [List.range_succ, List.filterMap_append]
      rw [ih.2 (by omega)]
      congr 1
      cases hgm : g (m + 1) with
      | none => simp [hgm, hm]
      | some t =>
        have := hg (m + 1) t hgm
        have h2 : ¬ (t.n < k) := by omega
        have h3 : ¬ (m + 1 < k) := by omega
        simp [hgm, hm, renumber, h3, this]

theorem sortTriangles_map_renumber (k : ℕ) (l : List Triangle) :
    sortTriangles (l.map (renumber k)) = (sortTriangles l).map (renumber k) := by
  unfold sortTriangles
  exact (List.map_insertionSort _ _ (renumber k) l (fun a _ b _ => Iff.rfl)).symm

theorem mem_sortTriangles (l : List Triangle) (t : Triangle) :
    t ∈ sortTriangles l ↔ t ∈ l := by
  unfold sortTriangles
  exact (List.perm_insertionSort _ l).mem_iff

section shadingWithWork
variable (p : Plot3D_TriShape) (tc : ℕ) (td : ℕ → NIFTriangle) (vb : List NIFVertex)
  (tb : List Triangle) (textures : ℕ → Option DDSTexture) (textureCnt : ℕ)

theorem bindTextures_withWork :
    (p.withWork tc td vb tb).bindTextures textures textureCnt =
      (p.bindTextures textures textureCnt).withWork tc td vb tb := by
  unfold bindTextures
  dsimp only
  split_ifs <;> rfl

theorem selectEnvMap_withWork :
    (p.withWork tc td vb tb).selectEnvMap textures textureCnt =
      (p.selectEnvMap textures textureCnt).withWork tc td vb tb := by
  unfold selectEnvMap
  dsimp only
  split_ifs <;> rfl

theorem selectMaterial_withWork :
    (p.withWork tc td vb tb).selectMaterial textures textureCnt =
      (p.selectMaterial textures textureCnt).withWork tc td vb tb := by
  unfold selectMaterial
  by_cases hw : p.flags &&& 0x02 ≠ 0
  · have hw2 : (p.withWork tc td vb tb).flags &&& 0x02 ≠ 0 := hw
    rw [if_pos hw, if_pos hw2]
    by_cases hn : p.textureN.isNone = true
    · have hn2 : (p.withWork tc td vb tb).textureN.isNone = true := hn
      dsimp only
      rw [if_pos hn, if_pos hn2]
      rfl
    · have hn2 : ¬ (p.withWork tc td vb tb).textureN.isNone = true := hn
      dsimp only
      rw [if_neg hn, if_neg hn2]
      rfl
  · have hw2 : ¬ ((p.withWork tc td vb tb).flags &&& 0x02 ≠ 0) := hw
    rw [if_neg hw, if_neg hw2]
    by_cases ha : ¬ sameAspect p.textureD p.textureN
    · have ha2 : ¬ sameAspect (p.withWork tc td vb tb).textureD
          (p.withWork tc td vb tb).textureN := ha
      rw [if_pos ha, if_pos ha2]
      rfl
    · have ha2 : ¬ ¬ sameAspect (p.withWork tc td vb tb).textureD
          (p.withWork tc td vb tb).textureN := ha
      rw [if_neg ha, if_neg ha2]
      dsimp only
      by_cases h4 : ¬ slotPresent textures textureCnt 4
      · rw [if_pos h4, if_pos h4]
        rfl
      · rw [if_neg h4, if_neg h4]
        have h := selectEnvMap_withWork
          ({ p with textureScaleN := widthRatio p.textureN p.textureD } : Plot3D_TriShape)
          tc td vb tb textures textureCnt
        exact h

theorem selectShading_withWork (lx ly lz : ℚ) :
    (p.withWork tc td vb tb).selectShading lx ly lz textures textureCnt =
      (p.selectShading lx ly lz textures textureCnt).withWork tc td vb tb := by
  unfold selectShading
  have h1 : (p.withWork tc td vb tb).resetShading lx ly lz =
      (p.resetShading lx ly lz).withWork tc td vb tb := rfl
  rw [h1, bindTextures_withWork, selectMaterial_withWork]
  dsimp only
  by_cases hd : (((p.resetShading lx ly lz).bindTextures textures textureCnt).selectMaterial
      textures textureCnt).debugMode ≠ 0
  · have hd2 : ((((p.resetShading lx ly lz).bindTextures textures textureCnt).selectMaterial
      textures textureCnt).withWork tc td vb tb).debugMode ≠ 0 := hd
    rw [if_pos hd, if_pos hd2]
    rfl
  · have hd2 : ¬ ((((p.resetShading lx ly lz).bindTextures textures textureCnt).selectMaterial
      textures textureCnt).withWork tc td vb tb).debugMode ≠ 0 := hd
    rw [if_neg hd, if_neg hd2]

end shadingWithWork

theorem bindTextures_work (p : Plot3D_TriShape) (textures : ℕ → Option DDSTexture)
    (textureCnt : ℕ) :
    (p.bindTextures textures textureCnt).vertexBuf = p.vertexBuf ∧
    (p.bindTextures textures textureCnt).triangleBuf = p.triangleBuf ∧
    (p.bindTextures textures textureCnt).triangleData = p.triangleData ∧
    (p.bindTextures textures textureCnt).bufZ = p.bufZ ∧
    (p.bindTextures textures textureCnt).bufRGBW = p.bufRGBW := by
  unfold bindTextures
  dsimp only
  split_ifs <;> exact ⟨rfl, rfl, rfl, rfl, rfl⟩

theorem selectEnvMap_work (p : Plot3D_TriShape) (textures : ℕ → Option DDSTexture)
    (textureCnt : ℕ) :
    (p.selectEnvMap textures textureCnt).vertexBuf = p.vertexBuf ∧
    (p.selectEnvMap textures textureCnt).triangleBuf = p.triangleBuf ∧
    (p.selectEnvMap textures textureCnt).triangleData = p.triangleData ∧
    (p.selectEnvMap textures textureCnt).bufZ = p.bufZ ∧
    (p.selectEnvMap textures textureCnt).bufRGBW = p.bufRGBW := by
  unfold selectEnvMap
  dsimp only
  split_ifs <;> exact ⟨rfl, rfl, rfl, rfl, rfl⟩

theorem selectMaterial_work (p : Plot3D_TriShape) (textures : ℕ → Option DDSTexture)
    (textureCnt : ℕ) :
    (p.selectMaterial textures textureCnt).vertexBuf = p.vertexBuf ∧
    (p.selectMaterial textures textureCnt).triangleBuf = p.triangleBuf ∧
    (p.selectMaterial textures textureCnt).triangleData = p.triangleData ∧
    (p.selectMaterial textures textureCnt).bufZ = p.bufZ ∧
    (p.selectMaterial textures textureCnt).bufRGBW = p.bufRGBW := by
  unfold selectMaterial
  by_cases hw : p.flags &&& 0x02 ≠ 0
  · rw [if_pos hw]
    dsimp only
    split_ifs <;> exact ⟨rfl, rfl, rfl, rfl, rfl⟩
  · rw [if_neg hw]
    by_cases ha : ¬ sameAspect p.textureD p.textureN
    · rw [if_pos ha]
      exact ⟨rfl, rfl, rfl, rfl, rfl⟩
    · rw [if_neg ha]
      dsimp only
      by_cases h4 : ¬ slotPresent textures textureCnt 4
      · rw [if_pos h4]
        exact ⟨rfl, rfl, rfl, rfl, rfl⟩
      · rw [if_neg h4]
        have h := selectEnvMap_work
          ({ p with textureScaleN := widthRatio p.textureN p.textureD } : Plot3D_TriShape)
          textures textureCnt
        exact h

theorem selectShading_work (p : Plot3D_TriShape) (lx ly lz : ℚ)
    (textures : ℕ → Option DDSTexture) (textureCnt : ℕ) :
    (p.selectShading lx ly lz textures textureCnt).vertexBuf = p.vertexBuf ∧
    (p.selectShading lx ly lz textures textureCnt).triangleBuf = p.triangleBuf ∧
    (p.selectShading lx ly lz textures textureCnt).triangleData = p.triangleData ∧
    (p.selectShading lx ly lz textures textureCnt).bufZ = p.bufZ ∧
    (p.selectShading lx ly lz textures textureCnt).bufRGBW = p.bufRGBW := by
  have h1 := selectMaterial_work ((p.resetShading lx ly lz).bindTextures textures textureCnt)
    textures textureCnt
  have h2 := bindTextures_work (p.resetShading lx ly lz) textures textureCnt
  unfold selectShading
  dsimp only
  split_ifs
  · exact ⟨h1.1.trans h2.1, h1.2.1.trans h2.2.1, h1.2.2.1.trans h2.2.2.1,
      h1.2.2.2.1.trans h2.2.2.2.1, h1.2.2.2.2.trans h2.2.2.2.2⟩
  · exact ⟨h1.1.trans h2.1, h1.2.1.trans h2.2.1, h1.2.2.1.trans h2.2.2.1,
      h1.2.2.2.1.trans h2.2.2.2.1, h1.2.2.2.2.trans h2.2.2.2.2⟩

theorem transformVertexData_inside (E : Ext) (p : Plot3D_TriShape)
    (mt vt : NIFVertexTransform) (lx ly lz : ℚ)
    (h : ¬ p.boundsOutside (p.transformedBounds E mt vt)) :
    p.transformVertexData E mt vt lx ly lz =
      { p := { p.vertexPass mt vt with
          triangleBuf := sortTriangles ((List.range p.triangleCnt).filterMap fun i =>
            (p.vertexPass mt vt).triangleEntry (p.vertexPass mt vt).vertexBuf i
              (p.triangleData i)) }
        lightX := (vt.rotateXYZ lx ly lz).1
        lightY := (vt.rotateXYZ lx ly lz).2.1
        lightZ := (vt.rotateXYZ lx ly lz).2.2 } := by
  unfold transformVertexData vertexPass
  dsimp only
  rw [if_neg h]
  by_cases hw : p.flags &&& 0x02 ≠ 0
  · rw [if_pos hw]
    rfl
  · rw [if_neg hw]

theorem vertexPass_removeTriangle (p : Plot3D_TriShape) (mt vt : NIFVertexTransform) (k : ℕ) :
    (p.removeTriangle k).vertexPass mt vt = (p.vertexPass mt vt).removeTriangle k := by
  unfold vertexPass
  dsimp only
  by_cases hw : p.flags &&& 0x02 ≠ 0
  · have hw2 : (p.removeTriangle k).flags &&& 0x02 ≠ 0 := hw
    rw [if_pos hw, if_pos hw2]
    rfl
  · have hw2 : ¬ ((p.removeTriangle k).flags &&& 0x02 ≠ 0) := hw
    rw [if_neg hw, if_neg hw2]
    rfl

theorem vertexPass_triangles (p : Plot3D_TriShape) (mt vt : NIFVertexTransform) :
    (p.vertexPass mt vt).triangleCnt = p.triangleCnt ∧
    (p.vertexPass mt vt).triangleData = p.triangleData ∧
    (p.vertexPass mt vt).vertexCnt = p.vertexCnt ∧
    (p.vertexPass mt vt).width = p.width ∧
    (p.vertexPass mt vt).height = p.height ∧
    (p.vertexPass mt vt).flags = p.flags := by
  unfold vertexPass
  dsimp only
  split_ifs <;> exact ⟨rfl, rfl, rfl, rfl, rfl, rfl⟩

theorem mem_triangleBuf (E : Ext) (p : Plot3D_TriShape)
    (mt vt : NIFVertexTransform) (lx ly lz : ℚ) (t : Triangle)
    (h : t ∈ (p.transformVertexData E mt vt lx ly lz).p.triangleBuf) :
    ¬ p.boundsOutside (p.transformedBounds E mt vt) ∧
    (p.vertexPass mt vt).triangleEntry (p.vertexPass mt vt).vertexBuf t.n
      (p.triangleData t.n) = some t := by
  by_cases ho : p.boundsOutside (p.transformedBounds E mt vt)
  · rw [transformVertexData_outside E p mt vt lx ly lz ho] at h
    simp at h
  · refine ⟨ho, ?_⟩
    rw [transformVertexData_inside E p mt vt lx ly lz ho] at h
    dsimp only at h
    rw [mem_sortTriangles, List.mem_filterMap] at h
    obtain ⟨i, _, hi⟩ := h
    have := triangleEntry_n _ _ _ _ _ hi
    rw [this]
    exact hi

theorem transformVertexData_removeTriangle (E : Ext) (p : Plot3D_TriShape)
    (mt vt : NIFVertexTransform) (lx ly lz : ℚ) (k : ℕ) (hk : k < p.triangleCnt)
    (hrej : ¬ p.boundsOutside (p.transformedBounds E mt vt) →
      (p.vertexPass mt vt).triangleEntry (p.vertexPass mt vt).vertexBuf k
        (p.triangleData k) = none) :
    (p.removeTriangle k).transformVertexData E mt vt lx ly lz =
      { p := (p.transformVertexData E mt vt lx ly lz).p.withWork (p.triangleCnt - 1)
          (p.removeTriangle k).triangleData
          (p.transformVertexData E mt vt lx ly lz).p.vertexBuf
          ((p.transformVertexData E mt vt lx ly lz).p.triangleBuf.map (renumber k))
        lightX := (p.transformVertexData E mt vt lx ly lz).lightX
        lightY := (p.transformVertexData E mt vt lx ly lz).lightY
        lightZ := (p.transformVertexData E mt vt lx ly lz).lightZ } := by
  by_cases ho : p.boundsOutside (p.transformedBounds E mt vt)
  · have ho2 : (p.removeTriangle k).boundsOutside
        ((p.removeTriangle k).transformedBounds E mt vt) := ho
    rw [transformVertexData_outside E p mt vt lx ly lz ho,
      transformVertexData_outside E _ mt vt lx ly lz ho2]
    rfl
  · have ho2 : ¬ (p.removeTriangle k).boundsOutside
        ((p.removeTriangle k).transformedBounds E mt vt) := ho
    rw [transformVertexData_inside E p mt vt lx ly lz ho,
      transformVertexData_inside E _ mt vt lx ly lz ho2, vertexPass_removeTriangle]
    have key := (filterMap_range_remove
      (fun i => (p.vertexPass mt vt).triangleEntry (p.vertexPass mt vt).vertexBuf i
        (p.triangleData i)) k (hrej ho)
      (fun i t h => triangleEntry_n _ _ _ _ _ h) (p.triangleCnt - 1)).2 (by omega)
    have h1 : p.triangleCnt - 1 + 1 = p.triangleCnt := by omega
    rw [h1] at key
    dsimp only
    rw [← sortTriangles_map_renumber, ← key]
    have h2 : (List.range (p.removeTriangle k).triangleCnt).filterMap (fun i =>
        ((p.vertexPass mt vt).removeTriangle k).triangleEntry
          ((p.vertexPass mt vt).removeTriangle k).vertexBuf i
          ((p.removeTriangle k).triangleData i)) =
        (List.range (p.triangleCnt - 1)).filterMap (fun i =>
          ((p.vertexPass mt vt).triangleEntry (p.vertexPass mt vt).vertexBuf
            (if i < k then i else i + 1)
            (p.triangleData (if i < k then i else i + 1))).map
              (fun x => { x with n := i })) := by
      congr 1
      funext i
      rw [← triangleEntry_index]
      have : (p.removeTriangle k).triangleData i =
          p.triangleData (if i < k then i else i + 1) := by
        unfold removeTriangle
        dsimp only
        split_ifs <;> rfl
      rw [this]
      rfl
    rw [h2]
    obtain ⟨hc, hd, -⟩ := vertexPass_triangles p mt vt
    unfold removeTriangle withWork
    dsimp only
    rw [hc, hd]

theorem transformVertexData_mesh (E : Ext) (p : Plot3D_TriShape)
    (mt vt : NIFVertexTransform) (lx ly lz : ℚ) :
    (p.transformVertexData E mt vt lx ly lz).p.triangleData = p.triangleData ∧
    (p.transformVertexData E mt vt lx ly lz).p.vertexCnt = p.vertexCnt ∧
    (p.transformVertexData E mt vt lx ly lz).p.width = p.width ∧
    (p.transformVertexData E mt vt lx ly lz).p.height = p.height ∧
    (p.transformVertexData E mt vt lx ly lz).p.bufZ = p.bufZ ∧
    (p.transformVertexData E mt vt lx ly lz).p.bufRGBW = p.bufRGBW := by
  unfold transformVertexData
  simp only
  split_ifs <;> exact ⟨rfl, rfl, rfl, rfl, rfl, rfl⟩

theorem transformVertexData_vertexBuf (E : Ext) (p : Plot3D_TriShape)
    (mt vt : NIFVertexTransform) (lx ly lz : ℚ)
    (h : ¬ p.boundsOutside (p.transformedBounds E mt vt)) :
    (p.transformVertexData E mt vt lx ly lz).p.vertexBuf = (p.vertexPass mt vt).vertexBuf := by
  rw [transformVertexData_inside E p mt vt lx ly lz h]

theorem removeTriangle_triangleData (p : Plot3D_TriShape) (k : ℕ) (t : Triangle)
    (h : t.n ≠ k) :
    (p.removeTriangle k).triangleData (renumber k t).n = p.triangleData t.n := by
  unfold removeTriangle renumber
  dsimp only
  by_cases h1 : t.n < k
  · rw [if_pos h1, if_pos h1]
  · rw [if_neg h1]
    have h2 : ¬ (t.n - 1 < k) := by omega
    rw [if_neg h2]
    congr 1
    omega

/-- The part of `drawTriShape` that follows the guard of line 922. -/
theorem drawCore_removeTriangle (E : Ext) (p : Plot3D_TriShape)
    (mt vt : NIFVertexTransform) (lx ly lz : ℚ) (textures : ℕ → Option DDSTexture)
    (textureCnt : ℕ) (k : ℕ) (hk : k < p.triangleCnt)
    (hout : (p.transformVertexData E mt vt lx ly lz).p.rejectedOutside
      ((p.transformVertexData E mt vt lx ly lz).p.vertexAt (p.triangleData k).v0)
      ((p.transformVertexData E mt vt lx ly lz).p.vertexAt (p.triangleData k).v1)
      ((p.transformVertexData E mt vt lx ly lz).p.vertexAt (p.triangleData k).v2)) :
    ∃ tc td vb tb,
      (if ((p.removeTriangle k).transformVertexData E mt vt lx ly lz).p.triangleBuf.length = 0
        then ((p.removeTriangle k).transformVertexData E mt vt lx ly lz).p
        else ((((p.removeTriangle k).transformVertexData E mt vt lx ly lz).p.selectShading
          ((p.removeTriangle k).transformVertexData E mt vt lx ly lz).lightX
          ((p.removeTriangle k).transformVertexData E mt vt lx ly lz).lightY
          ((p.removeTriangle k).transformVertexData E mt vt lx ly lz).lightZ
          textures textureCnt).drawTriangles E)) =
      (if (p.transformVertexData E mt vt lx ly lz).p.triangleBuf.length = 0
        then (p.transformVertexData E mt vt lx ly lz).p
        else (((p.transformVertexData E mt vt lx ly lz).p.selectShading
          (p.transformVertexData E mt vt lx ly lz).lightX
          (p.transformVertexData E mt vt lx ly lz).lightY
          (p.transformVertexData E mt vt lx ly lz).lightZ
          textures textureCnt).drawTriangles E)).withWork tc td vb tb := by
  have hrej : ¬ p.boundsOutside (p.transformedBounds E mt vt) →
      (p.vertexPass mt vt).triangleEntry (p.vertexPass mt vt).vertexBuf k
        (p.triangleData k) = none := by
    intro ho
    apply triangleEntry_rejectedOutside
    have hv := transformVertexData_vertexBuf E p mt vt lx ly lz ho
    have hm := transformVertexData_mesh E p mt vt lx ly lz
    have hp := vertexPass_triangles p mt vt
    unfold rejectedOutside vertexAt at hout
    unfold rejectedOutside
    rw [hv, hm.2.2.1, hm.2.2.2.1] at hout
    rw [hp.2.2.2.1, hp.2.2.2.2.1]
    exact hout
  rw [transformVertexData_removeTriangle E p mt vt lx ly lz k hk hrej]
  dsimp only
  generalize hT : p.transformVertexData E mt vt lx ly lz = T at *
  by_cases h0 : T.p.triangleBuf.length = 0
  · have h0b : (T.p.withWork (p.triangleCnt - 1) (p.removeTriangle k).triangleData
        T.p.vertexBuf (T.p.triangleBuf.map (renumber k))).triangleBuf.length = 0 := by
      show (T.p.triangleBuf.map (renumber k)).length = 0
      rw [List.length_map]
      exact h0
    rw [if_pos h0, if_pos h0b]
    exact ⟨_, _, _, _, rfl⟩
  · have h0b : ¬ (T.p.withWork (p.triangleCnt - 1) (p.removeTriangle k).triangleData
        T.p.vertexBuf (T.p.triangleBuf.map (renumber k))).triangleBuf.length = 0 := by
      show ¬ (T.p.triangleBuf.map (renumber k)).length = 0
      rw [List.length_map]
      exact h0
    rw [if_neg h0, if_neg h0b, selectShading_withWork]
    refine ⟨p.triangleCnt - 1, (p.removeTriangle k).triangleData, T.p.vertexBuf,
      T.p.triangleBuf.map (renumber k), ?_⟩
    have hw := selectShading_work T.p T.lightX T.lightY T.lightZ textures textureCnt
    have hfold := foldl_drawTriangle_withWork E (p.triangleCnt - 1)
      (p.removeTriangle k).triangleData T.p.vertexBuf (T.p.triangleBuf.map (renumber k))
      T.p.vertexBuf p.triangleData
      (T.p.triangleBuf.map (fun t => (t, renumber k t)))
      (T.p.selectShading T.lightX T.lightY T.lightZ textures textureCnt)
      hw.1 (by rw [hw.2.2.1, ← hT]; exact (transformVertexData_mesh E p mt vt lx ly lz).1)
      (by
        intro tt htt
        rw [List.mem_map] at htt
        obtain ⟨t, ht, rfl⟩ := htt
        rw [← hT] at ht
        have hm := mem_triangleBuf E p mt vt lx ly lz t ht
        have hne : t.n ≠ k := by
          intro hk2
          have := hrej hm.1
          rw [hk2] at hm
          rw [hm.2] at this
          cases this
        dsimp only
        rw [removeTriangle_triangleData p k t hne]
        exact ⟨rfl, rfl, rfl⟩)
    simp only [List.map_map] at hfold
    have e1 : (Prod.snd ∘ fun t : Triangle => (t, renumber k t)) = renumber k := rfl
    have e2 : (Prod.fst ∘ fun t : Triangle => (t, renumber k t)) = id := rfl
    rw [e1, e2, List.map_id] at hfold
    unfold drawTriangles
    rw [hw.2.1]
    exact hfold

/-- C4 (amended): for every mesh and every triangle `k` of it whose three transformed vertices
all lie in one half-space that the triangle loop of `transformVertexData` rejects (all
`x ≤ -1`, or all `x ≥ width`, or all `y ≤ -1`, or all `y ≥ height`, or all `z < 0`), the
colour and depth buffers after `drawTriShape` are identical to those produced by drawing the
same mesh with that triangle removed. -/
theorem drawTriShape_removeTriangle (E : Ext) (p : Plot3D_TriShape)
    (mt vt : NIFVertexTransform) (lx ly lz : ℚ) (textures : ℕ → Option DDSTexture)
    (textureCnt : ℕ) (k : ℕ) (hk : k < p.triangleCnt)
    (hout : (p.transformVertexData E mt vt lx ly lz).p.rejectedOutside
      ((p.transformVertexData E mt vt lx ly lz).p.vertexAt (p.triangleData k).v0)
      ((p.transformVertexData E mt vt lx ly lz).p.vertexAt (p.triangleData k).v1)
      ((p.transformVertexData E mt vt lx ly lz).p.vertexAt (p.triangleData k).v2)) :
    ((p.removeTriangle k).drawTriShape E mt vt lx ly lz textures textureCnt).bufZ =
      (p.drawTriShape E mt vt lx ly lz textures textureCnt).bufZ ∧
    ((p.removeTriangle k).drawTriShape E mt vt lx ly lz textures textureCnt).bufRGBW =
      (p.drawTriShape E mt vt lx ly lz textures textureCnt).bufRGBW := by
  unfold drawTriShape
  by_cases hg : p.drawGuard textures textureCnt
  · have hg2 : (p.removeTriangle k).drawGuard textures textureCnt := hg
    rw [if_neg (not_not.mpr hg), if_neg (not_not.mpr hg2)]
    have hP := transformVertexData_viewTransformPtr E p (some vt) mt vt lx ly lz
    obtain ⟨tc, td, vb, tb, h⟩ := drawCore_removeTriangle E
      ({ p with viewTransformPtr := some vt } : Plot3D_TriShape) mt vt lx ly lz textures
      textureCnt k hk (by rw [hP]; exact hout)
    have e : ({ p.removeTriangle k with viewTransformPtr := some vt } : Plot3D_TriShape) =
        ({ p with viewTransformPtr := some vt } : Plot3D_TriShape).removeTriangle k := rfl
    dsimp only
    rw [e, h]
    exact ⟨rfl, rfl⟩
  · have hg2 : ¬ (p.removeTriangle k).drawGuard textures textureCnt := hg
    rw [if_pos hg, if_pos hg2]
    exact ⟨rfl, rfl⟩

theorem drawTriShape_removeTriangle_witness :
    ((twoTriangleMesh.removeTriangle 0).drawTriShape sampleExt NIFVertexTransform.identity
        NIFVertexTransform.identity 0 0 1 whiteTextures 1).bufZ =
      (twoTriangleMesh.drawTriShape sampleExt NIFVertexTransform.identity
        NIFVertexTransform.identity 0 0 1 whiteTextures 1).bufZ ∧
    ((twoTriangleMesh.removeTriangle 0).drawTriShape sampleExt NIFVertexTransform.identity
        NIFVertexTransform.identity 0 0 1 whiteTextures 1).bufRGBW =
      (twoTriangleMesh.drawTriShape sampleExt NIFVertexTransform.identity
        NIFVertexTransform.identity 0 0 1 whiteTextures 1).bufRGBW :=
  drawTriShape_removeTriangle sampleExt twoTriangleMesh NIFVertexTransform.identity
    NIFVertexTransform.identity 0 0 1 whiteTextures 1 0 (by decide) (by decide!)

/-- C4 (counterexample): the three transformed vertices of the only triangle of `sliverMesh`
have `x < -0.5` and the depth buffer holds 16777216 everywhere, yet drawing the mesh writes the
depth 1 at the pixel `(0, 1)`, which keeps the depth 16777216 when the mesh is drawn with that
triangle removed. -/
theorem sliver_counterexample :
    (sliverMesh.transformVertexData sampleExt NIFVertexTransform.identity
        NIFVertexTransform.identity 0 0 1).p.fullyOutside
      ((sliverMesh.transformVertexData sampleExt NIFVertexTransform.identity
        NIFVertexTransform.identity 0 0 1).p.vertexAt (sliverMesh.triangleData 0).v0)
      ((sliverMesh.transformVertexData sampleExt NIFVertexTransform.identity
        NIFVertexTransform.identity 0 0 1).p.vertexAt (sliverMesh.triangleData 0).v1)
      ((sliverMesh.transformVertexData sampleExt NIFVertexTransform.identity
        NIFVertexTransform.identity 0 0 1).p.vertexAt (sliverMesh.triangleData 0).v2) ∧
    (∀ i, sliverMesh.bufZ i ≤ 16777216) ∧
    (drawSample sliverMesh).bufZ 1 = 1 ∧
    (drawSample (sliverMesh.removeTriangle 0)).bufZ 1 = 16777216 ∧
    (drawSample sliverMesh).bufZ 1 ≠ (drawSample (sliverMesh.removeTriangle 0)).bufZ 1 := by
  refine ⟨by decide!, fun _ => le_refl _, by decide!, by decide!, by decide!⟩

theorem setWaterUV_ge (uv : ℕ → ℚ × ℚ) (n : ℕ) :
    ∀ (B : List NIFVertex) (i : ℕ), n ≤ i → setWaterUV uv n i B = B := by
  intro B
  induction B with
  | nil => intro i _; rfl
  | cons v vs ih =>
    intro i hi
    have h : ¬ (i < n) := by omega
    simp only [setWaterUV, if_neg h]
    rw [ih (i + 1) (by omega)]

theorem setWaterUV_append (uv : ℕ → ℚ × ℚ) (n : ℕ) (B : List NIFVertex) :
    ∀ (A : List NIFVertex) (i : ℕ), n ≤ i + A.length →
      setWaterUV uv n i (A ++ B) = setWaterUV uv n i A ++ B := by
  intro A
  induction A with
  | nil =>
    intro i hi
    simp only [List.length_nil, Nat.add_zero] at hi
    rw [List.nil_append, setWaterUV_ge uv n B i hi]
    rfl
  | cons v vs ih =>
    intro i hi
    simp only [List.length_cons] at hi
    have h := ih (i + 1) (by omega)
    rw [List.cons_append]
    simp only [setWaterUV]
    rw [h]
    rfl

theorem length_setWaterUV (uv : ℕ → ℚ × ℚ) (n : ℕ) :
    ∀ (A : List NIFVertex) (i : ℕ), (setWaterUV uv n i A).length = A.length := by
  intro A
  induction A with
  | nil => intro i; rfl
  | cons v vs ih =>
    intro i
    simp only [setWaterUV, List.length_cons, ih]

theorem vertexPass_withDrawState (p : Plot3D_TriShape) (mt vt : NIFVertexTransform) :
    ∃ A : List NIFVertex, A.length = p.vertexCnt ∧
      (p.vertexPass mt vt).vertexBuf = A ++ p.vertexBuf.drop p.vertexCnt ∧
      ∀ d : DrawState, (p.withDrawState d).vertexPass mt vt =
        (p.vertexPass mt vt).withDrawState
          { d with vertexBuf := A ++ d.vertexBuf.drop p.vertexCnt, triangleBuf := [] } := by
  unfold vertexPass
  dsimp only
  by_cases hw : p.flags &&& 0x02 ≠ 0
  · rw [if_pos hw]
    refine ⟨setWaterUV (fun i =>
        (((mt.transformXYZ (p.vertexData i).x (p.vertexData i).y (p.vertexData i).z).1
            * (2 / 4096)) -
          (if 0 < p.vertexCnt then (roundFloat
            ((mt.transformXYZ (p.vertexData 0).x (p.vertexData 0).y (p.vertexData 0).z).1
              * (2 / 4096)) : ℚ) else 0),
         ((mt.transformXYZ (p.vertexData i).x (p.vertexData i).y (p.vertexData i).z).2.1
            * (2 / 4096)) -
          (if 0 < p.vertexCnt then (roundFloat
            ((mt.transformXYZ (p.vertexData 0).x (p.vertexData 0).y (p.vertexData 0).z).2.1
              * (2 / 4096)) : ℚ) else 0))) p.vertexCnt 0
        (((List.range p.vertexCnt).map
          (p.transformVertex (p.combinedTransform mt vt))).map
            (p.finishVertex (p.combinedTransform mt vt))), ?_, ?_, ?_⟩
    · rw [length_setWaterUV]
      simp
    · unfold calculateWaterUV
      dsimp only
      rw [setWaterUV_append]
      simp
    · intro d
      have hw2 : (p.withDrawState d).flags &&& 0x02 ≠ 0 := hw
      rw [if_pos hw2]
      unfold calculateWaterUV
      dsimp only
      rw [setWaterUV_append _ _ _ _ _ (by simp)]
      have e : (p.withDrawState d).vertexBuf = d.vertexBuf := rfl
      rw [e]
      have e2 : ∀ A : List NIFVertex, setWaterUV (fun i =>
        (((mt.transformXYZ ((p.withDrawState d).vertexData i).x
            ((p.withDrawState d).vertexData i).y ((p.withDrawState d).vertexData i).z).1
            * (2 / 4096)) -
          (if 0 < (p.withDrawState d).vertexCnt then (roundFloat
            ((mt.transformXYZ ((p.withDrawState d).vertexData 0).x
              ((p.withDrawState d).vertexData 0).y ((p.withDrawState d).vertexData 0).z).1
              * (2 / 4096)) : ℚ) else 0),
         ((mt.transformXYZ ((p.withDrawState d).vertexData i).x
            ((p.withDrawState d).vertexData i).y ((p.withDrawState d).vertexData i).z).2.1
            * (2 / 4096)) -
          (if 0 < (p.withDrawState d).vertexCnt then (roundFloat
            ((mt.transformXYZ ((p.withDrawState d).vertexData 0).x
              ((p.withDrawState d).vertexData 0).y ((p.withDrawState d).vertexData 0).z).2.1
              * (2 / 4096)) : ℚ) else 0))) (p.withDrawState d).vertexCnt 0 A =
        setWaterUV (fun i =>
        (((mt.transformXYZ (p.vertexData i).x (p.vertexData i).y (p.vertexData i).z).1
            * (2 / 4096)) -
          (if 0 < p.vertexCnt then (roundFloat
            ((mt.transformXYZ (p.vertexData 0).x (p.vertexData 0).y (p.vertexData 0).z).1
              * (2 / 4096)) : ℚ) else 0),
         ((mt.transformXYZ (p.vertexData i).x (p.vertexData i).y (p.vertexData i).z).2.1
            * (2 / 4096)) -
          (if 0 < p.vertexCnt then (roundFloat
            ((mt.transformXYZ (p.vertexData 0).x (p.vertexData 0).y (p.vertexData 0).z).2.1
              * (2 / 4096)) : ℚ) else 0))) p.vertexCnt 0 A := fun _ => rfl
      rw [e2]
      rfl
  · rw [if_neg hw]
    refine ⟨((List.range p.vertexCnt).map
          (p.transformVertex (p.combinedTransform mt vt))).map
            (p.finishVertex (p.combinedTransform mt vt)), by simp, rfl, ?_⟩
    intro d
    have hw2 : ¬ (p.withDrawState d).flags &&& 0x02 ≠ 0 := hw
    rw [if_neg hw2]
    rfl

theorem triangleEntry_congr (p q : Plot3D_TriShape) (vb vb2 : List NIFVertex) (i : ℕ)
    (t : NIFTriangle) (hc : q.vertexCnt = p.vertexCnt) (hf : q.flags = p.flags)
    (hw : q.width = p.width) (hh : q.height = p.height)
    (hl : ∀ j, j < p.vertexCnt → vb2.getD j default = vb.getD j default) :
    q.triangleEntry vb2 i t = p.triangleEntry vb i t := by
  unfold triangleEntry
  rw [hc, hf, hw, hh]
  by_cases hr : t.v0 ≥ p.vertexCnt ∨ t.v1 ≥ p.vertexCnt ∨ t.v2 ≥ p.vertexCnt
  · rw [if_pos hr, if_pos hr]
  · rw [if_neg hr, if_neg hr]
    simp only [not_or, not_le, ge_iff_le] at hr
    rw [hl _ hr.1, hl _ hr.2.1, hl _ hr.2.2]

theorem getD_append_left_eq (A X Y : List NIFVertex) (j : ℕ) (h : j < A.length) :
    (A ++ X).getD j default = (A ++ Y).getD j default := by
  rw [List.getD_append _ _ _ _ h, List.getD_append _ _ _ _ h]

theorem transformVertexData_withDrawState (E : Ext) (p : Plot3D_TriShape)
    (mt vt : NIFVertexTransform) (lx ly lz : ℚ) :
    ∃ A : List NIFVertex, A.length = p.vertexCnt ∧
      (p.transformVertexData E mt vt lx ly lz).p.vertexBuf =
        A ++ p.vertexBuf.drop p.vertexCnt ∧
      ∀ d : DrawState, (p.withDrawState d).transformVertexData E mt vt lx ly lz =
        { p := (p.transformVertexData E mt vt lx ly lz).p.withDrawState
            { d with
              vertexBuf := A ++ d.vertexBuf.drop p.vertexCnt
              triangleBuf := (p.transformVertexData E mt vt lx ly lz).p.triangleBuf }
          lightX := (p.transformVertexData E mt vt lx ly lz).lightX
          lightY := (p.transformVertexData E mt vt lx ly lz).lightY
          lightZ := (p.transformVertexData E mt vt lx ly lz).lightZ } := by
  by_cases ho : p.boundsOutside (p.transformedBounds E mt vt)
  · refine ⟨(List.range p.vertexCnt).map (p.transformVertex (p.combinedTransform mt vt)),
      by simp, ?_, ?_⟩
    · rw [transformVertexData_outside E p mt vt lx ly lz ho]
    · intro d
      have ho2 : (p.withDrawState d).boundsOutside
          ((p.withDrawState d).transformedBounds E mt vt) := ho
      rw [transformVertexData_outside E p mt vt lx ly lz ho,
        transformVertexData_outside E _ mt vt lx ly lz ho2]
      rfl
  · obtain ⟨A, hA, hvb, hd⟩ := vertexPass_withDrawState p mt vt
    refine ⟨A, hA, ?_, ?_⟩
    · rw [transformVertexData_inside E p mt vt lx ly lz ho]
      exact hvb
    · intro d
      have ho2 : ¬ (p.withDrawState d).boundsOutside
          ((p.withDrawState d).transformedBounds E mt vt) := ho
      rw [transformVertexData_inside E p mt vt lx ly lz ho,
        transformVertexData_inside E _ mt vt lx ly lz ho2, hd d]
      have hp := vertexPass_triangles p mt vt
      have key : ∀ i, ((p.vertexPass mt vt).withDrawState
            { d with vertexBuf := A ++ d.vertexBuf.drop p.vertexCnt, triangleBuf := [] }
            ).triangleEntry
          ((p.vertexPass mt vt).withDrawState
            { d with vertexBuf := A ++ d.vertexBuf.drop p.vertexCnt, triangleBuf := [] }
            ).vertexBuf i ((p.withDrawState d).triangleData i) =
          (p.vertexPass mt vt).triangleEntry (p.vertexPass mt vt).vertexBuf i
            (p.triangleData i) := by
        intro i
        apply triangleEntry_congr _ _ _ _ _ _ rfl rfl rfl rfl
        intro j hj
        rw [hvb]
        have hj2 : j < (p.vertexPass mt vt).vertexCnt := hj
        rw [hp.2.2.1, ← hA] at hj2
        exact getD_append_left_eq A _ _ j hj2
      simp only [key]
      rfl

section shadingWithKept
variable (p : Plot3D_TriShape) (f : DrawPixelFunction) (inv : Bool) (b g : ℚ × ℚ × ℚ)
  (vb : List NIFVertex) (tb : List Triangle) (textures : ℕ → Option DDSTexture) (textureCnt : ℕ)

theorem bindTextures_withKept :
    (p.withKept f inv b g vb tb).bindTextures textures textureCnt =
      (p.bindTextures textures textureCnt).withKept f inv b g vb tb := by
  unfold bindTextures
  dsimp only
  split_ifs <;> rfl

theorem selectEnvMap_withKept :
    (p.withKept f inv b g vb tb).selectEnvMap textures textureCnt =
      (p.selectEnvMap textures textureCnt).withKept
        (p.selectEnvMap textures textureCnt).drawPixelFunction inv b g vb tb := by
  unfold selectEnvMap
  dsimp only
  split_ifs <;> rfl

theorem selectMaterial_withKept :
    (p.withKept f inv b g vb tb).selectMaterial textures textureCnt =
      (p.selectMaterial textures textureCnt).withKept
        (p.selectMaterial textures textureCnt).drawPixelFunction inv b g vb tb := by
  unfold selectMaterial
  by_cases hw : p.flags &&& 0x02 ≠ 0
  · have hw2 : (p.withKept f inv b g vb tb).flags &&& 0x02 ≠ 0 := hw
    rw [if_pos hw, if_pos hw2]
    by_cases hn : p.textureN.isNone = true
    · have hn2 : (p.withKept f inv b g vb tb).textureN.isNone = true := hn
      dsimp only
      rw [if_pos hn, if_pos hn2]
      rfl
    · have hn2 : ¬ (p.withKept f inv b g vb tb).textureN.isNone = true := hn
      dsimp only
      rw [if_neg hn, if_neg hn2]
      rfl
  · have hw2 : ¬ ((p.withKept f inv b g vb tb).flags &&& 0x02 ≠ 0) := hw
    rw [if_neg hw, if_neg hw2]
    by_cases ha : ¬ sameAspect p.textureD p.textureN
    · have ha2 : ¬ sameAspect (p.withKept f inv b g vb tb).textureD
          (p.withKept f inv b g vb tb).textureN := ha
      rw [if_pos ha, if_pos ha2]
      rfl
    · have ha2 : ¬ ¬ sameAspect (p.withKept f inv b g vb tb).textureD
          (p.withKept f inv b g vb tb).textureN := ha
      rw [if_neg ha, if_neg ha2]
      dsimp only
      by_cases h4 : ¬ slotPresent textures textureCnt 4
      · rw [if_pos h4, if_pos h4]
        rfl
      · rw [if_neg h4, if_neg h4]
        have h := selectEnvMap_withKept
          ({ p with textureScaleN := widthRatio p.textureN p.textureD } : Plot3D_TriShape)
          f inv b g vb tb textures textureCnt
        exact h

end shadingWithKept

theorem selectShading_withDrawState (p : Plot3D_TriShape) (d : DrawState) (lx ly lz : ℚ)
    (textures : ℕ → Option DDSTexture) (textureCnt : ℕ) :
    (p.withDrawState d).selectShading lx ly lz textures textureCnt =
      (p.selectShading lx ly lz textures textureCnt).withKept
        (p.selectShading lx ly lz textures textureCnt).drawPixelFunction d.invNormals
        (d.bitangentX, d.bitangentY, d.bitangentZ) (d.tangentX, d.tangentY, d.tangentZ)
        d.vertexBuf d.triangleBuf := by
  unfold selectShading
  have h1 : (p.withDrawState d).resetShading lx ly lz =
      (p.resetShading lx ly lz).withKept d.drawPixelFunction d.invNormals
        (d.bitangentX, d.bitangentY, d.bitangentZ) (d.tangentX, d.tangentY, d.tangentZ)
        d.vertexBuf d.triangleBuf := rfl
  rw [h1, bindTextures_withKept, selectMaterial_withKept]
  dsimp only
  by_cases hd : (((p.resetShading lx ly lz).bindTextures textures textureCnt).selectMaterial
      textures textureCnt).debugMode ≠ 0
  · have hd2 : ((((p.resetShading lx ly lz).bindTextures textures textureCnt).selectMaterial
      textures textureCnt).withKept
        (((p.resetShading lx ly lz).bindTextures textures textureCnt).selectMaterial
          textures textureCnt).drawPixelFunction d.invNormals
        (d.bitangentX, d.bitangentY, d.bitangentZ) (d.tangentX, d.tangentY, d.tangentZ)
        d.vertexBuf d.triangleBuf).debugMode ≠ 0 := hd
    rw [if_pos hd, if_pos hd2]
    rfl
  · have hd2 : ¬ ((((p.resetShading lx ly lz).bindTextures textures textureCnt).selectMaterial
      textures textureCnt).withKept
        (((p.resetShading lx ly lz).bindTextures textures textureCnt).selectMaterial
          textures textureCnt).drawPixelFunction d.invNormals
        (d.bitangentX, d.bitangentY, d.bitangentZ) (d.tangentX, d.tangentY, d.tangentZ)
        d.vertexBuf d.triangleBuf).debugMode ≠ 0 := hd
    rw [if_neg hd, if_neg hd2]

theorem drawTriangle_withKept (E : Ext) (p : Plot3D_TriShape) (inv : Bool) (b g : ℚ × ℚ × ℚ)
    (vb : List NIFVertex) (tb : List Triangle) (t : Triangle) :
    drawTriangle E (p.withKept p.drawPixelFunction inv b g vb tb) t =
      drawTriangle E (p.withWork p.triangleCnt p.triangleData vb tb) t := rfl

theorem drawTriangles_withKept (E : Ext) (p : Plot3D_TriShape) (inv : Bool) (b g : ℚ × ℚ × ℚ)
    (vb : List NIFVertex)
    (hl : ∀ t ∈ p.triangleBuf,
      vb.getD (p.triangleData t.n).v0 default = p.vertexBuf.getD (p.triangleData t.n).v0 default ∧
      vb.getD (p.triangleData t.n).v1 default = p.vertexBuf.getD (p.triangleData t.n).v1 default ∧
      vb.getD (p.triangleData t.n).v2 default =
        p.vertexBuf.getD (p.triangleData t.n).v2 default) :
    ((p.withKept p.drawPixelFunction inv b g vb p.triangleBuf).drawTriangles E).bufZ =
      (p.drawTriangles E).bufZ ∧
    ((p.withKept p.drawPixelFunction inv b g vb p.triangleBuf).drawTriangles E).bufRGBW =
      (p.drawTriangles E).bufRGBW := by
  have hfold := foldl_drawTriangle_withWork E p.triangleCnt p.triangleData vb p.triangleBuf
    p.vertexBuf p.triangleData (p.triangleBuf.map (fun t => (t, t))) p rfl rfl
    (by
      intro tt htt
      rw [List.mem_map] at htt
      obtain ⟨t, ht, rfl⟩ := htt
      exact hl t ht)
  simp only [List.map_map] at hfold
  have e1 : (Prod.snd ∘ fun t : Triangle => (t, t)) = id := rfl
  have e2 : (Prod.fst ∘ fun t : Triangle => (t, t)) = id := rfl
  rw [e1, e2, List.map_id] at hfold
  have hstart : (p.withKept p.drawPixelFunction inv b g vb p.triangleBuf).drawTriangles E =
      (p.drawTriangles E).withWork p.triangleCnt p.triangleData vb p.triangleBuf ∨
      p.triangleBuf = [] := by
    cases htb : p.triangleBuf with
    | nil => exact Or.inr rfl
    | cons t ts =>
      left
      rw [htb] at hfold
      unfold drawTriangles
      rw [htb]
      have e3 : (p.withKept p.drawPixelFunction inv b g vb (t :: ts)).triangleBuf = t :: ts :=
        rfl
      rw [e3, List.foldl_cons, List.foldl_cons]
      rw [List.foldl_cons] at hfold
      rw [drawTriangle_withKept]
      exact hfold
  rcases hstart with h | h
  · rw [h]
    exact ⟨rfl, rfl⟩
  · unfold drawTriangles
    have e3 : (p.withKept p.drawPixelFunction inv b g vb p.triangleBuf).triangleBuf =
        p.triangleBuf := rfl
    rw [e3, h]
    exact ⟨rfl, rfl⟩

/-- The part of `drawTriShape` that follows the guard of line 922 does not depend on the
per-draw shading state. -/
theorem drawCore_withDrawState (E : Ext) (p : Plot3D_TriShape) (d : DrawState)
    (mt vt : NIFVertexTransform) (lx ly lz : ℚ) (textures : ℕ → Option DDSTexture)
    (textureCnt : ℕ) :
    (if ((p.withDrawState d).transformVertexData E mt vt lx ly lz).p.triangleBuf.length = 0
        then ((p.withDrawState d).transformVertexData E mt vt lx ly lz).p
        else ((((p.withDrawState d).transformVertexData E mt vt lx ly lz).p.selectShading
          ((p.withDrawState d).transformVertexData E mt vt lx ly lz).lightX
          ((p.withDrawState d).transformVertexData E mt vt lx ly lz).lightY
          ((p.withDrawState d).transformVertexData E mt vt lx ly lz).lightZ
          textures textureCnt).drawTriangles E)).bufZ =
      (if (p.transformVertexData E mt vt lx ly lz).p.triangleBuf.length = 0
        then (p.transformVertexData E mt vt lx ly lz).p
        else (((p.transformVertexData E mt vt lx ly lz).p.selectShading
          (p.transformVertexData E mt vt lx ly lz).lightX
          (p.transformVertexData E mt vt lx ly lz).lightY
          (p.transformVertexData E mt vt lx ly lz).lightZ
          textures textureCnt).drawTriangles E)).bufZ ∧
    (if ((p.withDrawState d).transformVertexData E mt vt lx ly lz).p.triangleBuf.length = 0
        then ((p.withDrawState d).transformVertexData E mt vt lx ly lz).p
        else ((((p.withDrawState d).transformVertexData E mt vt lx ly lz).p.selectShading
          ((p.withDrawState d).transformVertexData E mt vt lx ly lz).lightX
          ((p.withDrawState d).transformVertexData E mt vt lx ly lz).lightY
          ((p.withDrawState d).transformVertexData E mt vt lx ly lz).lightZ
          textures textureCnt).drawTriangles E)).bufRGBW =
      (if (p.transformVertexData E mt vt lx ly lz).p.triangleBuf.length = 0
        then (p.transformVertexData E mt vt lx ly lz).p
        else (((p.transformVertexData E mt vt lx ly lz).p.selectShading
          (p.transformVertexData E mt vt lx ly lz).lightX
          (p.transformVertexData E mt vt lx ly lz).lightY
          (p.transformVertexData E mt vt lx ly lz).lightZ
          textures textureCnt).drawTriangles E)).bufRGBW := by
  obtain ⟨A, hA, hvb, hd⟩ := transformVertexData_withDrawState E p mt vt lx ly lz
  have hmem := mem_triangleBuf E p mt vt lx ly lz
  have hmesh := transformVertexData_mesh E p mt vt lx ly lz
  rw [hd d]
  dsimp only
  generalize hT : p.transformVertexData E mt vt lx ly lz = T at *
  by_cases h0 : T.p.triangleBuf.length = 0
  · have h0b : (T.p.withDrawState
        { d with vertexBuf := A ++ d.vertexBuf.drop p.vertexCnt
                 triangleBuf := T.p.triangleBuf }).triangleBuf.length = 0 := h0
    rw [if_pos h0, if_pos h0b]
    exact ⟨rfl, rfl⟩
  · have h0b : ¬ (T.p.withDrawState
        { d with vertexBuf := A ++ d.vertexBuf.drop p.vertexCnt
                 triangleBuf := T.p.triangleBuf }).triangleBuf.length = 0 := h0
    rw [if_neg h0, if_neg h0b, selectShading_withDrawState]
    dsimp only
    have hw := selectShading_work T.p T.lightX T.lightY T.lightZ textures textureCnt
    rw [← hw.2.1]
    apply drawTriangles_withKept
    intro t ht
    rw [hw.2.1] at ht
    rw [hw.1, hvb, hw.2.2.1, hmesh.1]
    have hm := hmem t ht
    have hv := triangleEntry_valid _ _ _ _ _ hm.2
    have hp := vertexPass_triangles p mt vt
    rw [hp.2.2.1, ← hA] at hv
    exact ⟨getD_append_left_eq A _ _ _ hv.1, getD_append_left_eq A _ _ _ hv.2.1,
      getD_append_left_eq A _ _ _ hv.2.2⟩

/-- C8: two rasterizer states that agree on the mesh data, the buffers, the lighting and
vertex-colour tables and the debug mode, and differ arbitrarily in the per-draw shading state
(bound textures D/G/N/E/S/R, texture scales N/S/R, mip level, scaled alpha threshold, light
vector, reflection level, selected shading function, `invNormals`, tangent and bitangent,
previous contents of `vertexBuf` and `triangleBuf`) and in the view transform pointer, give
the same colour and depth buffers when `drawTriShape` is called with the same arguments. -/
theorem drawTriShape_drawState_independent (E : Ext) (p : Plot3D_TriShape) (d1 d2 : DrawState)
    (x1 x2 : Option NIFVertexTransform)
    (mt vt : NIFVertexTransform) (lx ly lz : ℚ) (textures : ℕ → Option DDSTexture)
    (textureCnt : ℕ) :
    ((({ p with viewTransformPtr := x1 } : Plot3D_TriShape).withDrawState d1).drawTriShape E
        mt vt lx ly lz textures textureCnt).bufZ =
      ((({ p with viewTransformPtr := x2 } : Plot3D_TriShape).withDrawState d2).drawTriShape E
        mt vt lx ly lz textures textureCnt).bufZ ∧
    ((({ p with viewTransformPtr := x1 } : Plot3D_TriShape).withDrawState d1).drawTriShape E
        mt vt lx ly lz textures textureCnt).bufRGBW =
      ((({ p with viewTransformPtr := x2 } : Plot3D_TriShape).withDrawState d2).drawTriShape E
        mt vt lx ly lz textures textureCnt).bufRGBW := by
  unfold drawTriShape
  by_cases hg : p.drawGuard textures textureCnt
  · have hg1 : (({ p with viewTransformPtr := x1 } : Plot3D_TriShape).withDrawState
        d1).drawGuard textures textureCnt := hg
    have hg2 : (({ p with viewTransformPtr := x2 } : Plot3D_TriShape).withDrawState
        d2).drawGuard textures textureCnt := hg
    rw [if_neg (not_not.mpr hg1), if_neg (not_not.mpr hg2)]
    have e1 : ({ ({ p with viewTransformPtr := x1 } : Plot3D_TriShape).withDrawState d1 with
        viewTransformPtr := some vt } : Plot3D_TriShape) =
        ({ p with viewTransformPtr := some vt } : Plot3D_TriShape).withDrawState d1 := rfl
    have e2 : ({ ({ p with viewTransformPtr := x2 } : Plot3D_TriShape).withDrawState d2 with
        viewTransformPtr := some vt } : Plot3D_TriShape) =
        ({ p with viewTransformPtr := some vt } : Plot3D_TriShape).withDrawState d2 := rfl
    dsimp only
    rw [e1, e2]
    have h1 := drawCore_withDrawState E
      ({ p with viewTransformPtr := some vt } : Plot3D_TriShape) d1 mt vt lx ly lz textures
      textureCnt
    have h2 := drawCore_withDrawState E
      ({ p with viewTransformPtr := some vt } : Plot3D_TriShape) d2 mt vt lx ly lz textures
      textureCnt
    exact ⟨h1.1.trans h2.1.symm, h1.2.trans h2.2.symm⟩
  · have hg1 : ¬ (({ p with viewTransformPtr := x1 } : Plot3D_TriShape).withDrawState
        d1).drawGuard textures textureCnt := hg
    have hg2 : ¬ (({ p with viewTransformPtr := x2 } : Plot3D_TriShape).withDrawState
        d2).drawGuard textures textureCnt := hg
    rw [if_pos hg1, if_pos hg2]
    exact ⟨rfl, rfl⟩

/-! ### Draw order, texture cache and error slots of the frame coordinator -/

open Renderer

theorem pair_sublist_of_pairwise {α : Type} (r : α → α → Prop) (a b : α) (hne : a ≠ b) :
    ∀ l : List α, l.Pairwise r → a ∈ l → b ∈ l → ¬ r b a → List.Sublist [a, b] l := by
  intro l
  induction l with
  | nil => intro _ ha; cases ha
  | cons x xs ih =>
    intro hp ha hb hba
    rw [List.pairwise_cons] at hp
    rcases List.mem_cons.mp ha with rfl | ha2
    · rcases List.mem_cons.mp hb with h | hb2
      · exact absurd h.symm hne
      · exact List.Sublist.cons₂ _ (List.singleton_sublist.mpr hb2)
    · rcases List.mem_cons.mp hb with rfl | hb2
      · exact absurd (hp.1 a ha2) hba
      · exact List.Sublist.cons _ (ih hp.2 ha2 hb2 hba)

theorem sortEntry_eq (F : Flags) (mt : NIFVertexTransform) (vo : List ℤ) (n i : ℕ)
    (m : NIFTriShape) (h1 : ¬ isHidden F m) (h2 : ¬ culled (m.calculateBounds mt) vo n) :
    sortEntry F mt vo n i m = some
      { ts := i
        z := if isAlphaBlended F m then 33554432 - (m.calculateBounds mt).zMin
          else (m.calculateBounds mt).zMin } := by
  unfold sortEntry isAlphaBlended
  unfold isHidden at h1
  rw [if_neg h1]
  dsimp only
  rw [if_neg h2]

/-- C11 (amended): in the draw order that `threadFunction` builds for a band, an alpha-blended
mesh is drawn after a non-alpha-blended mesh, both having survived culling, whenever the
`zMin` values of the two meshes sum to less than 0x02000000 (as they do when both are below the
limit 16777216 of the depth buffer). -/
theorem alpha_drawn_after_opaque (F : Flags) (modelTransform viewTransform : NIFVertexTransform)
    (vo : List ℤ) (n : ℕ) (meshData : List NIFTriShape) (i j : ℕ) (mo ma : NIFTriShape)
    (hi : meshData[i]? = some mo) (hj : meshData[j]? = some ma)
    (hoh : ¬ isHidden F mo) (hoc : ¬ culled (mo.calculateBounds
      (modelTransform.mul viewTransform)) vo n)
    (hah : ¬ isHidden F ma) (hac : ¬ culled (ma.calculateBounds
      (modelTransform.mul viewTransform)) vo n)
    (ho : ¬ isAlphaBlended F mo) (ha : isAlphaBlended F ma)
    (hz : (mo.calculateBounds (modelTransform.mul viewTransform)).zMin +
      (ma.calculateBounds (modelTransform.mul viewTransform)).zMin < 33554432) :
    List.Sublist
      [({ ts := i, z := (mo.calculateBounds (modelTransform.mul viewTransform)).zMin } :
        TriShapeSortObject),
       { ts := j
         z := 33554432 - (ma.calculateBounds (modelTransform.mul viewTransform)).zMin }]
      (drawOrder F modelTransform viewTransform vo n meshData) := by
  have ho2 := sortEntry_eq F (modelTransform.mul viewTransform) vo n i mo hoh hoc
  have ha2 := sortEntry_eq F (modelTransform.mul viewTransform) vo n j ma hah hac
  rw [if_neg ho] at ho2
  rw [if_pos ha] at ha2
  have hmo : ({ ts := i, z := (mo.calculateBounds (modelTransform.mul viewTransform)).zMin } :
      TriShapeSortObject) ∈ sortBuf F modelTransform viewTransform vo n meshData := by
    unfold sortBuf
    rw [sortBufFrom_mem]
    exact ⟨i, mo, hi, by rw [Nat.zero_add]; exact ho2⟩
  have hma : ({ ts := j
                z := 33554432 - (ma.calculateBounds (modelTransform.mul viewTransform)).zMin } :
      TriShapeSortObject) ∈ sortBuf F modelTransform viewTransform vo n meshData := by
    unfold sortBuf
    rw [sortBufFrom_mem]
    exact ⟨j, ma, hj, by rw [Nat.zero_add]; exact ha2⟩
  haveI : IsTotal TriShapeSortObject (fun a b => a.z ≤ b.z) :=
    ⟨fun a b => le_total a.z b.z⟩
  haveI : IsTrans TriShapeSortObject (fun a b => a.z ≤ b.z) :=
    ⟨fun a b c h1 h2 => le_trans h1 h2⟩
  unfold drawOrder
  apply pair_sublist_of_pairwise (fun a b : TriShapeSortObject => a.z ≤ b.z)
  · intro h
    have hz2 := congrArg TriShapeSortObject.z h
    dsimp only at hz2
    linarith
  · exact List.sorted_insertionSort _ _
  · exact (List.perm_insertionSort _ _).mem_iff.mpr hmo
  · exact (List.perm_insertionSort _ _).mem_iff.mpr hma
  · dsimp only
    linarith

theorem alpha_drawn_after_opaque_witness :
    List.Sublist
      [({ ts := 0, z := 1 } : TriShapeSortObject), { ts := 1, z := 33554432 - 15000000 }]
      (drawOrder sampleFlags NIFVertexTransform.identity NIFVertexTransform.identity
        (viewOffsetY 8 640 480) 0 [lowMesh, alphaMesh]) :=
  alpha_drawn_after_opaque sampleFlags NIFVertexTransform.identity NIFVertexTransform.identity
    (viewOffsetY 8 640 480) 0 [lowMesh, alphaMesh] 0 1 lowMesh alphaMesh rfl rfl
    (by decide!) (by decide!) (by decide!) (by decide!) (by decide!) (by decide!) (by decide!)

/-- C11 (counterexample): the alpha-blended mesh `alphaMesh` (`zMin` 15000000, key
33554432 - 15000000 = 18554432) and the non-alpha-blended mesh `farMesh` (`zMin` and key
20000000) both survive culling in band 0, and the alpha-blended mesh is drawn first. -/
theorem alpha_counterexample :
    isAlphaBlended sampleFlags alphaMesh ∧ ¬ isAlphaBlended sampleFlags farMesh ∧
    drawOrder sampleFlags NIFVertexTransform.identity NIFVertexTransform.identity
        (viewOffsetY 8 640 480) 0 [farMesh, alphaMesh] =
      [{ ts := 1, z := 18554432 }, { ts := 0, z := 20000000 }] := by
  decide!

section loadTexture
variable {τ : Type}

theorem loadTexture_keeps (hasArchive : Bool) (ts : String → Option (Option τ))
    (path : Option String) (decode : String → DecodeResult τ) (k : String) (v : Option τ)
    (h : ts k = some v) :
    (loadTexture hasArchive ts path decode).textureSet k = some v := by
  unfold loadTexture
  cases path with
  | none => exact h
  | some q =>
    dsimp only
    split_ifs with h1
    · exact h
    · cases hq : ts q with
      | some t => exact h
      | none =>
        have hne : k ≠ q := by
          intro e
          rw [e, hq] at h
          cases h
        dsimp only
        cases decode q with
        | ok t => simpa [Function.update, hne] using h
        | utilsError => simpa [Function.update, hne] using h
        | otherError => exact h

theorem loadTextures_keeps (hasArchive : Bool) (k : String) (v : Option τ) :
    ∀ (cs : List (Option String × (String → DecodeResult τ)))
      (ts : String → Option (Option τ)), ts k = some v →
      loadTextures hasArchive ts cs k = some v := by
  intro cs
  induction cs with
  | nil => intro ts h; exact h
  | cons c cs ih =>
    intro ts h
    unfold loadTextures
    exact ih _ (loadTexture_keeps hasArchive ts c.1 c.2 k v h)

theorem loadTexture_cached (ts : String → Option (Option τ)) (p : String) (hp : p ≠ "")
    (decode : String → DecodeResult τ) (v : Option τ) (h : ts p = some v) :
    (loadTexture true ts (some p) decode).attempted = false ∧
    (loadTexture true ts (some p) decode).texture = v := by
  unfold loadTexture
  dsimp only
  have h1 : ¬ (p = "" ∨ true = false) := by simp [hp]
  rw [if_neg h1, h]
  exact ⟨rfl, rfl⟩

theorem loadTexture_caches (ts : String → Option (Option τ)) (p : String) (hp : p ≠ "")
    (decode : String → DecodeResult τ)
    (h : ¬ (ts p = none ∧ decode p = .otherError)) :
    (loadTexture true ts (some p) decode).textureSet p =
      some (loadTexture true ts (some p) decode).texture := by
  unfold loadTexture
  dsimp only
  have h1 : ¬ (p = "" ∨ true = false) := by simp [hp]
  rw [if_neg h1]
  cases hq : ts p with
  | some t => exact hq
  | none =>
    dsimp only
    cases hd : decode p with
    | ok t => simp [Function.update]
    | utilsError => simp [Function.update]
    | otherError => exact absurd ⟨hq, hd⟩ h

end loadTexture

/-- C12 (amended): for every non-empty path `p`, with an archive set, and every sequence of
`loadTexture` calls (any cache `ts` left by earlier calls, any calls `mid` in between), a
second `loadTexture(p)` issued after a first `loadTexture(p)` whose extract/decode attempt, if
it made one, did not end in an exception other than `FO76UtilsError`, performs no
extract/decode attempt and returns the same pointer as the first call; that pointer is null
when the first decode failed with `FO76UtilsError`; and no `loadTexture` call removes or
changes an existing cache entry. -/
theorem loadTexture_idempotent {τ : Type} (ts : String → Option (Option τ)) (p : String)
    (d1 d2 : String → DecodeResult τ)
    (mid : List (Option String × (String → DecodeResult τ)))
    (hp : p ≠ "") (h1 : ¬ (ts p = none ∧ d1 p = .otherError)) :
    (loadTexture true (loadTextures true (loadTexture true ts (some p) d1).textureSet mid)
        (some p) d2).attempted = false ∧
    (loadTexture true (loadTextures true (loadTexture true ts (some p) d1).textureSet mid)
        (some p) d2).texture = (loadTexture true ts (some p) d1).texture ∧
    (ts p = none → d1 p = .utilsError →
      (loadTexture true ts (some p) d1).texture = none ∧
      (loadTexture true (loadTextures true (loadTexture true ts (some p) d1).textureSet mid)
        (some p) d2).texture = none) ∧
    (∀ (hasArchive : Bool) (s : String → Option (Option τ)) (path : Option String)
      (d : String → DecodeResult τ) (k : String) (v : Option τ),
      s k = some v → (loadTexture hasArchive s path d).textureSet k = some v) := by
  have hc := loadTexture_caches ts p hp d1 h1
  have hk := loadTextures_keeps true p _ mid _ hc
  have h2 := loadTexture_cached _ p hp d2 _ hk
  refine ⟨h2.1, h2.2, ?_, ?_⟩
  · intro hn hu
    have hnull : (loadTexture true ts (some p) d1).texture = none := by
      unfold loadTexture
      dsimp only
      have h3 : ¬ (p = "" ∨ true = false) := by simp [hp]
      rw [if_neg h3, hn]
      dsimp only
      rw [hu]
    exact ⟨hnull, h2.2.trans hnull⟩
  · intro hasArchive s path d k v h
    exact loadTexture_keeps hasArchive s path d k v h

theorem loadTexture_idempotent_witness :
    (loadTexture true (loadTextures true (loadTexture true emptyTextureSet (some "a.dds")
        (fun _ => .utilsError)).textureSet [(some "b.dds", fun _ => .ok 5)])
        (some "a.dds") (fun _ => .ok 7)).attempted = false ∧
    (loadTexture true (loadTextures true (loadTexture true emptyTextureSet (some "a.dds")
        (fun _ => .utilsError)).textureSet [(some "b.dds", fun _ => .ok 5)])
        (some "a.dds") (fun _ => .ok 7)).texture =
      (loadTexture true emptyTextureSet (some "a.dds") (fun _ => .utilsError)).texture ∧
    (emptyTextureSet "a.dds" = none →
      (fun _ : String => (DecodeResult.utilsError : DecodeResult ℕ)) "a.dds" = .utilsError →
      (loadTexture true emptyTextureSet (some "a.dds") (fun _ => .utilsError)).texture = none ∧
      (loadTexture true (loadTextures true (loadTexture true emptyTextureSet (some "a.dds")
        (fun _ => .utilsError)).textureSet [(some "b.dds", fun _ => .ok 5)])
        (some "a.dds") (fun _ => .ok 7)).texture = none) ∧
    (∀ (hasArchive : Bool) (s : String → Option (Option ℕ)) (path : Option String)
      (d : String → DecodeResult ℕ) (k : String) (v : Option ℕ),
      s k = some v → (loadTexture hasArchive s path d).textureSet k = some v) :=
  loadTexture_idempotent emptyTextureSet "a.dds" (fun _ => .utilsError) (fun _ => .ok 7)
    [(some "b.dds", fun _ => .ok 5)] (by decide) (by decide)

/-- C12 (counterexample): the first `loadTexture("a.dds")` on an empty cache, whose decode
attempt ends in an exception other than `FO76UtilsError`, returns the null pointer and caches
nothing; the second `loadTexture("a.dds")` makes an extract/decode attempt and returns a
different pointer. -/
theorem loadTexture_counterexample :
    (loadTexture true emptyTextureSet (some "a.dds") (fun _ => .otherError)).texture = none ∧
    (loadTexture true
      (loadTexture true emptyTextureSet (some "a.dds") (fun _ => .otherError)).textureSet
      (some "a.dds") (fun _ => .ok 7)).attempted = true ∧
    (loadTexture true
      (loadTexture true emptyTextureSet (some "a.dds") (fun _ => .otherError)).textureSet
      (some "a.dds") (fun _ => .ok 7)).texture = some 7 := by
  decide

theorem threadErrMsg_ne_empty (outcome : Option String) :
    threadErrMsg outcome ≠ "" ↔ outcome.isSome = true := by
  unfold threadErrMsg
  cases outcome with
  | none => simp
  | some msg =>
    by_cases h : msg = ""
    · simp [h]
    · simp [h]

theorem joinLoop_spec (slots : List String) :
    ∀ (k i : ℕ) (joined : List ℕ),
      (joinLoop slots k i joined).joined = joined ++ List.range' i k ∧
      (((joinLoop slots k i joined).error = none ∧
          ∀ j, i ≤ j → j < i + k → slots.getD j "" = "") ∨
        ∃ m, i ≤ m ∧ m < i + k ∧ slots.getD m "" ≠ "" ∧
          (joinLoop slots k i joined).error = some (slots.getD m "") ∧
          ∀ j, i ≤ j → j < m → slots.getD j "" = "") := by
  intro k
  induction k with
  | zero =>
    intro i joined
    refine ⟨by simp [joinLoop], Or.inl ⟨rfl, ?_⟩⟩
    intro j h1 h2
    omega
  | succ k ih =>
    intro i joined
    unfold joinLoop
    by_cases h : slots.getD i "" ≠ ""
    · rw [if_pos h]
      refine ⟨by simp [List.range'_succ], Or.inr ⟨i, le_refl _, by omega, h, rfl, ?_⟩⟩
      intro j h1 h2
      omega
    · rw [if_neg h]
      obtain ⟨hj, hr⟩ := ih (i + 1) (joined ++ [i])
      refine ⟨by rw [hj]; simp [List.range'_succ], ?_⟩
      rw [not_not] at h
      rcases hr with ⟨he, hall⟩ | ⟨m, hm1, hm2, hm3, hm4, hm5⟩
      · refine Or.inl ⟨he, ?_⟩
        intro j h1 h2
        by_cases hji : j = i
        · rw [hji]; exact h
        · exact hall j (by omega) (by omega)
      · refine Or.inr ⟨m, by omega, by omega, hm3, hm4, ?_⟩
        intro j h1 h2
        by_cases hji : j = i
        · rw [hji]; exact h
        · exact hm5 j (by omega) h2

/-- C13: with each band's worker modelled by what its body results in, `renderModel` raises an
error if and only if at least one slot of `threadErrMsg` is non-empty after its worker has
finished; the message raised is that of the lowest-index non-empty slot; every worker has been
joined, each exactly once, when `renderModel` is left, with or without an error; and a worker
that fails leaves a non-empty text in its slot, which is "unknown error in render thread"
when the message of the failure is empty. -/
theorem renderModel_error (outcomes : List (Option String)) :
    ((renderModel outcomes).error.isSome = true ↔
      ∃ i, i < outcomes.length ∧ (outcomes.map threadErrMsg).getD i "" ≠ "") ∧
    (∀ msg, (renderModel outcomes).error = some msg →
      ∃ m, m < outcomes.length ∧ msg = (outcomes.map threadErrMsg).getD m "" ∧ msg ≠ "" ∧
        ∀ j, j < m → (outcomes.map threadErrMsg).getD j "" = "") ∧
    (renderModel outcomes).joined = List.range outcomes.length ∧
    (∀ msg : String, threadErrMsg (some msg) ≠ "") ∧
    threadErrMsg (some "") = "unknown error in render thread" ∧
    threadErrMsg none = "" := by
  obtain ⟨hj, hr⟩ := joinLoop_spec (outcomes.map threadErrMsg) outcomes.length 0 []
  refine ⟨?_, ?_, ?_, ?_, rfl, rfl⟩
  · unfold renderModel
    rcases hr with ⟨he, hall⟩ | ⟨m, _, hm2, hm3, hm4, _⟩
    · rw [he]
      constructor
      · intro h
        cases h
      · rintro ⟨i, hi, hne⟩
        exact absurd (hall i (Nat.zero_le _) (by omega)) hne
    · rw [hm4]
      constructor
      · intro _
        exact ⟨m, by omega, hm3⟩
      · intro _
        rfl
  · intro msg hmsg
    unfold renderModel at hmsg
    rcases hr with ⟨he, _⟩ | ⟨m, _, hm2, hm3, hm4, hm5⟩
    · rw [he] at hmsg
      cases hmsg
    · rw [hm4] at hmsg
      cases hmsg
      exact ⟨m, by omega, rfl, hm3, fun j hjm => hm5 j (Nat.zero_le _) hjm⟩
  · unfold renderModel
    rw [hj, List.nil_append, List.range_eq_range']
  · intro msg
    rw [threadErrMsg_ne_empty]
    rfl

theorem alphaTest_iff (c T : ℕ) (hT : T ≤ 255) :
    (c < u32 (T <<< 24) ↔ c >>> 24 < T) ∧ u32 (T <<< 24) = T <<< 24 := by
  have h1 : T <<< 24 = T * 16777216 := by
    rw [Nat.shiftLeft_eq]
  have h2 : u32 (T <<< 24) = T <<< 24 := by
    unfold u32
    rw [h1]
    omega
  refine ⟨?_, h2⟩
  rw [h2, h1, Nat.shiftRight_eq_div_pow]
  constructor
  · intro h
    exact (Nat.div_lt_iff_lt_mul (by norm_num)).mpr h
  · intro h
    exact (Nat.div_lt_iff_lt_mul (by norm_num)).mp h

theorem callDrawPixelFunction_alpha (E : Ext) (p : Plot3D_TriShape) (x y : ℤ) (txtU txtV : ℚ)
    (z : NIFVertex) (tD : DDSTexture) (hf : alphaTested p.drawPixelFunction)
    (hD : p.textureD = some tD) :
    (p.diffuseColor tD txtU txtV z < p.alphaThresholdScaled →
      p.callDrawPixelFunction E x y txtU txtV z = p) ∧
    (¬ p.diffuseColor tD txtU txtV z < p.alphaThresholdScaled →
      (p.callDrawPixelFunction E x y txtU txtV z).bufZ (p.pixelOffs x y) = z.z) := by
  unfold callDrawPixelFunction
  rcases hf with h | h | h | h | h | h <;> rw [h] <;> dsimp only
  · unfold drawPixel_Diffuse
    rw [hD]
    dsimp only
    constructor
    · intro hc; rw [if_pos hc]
    · intro hc; rw [if_neg hc]; simp
  · unfold drawPixel_Normal
    rw [hD]
    dsimp only
    constructor
    · intro hc; rw [if_pos hc]
    · intro hc; rw [if_neg hc]; simp
  · unfold drawPixel_NormalEnv
    rw [hD]
    dsimp only
    constructor
    · intro hc; rw [if_pos hc]
    · intro hc; rw [if_neg hc]; simp
  · unfold drawPixel_NormalEnvM
    rw [hD]
    dsimp only
    constructor
    · intro hc; rw [if_pos hc]
    · intro hc; rw [if_neg hc]; simp
  · unfold drawPixel_NormalEnvS
    rw [hD]
    dsimp only
    constructor
    · intro hc; rw [if_pos hc]
    · intro hc; rw [if_neg hc]; simp
  · unfold drawPixel_NormalRefl
    rw [hD]
    dsimp only
    constructor
    · intro hc; rw [if_pos hc]
    · intro hc
      rw [if_neg hc]
      split_ifs <;> simp

/-- C14: for every colour `c` that sampling the diffuse texture and applying the gradient map
and vertex colour produces, and every alpha threshold `T` in 0..255 (scaled to `T << 24` by
line 940 of `drawTriShape`), each of the shading functions Diffuse, Normal, NormalEnv,
NormalEnvM, NormalEnvS and NormalRefl, called by `drawPixel` for a fragment that has passed
the depth test, leaves both the depth and the colour of the pixel unchanged if and only if
`(c >> 24) < T`, which is the test `c < (T << 24)` of the code; a rejected fragment changes
nothing at all, and with `T = 0` the fragment is never rejected. -/
theorem alpha_test_rejects (E : Ext) (p : Plot3D_TriShape) (x y : ℤ) (txtU txtV : ℚ)
    (z : NIFVertex) (tD : DDSTexture) (T : ℕ) (hf : alphaTested p.drawPixelFunction)
    (hD : p.textureD = some tD) (hT : T ≤ 255) (hA : p.alphaThresholdScaled = u32 (T <<< 24))
    (hz : z.z < p.bufZ (p.pixelOffs x y)) :
    (((p.callDrawPixelFunction E x y txtU txtV z).bufZ (p.pixelOffs x y) =
          p.bufZ (p.pixelOffs x y) ∧
        (p.callDrawPixelFunction E x y txtU txtV z).bufRGBW (p.pixelOffs x y) =
          p.bufRGBW (p.pixelOffs x y)) ↔
      p.diffuseColor tD txtU txtV z >>> 24 < T) ∧
    (p.diffuseColor tD txtU txtV z >>> 24 < T ↔ p.diffuseColor tD txtU txtV z < T <<< 24) ∧
    (p.diffuseColor tD txtU txtV z >>> 24 < T →
      p.callDrawPixelFunction E x y txtU txtV z = p) ∧
    (T = 0 → (p.callDrawPixelFunction E x y txtU txtV z).bufZ (p.pixelOffs x y) = z.z) ∧
    (∀ (q : Plot3D_TriShape) (lx ly lz : ℚ),
      (q.resetShading lx ly lz).alphaThresholdScaled = u32 (q.alphaThreshold <<< 24)) := by
  obtain ⟨h1, h2⟩ := callDrawPixelFunction_alpha E p x y txtU txtV z tD hf hD
  obtain ⟨h3, h4⟩ := alphaTest_iff (p.diffuseColor tD txtU txtV z) T hT
  rw [hA] at h1 h2
  refine ⟨?_, ?_, ?_, ?_, fun _ _ _ _ => rfl⟩
  · constructor
    · rintro ⟨hzz, _⟩
      by_contra hc
      have := h2 (fun h => hc (h3.mp h))
      rw [this] at hzz
      exact absurd hzz (ne_of_lt hz)
    · intro hc
      rw [h1 (h3.mpr hc)]
      exact ⟨rfl, rfl⟩
  · rw [← h4]
    exact h3.symm
  · intro hc
    exact h1 (h3.mpr hc)
  · intro h0
    apply h2
    rw [h0]
    exact Nat.not_lt_zero _

theorem alpha_test_rejects_witness :
    (((diffuseState.callDrawPixelFunction sampleExt 0 1 0 0 (mkVertex 0 0 1)).bufZ
            (diffuseState.pixelOffs 0 1) = diffuseState.bufZ (diffuseState.pixelOffs 0 1) ∧
        (diffuseState.callDrawPixelFunction sampleExt 0 1 0 0 (mkVertex 0 0 1)).bufRGBW
            (diffuseState.pixelOffs 0 1) = diffuseState.bufRGBW (diffuseState.pixelOffs 0 1)) ↔
      diffuseState.diffuseColor whiteTexture 0 0 (mkVertex 0 0 1) >>> 24 < 0) ∧
    (diffuseState.diffuseColor whiteTexture 0 0 (mkVertex 0 0 1) >>> 24 < 0 ↔
      diffuseState.diffuseColor whiteTexture 0 0 (mkVertex 0 0 1) < 0 <<< 24) ∧
    (diffuseState.diffuseColor whiteTexture 0 0 (mkVertex 0 0 1) >>> 24 < 0 →
      diffuseState.callDrawPixelFunction sampleExt 0 1 0 0 (mkVertex 0 0 1) = diffuseState) ∧
    (0 = 0 → (diffuseState.callDrawPixelFunction sampleExt 0 1 0 0 (mkVertex 0 0 1)).bufZ
      (diffuseState.pixelOffs 0 1) = (mkVertex 0 0 1).z) ∧
    (∀ (q : Plot3D_TriShape) (lx ly lz : ℚ),
      (q.resetShading lx ly lz).alphaThresholdScaled = u32 (q.alphaThreshold <<< 24)) :=
  alpha_test_rejects sampleExt diffuseState 0 1 0 0 (mkVertex 0 0 1) whiteTexture 0
    (by decide) rfl (by decide) (by decide) (by decide!)

theorem inSlice_lt (p : Plot3D_TriShape) (i : ℕ) (h : p.inSlice i) :
    i < p.width.toNat * p.height.toNat := by
  obtain ⟨x, y, hx0, hx1, hy0, hy1, rfl⟩ := h
  unfold pixelOffs
  have hx : x.toNat < p.width.toNat := by omega
  have hy : y.toNat < p.height.toNat := by omega
  calc y.toNat * p.width.toNat + x.toNat
      < y.toNat * p.width.toNat + p.width.toNat := by omega
    _ = (y.toNat + 1) * p.width.toNat := by ring
    _ ≤ p.height.toNat * p.width.toNat := Nat.mul_le_mul_right _ hy
    _ = p.width.toNat * p.height.toNat := Nat.mul_comm _ _

theorem sameOutside_refl (p : Plot3D_TriShape) : sameOutside p p :=
  ⟨rfl, rfl, fun _ _ => ⟨rfl, rfl⟩⟩

theorem inSlice_congr (p q : Plot3D_TriShape) (hw : q.width = p.width)
    (hh : q.height = p.height) (i : ℕ) : q.inSlice i ↔ p.inSlice i := by
  unfold inSlice pixelOffs
  rw [hw, hh]

theorem sameOutside_trans (p q r : Plot3D_TriShape) (h1 : sameOutside p q)
    (h2 : sameOutside q r) : sameOutside p r := by
  refine ⟨h2.1.trans h1.1, h2.2.1.trans h1.2.1, ?_⟩
  intro i hi
  have hq : ¬ q.inSlice i := fun h => hi ((inSlice_congr p q h1.1 h1.2.1 i).mp h)
  exact ⟨(h2.2.2 i hq).1.trans (h1.2.2 i hi).1, (h2.2.2 i hq).2.trans (h1.2.2 i hi).2⟩

theorem sameOutside_of_eq (p q : Plot3D_TriShape) (hw : q.width = p.width)
    (hh : q.height = p.height) (hz : q.bufZ = p.bufZ) (hc : q.bufRGBW = p.bufRGBW) :
    sameOutside p q :=
  ⟨hw, hh, fun _ _ => ⟨by rw [hz], by rw [hc]⟩⟩

theorem sameOutside_drawPixel (E : Ext) (p : Plot3D_TriShape) (f : Fragment) :
    sameOutside p (p.drawPixel E f) := by
  rcases drawPixel_effect E p f with h | ⟨hx0, hx1, hy0, hy1, _, _, c, h⟩
  · rw [h]
    exact sameOutside_refl p
  · rw [h]
    refine ⟨rfl, rfl, ?_⟩
    intro i hi
    have hne : i ≠ p.pixelOffs f.x f.y := by
      intro e
      exact hi ⟨f.x, f.y, hx0, hx1, hy0, hy1, e⟩
    simp [written, Function.update_noteq hne]

theorem sameOutside_foldl {α : Type} (g : Plot3D_TriShape → α → Plot3D_TriShape)
    (hg : ∀ q a, sameOutside q (g q a)) :
    ∀ (l : List α) (p : Plot3D_TriShape), sameOutside p (l.foldl g p) := by
  intro l
  induction l with
  | nil => intro p; exact sameOutside_refl p
  | cons a l ih =>
    intro p
    rw [List.foldl_cons]
    exact sameOutside_trans _ _ _ (hg p a) (ih (g p a))

theorem sameOutside_drawTriangle (E : Ext) (p : Plot3D_TriShape) (t : Triangle) :
    sameOutside p (p.drawTriangle E t) := by
  unfold drawTriangle
  dsimp only
  have h := stripTriangleState_triangleFragments E p t
  have h1 : sameOutside p (p.triangleFragments E t).1 := by
    apply sameOutside_of_eq
    · have := congrArg Plot3D_TriShape.width h
      exact this
    · have := congrArg Plot3D_TriShape.height h
      exact this
    · have := congrArg Plot3D_TriShape.bufZ h
      exact this
    · have := congrArg Plot3D_TriShape.bufRGBW h
      exact this
  exact sameOutside_trans _ _ _ h1 (sameOutside_foldl _ (sameOutside_drawPixel E) _ _)

theorem sameOutside_drawTriangles (E : Ext) (p : Plot3D_TriShape) :
    sameOutside p (p.drawTriangles E) :=
  sameOutside_foldl _ (sameOutside_drawTriangle E) _ _

theorem bindTextures_dims (p : Plot3D_TriShape) (textures : ℕ → Option DDSTexture)
    (textureCnt : ℕ) :
    (p.bindTextures textures textureCnt).width = p.width ∧
    (p.bindTextures textures textureCnt).height = p.height := by
  unfold bindTextures
  dsimp only
  split_ifs <;> exact ⟨rfl, rfl⟩

theorem selectEnvMap_dims (p : Plot3D_TriShape) (textures : ℕ → Option DDSTexture)
    (textureCnt : ℕ) :
    (p.selectEnvMap textures textureCnt).width = p.width ∧
    (p.selectEnvMap textures textureCnt).height = p.height := by
  unfold selectEnvMap
  dsimp only
  split_ifs <;> exact ⟨rfl, rfl⟩

theorem selectMaterial_dims (p : Plot3D_TriShape) (textures : ℕ → Option DDSTexture)
    (textureCnt : ℕ) :
    (p.selectMaterial textures textureCnt).width = p.width ∧
    (p.selectMaterial textures textureCnt).height = p.height := by
  unfold selectMaterial
  by_cases hw : p.flags &&& 0x02 ≠ 0
  · rw [if_pos hw]
    dsimp only
    split_ifs <;> exact ⟨rfl, rfl⟩
  · rw [if_neg hw]
    by_cases ha : ¬ sameAspect p.textureD p.textureN
    · rw [if_pos ha]
      exact ⟨rfl, rfl⟩
    · rw [if_neg ha]
      dsimp only
      by_cases h4 : ¬ slotPresent textures textureCnt 4
      · rw [if_pos h4]
        exact ⟨rfl, rfl⟩
      · rw [if_neg h4]
        have h := selectEnvMap_dims
          ({ p with textureScaleN := widthRatio p.textureN p.textureD } : Plot3D_TriShape)
          textures textureCnt
        exact h

theorem selectShading_dims (p : Plot3D_TriShape) (lx ly lz : ℚ)
    (textures : ℕ → Option DDSTexture) (textureCnt : ℕ) :
    (p.selectShading lx ly lz textures textureCnt).width = p.width ∧
    (p.selectShading lx ly lz textures textureCnt).height = p.height := by
  have h1 := selectMaterial_dims ((p.resetShading lx ly lz).bindTextures textures textureCnt)
    textures textureCnt
  have h2 := bindTextures_dims (p.resetShading lx ly lz) textures textureCnt
  unfold selectShading
  dsimp only
  split_ifs
  · exact ⟨h1.1.trans h2.1, h1.2.trans h2.2⟩
  · exact ⟨h1.1.trans h2.1, h1.2.trans h2.2⟩

theorem sameOutside_drawTriShape (E : Ext) (p : Plot3D_TriShape)
    (mt vt : NIFVertexTransform) (lx ly lz : ℚ) (textures : ℕ → Option DDSTexture)
    (textureCnt : ℕ) :
    sameOutside p (p.drawTriShape E mt vt lx ly lz textures textureCnt) := by
  unfold drawTriShape
  by_cases hg : p.drawGuard textures textureCnt
  swap
  · rw [if_pos hg]
    exact sameOutside_refl p
  rw [if_neg (not_not.mpr hg)]
  dsimp only
  by_cases h0 : (({ p with viewTransformPtr := some vt } : Plot3D_TriShape).transformVertexData
      E mt vt lx ly lz).p.triangleBuf.length = 0
  · rw [if_pos h0]
    have hm := transformVertexData_mesh E
      ({ p with viewTransformPtr := some vt } : Plot3D_TriShape) mt vt lx ly lz
    exact sameOutside_of_eq _ _ hm.2.2.1 hm.2.2.2.1 hm.2.2.2.2.1 hm.2.2.2.2.2
  · rw [if_neg h0]
    have hm := transformVertexData_mesh E
      ({ p with viewTransformPtr := some vt } : Plot3D_TriShape) mt vt lx ly lz
    have hs := selectShading_work
      (({ p with viewTransformPtr := some vt } : Plot3D_TriShape).transformVertexData E mt vt
        lx ly lz).p
      (({ p with viewTransformPtr := some vt } : Plot3D_TriShape).transformVertexData E mt vt
        lx ly lz).lightX
      (({ p with viewTransformPtr := some vt } : Plot3D_TriShape).transformVertexData E mt vt
        lx ly lz).lightY
      (({ p with viewTransformPtr := some vt } : Plot3D_TriShape).transformVertexData E mt vt
        lx ly lz).lightZ textures textureCnt
    have hd := selectShading_dims
      (({ p with viewTransformPtr := some vt } : Plot3D_TriShape).transformVertexData E mt vt
        lx ly lz).p
      (({ p with viewTransformPtr := some vt } : Plot3D_TriShape).transformVertexData E mt vt
        lx ly lz).lightX
      (({ p with viewTransformPtr := some vt } : Plot3D_TriShape).transformVertexData E mt vt
        lx ly lz).lightY
      (({ p with viewTransformPtr := some vt } : Plot3D_TriShape).transformVertexData E mt vt
        lx ly lz).lightZ textures textureCnt
    refine sameOutside_trans _ _ _ ?_ (sameOutside_drawTriangles E _)
    exact sameOutside_of_eq _ _ (hd.1.trans hm.2.2.1) (hd.2.trans hm.2.2.2.1)
      (hs.2.2.2.1.trans hm.2.2.2.2.1) (hs.2.2.2.2.trans hm.2.2.2.2.2)

theorem foldl_invariant {α β : Type} (P : β → Prop) (g : β → α → β) (l : List α)
    (h : ∀ q a, a ∈ l → P q → P (g q a)) : ∀ b, P b → P (l.foldl g b) := by
  induction l with
  | nil => intro b hb; exact hb
  | cons a l ih =>
    intro b hb
    rw [List.foldl_cons]
    exact ih (fun q c hc hq => h q c (List.mem_cons_of_mem _ hc) hq) _
      (h b a (List.mem_cons_self _ _) hb)

theorem renderWaterPixel_effect (E : Ext) (W : WaterExt) (q : Plot3D_TriShape) (waterColor : ℕ)
    (envMap : Option DDSTexture) (envMapLevel : ℚ) (x y : ℤ) (offs : ℕ) :
    (q.renderWaterPixel E W waterColor envMap envMapLevel x y offs).width = q.width ∧
    (q.renderWaterPixel E W waterColor envMap envMapLevel x y offs).height = q.height ∧
    (q.renderWaterPixel E W waterColor envMap envMapLevel x y offs).bufZ = q.bufZ ∧
    ∀ i, i ≠ offs →
      (q.renderWaterPixel E W waterColor envMap envMapLevel x y offs).bufRGBW i =
        q.bufRGBW i := by
  have key : q.renderWaterPixel E W waterColor envMap envMapLevel x y offs =
      if (u32 (u32 (q.bufRGBW offs) + 0x01000000) &&& 0xFE000000) = 0 then q
      else { q with
        reflectionLevel := (q.waterPixel E W waterColor envMap envMapLevel x y
          (u32 (q.bufRGBW offs))).1
        bufRGBW := Function.update q.bufRGBW offs
          (q.waterPixel E W waterColor envMap envMapLevel x y (u32 (q.bufRGBW offs))).2 } := rfl
  rw [key]
  by_cases h : (u32 (u32 (q.bufRGBW offs) + 0x01000000) &&& 0xFE000000) = 0
  · rw [if_pos h]
    exact ⟨rfl, rfl, rfl, fun _ _ => rfl⟩
  · rw [if_neg h]
    exact ⟨rfl, rfl, rfl, fun i hi => Function.update_noteq hi _ _⟩

theorem sameOutside_renderWater (E : Ext) (W : WaterExt) (p : Plot3D_TriShape)
    (vt : NIFVertexTransform) (waterColor : ℕ) (lx ly lz : ℚ)
    (envMap : Option DDSTexture) (envMapLevel : ℚ) :
    sameOutside p (p.renderWater E W vt waterColor lx ly lz envMap envMapLevel) ∧
    (p.renderWater E W vt waterColor lx ly lz envMap envMapLevel).bufZ = p.bufZ := by
  unfold renderWater
  dsimp only
  apply foldl_invariant (fun q : Plot3D_TriShape => sameOutside p q ∧ q.bufZ = p.bufZ)
  · intro q y hy hq
    apply foldl_invariant (fun q : Plot3D_TriShape => sameOutside p q ∧ q.bufZ = p.bufZ)
    · intro r x hx hr
      obtain ⟨h1, h2, h3, h4⟩ := renderWaterPixel_effect E W r waterColor envMap
        (envMapLevel * (W.lightingPolynomial0 * 256)) (x : ℤ) (y : ℤ)
        (y * p.width.toNat + x)
      rw [List.mem_range] at hx hy
      refine ⟨⟨h1.trans hr.1.1, h2.trans hr.1.2.1, ?_⟩, h3.trans hr.2⟩
      intro i hi
      have hne : i ≠ y * p.width.toNat + x := by
        intro e
        apply hi
        refine ⟨(x : ℤ), (y : ℤ), by omega, by omega, by omega, by omega, ?_⟩
        unfold pixelOffs
        simp [e]
      rw [h3, h4 i hne]
      exact hr.1.2.2 i hi
    · exact hq
  · exact ⟨sameOutside_refl p, rfl⟩

open Renderer in
theorem viewOffsetY_mono (T : ℕ) (W H : ℤ) (hT1 : 1 ≤ T) (hT8 : T ≤ 8) (hH : 0 ≤ H) :
    ∀ j, j ≤ T → ∀ i, i ≤ j → ∀ a b, (viewOffsetY T W H)[i]? = some a →
      (viewOffsetY T W H)[j]? = some b → a ≤ b := by
  obtain ⟨_, _, _, h4⟩ := setBuffers_offsets_aux T W H hT1 hT8 hH
  intro j
  induction j with
  | zero =>
    intro _ i hi a b ha hb
    have : i = 0 := by omega
    subst this
    rw [ha] at hb
    cases hb
    exact le_refl _
  | succ j ih =>
    intro hj i hi a b ha hb
    rcases Nat.lt_or_ge i (j + 1) with hlt | hge
    · obtain ⟨c, d, hc, hd, hcd, _⟩ := h4 j (by omega)
      rw [hb] at hd
      cases hd
      exact le_trans (ih (by omega) i (by omega) a c ha hc) hcd
    · have : i = j + 1 := by omega
      subst this
      rw [ha] at hb
      cases hb
      exact le_refl _

open Renderer in
theorem bandBuffers_disjoint (T : ℕ) (W H : ℤ) (hT1 : 1 ≤ T) (hT8 : T ≤ 8) (hH : 0 ≤ H)
    (i j : ℕ) (hij : i < j) (hj : j < T) (bi bj : BandBuffers)
    (hbi : (bandBuffers T W H)[i]? = some bi) (hbj : (bandBuffers T W H)[j]? = some bj)
    (a b : ℕ) (ha : a < bi.width.toNat * bi.height.toNat)
    (hb : b < bj.width.toNat * bj.height.toNat) :
    0 ≤ bi.offs ∧ 0 ≤ bj.offs ∧ bi.offs + a < bj.offs + b := by
  obtain ⟨_, h0, _, h4⟩ := setBuffers_offsets_aux T W H hT1 hT8 hH
  have hmono := viewOffsetY_mono T W H hT1 hT8 hH
  obtain ⟨ai, ci, hai, hci, _, _, hbi2⟩ := h4 i (by omega)
  obtain ⟨aj, cj, haj, hcj, _, _, hbj2⟩ := h4 j hj
  rw [hbi] at hbi2
  rw [hbj] at hbj2
  cases hbi2
  cases hbj2
  dsimp only at ha hb ⊢
  have hWpos : 0 < W := by
    by_contra hW
    have : W.toNat = 0 := Int.toNat_eq_zero.mpr (by omega)
    rw [this, Nat.zero_mul] at ha
    omega
  have hdpos : 0 < ci - ai := by
    by_contra hd
    have : (ci - ai).toNat = 0 := Int.toNat_eq_zero.mpr (by omega)
    rw [this, Nat.mul_zero] at ha
    omega
  have hai0 : 0 ≤ ai := hmono i (by omega) 0 (by omega) 0 ai h0 hai
  have haj0 : 0 ≤ aj := hmono j (by omega) 0 (by omega) 0 aj h0 haj
  have hcij : ci ≤ aj := hmono j (by omega) (i + 1) (by omega) ci aj hci haj
  have ha2 : (a : ℤ) < W * (ci - ai) := by
    have h1 : ((W.toNat * (ci - ai).toNat : ℕ) : ℤ) = W * (ci - ai) := by
      push_cast
      rw [Int.toNat_of_nonneg (le_of_lt hWpos), Int.toNat_of_nonneg (le_of_lt hdpos)]
    rw [← h1]
    exact_mod_cast ha
  refine ⟨mul_nonneg hai0 (le_of_lt hWpos), mul_nonneg haj0 (le_of_lt hWpos), ?_⟩
  have h3 : ci * W ≤ aj * W := mul_le_mul_of_nonneg_right hcij (le_of_lt hWpos)
  have h4 : ai * W + W * (ci - ai) = ci * W := by ring
  have hb0 : (0 : ℤ) ≤ (b : ℤ) := Int.ofNat_nonneg b
  linarith

/-- C15: every colour- or depth-buffer element that a draw call (`drawTriShape`, whatever
shading function it selects, or `renderWater`) changes is a pixel `(x, y)` of the rasterizer,
that is element `y * W + x` with `0 ≤ x < W` and `0 ≤ y < h` for its buffer width `W` and
height `h`; such an element lies in the slice `[0, W * h)`, so all elements outside the slice
keep their values; and the slices that `setBuffers` hands to two different bands are disjoint
ranges of the image buffers, so that no pixel is written by two bands. -/
theorem writes_inside_slice (T : ℕ) (W H : ℤ) (hT1 : 1 ≤ T) (hT8 : T ≤ 8) (hH : 0 ≤ H) :
    (∀ (E : Ext) (p : Plot3D_TriShape) (mt vt : NIFVertexTransform) (lx ly lz : ℚ)
      (textures : ℕ → Option DDSTexture) (textureCnt : ℕ) (i : ℕ),
      ((p.drawTriShape E mt vt lx ly lz textures textureCnt).bufZ i ≠ p.bufZ i ∨
        (p.drawTriShape E mt vt lx ly lz textures textureCnt).bufRGBW i ≠ p.bufRGBW i) →
      ∃ x y : ℤ, 0 ≤ x ∧ x < p.width ∧ 0 ≤ y ∧ y < p.height ∧
        i = y.toNat * p.width.toNat + x.toNat) ∧
    (∀ (E : Ext) (X : WaterExt) (p : Plot3D_TriShape) (vt : NIFVertexTransform)
      (waterColor : ℕ) (lx ly lz : ℚ) (envMap : Option DDSTexture) (envMapLevel : ℚ) (i : ℕ),
      ((p.renderWater E X vt waterColor lx ly lz envMap envMapLevel).bufZ i ≠ p.bufZ i ∨
        (p.renderWater E X vt waterColor lx ly lz envMap envMapLevel).bufRGBW i ≠
          p.bufRGBW i) →
      ∃ x y : ℤ, 0 ≤ x ∧ x < p.width ∧ 0 ≤ y ∧ y < p.height ∧
        i = y.toNat * p.width.toNat + x.toNat) ∧
    (∀ (p : Plot3D_TriShape) (i : ℕ) (x y : ℤ), 0 ≤ x → x < p.width → 0 ≤ y → y < p.height →
      i = y.toNat * p.width.toNat + x.toNat → i < p.width.toNat * p.height.toNat) ∧
    (∀ (i j : ℕ) (bi bj : Renderer.BandBuffers), i < j → j < T →
      (Renderer.bandBuffers T W H)[i]? = some bi →
      (Renderer.bandBuffers T W H)[j]? = some bj →
      ∀ a b : ℕ, a < bi.width.toNat * bi.height.toNat →
        b < bj.width.toNat * bj.height.toNat →
        0 ≤ bi.offs ∧ 0 ≤ bj.offs ∧ bi.offs + a < bj.offs + b) := by
  refine ⟨?_, ?_, ?_, ?_⟩
  · intro E p mt vt lx ly lz textures textureCnt i hi
    by_contra hns
    have h := (sameOutside_drawTriShape E p mt vt lx ly lz textures textureCnt).2.2 i hns
    rcases hi with hi | hi
    · exact hi h.1
    · exact hi h.2
  · intro E X p vt waterColor lx ly lz envMap envMapLevel i hi
    by_contra hns
    have h := (sameOutside_renderWater E X p vt waterColor lx ly lz envMap envMapLevel).1.2.2
      i hns
    rcases hi with hi | hi
    · exact hi h.1
    · exact hi h.2
  · intro p i x y hx0 hx1 hy0 hy1 hi
    exact inSlice_lt p i ⟨x, y, hx0, hx1, hy0, hy1, hi⟩
  · intro i j bi bj hij hj hbi hbj a b ha hb
    exact bandBuffers_disjoint T W H hT1 hT8 hH i j hij hj bi bj hbi hbj a b ha hb

theorem writes_inside_slice_witness :
    (∀ (E : Ext) (p : Plot3D_TriShape) (mt vt : NIFVertexTransform) (lx ly lz : ℚ)
      (textures : ℕ → Option DDSTexture) (textureCnt : ℕ) (i : ℕ),
      ((p.drawTriShape E mt vt lx ly lz textures textureCnt).bufZ i ≠ p.bufZ i ∨
        (p.drawTriShape E mt vt lx ly lz textures textureCnt).bufRGBW i ≠ p.bufRGBW i) →
      ∃ x y : ℤ, 0 ≤ x ∧ x < p.width ∧ 0 ≤ y ∧ y < p.height ∧
        i = y.toNat * p.width.toNat + x.toNat) ∧
    (∀ (E : Ext) (X : WaterExt) (p : Plot3D_TriShape) (vt : NIFVertexTransform)
      (waterColor : ℕ) (lx ly lz : ℚ) (envMap : Option DDSTexture) (envMapLevel : ℚ) (i : ℕ),
      ((p.renderWater E X vt waterColor lx ly lz envMap envMapLevel).bufZ i ≠ p.bufZ i ∨
        (p.renderWater E X vt waterColor lx ly lz envMap envMapLevel).bufRGBW i ≠
          p.bufRGBW i) →
      ∃ x y : ℤ, 0 ≤ x ∧ x < p.width ∧ 0 ≤ y ∧ y < p.height ∧
        i = y.toNat * p.width.toNat + x.toNat) ∧
    (∀ (p : Plot3D_TriShape) (i : ℕ) (x y : ℤ), 0 ≤ x → x < p.width → 0 ≤ y → y < p.height →
      i = y.toNat * p.width.toNat + x.toNat → i < p.width.toNat * p.height.toNat) ∧
    (∀ (i j : ℕ) (bi bj : Renderer.BandBuffers), i < j → j < 8 →
      (Renderer.bandBuffers 8 640 480)[i]? = some bi →
      (Renderer.bandBuffers 8 640 480)[j]? = some bj →
      ∀ a b : ℕ, a < bi.width.toNat * bi.height.toNat →
        b < bj.width.toNat * bj.height.toNat →
        0 ≤ bi.offs ∧ 0 ≤ bj.offs ∧ bi.offs + a < bj.offs + b) :=
  writes_inside_slice 8 640 480 (by decide) (by decide) (by decide)

section meshTextures
variable {τ : Type}

theorem or_shiftLeft_mod_two (m j : ℕ) (hj : 1 ≤ j) : (m ||| (1 <<< j)) % 2 = m % 2 := by
  have h1 : (1 <<< j) % 2 = 0 := by
    rw [Nat.one_shiftLeft]
    obtain ⟨k, rfl⟩ : ∃ k, j = k + 1 := ⟨j - 1, by omega⟩
    rw [pow_succ]
    omega
  have h2 := @Nat.or_mod_two_eq_one m (1 <<< j)
  have h3 : (m ||| (1 <<< j)) % 2 < 2 := Nat.mod_lt _ (by norm_num)
  have h4 : m % 2 < 2 := Nat.mod_lt _ (by norm_num)
  by_cases h : m % 2 = 1
  · rw [h2.mpr (Or.inl h), h]
  · have h5 : ¬ ((m ||| (1 <<< j)) % 2 = 1) := by
      intro h6
      rcases h2.mp h6 with h7 | h7
      · exact h h7
      · omega
    omega

theorem shiftRight_and_one (M j : ℕ) : (M >>> j) &&& 1 ≠ 0 ↔ M.testBit j = true := by
  unfold Nat.testBit
  rw [Nat.land_comm]
  simp

theorem loadSlot_other (load : TextureRequest → Option τ) (M : ℕ) (s : TextureArgs τ)
    (j : ℕ) (hj : 1 ≤ j) :
    (loadSlot load M s j).textures 0 = s.textures 0 ∧
    (loadSlot load M s j).textureMask % 2 = s.textureMask % 2 := by
  unfold loadSlot
  split_ifs with h1 h2
  · refine ⟨?_, or_shiftLeft_mod_two _ _ hj⟩
    have : (0 : ℕ) ≠ j := by omega
    simp [Function.update, this]
  · refine ⟨?_, rfl⟩
    have : (0 : ℕ) ≠ j := by omega
    simp [Function.update, this]
  · exact ⟨rfl, rfl⟩

theorem foldl_loadSlot_other (load : TextureRequest → Option τ) (M : ℕ) :
    ∀ (l : List ℕ) (s : TextureArgs τ), (∀ j ∈ l, 1 ≤ j) →
      (l.foldl (loadSlot load M) s).textures 0 = s.textures 0 ∧
      (l.foldl (loadSlot load M) s).textureMask % 2 = s.textureMask % 2 := by
  intro l
  induction l with
  | nil => intro s _; exact ⟨rfl, rfl⟩
  | cons j l ih =>
    intro s hl
    rw [List.foldl_cons]
    obtain ⟨h1, h2⟩ := ih (loadSlot load M s j) (fun k hk => hl k (List.mem_cons_of_mem _ hk))
    obtain ⟨h3, h4⟩ := loadSlot_other load M s j (hl j (List.mem_cons_self _ _))
    exact ⟨h1.trans h3, h2.trans h4⟩

theorem foldl_loadSlot_requested (load : TextureRequest → Option τ) (M : ℕ) :
    ∀ (l : List ℕ) (s : TextureArgs τ),
      (l.foldl (loadSlot load M) s).requested =
        s.requested ++ (l.filter (fun j => M.testBit j)).map TextureRequest.slot := by
  intro l
  induction l with
  | nil => intro s; simp
  | cons j l ih =>
    intro s
    rw [List.foldl_cons, ih]
    unfold loadSlot
    by_cases h : (M >>> j) &&& 1 ≠ 0
    · rw [if_pos h]
      have h2 := (shiftRight_and_one M j).mp h
      simp [List.filter_cons, h2]
    · rw [if_neg h]
      have h2 : M.testBit j = false := by
        have := (shiftRight_and_one M j).not.mp h
        simpa using this
      simp [List.filter_cons, h2]

theorem range_ten : List.range 10 = 0 :: [1, 2, 3, 4, 5, 6, 7, 8, 9] := by decide

theorem foldl_loadSlot_zero (load : TextureRequest → Option τ) (M : ℕ)
    (uninit : ℕ → Option τ) :
    (((List.range 10).foldl (loadSlot load M)
        { textures := uninit, textureMask := 0, requested := [] }).textures 0 =
      (if M.testBit 0 = true then load (.slot 0) else uninit 0)) ∧
    (((List.range 10).foldl (loadSlot load M)
        { textures := uninit, textureMask := 0, requested := [] }).textureMask % 2 =
      (if M.testBit 0 = true ∧ (load (.slot 0)).isSome = true then 1 else 0)) := by
  rw [range_ten, List.foldl_cons]
  obtain ⟨h1, h2⟩ := foldl_loadSlot_other load M [1, 2, 3, 4, 5, 6, 7, 8, 9]
    (loadSlot load M { textures := uninit, textureMask := 0, requested := [] } 0)
    (by intro j hj; simp at hj; omega)
  rw [h1, h2]
  unfold loadSlot
  by_cases h : (M >>> 0) &&& 1 ≠ 0
  · have ht := (shiftRight_and_one M 0).mp h
    rw [if_pos h, if_pos ht]
    dsimp only
    by_cases hl : (load (.slot 0)).isSome = true
    · simp [hl, ht]
    · simp [hl]
  · have ht : ¬ (M.testBit 0 = true) := (shiftRight_and_one M 0).not.mp h
    rw [if_neg h, if_neg ht]
    simp [ht]

theorem mem_foldl_loadSlot (load : TextureRequest → Option τ) (M : ℕ)
    (uninit : ℕ → Option τ) (q : TextureRequest) :
    q ∈ ((List.range 10).foldl (loadSlot load M)
        { textures := uninit, textureMask := 0, requested := [] }).requested ↔
      ∃ j, j < 10 ∧ M.testBit j = true ∧ q = .slot j := by
  rw [foldl_loadSlot_requested]
  simp only [List.nil_append, List.mem_map, List.mem_filter, List.mem_range]
  constructor
  · rintro ⟨j, ⟨hj, hb⟩, rfl⟩
    exact ⟨j, hj, hb, rfl⟩
  · rintro ⟨j, hj, hb, rfl⟩
    exact ⟨j, ⟨hj, hb⟩, rfl⟩

theorem defaultDiffuse_spec (s : TextureArgs τ) (whiteTexture : τ) :
    (defaultDiffuse whiteTexture s).textureMask % 2 = 1 ∧
    (defaultDiffuse whiteTexture s).requested = s.requested ∧
    (defaultDiffuse whiteTexture s).textures 0 =
      (if s.textureMask % 2 = 1 then s.textures 0 else some whiteTexture) := by
  unfold defaultDiffuse
  have hm : s.textureMask &&& 0x0001 = s.textureMask % 2 := Nat.and_one_is_mod _
  rw [hm]
  have h2 : s.textureMask % 2 < 2 := Nat.mod_lt _ (by norm_num)
  by_cases h : s.textureMask % 2 = 0
  · rw [if_pos h]
    have h1 : ¬ (s.textureMask % 2 = 1) := by omega
    rw [if_neg h1]
    refine ⟨?_, rfl, ?_⟩
    · exact Nat.or_mod_two_eq_one.mpr (Or.inr rfl)
    · simp [Function.update]
  · rw [if_neg h]
    have h1 : s.textureMask % 2 = 1 := by omega
    rw [if_pos h1]
    exact ⟨h1, rfl, rfl⟩

theorem defaultEnvMapSlot_spec (load : TextureRequest → Option τ) (envMapScale : ℕ)
    (s : TextureArgs τ) :
    (defaultEnvMapSlot load envMapScale s).textureMask % 2 = s.textureMask % 2 ∧
    (defaultEnvMapSlot load envMapScale s).textures 0 = s.textures 0 ∧
    (∀ q, q ∈ (defaultEnvMapSlot load envMapScale s).requested →
      (q ∈ s.requested ∨ q = .defaultEnvMap)) ∧
    (∀ q, q ∈ s.requested → q ∈ (defaultEnvMapSlot load envMapScale s).requested) := by
  unfold defaultEnvMapSlot
  by_cases h : s.textureMask &&& 0x0010 = 0 ∧ envMapScale > 0
  · rw [if_pos h]
    refine ⟨?_, ?_, ?_, ?_⟩
    · dsimp only
      split_ifs
      · exact or_shiftLeft_mod_two s.textureMask 4 (by norm_num)
      · rfl
    · simp [Function.update]
    · intro q hq
      simpa using hq
    · intro q hq
      simp [hq]
  · rw [if_neg h]
    exact ⟨rfl, rfl, fun q hq => Or.inl hq, fun q hq => hq⟩

/-- C16: for every non-water mesh processed by `threadFunction`, the texture mask passed to
`drawTriShape` has bit 0 set and `textures[0]` is non-null: it is the texture that
`loadTexture` returned for slot 0 when slot 0 was requested and loaded, and `whiteTexture`
otherwise; the only slots `j` for which `loadTexture(ts.texturePaths[j])` is called are those
below 10 whose bit is set both in 0x037B (0x037F for meshes with the glow flag) and in the
path mask of the mesh, and the only other request is that for the default environment
map. -/
theorem meshTextures_diffuse (Flag_TSWater Flag_Glow : ℕ) (m : TriShapeMaterial)
    (whiteTexture : τ) (uninit : ℕ → Option τ) (load : TextureRequest → Option τ)
    (hw : m.flags &&& Flag_TSWater = 0) :
    (meshTextures Flag_TSWater Flag_Glow m whiteTexture uninit load).textureMask &&& 0x0001
      = 1 ∧
    ((meshTextures Flag_TSWater Flag_Glow m whiteTexture uninit load).textures 0).isSome
      = true ∧
    (meshTextures Flag_TSWater Flag_Glow m whiteTexture uninit load).textures 0 =
      (if TextureRequest.slot 0 ∈
            (meshTextures Flag_TSWater Flag_Glow m whiteTexture uninit load).requested ∧
          (load (.slot 0)).isSome = true
        then load (.slot 0) else some whiteTexture) ∧
    (∀ j, TextureRequest.slot j ∈
        (meshTextures Flag_TSWater Flag_Glow m whiteTexture uninit load).requested →
      j < 10 ∧
      (if m.flags &&& Flag_Glow = 0 then 0x037B else 0x037F).testBit j = true ∧
      m.texturePathMask.testBit j = true) ∧
    (∀ q ∈ (meshTextures Flag_TSWater Flag_Glow m whiteTexture uninit load).requested,
      q = .defaultEnvMap ∨ ∃ j, q = .slot j) := by
  have key : meshTextures Flag_TSWater Flag_Glow m whiteTexture uninit load =
      defaultEnvMapSlot load m.envMapScale
        (defaultDiffuse whiteTexture ((List.range 10).foldl (loadSlot load
          ((if m.flags &&& Flag_Glow = 0 then 0x037B else 0x037F) &&& m.texturePathMask))
          { textures := uninit, textureMask := 0, requested := [] })) := by
    unfold meshTextures
    rw [if_neg (not_not.mpr hw)]
  rw [key]
  obtain ⟨he1, he2, he3, he4⟩ := defaultEnvMapSlot_spec load m.envMapScale
    (defaultDiffuse whiteTexture ((List.range 10).foldl (loadSlot load
      ((if m.flags &&& Flag_Glow = 0 then 0x037B else 0x037F) &&& m.texturePathMask))
      { textures := uninit, textureMask := 0, requested := [] }))
  obtain ⟨hd1, hd2, hd3⟩ := defaultDiffuse_spec ((List.range 10).foldl (loadSlot load
      ((if m.flags &&& Flag_Glow = 0 then 0x037B else 0x037F) &&& m.texturePathMask))
      { textures := uninit, textureMask := 0, requested := [] }) whiteTexture
  obtain ⟨hf1, hf2⟩ := foldl_loadSlot_zero load
    ((if m.flags &&& Flag_Glow = 0 then 0x037B else 0x037F) &&& m.texturePathMask) uninit
  have hmem := mem_foldl_loadSlot load
    ((if m.flags &&& Flag_Glow = 0 then 0x037B else 0x037F) &&& m.texturePathMask) uninit
  have hslot : ∀ j, TextureRequest.slot j ∈ (defaultEnvMapSlot load m.envMapScale
      (defaultDiffuse whiteTexture ((List.range 10).foldl (loadSlot load
        ((if m.flags &&& Flag_Glow = 0 then 0x037B else 0x037F) &&& m.texturePathMask))
        { textures := uninit, textureMask := 0, requested := [] }))).requested ↔
      (j < 10 ∧ ((if m.flags &&& Flag_Glow = 0 then 0x037B else 0x037F) &&&
        m.texturePathMask).testBit j = true) := by
    intro j
    constructor
    · intro hq
      rcases he3 _ hq with h | h
      · rw [hd2] at h
        obtain ⟨k, hk, hb, e⟩ := (hmem _).mp h
        cases e
        exact ⟨hk, hb⟩
      · cases h
    · rintro ⟨hj, hb⟩
      apply he4
      rw [hd2]
      exact (hmem _).mpr ⟨j, hj, hb, rfl⟩
  refine ⟨?_, ?_, ?_, ?_, ?_⟩
  · rw [Nat.and_one_is_mod, he1, hd1]
  · rw [he2, hd3, hf2, hf1]
    by_cases hA : ((if m.flags &&& Flag_Glow = 0 then 0x037B else 0x037F) &&&
        m.texturePathMask).testBit 0 = true ∧ (load (.slot 0)).isSome = true
    · rw [if_pos hA, if_pos rfl, if_pos hA.1]
      exact hA.2
    · rw [if_neg hA, if_neg (by norm_num)]
      rfl
  · rw [he2, hd3, hf2, hf1]
    by_cases hA : ((if m.flags &&& Flag_Glow = 0 then 0x037B else 0x037F) &&&
        m.texturePathMask).testBit 0 = true ∧ (load (.slot 0)).isSome = true
    · have hreq := (hslot 0).mpr ⟨by norm_num, hA.1⟩
      rw [if_pos hA, if_pos rfl, if_pos hA.1, if_pos ⟨hreq, hA.2⟩]
    · rw [if_neg hA, if_neg (by norm_num)]
      have hB : ¬ (TextureRequest.slot 0 ∈ (defaultEnvMapSlot load m.envMapScale
          (defaultDiffuse whiteTexture ((List.range 10).foldl (loadSlot load
            ((if m.flags &&& Flag_Glow = 0 then 0x037B else 0x037F) &&& m.texturePathMask))
            { textures := uninit, textureMask := 0, requested := [] }))).requested ∧
          (load (.slot 0)).isSome = true) := by
        rintro ⟨h1, h2⟩
        exact hA ⟨((hslot 0).mp h1).2, h2⟩
      rw [if_neg hB]
  · intro j hj
    obtain ⟨h1, h2⟩ := (hslot j).mp hj
    rw [Nat.testBit_and, Bool.and_eq_true] at h2
    exact ⟨h1, h2.1, h2.2⟩
  · intro q hq
    rcases he3 _ hq with h | h
    · rw [hd2] at h
      obtain ⟨k, _, _, e⟩ := (hmem _).mp h
      exact Or.inr ⟨k, e⟩
    · exact Or.inl h

theorem meshTextures_diffuse_witness :
    (meshTextures 0x0002 0x0080 sampleMaterial 0 (fun _ => none) sampleLoad).textureMask &&& 0x0001
      = 1 ∧
    ((meshTextures 0x0002 0x0080 sampleMaterial 0 (fun _ => none) sampleLoad).textures 0).isSome
      = true ∧
    (meshTextures 0x0002 0x0080 sampleMaterial 0 (fun _ => none) sampleLoad).textures 0 =
      (if TextureRequest.slot 0 ∈
            (meshTextures 0x0002 0x0080 sampleMaterial 0 (fun _ => none) sampleLoad).requested ∧
          (sampleLoad (.slot 0)).isSome = true
        then sampleLoad (.slot 0) else some 0) ∧
    (∀ j, TextureRequest.slot j ∈
        (meshTextures 0x0002 0x0080 sampleMaterial 0 (fun _ => none) sampleLoad).requested →
      j < 10 ∧
      (if sampleMaterial.flags &&& 0x0080 = 0 then 0x037B else 0x037F).testBit j = true ∧
      sampleMaterial.texturePathMask.testBit j = true) ∧
    (∀ q ∈ (meshTextures 0x0002 0x0080 sampleMaterial 0 (fun _ => none) sampleLoad).requested,
      q = .defaultEnvMap ∨ ∃ j, q = .slot j) :=
  meshTextures_diffuse 0x0002 0x0080 sampleMaterial 0 (fun _ => none) sampleLoad (by decide)

end meshTextures

theorem pixelLoop_weights (v0 v1 v2 : NIFVertex) (t : TriangleUV) (y xStep : ℤ)
    (w1Step w2Step : ℚ) (hs : 0 ≤ w1Step) :
    ∀ (fuel : ℕ) (x : ℤ) (w1 w2 : ℚ), w1 ≥ -(1 / 1000000) →
      ∀ f ∈ pixelLoop v0 v1 v2 t y xStep w1Step w2Step fuel x w1 w2,
        f.w0 + f.w1 + f.w2 = 1 ∧ f.w0 ≥ -(1 / 1000000) ∧ f.w1 ≥ -(1 / 1000000) ∧
          f.w2 ≥ -(1 / 1000000) := by
  intro fuel
  induction fuel with
  | zero =>
    intro x w1 w2 _ f hf
    simp [pixelLoop] at hf
  | succ n ih =>
    intro x w1 w2 hw1 f hf
    unfold pixelLoop at hf
    dsimp only at hf
    split_ifs at hf with hc
    · rcases List.mem_cons.mp hf with rfl | hf2
      · dsimp only
        refine ⟨by ring, hc.1, hw1, hc.2⟩
      · exact ih (x + xStep) (w1 + w1Step) (w2 + w2Step) (by linarith) f hf2
    · simp at hf

theorem scanRow_weights (v0 v1 v2 : NIFVertex) (t : TriangleUV) (c : ScanCoeffs) (y : ℤ)
    (hb1 : c.b1 = -((c.x2 - c.x0) * c.a1))
    (hw1s : c.w1Step = if c.a1 < 0 then -c.a1 else c.a1) :
    ∀ f ∈ scanRow v0 v1 v2 t c y,
      f.w0 + f.w1 + f.w2 = 1 ∧ f.w0 ≥ -(1 / 1000000) ∧ f.w1 ≥ -(1 / 1000000) ∧
        f.w2 ≥ -(1 / 1000000) := by
  have hs : 0 ≤ c.w1Step := by
    rw [hw1s]
    split_ifs with h
    · linarith
    · linarith
  unfold scanRow
  dsimp only
  apply pixelLoop_weights v0 v1 v2 t y c.xStep c.w1Step c.w2Step hs
  set xe : ℚ := (c.x2 - c.x0) * (((y : ℚ) - c.y0) * c.dy2) + c.x0 with hxe
  have h1 := roundFloat_le_add_half xe
  have h2 := sub_half_le_roundFloat xe
  have hw : (((roundFloat xe : ℤ) : ℚ) - c.x0) * c.a1 + (((y : ℚ) - c.y0) * c.dy2) * c.b1 =
      c.a1 * (((roundFloat xe : ℤ) : ℚ) - xe) := by
    rw [hb1, hxe]
    ring
  rw [hw]
  split_ifs with h
  · exact h
  · rw [hw1s]
    by_cases ha : c.a1 < 0
    · rw [if_pos ha]
      have : c.a1 * (((roundFloat xe : ℤ) : ℚ) - xe) ≥ c.a1 * (1 / 2) := by
        have h3 : (((roundFloat xe : ℤ) : ℚ) - xe) ≤ 1 / 2 := by linarith
        nlinarith
      linarith
    · rw [if_neg ha]
      have : c.a1 * (((roundFloat xe : ℤ) : ℚ) - xe) ≥ c.a1 * (-(1 / 2)) := by
        have h3 : -(1 / 2) ≤ (((roundFloat xe : ℤ) : ℚ) - xe) := by linarith
        nlinarith
      linarith

theorem scanline_weights (v0 v1 v2 : NIFVertex) (t : TriangleUV) :
    ∀ f ∈ scanline v0 v1 v2 t,
      f.w0 + f.w1 + f.w2 = 1 ∧ f.w0 ≥ -(1 / 1000000) ∧ f.w1 ≥ -(1 / 1000000) ∧
        f.w2 ≥ -(1 / 1000000) := by
  intro f hf
  unfold scanline at hf
  dsimp only at hf
  rw [List.mem_flatMap] at hf
  obtain ⟨k, _, hk⟩ := hf
  exact scanRow_weights v0 v1 v2 t (scanCoeffs v0 v1 v2) _ rfl rfl f hk

/-- In exact arithmetic, for every non-degenerate triangle (doubled screen area at least 2^-20)
and every pixel for which the scanline loop `scanline` calls `drawPixel`, the three barycentric
weights passed sum to 1 and each of them is at least -0.000001, although the loop condition
tests only `w0` and `w2`: `w1` is at least -0.000001 at the start pixel of the row and grows
with every step.  The second part states this for the inner loop run for any number of
iterations. -/
theorem scanline_weight_bounds (E : Ext) (p : Plot3D_TriShape) (v0 v1 v2 : NIFVertex)
    (hnd : ¬ fabs (xyArea2Signed v0 v1 v2) < 1 / 1048576) :
    (∀ f ∈ (p.triangleFragmentsV E v0 v1 v2).2,
      f.w0 + f.w1 + f.w2 = 1 ∧ f.w0 ≥ -(1 / 1000000) ∧ f.w1 ≥ -(1 / 1000000) ∧
        f.w2 ≥ -(1 / 1000000)) ∧
    (∀ (t : TriangleUV) (y xStep : ℤ) (w1Step w2Step : ℚ) (fuel : ℕ) (x : ℤ) (w1 w2 : ℚ),
      0 ≤ w1Step → w1 ≥ -(1 / 1000000) →
      ∀ f ∈ pixelLoop v0 v1 v2 t y xStep w1Step w2Step fuel x w1 w2,
        f.w0 + f.w1 + f.w2 = 1 ∧ f.w0 ≥ -(1 / 1000000) ∧ f.w1 ≥ -(1 / 1000000) ∧
          f.w2 ≥ -(1 / 1000000)) := by
  constructor
  · intro f hf
    unfold triangleFragmentsV at hf
    dsimp only at hf
    rw [if_neg hnd] at hf
    exact scanline_weights _ _ _ _ f hf
  · intro t y xStep w1Step w2Step fuel x w1 w2 hs hw1 f hf
    exact pixelLoop_weights v0 v1 v2 t y xStep w1Step w2Step hs fuel x w1 w2 hw1 f hf

theorem scanline_weight_bounds_witness :
    (∀ f ∈ (diffuseState.triangleFragmentsV sampleExt (mkVertex 0 0 1) (mkVertex 4 0 1)
        (mkVertex 0 4 1)).2,
      f.w0 + f.w1 + f.w2 = 1 ∧ f.w0 ≥ -(1 / 1000000) ∧ f.w1 ≥ -(1 / 1000000) ∧
        f.w2 ≥ -(1 / 1000000)) ∧
    (∀ (t : TriangleUV) (y xStep : ℤ) (w1Step w2Step : ℚ) (fuel : ℕ) (x : ℤ) (w1 w2 : ℚ),
      0 ≤ w1Step → w1 ≥ -(1 / 1000000) →
      ∀ f ∈ pixelLoop (mkVertex 0 0 1) (mkVertex 4 0 1) (mkVertex 0 4 1) t y xStep w1Step
          w2Step fuel x w1 w2,
        f.w0 + f.w1 + f.w2 = 1 ∧ f.w0 ≥ -(1 / 1000000) ∧ f.w1 ≥ -(1 / 1000000) ∧
          f.w2 ≥ -(1 / 1000000)) :=
  scanline_weight_bounds sampleExt diffuseState (mkVertex 0 0 1) (mkVertex 4 0 1)
    (mkVertex 0 4 1) (by decide!)

theorem triangleEntry_z (p : Plot3D_TriShape) (vb : List NIFVertex) (i : ℕ)
    (t : NIFTriangle) (e : Triangle) (h : p.triangleEntry vb i t = some e) :
    e.z = (vb.getD t.v0 default).z + (vb.getD t.v1 default).z + (vb.getD t.v2 default).z := by
  unfold triangleEntry at h
  simp only at h
  split_ifs at h
  cases h
  rfl

theorem triangleEntry_outOfRange (p : Plot3D_TriShape) (vb : List NIFVertex) (i : ℕ)
    (t : NIFTriangle)
    (h : t.v0 ≥ p.vertexCnt ∨ t.v1 ≥ p.vertexCnt ∨ t.v2 ≥ p.vertexCnt) :
    p.triangleEntry vb i t = none := by
  unfold triangleEntry
  rw [if_pos h]

theorem filterMap_map_n (g : ℕ → Option Triangle) (hg : ∀ i t, g i = some t → t.n = i) :
    ∀ l : List ℕ, (l.filterMap g).map (fun t => t.n) = l.filter (fun i => (g i).isSome) := by
  intro l
  induction l with
  | nil => rfl
  | cons i l ih =>
    cases hgi : g i with
    | none => simp [List.filterMap_cons, List.filter_cons, hgi, ih]
    | some t =>
      have := hg i t hgi
      simp [List.filterMap_cons, List.filter_cons, hgi, ih, this]

theorem triangleBuf_eq (E : Ext) (p : Plot3D_TriShape)
    (mt vt : NIFVertexTransform) (lx ly lz : ℚ) :
    (p.transformVertexData E mt vt lx ly lz).p.triangleBuf =
      sortTriangles ((List.range p.triangleCnt).filterMap (fun i =>
        if p.boundsOutside (p.transformedBounds E mt vt) then none
        else (p.vertexPass mt vt).triangleEntry (p.vertexPass mt vt).vertexBuf i
          (p.triangleData i))) := by
  by_cases ho : p.boundsOutside (p.transformedBounds E mt vt)
  · rw [transformVertexData_outside E p mt vt lx ly lz ho]
    simp only [ho, if_true]
    have : (List.range p.triangleCnt).filterMap (fun _ => (none : Option Triangle)) = [] := by
      induction (List.range p.triangleCnt) with
      | nil => rfl
      | cons a l ih => simp [List.filterMap_cons, ih]
    rw [this]
    rfl
  · rw [transformVertexData_inside E p mt vt lx ly lz ho]
    simp only [ho, if_false]

theorem mem_triangleBuf_lt (E : Ext) (p : Plot3D_TriShape)
    (mt vt : NIFVertexTransform) (lx ly lz : ℚ) (t : Triangle)
    (h : t ∈ (p.transformVertexData E mt vt lx ly lz).p.triangleBuf) :
    t.n < p.triangleCnt := by
  rw [triangleBuf_eq, mem_sortTriangles, List.mem_filterMap] at h
  obtain ⟨i, hi, he⟩ := h
  rw [List.mem_range] at hi
  split_ifs at he
  have := triangleEntry_n _ _ _ _ _ he
  omega

theorem vertexCnt_le_length (E : Ext) (p : Plot3D_TriShape)
    (mt vt : NIFVertexTransform) (lx ly lz : ℚ) :
    p.vertexCnt ≤ (p.transformVertexData E mt vt lx ly lz).p.vertexBuf.length := by
  obtain ⟨A, hA, hvb, _⟩ := transformVertexData_withDrawState E p mt vt lx ly lz
  rw [hvb, List.length_append, hA]
  omega

/-- C18: every entry of the triangle list built by `transformVertexData` refers to a triangle
index `n < triangleCnt` whose three vertex indices are all below `vertexCnt`, which is at most
the length of `vertexBuf`, so that every vertex lookup made by `drawTriangles` is in range; and
a triangle `k` with an out-of-range vertex index is skipped without stopping the others: it has
no entry, and the list is the one built for the mesh without triangle `k`, up to the
renumbering of the triangles after `k`. -/
theorem triangleBuf_in_range (E : Ext) (p : Plot3D_TriShape)
    (mt vt : NIFVertexTransform) (lx ly lz : ℚ) :
    (∀ t ∈ (p.transformVertexData E mt vt lx ly lz).p.triangleBuf,
      t.n < p.triangleCnt ∧
      (p.triangleData t.n).v0 < p.vertexCnt ∧ (p.triangleData t.n).v1 < p.vertexCnt ∧
      (p.triangleData t.n).v2 < p.vertexCnt) ∧
    p.vertexCnt ≤ (p.transformVertexData E mt vt lx ly lz).p.vertexBuf.length ∧
    (p.transformVertexData E mt vt lx ly lz).p.triangleData = p.triangleData ∧
    (∀ k, k < p.triangleCnt →
      ((p.triangleData k).v0 ≥ p.vertexCnt ∨ (p.triangleData k).v1 ≥ p.vertexCnt ∨
        (p.triangleData k).v2 ≥ p.vertexCnt) →
      (∀ t ∈ (p.transformVertexData E mt vt lx ly lz).p.triangleBuf, t.n ≠ k) ∧
      ((p.removeTriangle k).transformVertexData E mt vt lx ly lz).p.triangleBuf =
        (p.transformVertexData E mt vt lx ly lz).p.triangleBuf.map (renumber k)) := by
  have hp := vertexPass_triangles p mt vt
  refine ⟨?_, vertexCnt_le_length E p mt vt lx ly lz,
    (transformVertexData_mesh E p mt vt lx ly lz).1, ?_⟩
  · intro t ht
    have hm := mem_triangleBuf E p mt vt lx ly lz t ht
    have hv := triangleEntry_valid _ _ _ _ _ hm.2
    rw [hp.2.2.1] at hv
    exact ⟨mem_triangleBuf_lt E p mt vt lx ly lz t ht, hv⟩
  · intro k hk hbad
    have hrej : (p.vertexPass mt vt).triangleEntry (p.vertexPass mt vt).vertexBuf k
        (p.triangleData k) = none := by
      apply triangleEntry_outOfRange
      rw [hp.2.2.1]
      exact hbad
    constructor
    · intro t ht hn
      have hm := mem_triangleBuf E p mt vt lx ly lz t ht
      rw [hn, hrej] at hm
      cases hm.2
    · rw [transformVertexData_removeTriangle E p mt vt lx ly lz k hk (fun _ => hrej)]
      rfl

theorem triangleBuf_in_range_witness :
    (badIndexMesh.transformVertexData sampleExt NIFVertexTransform.identity
        NIFVertexTransform.identity 0 0 1).p.triangleBuf = [{ z := 3, n := 1 }] ∧
    (∀ t ∈ (badIndexMesh.transformVertexData sampleExt NIFVertexTransform.identity
        NIFVertexTransform.identity 0 0 1).p.triangleBuf, t.n ≠ 0) ∧
    ((badIndexMesh.removeTriangle 0).transformVertexData sampleExt
        NIFVertexTransform.identity NIFVertexTransform.identity 0 0 1).p.triangleBuf =
      (badIndexMesh.transformVertexData sampleExt NIFVertexTransform.identity
        NIFVertexTransform.identity 0 0 1).p.triangleBuf.map (renumber 0) :=
  ⟨by decide!, (triangleBuf_in_range sampleExt badIndexMesh NIFVertexTransform.identity
    NIFVertexTransform.identity 0 0 1).2.2.2 0 (by decide) (by decide)⟩

theorem pairwise_n_filterMap (g : ℕ → Option Triangle) (hg : ∀ i t, g i = some t → t.n = i)
    (m : ℕ) : ((List.range m).filterMap g).Pairwise (fun a b => a.n < b.n) := by
  apply List.Pairwise.filterMap g _ (List.pairwise_lt_range m)
  intro i j hij a ha b hb
  rw [Option.mem_def] at ha hb
  rw [hg i a ha, hg j b hb]
  exact hij

/-- C19: the triangle list returned by `transformVertexData` holds every surviving triangle
index exactly once and no other (its indices are a permutation of the surviving indices of
the input), each entry carries the key `z(v0) + z(v1) + z(v2)` of its transformed vertices,
the list is ordered by non-decreasing key, and of two entries with equal keys the one with the
smaller original triangle index comes first. -/
theorem triangleBuf_sorted (E : Ext) (p : Plot3D_TriShape)
    (mt vt : NIFVertexTransform) (lx ly lz : ℚ) :
    ((p.transformVertexData E mt vt lx ly lz).p.triangleBuf.map (fun t => t.n)).Perm
      ((List.range p.triangleCnt).filter (fun i => p.survives E mt vt i)) ∧
    ((p.transformVertexData E mt vt lx ly lz).p.triangleBuf.map (fun t => t.n)).Nodup ∧
    (∀ t ∈ (p.transformVertexData E mt vt lx ly lz).p.triangleBuf,
      t.z = ((p.transformVertexData E mt vt lx ly lz).p.vertexAt (p.triangleData t.n).v0).z +
        ((p.transformVertexData E mt vt lx ly lz).p.vertexAt (p.triangleData t.n).v1).z +
        ((p.transformVertexData E mt vt lx ly lz).p.vertexAt (p.triangleData t.n).v2).z) ∧
    (p.transformVertexData E mt vt lx ly lz).p.triangleBuf.Pairwise (fun a b => a.z ≤ b.z) ∧
    (∀ a ∈ (p.transformVertexData E mt vt lx ly lz).p.triangleBuf,
      ∀ b ∈ (p.transformVertexData E mt vt lx ly lz).p.triangleBuf,
      a.z = b.z → a.n < b.n →
      List.Sublist [a, b] (p.transformVertexData E mt vt lx ly lz).p.triangleBuf) := by
  haveI : IsTotal Triangle (fun a b => a.z ≤ b.z) := ⟨fun a b => le_total a.z b.z⟩
  haveI : IsTrans Triangle (fun a b => a.z ≤ b.z) := ⟨fun a b c h1 h2 => le_trans h1 h2⟩
  have hg : ∀ i t, (if p.boundsOutside (p.transformedBounds E mt vt) then none
      else (p.vertexPass mt vt).triangleEntry (p.vertexPass mt vt).vertexBuf i
        (p.triangleData i)) = some t → t.n = i := by
    intro i t h
    split_ifs at h
    exact triangleEntry_n _ _ _ _ _ h
  have hperm : ((p.transformVertexData E mt vt lx ly lz).p.triangleBuf.map (fun t => t.n)).Perm
      ((List.range p.triangleCnt).filter (fun i => p.survives E mt vt i)) := by
    rw [triangleBuf_eq]
    unfold sortTriangles
    refine ((List.perm_insertionSort _ _).map _).trans ?_
    rw [filterMap_map_n _ hg]
    have : (fun i => (if p.boundsOutside (p.transformedBounds E mt vt) then none
        else (p.vertexPass mt vt).triangleEntry (p.vertexPass mt vt).vertexBuf i
          (p.triangleData i)).isSome) = (fun i => p.survives E mt vt i) := by
      funext i
      unfold survives
      by_cases ho : p.boundsOutside (p.transformedBounds E mt vt)
      · simp [ho]
      · simp [ho]
    rw [this]
  refine ⟨hperm, ?_, ?_, ?_, ?_⟩
  · exact hperm.nodup_iff.mpr ((List.nodup_range _).filter _)
  · intro t ht
    have hm := mem_triangleBuf E p mt vt lx ly lz t ht
    have hz := triangleEntry_z _ _ _ _ _ hm.2
    rw [← transformVertexData_vertexBuf E p mt vt lx ly lz hm.1] at hz
    exact hz
  · rw [triangleBuf_eq]
    unfold sortTriangles
    exact List.sorted_insertionSort _ _
  · intro a ha b hb hz hn
    rw [triangleBuf_eq] at ha hb ⊢
    rw [mem_sortTriangles] at ha hb
    unfold sortTriangles
    have hab : (fun a b : Triangle => a.z ≤ b.z) a b := le_of_eq hz
    refine List.pair_sublist_insertionSort hab ?_
    apply pair_sublist_of_pairwise (fun a b : Triangle => a.n < b.n) a b
    · intro e
      rw [e] at hn
      exact lt_irrefl _ hn
    · exact pairwise_n_filterMap _ hg _
    · exact ha
    · exact hb
    · exact not_lt.mpr (le_of_lt hn)

theorem shiftRight_scale (k : ℕ) (hk : k ≤ 16) :
    ((65536 >>> k : ℕ) : ℚ) * (1 / 65536) = 1 / 2 ^ k := by
  interval_cases k <;> simp only [Nat.shiftRight_eq_div_pow] <;> norm_num

theorem mipLevelBlock_branch (E : Ext) (tD : DDSTexture) (xyArea2 uvArea2 r2xArea m0 : ℚ)
    (t : TriangleUV) (hb : xyArea2 > uvArea2) :
    mipLevelBlock E tD xyArea2 uvArea2 r2xArea m0 t =
      (if rawMipLevel E tD xyArea2 uvArea2 r2xArea
            - (truncInt (rawMipLevel E tD xyArea2 uvArea2 r2xArea) : ℚ) < 1 / 16 ∨
          rawMipLevel E tD xyArea2 uvArea2 r2xArea
            - (truncInt (rawMipLevel E tD xyArea2 uvArea2 r2xArea) : ℚ) ≥ 15 / 16 then
        { mipLevel := 0 + ((truncInt (rawMipLevel E tD xyArea2 uvArea2 r2xArea) +
            (if rawMipLevel E tD xyArea2 uvArea2 r2xArea
              - (truncInt (rawMipLevel E tD xyArea2 uvArea2 r2xArea) : ℚ) ≥ 1 / 2
              then 1 else 0) : ℤ) : ℚ)
          uv := scaleUV t
            ((tD.getWidth : ℚ) * (((65536 >>> (truncInt (rawMipLevel E tD xyArea2 uvArea2
              r2xArea) + (if rawMipLevel E tD xyArea2 uvArea2 r2xArea
              - (truncInt (rawMipLevel E tD xyArea2 uvArea2 r2xArea) : ℚ) ≥ 1 / 2
              then 1 else 0)).toNat : ℕ) : ℚ) * (1 / 65536)))
            ((tD.getHeight : ℚ) * (((65536 >>> (truncInt (rawMipLevel E tD xyArea2 uvArea2
              r2xArea) + (if rawMipLevel E tD xyArea2 uvArea2 r2xArea
              - (truncInt (rawMipLevel E tD xyArea2 uvArea2 r2xArea) : ℚ) ≥ 1 / 2
              then 1 else 0)).toNat : ℕ) : ℚ) * (1 / 65536))) }
      else
        { mipLevel := (rawMipLevel E tD xyArea2 uvArea2 r2xArea
            - (truncInt (rawMipLevel E tD xyArea2 uvArea2 r2xArea) : ℚ))
            + (truncInt (rawMipLevel E tD xyArea2 uvArea2 r2xArea) : ℚ)
          uv := scaleUV t
            ((tD.getWidth : ℚ) * (((65536 >>> (truncInt (rawMipLevel E tD xyArea2 uvArea2
              r2xArea)).toNat : ℕ) : ℚ) * (1 / 65536)))
            ((tD.getHeight : ℚ) * (((65536 >>> (truncInt (rawMipLevel E tD xyArea2 uvArea2
              r2xArea)).toNat : ℕ) : ℚ) * (1 / 65536))) }) := by
  unfold mipLevelBlock
  rw [if_pos hb]
  unfold scaleUV
  have hr : rawMipLevel E tD xyArea2 uvArea2 r2xArea =
      (if uvArea2 * ((tD.getWidth : ℚ) * (tD.getHeight : ℚ)) > xyArea2 then
        E.log2 (fabs (r2xArea * (uvArea2 * ((tD.getWidth : ℚ) * (tD.getHeight : ℚ))))) * (1 / 2)
      else 0) := rfl
  dsimp only
  rw [← hr]
  by_cases hs : rawMipLevel E tD xyArea2 uvArea2 r2xArea
            - (truncInt (rawMipLevel E tD xyArea2 uvArea2 r2xArea) : ℚ) < 1 / 16 ∨
          rawMipLevel E tD xyArea2 uvArea2 r2xArea
            - (truncInt (rawMipLevel E tD xyArea2 uvArea2 r2xArea) : ℚ) ≥ 15 / 16
  · rw [if_pos hs]
    simp only [decide_eq_true hs, if_true]
  · rw [if_neg hs]
    simp only [decide_eq_false hs, Bool.false_eq_true, if_false]

/-- The raw mip level is below 16 when the texture has at most 2^32 texels, `r2xArea` is the
reciprocal of the doubled screen area and `log2` is below 32 on arguments below 2^32. -/
theorem rawMipLevel_lt (E : Ext) (tD : DDSTexture) (xyArea2 uvArea2 r2xArea : ℚ)
    (hb : xyArea2 > uvArea2) (hu : 0 ≤ uvArea2) (hr : fabs r2xArea * xyArea2 = 1)
    (hT : (tD.getWidth : ℚ) * (tD.getHeight : ℚ) ≤ 4294967296)
    (hlog : ∀ q : ℚ, 0 < q → q < 4294967296 → E.log2 q < 32) :
    rawMipLevel E tD xyArea2 uvArea2 r2xArea < 16 := by
  unfold rawMipLevel
  dsimp only
  split_ifs with h
  · have hxy : 0 < xyArea2 := by linarith
    have hr0 : 0 < fabs r2xArea := by
      by_contra hc
      have h0 : fabs r2xArea ≤ 0 := not_lt.mp hc
      have h1 : 0 ≤ fabs r2xArea := by rw [fabs_eq_abs]; exact abs_nonneg _
      have h2 : fabs r2xArea = 0 := le_antisymm h0 h1
      rw [h2] at hr
      norm_num at hr
    have huv : 0 < uvArea2 * ((tD.getWidth : ℚ) * (tD.getHeight : ℚ)) := by linarith
    have hWH : 0 < (tD.getWidth : ℚ) * (tD.getHeight : ℚ) := by
      by_contra hc
      have : uvArea2 * ((tD.getWidth : ℚ) * (tD.getHeight : ℚ)) ≤ 0 :=
        mul_nonpos_of_nonneg_of_nonpos hu (not_lt.mp hc)
      linarith
    have e : fabs (r2xArea * (uvArea2 * ((tD.getWidth : ℚ) * (tD.getHeight : ℚ)))) =
        fabs r2xArea * (uvArea2 * ((tD.getWidth : ℚ) * (tD.getHeight : ℚ))) := by
      rw [fabs_eq_abs, fabs_eq_abs, abs_mul, abs_of_pos huv]
    have hq0 : 0 < fabs r2xArea * (uvArea2 * ((tD.getWidth : ℚ) * (tD.getHeight : ℚ))) :=
      mul_pos hr0 huv
    have hq1 : fabs r2xArea * (uvArea2 * ((tD.getWidth : ℚ) * (tD.getHeight : ℚ))) <
        4294967296 := by
      have h1 : fabs r2xArea * uvArea2 < 1 := by
        rw [← hr]
        exact mul_lt_mul_of_pos_left hb hr0
      have h2 : fabs r2xArea * uvArea2 * ((tD.getWidth : ℚ) * (tD.getHeight : ℚ)) <
          1 * ((tD.getWidth : ℚ) * (tD.getHeight : ℚ)) := mul_lt_mul_of_pos_right h1 hWH
      calc fabs r2xArea * (uvArea2 * ((tD.getWidth : ℚ) * (tD.getHeight : ℚ)))
          = fabs r2xArea * uvArea2 * ((tD.getWidth : ℚ) * (tD.getHeight : ℚ)) := by ring
        _ < 1 * ((tD.getWidth : ℚ) * (tD.getHeight : ℚ)) := h2
        _ ≤ 4294967296 := by linarith
    rw [e]
    have := hlog _ hq0 hq1
    linarith
  · norm_num

/-- C20: whenever `drawTriangles` computes a mip level for a triangle (screen area greater
than the normalised UV area) with raw level `m ≥ 0` and `f = m - ⌊m⌋`, the final mip level is
`⌊m⌋` if `f < 0.0625`, `⌊m⌋ + 1` if `f ≥ 0.9375` and `m` itself otherwise, so that its
fractional part is 0 or lies in `[0.0625, 0.9375)`; and the UV coordinates are scaled by the
texture size times `2^-k`, where `k` is the integer part of the final level in the snapped
cases and `⌊m⌋` otherwise.  The scale is computed as `(65536 >> k) / 65536`, which is `2^-k`
for `m < 16.9375`; the raw level is below 16 for every texture of at most 2^32 texels, `r2xArea`
being the reciprocal of the doubled screen area and `std::log2` being below 32 on arguments
below 2^32. -/
theorem mipLevel_snapping (E : Ext) (tD : DDSTexture) (xyArea2 uvArea2 r2xArea m0 m : ℚ)
    (t : TriangleUV) (hb : xyArea2 > uvArea2)
    (hraw : rawMipLevel E tD xyArea2 uvArea2 r2xArea = m) (hm : 0 ≤ m) :
    (mipLevelBlock E tD xyArea2 uvArea2 r2xArea m0 t).mipLevel =
        (if m - (⌊m⌋ : ℚ) < 1 / 16 then (⌊m⌋ : ℚ)
          else if m - (⌊m⌋ : ℚ) ≥ 15 / 16 then (⌊m⌋ : ℚ) + 1 else m) ∧
      (Int.fract (mipLevelBlock E tD xyArea2 uvArea2 r2xArea m0 t).mipLevel = 0 ∨
        (1 / 16 ≤ Int.fract (mipLevelBlock E tD xyArea2 uvArea2 r2xArea m0 t).mipLevel ∧
          Int.fract (mipLevelBlock E tD xyArea2 uvArea2 r2xArea m0 t).mipLevel < 15 / 16)) ∧
      (m < 271 / 16 →
        (mipLevelBlock E tD xyArea2 uvArea2 r2xArea m0 t).uv =
          scaleUV t
            ((tD.getWidth : ℚ) * (1 / 2 ^ (if m - (⌊m⌋ : ℚ) < 1 / 16 ∨ m - (⌊m⌋ : ℚ) ≥ 15 / 16
              then ⌊(mipLevelBlock E tD xyArea2 uvArea2 r2xArea m0 t).mipLevel⌋
              else ⌊m⌋).toNat))
            ((tD.getHeight : ℚ) * (1 / 2 ^ (if m - (⌊m⌋ : ℚ) < 1 / 16 ∨ m - (⌊m⌋ : ℚ) ≥ 15 / 16
              then ⌊(mipLevelBlock E tD xyArea2 uvArea2 r2xArea m0 t).mipLevel⌋
              else ⌊m⌋).toNat))) ∧
      (0 ≤ uvArea2 → fabs r2xArea * xyArea2 = 1 →
        (tD.getWidth : ℚ) * (tD.getHeight : ℚ) ≤ 4294967296 →
        (∀ q : ℚ, 0 < q → q < 4294967296 → E.log2 q < 32) →
        m < 16 ∧
        (mipLevelBlock E tD xyArea2 uvArea2 r2xArea m0 t).uv =
          scaleUV t
            ((tD.getWidth : ℚ) * (1 / 2 ^ (if m - (⌊m⌋ : ℚ) < 1 / 16 ∨ m - (⌊m⌋ : ℚ) ≥ 15 / 16
              then ⌊(mipLevelBlock E tD xyArea2 uvArea2 r2xArea m0 t).mipLevel⌋
              else ⌊m⌋).toNat))
            ((tD.getHeight : ℚ) * (1 / 2 ^ (if m - (⌊m⌋ : ℚ) < 1 / 16 ∨ m - (⌊m⌋ : ℚ) ≥ 15 / 16
              then ⌊(mipLevelBlock E tD xyArea2 uvArea2 r2xArea m0 t).mipLevel⌋
              else ⌊m⌋).toNat))) := by
  have hlt : 0 ≤ uvArea2 → fabs r2xArea * xyArea2 = 1 →
      (tD.getWidth : ℚ) * (tD.getHeight : ℚ) ≤ 4294967296 →
      (∀ q : ℚ, 0 < q → q < 4294967296 → E.log2 q < 32) → m < 16 := by
    intro hu hr hT hlog
    rw [← hraw]
    exact rawMipLevel_lt E tD xyArea2 uvArea2 r2xArea hb hu hr hT hlog
  suffices main : (mipLevelBlock E tD xyArea2 uvArea2 r2xArea m0 t).mipLevel =
        (if m - (⌊m⌋ : ℚ) < 1 / 16 then (⌊m⌋ : ℚ)
          else if m - (⌊m⌋ : ℚ) ≥ 15 / 16 then (⌊m⌋ : ℚ) + 1 else m) ∧
      (Int.fract (mipLevelBlock E tD xyArea2 uvArea2 r2xArea m0 t).mipLevel = 0 ∨
        (1 / 16 ≤ Int.fract (mipLevelBlock E tD xyArea2 uvArea2 r2xArea m0 t).mipLevel ∧
          Int.fract (mipLevelBlock E tD xyArea2 uvArea2 r2xArea m0 t).mipLevel < 15 / 16)) ∧
      (m < 271 / 16 →
        (mipLevelBlock E tD xyArea2 uvArea2 r2xArea m0 t).uv =
          scaleUV t
            ((tD.getWidth : ℚ) * (1 / 2 ^ (if m - (⌊m⌋ : ℚ) < 1 / 16 ∨ m - (⌊m⌋ : ℚ) ≥ 15 / 16
              then ⌊(mipLevelBlock E tD xyArea2 uvArea2 r2xArea m0 t).mipLevel⌋
              else ⌊m⌋).toNat))
            ((tD.getHeight : ℚ) * (1 / 2 ^ (if m - (⌊m⌋ : ℚ) < 1 / 16 ∨ m - (⌊m⌋ : ℚ) ≥ 15 / 16
              then ⌊(mipLevelBlock E tD xyArea2 uvArea2 r2xArea m0 t).mipLevel⌋
              else ⌊m⌋).toNat))) by
    refine ⟨main.1, main.2.1, main.2.2, fun hu hr hT hlog => ?_⟩
    have h16 := hlt hu hr hT hlog
    exact ⟨h16, main.2.2 (by linarith)⟩
  rw [mipLevelBlock_branch E tD xyArea2 uvArea2 r2xArea m0 t hb, hraw]
  have ht : truncInt m = ⌊m⌋ := if_pos hm
  rw [ht]
  have hf0 : 0 ≤ m - (⌊m⌋ : ℚ) := sub_nonneg.mpr (Int.floor_le m)
  have hf1 : m - (⌊m⌋ : ℚ) < 1 := by linarith [Int.lt_floor_add_one m]
  have hi0 : 0 ≤ ⌊m⌋ := Int.floor_nonneg.mpr hm
  have hi16 : m < 271 / 16 → ⌊m⌋ ≤ 16 := by
    intro hk
    have h1 : ((⌊m⌋ : ℤ) : ℚ) < ((17 : ℤ) : ℚ) := by
      have := Int.floor_le m
      push_cast
      linarith
    have h2 : ⌊m⌋ < 17 := Int.cast_lt.mp h1
    omega
  by_cases hlo : m - (⌊m⌋ : ℚ) < 1 / 16
  · have hs : m - (⌊m⌋ : ℚ) < 1 / 16 ∨ m - (⌊m⌋ : ℚ) ≥ 15 / 16 := Or.inl hlo
    have hh : ¬ m - (⌊m⌋ : ℚ) ≥ 1 / 2 := by
      intro h
      linarith
    rw [if_pos hs, if_pos hs, if_pos hlo]
    simp only [if_neg hh, add_zero, zero_add, Int.floor_intCast, Int.fract_intCast]
    refine ⟨trivial, Or.inl trivial, fun hk => ?_⟩
    have := hi16 hk
    rw [shiftRight_scale ⌊m⌋.toNat (by omega)]
  · by_cases hhi : m - (⌊m⌋ : ℚ) ≥ 15 / 16
    · have hs : m - (⌊m⌋ : ℚ) < 1 / 16 ∨ m - (⌊m⌋ : ℚ) ≥ 15 / 16 := Or.inr hhi
      have hh : m - (⌊m⌋ : ℚ) ≥ 1 / 2 := by linarith
      rw [if_pos hs, if_pos hs, if_neg hlo, if_pos hhi]
      simp only [if_pos hh, zero_add, Int.floor_intCast, Int.fract_intCast]
      refine ⟨by push_cast; rfl, Or.inl trivial, fun hk => ?_⟩
      have h16 := hi16 hk
      have hi15 : ⌊m⌋ ≤ 15 := by
        by_contra hc
        have h16 : ⌊m⌋ = 16 := by omega
        rw [h16] at hhi
        push_cast at hhi
        linarith
      rw [shiftRight_scale (⌊m⌋ + 1).toNat (by omega)]
    · have hs : ¬ (m - (⌊m⌋ : ℚ) < 1 / 16 ∨ m - (⌊m⌋ : ℚ) ≥ 15 / 16) := by
        rintro (h | h)
        · exact hlo h
        · exact hhi h
      rw [if_neg hs, if_neg hs, if_neg hlo, if_neg hhi]
      dsimp only
      have he : m - (⌊m⌋ : ℚ) + (⌊m⌋ : ℚ) = m := by ring
      rw [he]
      refine ⟨rfl, Or.inr ⟨?_, ?_⟩, fun hk => ?_⟩
      · exact le_of_not_lt hlo
      · exact lt_of_not_ge hhi
      · have := hi16 hk
        rw [shiftRight_scale ⌊m⌋.toNat (by omega)]

theorem mipLevel_snapping_witness :
    (4 : ℚ) > 1 ∧ rawMipLevel wideExt whiteTexture4 4 1 (1 / 4) = 1 ∧
      (mipLevelBlock wideExt whiteTexture4 4 1 (1 / 4) 15 unitUV).mipLevel = 1 ∧
      (mipLevelBlock wideExt whiteTexture4 4 1 (1 / 4) 15 unitUV).uv = scaleUV unitUV 2 2 := by
  have h := mipLevel_snapping wideExt whiteTexture4 4 1 (1 / 4) 15 1 unitUV
    (by norm_num) (by decide!) (by norm_num)
  refine ⟨by norm_num, by decide!, ?_, ?_⟩
  · rw [h.1]
    norm_num
  · decide!

/-! ## The light table, the colour arithmetic and the water encoding -/

theorem round_div_256 (t : ℤ) : round ((t : ℚ) / 256) = (256 * t + 32768) / 65536 := by
  rw [round_eq]
  have h : (t : ℚ) / 256 + 1 / 2 = ((t + 128 : ℤ) : ℚ) / ((256 : ℕ) : ℚ) := by
    push_cast
    ring
  rw [h, Rat.floor_intCast_div_natCast]
  omega

theorem getLightLevel_eq (p : Plot3D_TriShape) (d : ℚ) :
    p.getLightLevel d =
      (256 * p.lightEntry (lightIndex d) +
        (p.lightEntry ((lightIndex d + 1) % 512) - p.lightEntry (lightIndex d))
          * lightFraction d + 32768) / 65536 := by
  unfold getLightLevel lightEntry lightIndex lightFraction toU32
  simp only
  generalize roundFloat (d * 32768) = x
  have h0 : ((x % 4294967296).toNat : ℤ) = x % 4294967296 :=
    Int.toNat_of_nonneg (Int.emod_nonneg _ (by norm_num))
  rw [h0]
  have h1 : x % 4294967296 / 256 % 512 = x / 256 % 512 := by omega
  have h2 : (x % 4294967296 / 256 + 1) % 512 = ((((x / 256 % 512).toNat + 1) % 512 : ℕ) : ℤ) := by
    have h3 : (((x / 256 % 512).toNat : ℕ) : ℤ) = x / 256 % 512 :=
      Int.toNat_of_nonneg (Int.emod_nonneg _ (by norm_num))
    push_cast
    rw [h3]
    omega
  rw [h1, h2, Int.toNat_natCast]
  ring_nf

/-- C21: for `x = roundFloat(d * 32768)`, `i = (x >> 8) mod 512` (two's complement) and
`f = x mod 256`, `getLightLevel` returns `⌊(256 T[i] + (T[(i+1) mod 512] - T[i]) f + 32768) /
65536⌋`, where `T` is the light table; for `f = 0` this is `T[i] / 256` rounded to the nearest
integer, and for every `f` the result lies between the rounded values of `T[i] / 256` and
`T[(i+1) mod 512] / 256`, inclusive. -/
theorem getLightLevel_interpolates (p : Plot3D_TriShape) (d : ℚ) :
    p.getLightLevel d =
        ⌊((256 * p.lightEntry (lightIndex d) +
          (p.lightEntry ((lightIndex d + 1) % 512) - p.lightEntry (lightIndex d))
            * lightFraction d + 32768 : ℤ) : ℚ) / 65536⌋ ∧
      (lightFraction d = 0 →
        p.getLightLevel d = round ((p.lightEntry (lightIndex d) : ℚ) / 256)) ∧
      min (round ((p.lightEntry (lightIndex d) : ℚ) / 256))
          (round ((p.lightEntry ((lightIndex d + 1) % 512) : ℚ) / 256)) ≤ p.getLightLevel d ∧
      p.getLightLevel d ≤
        max (round ((p.lightEntry (lightIndex d) : ℚ) / 256))
          (round ((p.lightEntry ((lightIndex d + 1) % 512) : ℚ) / 256)) := by
  rw [getLightLevel_eq, round_div_256, round_div_256]
  have hf0 : 0 ≤ lightFraction d := Int.emod_nonneg _ (by norm_num)
  have hf1 : lightFraction d < 256 := Int.emod_lt_of_pos _ (by norm_num)
  generalize lightFraction d = f at hf0 hf1
  generalize p.lightEntry (lightIndex d) = a
  generalize p.lightEntry ((lightIndex d + 1) % 512) = b
  refine ⟨?_, ?_, ?_, ?_⟩
  · have h : (((256 * a + (b - a) * f + 32768 : ℤ) : ℚ)) / 65536 =
        ((256 * a + (b - a) * f + 32768 : ℤ) : ℚ) / ((65536 : ℕ) : ℚ) := by norm_num
    rw [h, Rat.floor_intCast_div_natCast]
    rfl
  · intro h
    rw [h]
    simp
  · rcases le_total a b with hab | hab
    · rw [min_eq_left (Int.ediv_le_ediv (by norm_num) (by omega))]
      apply Int.ediv_le_ediv (by norm_num)
      nlinarith
    · rw [min_eq_right (Int.ediv_le_ediv (by norm_num) (by omega))]
      apply Int.ediv_le_ediv (by norm_num)
      nlinarith
  · rcases le_total a b with hab | hab
    · rw [max_eq_right (Int.ediv_le_ediv (by norm_num) (by omega))]
      apply Int.ediv_le_ediv (by norm_num)
      nlinarith
    · rw [max_eq_left (Int.ediv_le_ediv (by norm_num) (by omega))]
      apply Int.ediv_le_ediv (by norm_num)
      nlinarith

/-! ### Bit masks as arithmetic -/

theorem and_field (c k n : ℕ) : c &&& ((2 ^ n - 1) * 2 ^ k) = 2 ^ k * (c / 2 ^ k % 2 ^ n) := by
  apply Nat.eq_of_testBit_eq
  intro i
  rw [Nat.testBit_and, Nat.mul_comm (2 ^ n - 1) (2 ^ k), Nat.testBit_mul_pow_two,
    Nat.testBit_mul_pow_two, Nat.testBit_two_pow_sub_one, Nat.testBit_mod_two_pow,
    ← Nat.shiftRight_eq_div_pow, Nat.testBit_shiftRight]
  by_cases h : k ≤ i
  · have e : k + (i - k) = i := by omega
    rw [e]
    cases c.testBit i <;> simp [h]
  · simp [h]

theorem or_eq_add (k x a : ℕ) (hx : x < 2 ^ k) : x ||| 2 ^ k * a = x + 2 ^ k * a := by
  rw [Nat.or_comm, Nat.add_comm, Nat.mul_add_lt_is_or hx]

theorem and_FF (c : ℕ) : c &&& 0xFF = c % 256 :=
  Nat.and_pow_two_sub_one_eq_mod c 8

theorem and_FFFF (c : ℕ) : c &&& 0xFFFF = c % 65536 :=
  Nat.and_pow_two_sub_one_eq_mod c 16

theorem and_FFFFFF (c : ℕ) : c &&& 0x00FFFFFF = c % 16777216 :=
  Nat.and_pow_two_sub_one_eq_mod c 24

theorem and_FF00 (c : ℕ) : c &&& 0xFF00 = 256 * (c / 256 % 256) :=
  and_field c 8 8

theorem and_FF0000 (c : ℕ) : c &&& 0xFF0000 = 65536 * (c / 65536 % 256) :=
  and_field c 16 8

theorem and_FF000000 (c : ℕ) : c &&& 0xFF000000 = 16777216 * (c / 16777216 % 256) :=
  and_field c 24 8

theorem and_FE000000 (c : ℕ) : c &&& 0xFE000000 = 33554432 * (c / 33554432 % 128) :=
  and_field c 25 7

theorem and_10000 (c : ℕ) : c &&& 0x10000 = 65536 * (c / 65536 % 2) :=
  and_field c 16 1

theorem and_100 (c : ℕ) : c &&& 0x100 = 256 * (c / 256 % 2) :=
  and_field c 8 1

theorem and_1000000 (c : ℕ) : c &&& 0x1000000 = 16777216 * (c / 16777216 % 2) :=
  and_field c 24 1

theorem and_00FF00FF (c : ℕ) :
    c &&& 0x00FF00FF = c % 256 + 65536 * (c / 65536 % 256) := by
  have h : (0x00FF00FF : ℕ) = 0xFF ||| 0xFF0000 := by decide
  rw [h, Nat.and_or_distrib_left, and_FF, and_FF0000]
  exact or_eq_add 16 _ _ (by omega)

theorem and_01000100 (c : ℕ) :
    c &&& 0x01000100 = 256 * (c / 256 % 2) + 16777216 * (c / 16777216 % 2) := by
  have h : (0x01000100 : ℕ) = 0x100 ||| 0x1000000 := by decide
  rw [h, Nat.and_or_distrib_left, and_100, and_1000000]
  exact or_eq_add 24 _ _ (by omega)

theorem byteOf_or (x y k : ℕ) : byteOf (x ||| y) k = byteOf x k ||| byteOf y k := by
  unfold byteOf
  apply Nat.eq_of_testBit_eq
  intro i
  simp only [Nat.testBit_and, Nat.testBit_or, Nat.testBit_shiftRight, Bool.and_or_distrib_right]

theorem byteOf_eq (x k : ℕ) : byteOf x k = x / 2 ^ (8 * k) % 256 := by
  unfold byteOf
  rw [Nat.shiftRight_eq_div_pow, and_FF]

theorem byteOf_lt (x k : ℕ) : byteOf x k < 256 := by
  rw [byteOf_eq]
  exact Nat.mod_lt _ (by norm_num)

theorem or_flags (a b c : ℕ) (ha : a < 2) (hb : b < 2) (hc : c < 2) :
    (256 * a + 16777216 * b) ||| 65536 * c = 256 * a + 65536 * c + 16777216 * b := by
  interval_cases a <;> interval_cases b <;> interval_cases c <;> decide

theorem or_255 (x : ℕ) (hx : x < 256) : x ||| 255 = 255 := by
  apply Nat.eq_of_testBit_eq
  intro i
  rw [Nat.testBit_or]
  by_cases hi : i < 8
  · have h : (255 : ℕ).testBit i = true := by
      have := Nat.testBit_two_pow_sub_one 8 i
      simpa [hi] using this
    rw [h, Bool.or_true]
  · have h1 : x.testBit i = false :=
      Nat.testBit_lt_two_pow (lt_of_lt_of_le hx
        (by
          have : 2 ^ 8 ≤ 2 ^ i := Nat.pow_le_pow_right (by norm_num) (by omega)
          simpa using this))
    rw [h1, Bool.false_or]

theorem sat_byte (s : ℕ) (hs : s ≤ 510) :
    s % 256 ||| 255 * (s / 256) = min 255 s := by
  by_cases h : s < 256
  · have h1 : s / 256 = 0 := by omega
    have h2 : s % 256 = s := by omega
    rw [h1, h2, Nat.mul_zero, Nat.or_zero]
    omega
  · have h1 : s / 256 = 1 := by omega
    rw [h1, Nat.mul_one, or_255 _ (Nat.mod_lt _ (by norm_num))]
    omega

theorem byteOf_zero (x : ℕ) : byteOf x 0 = x % 256 := by
  rw [byteOf_eq]; norm_num

theorem byteOf_one (x : ℕ) : byteOf x 1 = x / 256 % 256 := by
  rw [byteOf_eq]; norm_num

theorem byteOf_two (x : ℕ) : byteOf x 2 = x / 65536 % 256 := by
  rw [byteOf_eq]; norm_num

theorem byteOf_three (x : ℕ) : byteOf x 3 = x / 16777216 % 256 := by
  rw [byteOf_eq]; norm_num

theorem low_bytes (r b : ℕ) (hr : r < 256) (hb : b < 256) :
    (r + 65536 * b) % 256 = r ∧ (r + 65536 * b) / 256 % 256 = 0 ∧
      (r + 65536 * b) / 65536 % 256 = b ∧ (r + 65536 * b) / 16777216 % 256 = 0 := by
  refine ⟨?_, ?_, ?_, ?_⟩ <;> omega

theorem mid_bytes (g : ℕ) (hg : g < 256) :
    256 * g % 256 = 0 ∧ 256 * g / 256 % 256 = g ∧ 256 * g / 65536 % 256 = 0 ∧
      256 * g / 16777216 % 256 = 0 := by
  refine ⟨?_, ?_, ?_, ?_⟩ <;> omega

theorem flag_bytes (a b c : ℕ) (ha : a ≤ 1) (hb : b ≤ 1) (hc : c ≤ 1) :
    (255 * a + 256 * (255 * b) + 65536 * (255 * c)) % 256 = 255 * a ∧
      (255 * a + 256 * (255 * b) + 65536 * (255 * c)) / 256 % 256 = 255 * b ∧
      (255 * a + 256 * (255 * b) + 65536 * (255 * c)) / 65536 % 256 = 255 * c ∧
      (255 * a + 256 * (255 * b) + 65536 * (255 * c)) / 16777216 % 256 = 0 := by
  interval_cases a <;> interval_cases b <;> interval_cases c <;> decide

/-- The combining step on the channel sums `R`, `G`, `B` (each at most 510), which the source
holds in the words `rb = R + 65536 B` and `g = 256 G`. -/
theorem saturate_core (R G B : ℕ) (hR : R ≤ 510) (hG : G ≤ 510) (hB : B ≤ 510) :
    byteOf (0xFF000000 ||| ((R + 65536 * B) &&& 0x00FF00FF) ||| ((256 * G) &&& 0x0000FF00)
      ||| u32 (((((R + 65536 * B) &&& 0x01000100) ||| ((256 * G) &&& 0x00010000)) >>> 8)
        * 0xFF)) 0 = min 255 R ∧
    byteOf (0xFF000000 ||| ((R + 65536 * B) &&& 0x00FF00FF) ||| ((256 * G) &&& 0x0000FF00)
      ||| u32 (((((R + 65536 * B) &&& 0x01000100) ||| ((256 * G) &&& 0x00010000)) >>> 8)
        * 0xFF)) 1 = min 255 G ∧
    byteOf (0xFF000000 ||| ((R + 65536 * B) &&& 0x00FF00FF) ||| ((256 * G) &&& 0x0000FF00)
      ||| u32 (((((R + 65536 * B) &&& 0x01000100) ||| ((256 * G) &&& 0x00010000)) >>> 8)
        * 0xFF)) 2 = min 255 B ∧
    byteOf (0xFF000000 ||| ((R + 65536 * B) &&& 0x00FF00FF) ||| ((256 * G) &&& 0x0000FF00)
      ||| u32 (((((R + 65536 * B) &&& 0x01000100) ||| ((256 * G) &&& 0x00010000)) >>> 8)
        * 0xFF)) 3 = 255 := by
  have e1 : (R + 65536 * B) &&& 0x00FF00FF = R % 256 + 65536 * (B % 256) := by
    rw [and_00FF00FF]; omega
  have e2 : (256 * G) &&& 0x0000FF00 = 256 * (G % 256) := by
    rw [and_FF00]; omega
  have e3 : (R + 65536 * B) &&& 0x01000100 = 256 * (R / 256) + 16777216 * (B / 256) := by
    rw [and_01000100]; omega
  have e4 : (256 * G) &&& 0x00010000 = 65536 * (G / 256) := by
    rw [and_10000]; omega
  have e5 : u32 ((((256 * (R / 256) + 16777216 * (B / 256)) ||| 65536 * (G / 256)) >>> 8)
      * 0xFF) = 255 * (R / 256) + 256 * (255 * (G / 256)) + 65536 * (255 * (B / 256)) := by
    rw [or_flags _ _ _ (by omega) (by omega) (by omega), Nat.shiftRight_eq_div_pow]
    unfold u32
    omega
  rw [e1, e2, e3, e4, e5]
  have s0 := sat_byte R hR
  have s1 := sat_byte G hG
  have s2 := sat_byte B hB
  have a0 : byteOf 0xFF000000 0 = 0 := by decide
  have a1 : byteOf 0xFF000000 1 = 0 := by decide
  have a2 : byteOf 0xFF000000 2 = 0 := by decide
  have a3 : byteOf 0xFF000000 3 = 255 := by decide
  simp only [byteOf_or, a0, a1, a2, a3]
  simp only [byteOf_zero, byteOf_one, byteOf_two, byteOf_three]
  obtain ⟨b0, b1, b2, b3⟩ := low_bytes (R % 256) (B % 256) (Nat.mod_lt _ (by norm_num))
    (Nat.mod_lt _ (by norm_num))
  obtain ⟨c0, c1, c2, c3⟩ := mid_bytes (G % 256) (Nat.mod_lt _ (by norm_num))
  obtain ⟨d0, d1, d2, d3⟩ := flag_bytes (R / 256) (G / 256) (B / 256) (by omega) (by omega)
    (by omega)
  rw [b0, b1, b2, b3, c0, c1, c2, c3, d0, d1, d2, d3]
  simp only [Nat.zero_or, Nat.or_zero]
  exact ⟨s0, s1, s2, trivial⟩

theorem addSaturate_bytes (c e : ℕ) :
    byteOf (addSaturate c e) 0 = min 255 (byteOf c 0 + byteOf e 0) ∧
    byteOf (addSaturate c e) 1 = min 255 (byteOf c 1 + byteOf e 1) ∧
    byteOf (addSaturate c e) 2 = min 255 (byteOf c 2 + byteOf e 2) ∧
    byteOf (addSaturate c e) 3 = 255 := by
  have hc0 := byteOf_lt c 0
  have hc1 := byteOf_lt c 1
  have hc2 := byteOf_lt c 2
  have he0 := byteOf_lt e 0
  have he1 := byteOf_lt e 1
  have he2 := byteOf_lt e 2
  have h := saturate_core (byteOf c 0 + byteOf e 0) (byteOf c 1 + byteOf e 1)
    (byteOf c 2 + byteOf e 2) (by omega) (by omega) (by omega)
  have erb : (c &&& 0x00FF00FF) + (e &&& 0x00FF00FF) =
      byteOf c 0 + byteOf e 0 + 65536 * (byteOf c 2 + byteOf e 2) := by
    rw [and_00FF00FF, and_00FF00FF, byteOf_zero, byteOf_zero, byteOf_two, byteOf_two]
    omega
  have eg : (c &&& 0x0000FF00) + (e &&& 0x0000FF00) = 256 * (byteOf c 1 + byteOf e 1) := by
    rw [and_FF00, and_FF00, byteOf_one, byteOf_one]
    omega
  unfold addSaturate
  simp only
  rw [erb, eg]
  exact h

theorem pack_bytes (r g b : ℕ) (hr : r < 256) (hg : g < 256) (hb : b < 256) :
    0xFF000000 ||| r ||| (g <<< 8) ||| (b <<< 16) = r + 256 * g + 65536 * b + 4278190080 := by
  rw [Nat.shiftLeft_eq, Nat.shiftLeft_eq, Nat.or_comm 0xFF000000 r]
  have h1 : r ||| 0xFF000000 = r + 2 ^ 24 * 255 := or_eq_add 24 r 255 (by omega)
  have h2 : (r + 2 ^ 24 * 255) ||| g * 2 ^ 8 = g * 2 ^ 8 + r + 2 ^ 24 * 255 := by
    have e : r + 2 ^ 24 * 255 = r ||| 2 ^ 24 * 255 := (or_eq_add 24 r 255 (by omega)).symm
    have e2 : g * 2 ^ 8 ||| 2 ^ 24 * 255 = g * 2 ^ 8 + 2 ^ 24 * 255 :=
      or_eq_add 24 _ 255 (by omega)
    have e3 : r ||| 2 ^ 8 * g = r + 2 ^ 8 * g := or_eq_add 8 r g (by omega)
    have e4 : (r + 2 ^ 8 * g) ||| 2 ^ 24 * 255 = r + 2 ^ 8 * g + 2 ^ 24 * 255 :=
      or_eq_add 24 _ 255 (by omega)
    rw [e, Nat.or_assoc, Nat.or_comm (2 ^ 24 * 255), ← Nat.or_assoc, Nat.mul_comm g, e3, e4]
    omega
  have h3 : (g * 2 ^ 8 + r + 2 ^ 24 * 255) ||| b * 2 ^ 16 =
      g * 2 ^ 8 + r + b * 2 ^ 16 + 2 ^ 24 * 255 := by
    have e : g * 2 ^ 8 + r + 2 ^ 24 * 255 = (g * 2 ^ 8 + r) ||| 2 ^ 24 * 255 :=
      (or_eq_add 24 _ 255 (by omega)).symm
    have e3 : (g * 2 ^ 8 + r) ||| 2 ^ 16 * b = g * 2 ^ 8 + r + 2 ^ 16 * b :=
      or_eq_add 16 _ b (by omega)
    have e4 : (g * 2 ^ 8 + r + 2 ^ 16 * b) ||| 2 ^ 24 * 255 =
        g * 2 ^ 8 + r + 2 ^ 16 * b + 2 ^ 24 * 255 := or_eq_add 24 _ 255 (by omega)
    rw [e, Nat.or_assoc, Nat.or_comm (2 ^ 24 * 255), ← Nat.or_assoc, Nat.mul_comm b, e3, e4]
  have h0 : (0xFF000000 : ℕ) = 2 ^ 24 * 255 := by norm_num
  rw [h1, h2, h3]
  omega

theorem word_bytes (r g b a : ℕ) (hr : r < 256) (hg : g < 256) (hb : b < 256) (ha : a < 256) :
    byteOf (r + 256 * g + 65536 * b + 16777216 * a) 0 = r ∧
    byteOf (r + 256 * g + 65536 * b + 16777216 * a) 1 = g ∧
    byteOf (r + 256 * g + 65536 * b + 16777216 * a) 2 = b ∧
    byteOf (r + 256 * g + 65536 * b + 16777216 * a) 3 = a := by
  rw [byteOf_zero, byteOf_one, byteOf_two, byteOf_three]
  refine ⟨?_, ?_, ?_, ?_⟩ <;> omega

theorem addReflectionR_bytes (p : Plot3D_TriShape) (c e r : ℕ) :
    byteOf (p.addReflectionR c e r) 0 = min 255 (byteOf c 0 +
      (u32 (byteOf e 0 * u32 (byteOf r 0 * toU32 p.reflectionLevel) + 0x8000) >>> 16)) ∧
    byteOf (p.addReflectionR c e r) 1 = min 255 (byteOf c 1 +
      (u32 (byteOf e 1 * u32 (byteOf r 1 * toU32 p.reflectionLevel) + 0x8000) >>> 16)) ∧
    byteOf (p.addReflectionR c e r) 2 = min 255 (byteOf c 2 +
      (u32 (byteOf e 2 * u32 (byteOf r 2 * toU32 p.reflectionLevel) + 0x8000) >>> 16)) ∧
    byteOf (p.addReflectionR c e r) 3 = 255 := by
  have key : ∀ x y : ℕ, y < 256 →
      (if u32 ((u32 x >>> 16) + y) < 255 then u32 ((u32 x >>> 16) + y) else 255) =
        min 255 (y + (u32 x >>> 16)) ∧
      (if u32 ((u32 x >>> 16) + y) < 255 then u32 ((u32 x >>> 16) + y) else 255) < 256 := by
    intro x y hy
    have h1 : u32 x >>> 16 < 65536 := by
      rw [Nat.shiftRight_eq_div_pow]
      unfold u32
      omega
    have h2 : u32 ((u32 x >>> 16) + y) = (u32 x >>> 16) + y := by
      generalize u32 x >>> 16 = t at h1
      unfold u32
      omega
    rw [h2]
    generalize u32 x >>> 16 = t at h1
    split_ifs <;> omega
  have hc0 := byteOf_lt c 0
  have hc1 := byteOf_lt c 1
  have hc2 := byteOf_lt c 2
  obtain ⟨k0, l0⟩ := key (byteOf e 0 * u32 (byteOf r 0 * toU32 p.reflectionLevel) + 0x8000)
    (byteOf c 0) hc0
  obtain ⟨k1, l1⟩ := key (byteOf e 1 * u32 (byteOf r 1 * toU32 p.reflectionLevel) + 0x8000)
    (byteOf c 1) hc1
  obtain ⟨k2, l2⟩ := key (byteOf e 2 * u32 (byteOf r 2 * toU32 p.reflectionLevel) + 0x8000)
    (byteOf c 2) hc2
  have hb0 : ∀ x : ℕ, x &&& 0xFF = byteOf x 0 := fun x => rfl
  have hb1 : ∀ x : ℕ, (x >>> 8) &&& 0xFF = byteOf x 1 := fun x => rfl
  have hb2 : ∀ x : ℕ, (x >>> 16) &&& 0xFF = byteOf x 2 := fun x => rfl
  unfold addReflectionR
  simp only [hb1, hb2]
  simp only [hb0]
  rw [pack_bytes _ _ _ l0 l1 l2, ← k0, ← k1, ← k2]
  exact word_bytes _ _ _ 255 l0 l1 l2 (by norm_num)

theorem reflectionR_exact (l : ℤ) (h0 : 0 ≤ l) (h1 : l ≤ 66050) (x y : ℕ) (hx : x < 256)
    (hy : y < 256) :
    u32 (x * u32 (y * toU32 l) + 0x8000) >>> 16 = (x * y * l.toNat + 0x8000) / 65536 := by
  have hl : toU32 l = l.toNat := by
    unfold toU32
    congr 1
    omega
  have hn : l.toNat ≤ 66050 := by omega
  rw [hl]
  generalize l.toNat = n at hn
  have b1 : y * n ≤ 255 * 66050 := Nat.mul_le_mul (by omega) hn
  have e1 : u32 (y * n) = y * n := by
    unfold u32
    omega
  rw [e1]
  have b2 : x * (y * n) ≤ 255 * (255 * 66050) := Nat.mul_le_mul (by omega) b1
  have e2 : u32 (x * (y * n) + 0x8000) = x * (y * n) + 0x8000 := by
    unfold u32
    omega
  rw [e2, Nat.shiftRight_eq_div_pow, Nat.mul_assoc]

/-- C22: the combining step of `addReflection` and `addReflectionM`, applied to the colour
`c` and the environment colour after intensity scaling, returns a colour whose alpha byte is
0xFF and whose red, green and blue bytes are each the sum of the two channel values,
saturated at 255, with no carry between channels; `addReflectionR` returns alpha 0xFF and per
channel `min(255, c + ((e * r * level + 0x8000) >> 16))`, where the product is the one the
source forms in `unsigned int` arithmetic, which is the exact product for every reflection
level from 0 to 66050. -/
theorem addReflection_saturates (E : Ext) (p : Plot3D_TriShape) (c e m r : ℕ) :
    (byteOf (p.addReflection E c e) 3 = 0xFF ∧
      ∀ k, k < 3 → byteOf (p.addReflection E c e) k =
        min 255 (byteOf c k + byteOf (u32 (E.multiplyWithLight e p.reflectionLevel)) k)) ∧
    (byteOf (p.addReflectionM E c e m) 3 = 0xFF ∧
      ∀ k, k < 3 → byteOf (p.addReflectionM E c e m) k =
        min 255 (byteOf c k + byteOf (u32 (E.multiplyWithLight e
          ((u32 (toU32 p.reflectionLevel * (m &&& 0xFF) + 0x80) >>> 8 : ℕ) : ℤ))) k)) ∧
    (byteOf (p.addReflectionR c e r) 3 = 0xFF ∧
      ∀ k, k < 3 → byteOf (p.addReflectionR c e r) k =
        min 255 (byteOf c k +
          (u32 (byteOf e k * u32 (byteOf r k * toU32 p.reflectionLevel) + 0x8000) >>> 16))) ∧
    (0 ≤ p.reflectionLevel → p.reflectionLevel ≤ 66050 → ∀ k, k < 3 →
      byteOf (p.addReflectionR c e r) k =
        min 255 (byteOf c k +
          (byteOf e k * byteOf r k * p.reflectionLevel.toNat + 0x8000) / 65536)) := by
  obtain ⟨r0, r1, r2, r3⟩ := addReflectionR_bytes p c e r
  refine ⟨?_, ?_, ⟨r3, ?_⟩, ?_⟩
  · obtain ⟨a0, a1, a2, a3⟩ := addSaturate_bytes c (u32 (E.multiplyWithLight e p.reflectionLevel))
    refine ⟨a3, ?_⟩
    intro k hk
    interval_cases k
    · exact a0
    · exact a1
    · exact a2
  · obtain ⟨a0, a1, a2, a3⟩ := addSaturate_bytes c (u32 (E.multiplyWithLight e
      ((u32 (toU32 p.reflectionLevel * (m &&& 0xFF) + 0x80) >>> 8 : ℕ) : ℤ)))
    refine ⟨a3, ?_⟩
    intro k hk
    interval_cases k
    · exact a0
    · exact a1
    · exact a2
  · intro k hk
    interval_cases k
    · exact r0
    · exact r1
    · exact r2
  · intro h0 h1 k hk
    interval_cases k
    · rw [r0, reflectionR_exact _ h0 h1 _ _ (byteOf_lt e 0) (byteOf_lt r 0)]
    · rw [r1, reflectionR_exact _ h0 h1 _ _ (byteOf_lt e 1) (byteOf_lt r 1)]
    · rw [r2, reflectionR_exact _ h0 h1 _ _ (byteOf_lt e 2) (byteOf_lt r 2)]

theorem vclrTableInit_last (pow : ℚ → ℚ → ℚ) (vclrGamma : ℚ)
    (hpow : pow 1 (1 / vclrGamma) = 1) : (vclrTableInit pow vclrGamma).getD 255 0 = 32768 := by
  unfold vclrTableInit
  rw [List.getD_eq_getElem _ _ (by simp), List.getElem_map, List.getElem_range]
  have h : ((255 : ℕ) : ℚ) * (1 / 255) = 1 := by norm_num
  rw [if_neg (by norm_num), h, hpow]
  have h2 : (1 : ℚ) * 32768 = ((32768 : ℤ) : ℚ) := by norm_num
  rw [h2, roundFloat_intCast]
  rfl

theorem pack_rgba (r g b a : ℕ) (hr : r < 256) (hg : g < 256) (hb : b < 256) :
    r ||| (g <<< 8) ||| (b <<< 16) ||| 16777216 * a = r + 256 * g + 65536 * b + 16777216 * a := by
  rw [Nat.shiftLeft_eq, Nat.shiftLeft_eq, Nat.mul_comm g, Nat.mul_comm b]
  have e1 : r ||| 2 ^ 8 * g = r + 2 ^ 8 * g := or_eq_add 8 r g (by omega)
  have e2 : (r + 2 ^ 8 * g) ||| 2 ^ 16 * b = r + 2 ^ 8 * g + 2 ^ 16 * b :=
    or_eq_add 16 _ b (by omega)
  have e3 : (r + 2 ^ 8 * g + 2 ^ 16 * b) ||| 2 ^ 24 * a = r + 2 ^ 8 * g + 2 ^ 16 * b + 2 ^ 24 * a :=
    or_eq_add 24 _ a (by omega)
  have h24 : (16777216 : ℕ) = 2 ^ 24 := by norm_num
  rw [h24, e1, e2, e3]
  omega

theorem scale_full (x : ℕ) (hx : x < 256) : u32 (x * 32768 + 0x4000) >>> 15 = x := by
  rw [Nat.shiftRight_eq_div_pow]
  unfold u32
  omega

theorem alpha_full (x : ℕ) (hx : x < 256) :
    u32 (x * 255 * 65793 + 0x00800000) &&& 0xFF000000 = 16777216 * x := by
  rw [and_FF000000]
  have h1 : u32 (x * 255 * 65793 + 0x00800000) = x * 16777215 + 8388608 := by
    unfold u32
    omega
  have h2 : (x * 16777215 + 8388608) / 16777216 = x :=
    Nat.div_eq_of_lt_le (by omega) (by omega)
  rw [h1, h2, Nat.mod_eq_of_lt hx]

theorem gradientMapAndVColor_full (p : Plot3D_TriShape) (c vColor : ℕ)
    (hG : p.textureG = none) (hT : p.vclrTable.getD 255 0 = 32768) (hc : c < 4294967296)
    (hv : u32 vColor = 0xFFFFFFFF) : p.gradientMapAndVColor c vColor = c := by
  have v0 : vColor &&& 0xFF = 255 := by
    rw [and_FF]
    unfold u32 at hv
    omega
  have v1 : (vColor >>> 8) &&& 0xFF = 255 := by
    rw [and_FF, Nat.shiftRight_eq_div_pow]
    unfold u32 at hv
    omega
  have v2 : (vColor >>> 16) &&& 0xFF = 255 := by
    rw [and_FF, Nat.shiftRight_eq_div_pow]
    unfold u32 at hv
    omega
  have v3 : (vColor >>> 24) &&& 0xFF = 255 := by
    rw [and_FF, Nat.shiftRight_eq_div_pow]
    unfold u32 at hv
    omega
  unfold gradientMapAndVColor
  rw [hG]
  simp only [v0, v1, v2, v3, hT]
  have c0 : c &&& 0xFF < 256 := by rw [and_FF]; omega
  have c1 : (c >>> 8) &&& 0xFF < 256 := by rw [and_FF]; omega
  have c2 : (c >>> 16) &&& 0xFF < 256 := by rw [and_FF]; omega
  have c3 : (c >>> 24) &&& 0xFF < 256 := by rw [and_FF]; omega
  rw [scale_full _ c0, scale_full _ c1, scale_full _ c2, alpha_full _ c3,
    pack_rgba _ _ _ _ c0 c1 c2]
  simp only [and_FF, Nat.shiftRight_eq_div_pow]
  unfold u32
  omega

/-- C23: with no gradient texture bound and the table `vclrTable` built by the constructor
(for any vertex colour gamma; `std::pow` maps the base 1 to 1), `gradientMapAndVColor(c,
0xFFFFFFFF)` is `c` for every 32-bit colour `c`; hence the fast path of the shading functions,
which skips the call exactly when no gradient texture is bound and the vertex colour is
0xFFFFFFFF, yields the colour that calling `gradientMapAndVColor` always would. -/
theorem gradientMapAndVColor_white (pow : ℚ → ℚ → ℚ) (vclrGamma : ℚ) (p : Plot3D_TriShape)
    (hpow : pow 1 (1 / vclrGamma) = 1) (hG : p.textureG = none)
    (hT : p.vclrTable = vclrTableInit pow vclrGamma) :
    (∀ c, c < 4294967296 → p.gradientMapAndVColor c 0xFFFFFFFF = c) ∧
      ∀ (q : Plot3D_TriShape) (tD : DDSTexture) (txtU txtV : ℚ) (z : NIFVertex),
        q.vclrTable = vclrTableInit pow vclrGamma →
        q.diffuseColor tD txtU txtV z =
          q.gradientMapAndVColor (u32 (tD.getPixelT txtU txtV q.mipLevel)) z.vertexColor := by
  have h255 := vclrTableInit_last pow vclrGamma hpow
  refine ⟨fun c hc => gradientMapAndVColor_full p c _ hG (by rw [hT]; exact h255) hc
    (by decide), ?_⟩
  intro q tD txtU txtV z hq
  unfold diffuseColor
  simp only
  split_ifs with h
  · rfl
  · have hg : q.textureG = none := by
      cases hq2 : q.textureG with
      | none => rfl
      | some t =>
        exfalso
        apply h
        left
        simp [hq2]
    have hv : u32 z.vertexColor = 0xFFFFFFFF := by
      have h2 : ¬ (0xFFFFFFFF - u32 z.vertexColor ≠ 0) := fun h3 => h (Or.inr h3)
      have h3 : u32 z.vertexColor < 4294967296 := Nat.mod_lt _ (by norm_num)
      omega
    symm
    apply gradientMapAndVColor_full q _ _ hg (by rw [hq]; exact h255) _ hv
    exact Nat.mod_lt _ (by norm_num)

theorem gradientMapAndVColor_white_witness :
    gammaShape.gradientMapAndVColor 0x80402010 0xFFFFFFFF = 0x80402010 :=
  (gradientMapAndVColor_white samplePow (11 / 5) gammaShape rfl rfl rfl).1 0x80402010
    (by norm_num)

theorem marker_test (c : ℕ) :
    (u32 (c + 0x01000000) &&& 0xFE000000) = 0 ↔ byteOf c 3 = 0 ∨ byteOf c 3 = 255 := by
  rw [and_FE000000, byteOf_three]
  unfold u32
  constructor
  · intro h
    have h1 : (c + 0x01000000) % 4294967296 / 33554432 % 128 = 0 := by omega
    omega
  · intro h
    have h1 : (c + 0x01000000) % 4294967296 / 33554432 % 128 = 0 := by omega
    omega

theorem renderWaterPixel_marker (E : Ext) (W : WaterExt) (q : Plot3D_TriShape) (waterColor : ℕ)
    (envMap : Option DDSTexture) (envMapLevel : ℚ) (x y : ℤ) (offs : ℕ)
    (h : byteOf (u32 (q.bufRGBW offs)) 3 = 0 ∨ byteOf (u32 (q.bufRGBW offs)) 3 = 255) :
    (q.renderWaterPixel E W waterColor envMap envMapLevel x y offs).bufRGBW = q.bufRGBW := by
  have key : q.renderWaterPixel E W waterColor envMap envMapLevel x y offs =
      if (u32 (u32 (q.bufRGBW offs) + 0x01000000) &&& 0xFE000000) = 0 then q
      else { q with
        reflectionLevel := (q.waterPixel E W waterColor envMap envMapLevel x y
          (u32 (q.bufRGBW offs))).1
        bufRGBW := Function.update q.bufRGBW offs
          (q.waterPixel E W waterColor envMap envMapLevel x y (u32 (q.bufRGBW offs))).2 } := rfl
  rw [key, if_pos ((marker_test (u32 (q.bufRGBW offs))).mpr h)]

theorem renderWater_invariant (E : Ext) (W : WaterExt) (p : Plot3D_TriShape)
    (vt : NIFVertexTransform) (waterColor : ℕ) (lx ly lz : ℚ)
    (envMap : Option DDSTexture) (envMapLevel : ℚ) (P : Plot3D_TriShape → Prop)
    (hstep : ∀ (q : Plot3D_TriShape) (l : ℚ) (x y : ℤ) (offs : ℕ), P q →
      P (q.renderWaterPixel E W waterColor envMap l x y offs))
    (h0 : ∀ (a : Option NIFVertexTransform) (t : Option DDSTexture) (x y z : ℚ),
      P { p with viewTransformPtr := a, textureE := t, light_X := x, light_Y := y, light_Z := z }) :
    P (p.renderWater E W vt waterColor lx ly lz envMap envMapLevel) := by
  unfold renderWater
  dsimp only
  apply foldl_invariant P
  · intro q y _ hq
    apply foldl_invariant P
    · intro r x _ hr
      exact hstep r _ _ _ _ hr
    · exact hq
  · exact h0 _ _ _ _ _

/-- C24: `renderWater` leaves unchanged every pixel whose top (alpha) byte is 0x00 or 0xFF, so
that it modifies only pixels whose top byte is in 1..254, and it never writes the depth
buffer. -/
theorem renderWater_frame (E : Ext) (W : WaterExt) (p : Plot3D_TriShape)
    (vt : NIFVertexTransform) (waterColor : ℕ) (lx ly lz : ℚ)
    (envMap : Option DDSTexture) (envMapLevel : ℚ) :
    (p.renderWater E W vt waterColor lx ly lz envMap envMapLevel).bufZ = p.bufZ ∧
    (∀ i, byteOf (u32 (p.bufRGBW i)) 3 = 0x00 ∨ byteOf (u32 (p.bufRGBW i)) 3 = 0xFF →
      (p.renderWater E W vt waterColor lx ly lz envMap envMapLevel).bufRGBW i = p.bufRGBW i) ∧
    (∀ i, (p.renderWater E W vt waterColor lx ly lz envMap envMapLevel).bufRGBW i ≠ p.bufRGBW i →
      1 ≤ byteOf (u32 (p.bufRGBW i)) 3 ∧ byteOf (u32 (p.bufRGBW i)) 3 ≤ 254) := by
  have main : ∀ i, byteOf (u32 (p.bufRGBW i)) 3 = 0x00 ∨ byteOf (u32 (p.bufRGBW i)) 3 = 0xFF →
      (p.renderWater E W vt waterColor lx ly lz envMap envMapLevel).bufRGBW i = p.bufRGBW i := by
    intro i hi
    have h := renderWater_invariant E W p vt waterColor lx ly lz envMap envMapLevel
      (fun q => q.bufRGBW i = p.bufRGBW i)
      (by
        intro r l x y offs hr
        have hr2 : r.bufRGBW i = p.bufRGBW i := hr
        by_cases e : i = offs
        · have hm : byteOf (u32 (r.bufRGBW offs)) 3 = 0 ∨ byteOf (u32 (r.bufRGBW offs)) 3 = 255 := by
            rw [← e, hr2]
            exact hi
          have h := renderWaterPixel_marker E W r waterColor envMap l x y offs hm
          exact (congrFun h i).trans hr2
        · have h := (renderWaterPixel_effect E W r waterColor envMap l x y offs).2.2.2 i e
          exact h.trans hr2)
      (fun _ _ _ _ _ => rfl)
    exact h
  refine ⟨(sameOutside_renderWater E W p vt waterColor lx ly lz envMap envMapLevel).2, main, ?_⟩
  intro i hne
  have hlt := byteOf_lt (u32 (p.bufRGBW i)) 3
  by_contra hc
  apply hne
  apply main
  omega

theorem roundFloat_126_of_sq (n : ℚ) (h : n * n ≤ 128 / 127) :
    -126 ≤ roundFloat (n * 126) ∧ roundFloat (n * 126) ≤ 126 := by
  have h1 := roundFloat_le_add_half (n * 126)
  have h2 := sub_half_le_roundFloat (n * 126)
  have hlt : n * 126 < 253 / 2 := by nlinarith
  have hgt : -(253 / 2) < n * 126 := by nlinarith
  constructor
  · have : ((-127 : ℤ) : ℚ) < ((roundFloat (n * 126) : ℤ) : ℚ) := by
      push_cast
      linarith
    have := Int.cast_lt.mp this
    omega
  · have : ((roundFloat (n * 126) : ℤ) : ℚ) < ((127 : ℤ) : ℚ) := by
      push_cast
      linarith
    have := Int.cast_lt.mp this
    omega

/-- The normalisation step of `normalMap` (lines 181-189) for a component `W` of a vector
whose squared length is `S`: for a square root that is positive and not too small, the square
of the normalised component is at most 128/127. -/
theorem normalize_sq (E : Ext) (inv : Bool) (W S : ℚ) (hW : W * W ≤ S)
    (hsqrt : ∀ q : ℚ, 0 < q → 0 < E.sqrt q ∧ 127 / 128 * q ≤ E.sqrt q * E.sqrt q) :
    (W * (if inv then -(if S > 0 then 1 / E.sqrt S else S)
        else (if S > 0 then 1 / E.sqrt S else S))) *
      (W * (if inv then -(if S > 0 then 1 / E.sqrt S else S)
        else (if S > 0 then 1 / E.sqrt S else S))) ≤ 128 / 127 := by
  have key : ∀ t : ℚ, (W * (if inv then -t else t)) * (W * (if inv then -t else t)) =
      W * W * (t * t) := by
    intro t
    cases inv <;> simp <;> ring
  rw [key]
  by_cases hS : S > 0
  · rw [if_pos hS]
    obtain ⟨hp, hq⟩ := hsqrt _ hS
    generalize E.sqrt S = s at hp hq
    have hss : 0 < s * s := mul_pos hp hp
    have e : W * W * (1 / s * (1 / s)) = W * W / (s * s) := by
      field_simp
    rw [e, div_le_iff₀ hss]
    nlinarith
  · rw [if_neg hS]
    have h0 : W * W = 0 := le_antisymm (by linarith) (mul_self_nonneg W)
    rw [h0]
    norm_num

theorem waterNormal_sq (E : Ext) (p : Plot3D_TriShape) (txtU txtV : ℚ) (z : NIFVertex)
    (hsqrt : ∀ q : ℚ, 0 < q → 0 < E.sqrt q ∧ 127 / 128 * q ≤ E.sqrt q * E.sqrt q) :
    (waterNormal E p txtU txtV z).1 * (waterNormal E p txtU txtV z).1 ≤ 128 / 127 ∧
      (waterNormal E p txtU txtV z).2 * (waterNormal E p txtU txtV z).2 ≤ 128 / 127 := by
  have h1 : ∀ a b c : ℚ, a * a ≤ a * a + b * b + c * c := fun a b c => by
    nlinarith [mul_self_nonneg b, mul_self_nonneg c]
  have h2 : ∀ a b c : ℚ, b * b ≤ a * a + b * b + c * c := fun a b c => by
    nlinarith [mul_self_nonneg a, mul_self_nonneg c]
  unfold waterNormal normalMap
  dsimp only
  exact ⟨normalize_sq E p.invNormals _ _ (h1 _ _ _) hsqrt,
    normalize_sq E p.invNormals _ _ (h2 _ _ _) hsqrt⟩

theorem water_pack (c16 : ℕ) (x y : ℤ) (hx0 : 2 ≤ x) (hx1 : x ≤ 254)
    (hy0 : 2 ≤ y) (hy1 : y ≤ 254) :
    (c16 &&& 0xFFFF) ||| u32 (toU32 x <<< 16) ||| u32 (toU32 y <<< 24) =
      c16 % 65536 + 65536 * x.toNat + 16777216 * y.toNat := by
  have ex : toU32 x = x.toNat := by
    unfold toU32
    congr 1
    omega
  have ey : toU32 y = y.toNat := by
    unfold toU32
    congr 1
    omega
  have bx : x.toNat ≤ 254 := by omega
  have by1 : y.toNat ≤ 254 := by omega
  rw [ex, ey, Nat.shiftLeft_eq, Nat.shiftLeft_eq, and_FFFF]
  have e1 : u32 (x.toNat * 2 ^ 16) = 2 ^ 16 * x.toNat := by
    unfold u32
    omega
  have e2 : u32 (y.toNat * 2 ^ 24) = 2 ^ 24 * y.toNat := by
    unfold u32
    omega
  rw [e1, e2, or_eq_add 16 _ _ (by omega), or_eq_add 24 _ _ (by omega)]
  omega

theorem drawPixel_Water_stored (E : Ext) (p : Plot3D_TriShape) (x y : ℤ) (txtU txtV : ℚ)
    (z : NIFVertex) :
    (p.drawPixel_Water E x y txtU txtV z).bufRGBW (p.pixelOffs x y) =
      ((if (u32 (u32 (p.bufRGBW (p.pixelOffs x y)) + 0x01000000) &&& 0xFE000000) = 0 then
          toR5G6B5 (u32 (p.bufRGBW (p.pixelOffs x y))) x y
        else u32 (p.bufRGBW (p.pixelOffs x y))) &&& 0xFFFF) |||
        u32 (toU32 (roundFloat ((waterNormal E p txtU txtV z).1 * 126) + 128) <<< 16) |||
        u32 (toU32 (roundFloat ((waterNormal E p txtU txtV z).2 * 126) + 128) <<< 24) := by
  unfold drawPixel_Water
  dsimp only
  rw [Function.update_same]
  rfl

/-- C25: for every previous pixel value, pixel position and interpolated vertex normal, the
value that `drawPixel_Water` stores has `roundFloat(normalY * 126) + 128` in bits 24..31 and
`roundFloat(normalX * 126) + 128` in bits 16..23, both in the range 2..254 (the normal is the
normalised output of `normalMap`; `std::sqrt` is taken to return a positive value whose square
is at least 127/128 of its argument), so that the marker test of `renderWater` recognises the
pixel as water-encoded; and when the previous pixel was already water-encoded its low 16 bits
are preserved. -/
theorem drawPixel_Water_encoding (E : Ext) (p : Plot3D_TriShape) (x y : ℤ) (txtU txtV : ℚ)
    (z : NIFVertex)
    (hsqrt : ∀ q : ℚ, 0 < q → 0 < E.sqrt q ∧ 127 / 128 * q ≤ E.sqrt q * E.sqrt q) :
    (byteOf ((p.drawPixel_Water E x y txtU txtV z).bufRGBW (p.pixelOffs x y)) 3 : ℤ) =
        roundFloat ((waterNormal E p txtU txtV z).2 * 126) + 128 ∧
      (byteOf ((p.drawPixel_Water E x y txtU txtV z).bufRGBW (p.pixelOffs x y)) 2 : ℤ) =
        roundFloat ((waterNormal E p txtU txtV z).1 * 126) + 128 ∧
      2 ≤ byteOf ((p.drawPixel_Water E x y txtU txtV z).bufRGBW (p.pixelOffs x y)) 3 ∧
      byteOf ((p.drawPixel_Water E x y txtU txtV z).bufRGBW (p.pixelOffs x y)) 3 ≤ 254 ∧
      2 ≤ byteOf ((p.drawPixel_Water E x y txtU txtV z).bufRGBW (p.pixelOffs x y)) 2 ∧
      byteOf ((p.drawPixel_Water E x y txtU txtV z).bufRGBW (p.pixelOffs x y)) 2 ≤ 254 ∧
      waterEncoded ((p.drawPixel_Water E x y txtU txtV z).bufRGBW (p.pixelOffs x y)) ∧
      (waterEncoded (p.bufRGBW (p.pixelOffs x y)) →
        (p.drawPixel_Water E x y txtU txtV z).bufRGBW (p.pixelOffs x y) % 65536 =
          p.bufRGBW (p.pixelOffs x y) % 65536) := by
  obtain ⟨hX, hY⟩ := waterNormal_sq E p txtU txtV z hsqrt
  obtain ⟨x0, x1⟩ := roundFloat_126_of_sq _ hX
  obtain ⟨y0, y1⟩ := roundFloat_126_of_sq _ hY
  rw [drawPixel_Water_stored, water_pack _ _ _ (by omega) (by omega) (by omega) (by omega)]
  generalize roundFloat ((waterNormal E p txtU txtV z).1 * 126) = rx at x0 x1
  generalize roundFloat ((waterNormal E p txtU txtV z).2 * 126) = ry at y0 y1
  have hx : ((rx + 128).toNat : ℤ) = rx + 128 := Int.toNat_of_nonneg (by omega)
  have hy : ((ry + 128).toNat : ℤ) = ry + 128 := Int.toNat_of_nonneg (by omega)
  have bx0 : 2 ≤ (rx + 128).toNat := by omega
  have bx1 : (rx + 128).toNat ≤ 254 := by omega
  have by0 : 2 ≤ (ry + 128).toNat := by omega
  have by1 : (ry + 128).toNat ≤ 254 := by omega
  generalize (rx + 128).toNat = tx at hx bx0 bx1
  generalize (ry + 128).toNat = ty at hy by0 by1
  have hc : ∀ c16 : ℕ, byteOf (c16 % 65536 + 65536 * tx + 16777216 * ty) 3 = ty ∧
      byteOf (c16 % 65536 + 65536 * tx + 16777216 * ty) 2 = tx := by
    intro c16
    rw [byteOf_three, byteOf_two]
    constructor <;> omega
  have hw : ∀ c16 : ℕ, waterEncoded (c16 % 65536 + 65536 * tx + 16777216 * ty) := by
    intro c16
    unfold waterEncoded
    intro h
    have h2 := (marker_test _).mp h
    rw [byteOf_three] at h2
    unfold u32 at h2
    omega
  refine ⟨by rw [(hc _).1, hy], by rw [(hc _).2, hx], by rw [(hc _).1]; exact by0,
    by rw [(hc _).1]; exact by1, by rw [(hc _).2]; exact bx0, by rw [(hc _).2]; exact bx1,
    hw _, ?_⟩
  intro hprev
  unfold waterEncoded at hprev
  rw [if_neg hprev]
  unfold u32
  omega

theorem drawPixel_Water_encoding_witness :
    (byteOf (((emptyShape 1 2).drawPixel_Water upperExt 0 1 0 0 (mkVertex 0 0 1)).bufRGBW
        ((emptyShape 1 2).pixelOffs 0 1)) 3 : ℤ) =
      roundFloat ((waterNormal upperExt (emptyShape 1 2) 0 0 (mkVertex 0 0 1)).2 * 126) + 128 ∧
    waterEncoded (((emptyShape 1 2).drawPixel_Water upperExt 0 1 0 0 (mkVertex 0 0 1)).bufRGBW
      ((emptyShape 1 2).pixelOffs 0 1)) := by
  have hs : ∀ q : ℚ, 0 < q →
      0 < upperExt.sqrt q ∧ 127 / 128 * q ≤ upperExt.sqrt q * upperExt.sqrt q := by
    intro q hq
    have e : upperExt.sqrt q = q + 1 := rfl
    rw [e]
    constructor
    · linarith
    · nlinarith
  exact ⟨(drawPixel_Water_encoding upperExt (emptyShape 1 2) 0 1 0 0 (mkVertex 0 0 1) hs).1,
    (drawPixel_Water_encoding upperExt (emptyShape 1 2) 0 1 0 0 (mkVertex 0 0 1)
      hs).2.2.2.2.2.2.1⟩

/-- C26 (failing input): the triangle `(-1/2, 0)`, `(1/4, 3)`, `(1/2, 0)` passes the winding
and the outside tests of `transformVertexData` and is rejected by the same-column test (its x
coordinates all convert to 0 and none is an integer), so that the triangle list is empty;
yet the integer 0 lies between its smallest and its largest x coordinate, and the scanline
code of `drawTriangles`, run on these vertices, draws the pixel `(0, 1)`. -/
theorem sameColumn_rejects_covered_pixel :
    (straddleMesh.transformVertexData sampleExt NIFVertexTransform.identity
        NIFVertexTransform.identity 0 0 1).p.vertexBuf = straddleVertices ∧
      ¬ ((1 / 4 - (-1 / 2 : ℚ)) * (0 - 0) > (1 / 2 - (-1 / 2 : ℚ)) * (3 - 0)) ∧
      ¬ straddleMesh.rejectedOutside (mkVertex (-1 / 2) 0 1) (mkVertex (1 / 4) 3 1)
        (mkVertex (1 / 2) 0 1) ∧
      sameColumn (mkVertex (-1 / 2) 0 1) (mkVertex (1 / 4) 3 1) (mkVertex (1 / 2) 0 1) ∧
      (straddleMesh.transformVertexData sampleExt NIFVertexTransform.identity
        NIFVertexTransform.identity 0 0 1).p.triangleBuf = [] ∧
      ((-1 / 2 : ℚ) ≤ ((0 : ℤ) : ℚ) ∧ ((0 : ℤ) : ℚ) ≤ 1 / 2) ∧
      ∃ f ∈ (straddleMesh.triangleFragmentsV sampleExt (mkVertex (-1 / 2) 0 1)
          (mkVertex (1 / 4) 3 1) (mkVertex (1 / 2) 0 1)).2,
        f.x = 0 ∧ f.y = 1 ∧ 0 ≤ f.w0 ∧ 0 ≤ f.w1 ∧ 0 ≤ f.w2 := by
  refine ⟨by decide!, by norm_num, by decide!, by decide!, by decide!, by norm_num, ?_⟩
  decide!

/-- C27 (failing input): for the opaque pixel colour 0xFF0000FE at position `(1, 1)`, the
R5G6B5 value that `drawPixel_Water` stores is 0: the dither adds 2 to the masked red channel
254, the sum 256 carries into the green byte, and the correction `c - ((c >> 7) & 0x00020202)`
does not see the carry.  The value decodes in `renderWater` to red 0, which differs from the
red channel 254 of the colour by 254. -/
theorem water_colour_wraps :
    byteOf 0xFF0000FE 3 = 0xFF ∧ byteOf 0xFF0000FE 0 = 254 ∧
      toR5G6B5 0xFF0000FE 1 1 = 0 ∧
      (brightShape.drawPixel_Water sampleExt 1 1 0 0 (mkVertex 0 0 1)).bufRGBW
        (brightShape.pixelOffs 1 1) &&& 0xFFFF = 0 ∧
      byteOf (fromR5G6B5 ((brightShape.drawPixel_Water sampleExt 1 1 0 0
        (mkVertex 0 0 1)).bufRGBW (brightShape.pixelOffs 1 1))) 0 = 0 ∧
      byteOf (((brightShape.drawPixel_Water sampleExt 1 1 0 0 (mkVertex 0 0 1)).renderWater
        sampleExt sampleWaterExt NIFVertexTransform.identity 0 0 0 1 none 0).bufRGBW
          (brightShape.pixelOffs 1 1)) 0 = 0 := by
  refine ⟨by decide, by decide, by decide, ?_, ?_, ?_⟩ <;> decide!

theorem sortVerticesY_sorted (v0 v1 v2 : NIFVertex) :
    (sortVerticesY v0 v1 v2).1.y ≤ (sortVerticesY v0 v1 v2).2.1.y ∧
      (sortVerticesY v0 v1 v2).2.1.y ≤ (sortVerticesY v0 v1 v2).2.2.y := by
  unfold sortVerticesY
  dsimp only
  split_ifs <;> dsimp only <;> constructor <;> linarith

theorem sortVerticesY_area (v0 v1 v2 : NIFVertex) :
    |xyArea2Signed (sortVerticesY v0 v1 v2).1 (sortVerticesY v0 v1 v2).2.1
      (sortVerticesY v0 v1 v2).2.2| = |xyArea2Signed v0 v1 v2| := by
  unfold sortVerticesY xyArea2Signed
  dsimp only
  split_ifs <;> dsimp only <;> rw [abs_eq_abs] <;> first | (left; ring1) | (right; ring1)

theorem pixelLoop_stable (v0 v1 v2 : NIFVertex) (t : TriangleUV) (y xStep : ℤ)
    (w1Step w2Step : ℚ) :
    ∀ (n fuel : ℕ) (x : ℤ) (w1 w2 : ℚ), n ≤ fuel →
      w1 + (n : ℚ) * w1Step > 1000002 / 1000000 →
      pixelLoop v0 v1 v2 t y xStep w1Step w2Step fuel x w1 w2 =
          pixelLoop v0 v1 v2 t y xStep w1Step w2Step n x w1 w2 ∧
        (pixelLoop v0 v1 v2 t y xStep w1Step w2Step n x w1 w2).length ≤ n := by
  intro n
  induction n with
  | zero =>
    intro fuel x w1 w2 _ h
    have hc : ¬ (1 - (w1 + w2) ≥ -(1 / 1000000) ∧ w2 ≥ -(1 / 1000000)) := by
      rintro ⟨a, b⟩
      push_cast at h
      linarith
    cases fuel with
    | zero => exact ⟨rfl, le_refl _⟩
    | succ f =>
      unfold pixelLoop
      dsimp only
      rw [if_neg hc]
      exact ⟨rfl, le_refl _⟩
  | succ n ih =>
    intro fuel x w1 w2 hf h
    cases fuel with
    | zero => omega
    | succ f =>
      unfold pixelLoop
      dsimp only
      by_cases hc : 1 - (w1 + w2) ≥ -(1 / 1000000) ∧ w2 ≥ -(1 / 1000000)
      · rw [if_pos hc, if_pos hc]
        have h2 : w1 + w1Step + (n : ℚ) * w1Step > 1000002 / 1000000 := by
          push_cast at h
          linarith
        obtain ⟨e, l⟩ := ih f (x + xStep) (w1 + w1Step) (w2 + w2Step) (by omega) h2
        rw [e]
        exact ⟨rfl, by rw [List.length_cons]; omega⟩
      · rw [if_neg hc, if_neg hc]
        exact ⟨rfl, Nat.zero_le _⟩

theorem pixelLoopBound_spec (w1 w1Step : ℚ) (hs : 0 < w1Step) :
    w1 + (pixelLoopBound w1 w1Step : ℚ) * w1Step > 1000002 / 1000000 := by
  unfold pixelLoopBound
  have h1 := Int.le_ceil ((1000002 / 1000000 - w1) / w1Step)
  have h2 : ((⌈(1000002 / 1000000 - w1) / w1Step⌉ : ℤ) : ℚ) ≤
      ((⌈(1000002 / 1000000 - w1) / w1Step⌉.toNat : ℕ) : ℚ) := by
    have := Int.self_le_toNat ⌈(1000002 / 1000000 - w1) / w1Step⌉
    exact_mod_cast this
  have h3 : (1000002 / 1000000 - w1) / w1Step <
      ((⌈(1000002 / 1000000 - w1) / w1Step⌉.toNat + 1 : ℕ) : ℚ) := by
    push_cast
    linarith
  rw [div_lt_iff₀ hs] at h3
  linarith

theorem pixelLoop_y (v0 v1 v2 : NIFVertex) (t : TriangleUV) (y xStep : ℤ)
    (w1Step w2Step : ℚ) :
    ∀ (fuel : ℕ) (x : ℤ) (w1 w2 : ℚ),
      ∀ f ∈ pixelLoop v0 v1 v2 t y xStep w1Step w2Step fuel x w1 w2, f.y = y := by
  intro fuel
  induction fuel with
  | zero =>
    intro x w1 w2 f hf
    simp [pixelLoop] at hf
  | succ n ih =>
    intro x w1 w2 f hf
    unfold pixelLoop at hf
    dsimp only at hf
    split_ifs at hf with hc
    · rcases List.mem_cons.mp hf with rfl | hf2
      · rfl
      · exact ih _ _ _ f hf2
    · simp at hf

theorem scanRow_y (v0 v1 v2 : NIFVertex) (t : TriangleUV) (c : ScanCoeffs) (y : ℤ) :
    ∀ f ∈ scanRow v0 v1 v2 t c y, f.y = y := by
  intro f hf
  unfold scanRow at hf
  dsimp only at hf
  exact pixelLoop_y _ _ _ _ _ _ _ _ _ _ _ _ f hf

/-- In exact arithmetic, for every triangle whose doubled area is at least 2^-20 in absolute
value the divisors of the scanline code are non-zero: after the vertices are sorted by y,
the doubled area and `y2 - y0` are non-zero, so `a1` is non-zero and the step `w1Step = |a1|`
is positive.  For every row the inner pixel loop terminates: run with at least
`pixelLoopBound` iterations allowed it makes the same `drawPixel` calls as with exactly that
many, at most that many, and after that many steps the loop condition is false (`w0` or `w2`
is below -0.000001).  The row loop visits the rows from its start `y` up to `yMax` (once if
`yMax < y`) and no others. -/
theorem scanline_terminates (v0 v1 v2 : NIFVertex)
    (hnd : ¬ fabs (xyArea2Signed v0 v1 v2) < 1 / 1048576) :
    xyArea2Signed (sortVerticesY v0 v1 v2).1 (sortVerticesY v0 v1 v2).2.1
        (sortVerticesY v0 v1 v2).2.2 ≠ 0 ∧
      (sortVerticesY v0 v1 v2).2.2.y - (sortVerticesY v0 v1 v2).1.y ≠ 0 ∧
      (scanCoeffs (sortVerticesY v0 v1 v2).1 (sortVerticesY v0 v1 v2).2.1
        (sortVerticesY v0 v1 v2).2.2).a1 ≠ 0 ∧
      (scanCoeffs (sortVerticesY v0 v1 v2).1 (sortVerticesY v0 v1 v2).2.1
        (sortVerticesY v0 v1 v2).2.2).w1Step =
          |(scanCoeffs (sortVerticesY v0 v1 v2).1 (sortVerticesY v0 v1 v2).2.1
            (sortVerticesY v0 v1 v2).2.2).a1| ∧
      0 < (scanCoeffs (sortVerticesY v0 v1 v2).1 (sortVerticesY v0 v1 v2).2.1
        (sortVerticesY v0 v1 v2).2.2).w1Step ∧
      (∀ (a b c : NIFVertex) (t : TriangleUV) (y xStep : ℤ) (w2Step : ℚ) (x : ℤ) (w1 w2 : ℚ)
          (fuel : ℕ),
        pixelLoopBound w1 (scanCoeffs (sortVerticesY v0 v1 v2).1 (sortVerticesY v0 v1 v2).2.1
          (sortVerticesY v0 v1 v2).2.2).w1Step ≤ fuel →
        pixelLoop a b c t y xStep (scanCoeffs (sortVerticesY v0 v1 v2).1
            (sortVerticesY v0 v1 v2).2.1 (sortVerticesY v0 v1 v2).2.2).w1Step w2Step fuel x w1 w2 =
          pixelLoop a b c t y xStep (scanCoeffs (sortVerticesY v0 v1 v2).1
            (sortVerticesY v0 v1 v2).2.1 (sortVerticesY v0 v1 v2).2.2).w1Step w2Step
            (pixelLoopBound w1 (scanCoeffs (sortVerticesY v0 v1 v2).1
              (sortVerticesY v0 v1 v2).2.1 (sortVerticesY v0 v1 v2).2.2).w1Step) x w1 w2 ∧
        (pixelLoop a b c t y xStep (scanCoeffs (sortVerticesY v0 v1 v2).1
            (sortVerticesY v0 v1 v2).2.1 (sortVerticesY v0 v1 v2).2.2).w1Step w2Step
            (pixelLoopBound w1 (scanCoeffs (sortVerticesY v0 v1 v2).1
              (sortVerticesY v0 v1 v2).2.1 (sortVerticesY v0 v1 v2).2.2).w1Step) x w1 w2).length ≤
          pixelLoopBound w1 (scanCoeffs (sortVerticesY v0 v1 v2).1 (sortVerticesY v0 v1 v2).2.1
            (sortVerticesY v0 v1 v2).2.2).w1Step ∧
        ¬ (1 - ((w1 + (pixelLoopBound w1 (scanCoeffs (sortVerticesY v0 v1 v2).1
              (sortVerticesY v0 v1 v2).2.1 (sortVerticesY v0 v1 v2).2.2).w1Step : ℚ)
              * (scanCoeffs (sortVerticesY v0 v1 v2).1 (sortVerticesY v0 v1 v2).2.1
                (sortVerticesY v0 v1 v2).2.2).w1Step) +
            (w2 + (pixelLoopBound w1 (scanCoeffs (sortVerticesY v0 v1 v2).1
              (sortVerticesY v0 v1 v2).2.1 (sortVerticesY v0 v1 v2).2.2).w1Step : ℚ) * w2Step))
              ≥ -(1 / 1000000) ∧
          w2 + (pixelLoopBound w1 (scanCoeffs (sortVerticesY v0 v1 v2).1
            (sortVerticesY v0 v1 v2).2.1 (sortVerticesY v0 v1 v2).2.2).w1Step : ℚ) * w2Step
              ≥ -(1 / 1000000))) ∧
      (∀ (t : TriangleUV), ∀ f ∈ scanline (sortVerticesY v0 v1 v2).1 (sortVerticesY v0 v1 v2).2.1
          (sortVerticesY v0 v1 v2).2.2 t,
        (scanCoeffs (sortVerticesY v0 v1 v2).1 (sortVerticesY v0 v1 v2).2.1
          (sortVerticesY v0 v1 v2).2.2).y ≤ f.y ∧
        f.y ≤ max (scanCoeffs (sortVerticesY v0 v1 v2).1 (sortVerticesY v0 v1 v2).2.1
            (sortVerticesY v0 v1 v2).2.2).y
          (scanCoeffs (sortVerticesY v0 v1 v2).1 (sortVerticesY v0 v1 v2).2.1
            (sortVerticesY v0 v1 v2).2.2).yMax) := by
  obtain ⟨h01, h12⟩ := sortVerticesY_sorted v0 v1 v2
  have hA := sortVerticesY_area v0 v1 v2
  rw [fabs_eq_abs] at hnd
  generalize (sortVerticesY v0 v1 v2).1 = s0 at *
  generalize (sortVerticesY v0 v1 v2).2.1 = s1 at *
  generalize (sortVerticesY v0 v1 v2).2.2 = s2 at *
  have hD : xyArea2Signed s0 s1 s2 ≠ 0 := by
    intro h0
    rw [h0, abs_zero] at hA
    rw [← hA] at hnd
    norm_num at hnd
  have hDdef : xyArea2Signed s0 s1 s2
      = ((s1.x - s0.x) * (s2.y - s0.y)) - ((s2.x - s0.x) * (s1.y - s0.y)) := rfl
  have hy : s2.y - s0.y ≠ 0 := by
    intro hc
    apply hD
    have e2 : s2.y = s0.y := by linarith
    have e1 : s1.y = s0.y := le_antisymm (by linarith) h01
    rw [hDdef, e1, e2]
    ring
  have ca1 : (scanCoeffs s0 s1 s2).a1 = (s2.y - s0.y) * (1 / xyArea2Signed s0 s1 s2) := rfl
  have ha1 : (scanCoeffs s0 s1 s2).a1 ≠ 0 := by
    rw [ca1]
    exact mul_ne_zero hy (one_div_ne_zero hD)
  have cw : (scanCoeffs s0 s1 s2).w1Step =
      if (scanCoeffs s0 s1 s2).a1 < 0 then -(scanCoeffs s0 s1 s2).a1
      else (scanCoeffs s0 s1 s2).a1 := rfl
  have hw : (scanCoeffs s0 s1 s2).w1Step = |(scanCoeffs s0 s1 s2).a1| := by
    rw [cw]
    split_ifs with h
    · rw [abs_of_neg h]
    · rw [abs_of_nonneg (not_lt.mp h)]
  have hpos : 0 < (scanCoeffs s0 s1 s2).w1Step := by
    rw [hw]
    exact abs_pos.mpr ha1
  refine ⟨hD, hy, ha1, hw, hpos, ?_, ?_⟩
  · intro a b c t y xStep w2Step x w1 w2 fuel hf
    have hb := pixelLoopBound_spec w1 _ hpos
    obtain ⟨e, l⟩ := pixelLoop_stable a b c t y xStep (scanCoeffs s0 s1 s2).w1Step w2Step
      (pixelLoopBound w1 (scanCoeffs s0 s1 s2).w1Step) fuel x w1 w2 hf hb
    refine ⟨e, l, ?_⟩
    rintro ⟨p1, p2⟩
    linarith
  · intro t f hf
    unfold scanline at hf
    dsimp only at hf
    rw [List.mem_flatMap] at hf
    obtain ⟨k, hk, hfk⟩ := hf
    rw [List.mem_range] at hk
    have hyk : f.y = (scanCoeffs s0 s1 s2).y + k := scanRow_y _ _ _ _ _ _ f hfk
    rw [hyk]
    constructor
    · omega
    · rcases le_total (scanCoeffs s0 s1 s2).y (scanCoeffs s0 s1 s2).yMax with h | h
      · rw [max_eq_right h]
        omega
      · rw [max_eq_left h]
        omega

theorem scanline_terminates_witness :
    (scanCoeffs (sortVerticesY (mkVertex 0 0 1) (mkVertex 4 0 1) (mkVertex 0 4 1)).1
        (sortVerticesY (mkVertex 0 0 1) (mkVertex 4 0 1) (mkVertex 0 4 1)).2.1
        (sortVerticesY (mkVertex 0 0 1) (mkVertex 4 0 1) (mkVertex 0 4 1)).2.2).a1 ≠ 0 :=
  (scanline_terminates (mkVertex 0 0 1) (mkVertex 4 0 1) (mkVertex 0 4 1) (by decide!)).2.2.1

theorem alpha_div (n : ℕ) (hn : n ≤ 65025) :
    (n * 65793 + 8388608) / 16777216 = (2 * n + 255) / 510 := by
  have hq : n = 255 * (n / 255) + n % 255 := (Nat.div_add_mod n 255).symm
  have hr : n % 255 < 255 := Nat.mod_lt _ (by norm_num)
  have hq2 : n / 255 ≤ 255 := by omega
  generalize n / 255 = q at hq hq2
  generalize n % 255 = r at hq hr
  subst hq
  by_cases h : r < 128
  · have e1 : (2 * (255 * q + r) + 255) / 510 = q := by omega
    rw [e1]
    exact Nat.div_eq_of_lt_le (by omega) (by omega)
  · have e1 : (2 * (255 * q + r) + 255) / 510 = q + 1 := by omega
    rw [e1]
    exact Nat.div_eq_of_lt_le (by omega) (by omega)

theorem round_div_255 (n : ℕ) : round ((n : ℚ) / 255) = (((2 * n + 255) / 510 : ℕ) : ℤ) := by
  rw [round_eq]
  have h : (n : ℚ) / 255 + 1 / 2 = ((2 * n + 255 : ℤ) : ℚ) / ((510 : ℕ) : ℚ) := by
    push_cast
    ring
  rw [h, Rat.floor_intCast_div_natCast]
  push_cast
  rfl

theorem vertexAlpha_spec (c vColor : ℕ) :
    byteOf c 3 * byteOf vColor 3 * 65793 + 0x00800000 < 4294967296 ∧
      vertexAlpha c vColor = byteOf c 3 * byteOf vColor 3 * 65793 + 0x00800000 ∧
      vertexAlpha c vColor >>> 24 = (2 * (byteOf c 3 * byteOf vColor 3) + 255) / 510 := by
  have ha := byteOf_lt c 3
  have hv := byteOf_lt vColor 3
  have hn : byteOf c 3 * byteOf vColor 3 ≤ 255 * 255 := Nat.mul_le_mul (by omega) (by omega)
  have e : vertexAlpha c vColor = u32 (byteOf c 3 * byteOf vColor 3 * 65793 + 0x00800000) := rfl
  generalize byteOf c 3 * byteOf vColor 3 = n at hn e
  have h1 : n * 65793 + 0x00800000 < 4294967296 := by omega
  have h2 : vertexAlpha c vColor = n * 65793 + 0x00800000 := by
    rw [e]
    exact Nat.mod_eq_of_lt h1
  refine ⟨h1, h2, ?_⟩
  rw [h2, Nat.shiftRight_eq_div_pow]
  exact alpha_div n hn

theorem or_eq_add24 (x a : ℕ) (hx : x < 16777216) :
    x ||| 16777216 * a = x + 16777216 * a :=
  or_eq_add 24 x a hx

theorem scale_le (x t : ℕ) (hx : x < 256) (ht : t ≤ 32768) :
    u32 (x * t + 0x4000) >>> 15 < 256 := by
  have h : x * t ≤ 255 * 32768 := Nat.mul_le_mul (by omega) ht
  rw [Nat.shiftRight_eq_div_pow]
  generalize x * t = n at h
  unfold u32
  omega

theorem gradientMapAndVColor_top (p : Plot3D_TriShape) (c vColor : ℕ)
    (hv : vColor < 4294967296)
    (hT : p.textureG = none → ∀ i, p.vclrTable.getD i 0 ≤ 32768) :
    byteOf (p.gradientMapAndVColor c vColor) 3 = vertexAlpha c vColor >>> 24 := by
  obtain ⟨s1, s2, s3⟩ := vertexAlpha_spec c vColor
  have hlt : vertexAlpha c vColor < 4294967296 := by rw [s2]; exact s1
  have htop : vertexAlpha c vColor / 16777216 % 256 = vertexAlpha c vColor >>> 24 := by
    rw [Nat.shiftRight_eq_div_pow]
    omega
  cases hG : p.textureG with
  | some tG =>
    have key : p.gradientMapAndVColor c vColor =
        (u32 (tG.getPixelB
          (((((c >>> 8) &&& 0xFF : ℕ) : ℤ) * (tG.getWidth - 1) : ℤ) * (1 / 255 : ℚ))
          ((((u32 (p.gradientMapV + vColor + 1) &&& 0xFF : ℕ) : ℤ) * (tG.getHeight - 1) : ℤ)
            * (1 / 255 : ℚ)) 0) &&& 0x00FFFFFF) |||
        ((if vColor < 0xFF000000 then vertexAlpha c vColor else c) &&& 0xFF000000) := by
      unfold gradientMapAndVColor
      rw [hG]
      rfl
    rw [key, and_FFFFFF, and_FF000000, or_eq_add24 _ _ (Nat.mod_lt _ (by norm_num)),
      byteOf_three]
    have hm : ∀ a m : ℕ, (m % 16777216 + 16777216 * (a / 16777216 % 256)) / 16777216 % 256 =
        a / 16777216 % 256 := by
      intro a m
      omega
    rw [hm]
    by_cases h : vColor < 0xFF000000
    · rw [if_pos h]
      exact htop
    · rw [if_neg h, s3]
      have hv3 : byteOf vColor 3 = 255 := by
        rw [byteOf_three]
        omega
      have ha := byteOf_lt c 3
      have e : c / 16777216 % 256 = byteOf c 3 := by
        rw [byteOf_three]
      rw [hv3, e]
      omega
  | none =>
    have hT2 := hT hG
    have key : p.gradientMapAndVColor c vColor =
        u32 ((u32 ((c &&& 0xFF) * p.vclrTable.getD (vColor &&& 0xFF) 0 + 0x4000) >>> 15) |||
          ((u32 (((c >>> 8) &&& 0xFF) * p.vclrTable.getD ((vColor >>> 8) &&& 0xFF) 0 + 0x4000)
            >>> 15) <<< 8) |||
          ((u32 (((c >>> 16) &&& 0xFF) * p.vclrTable.getD ((vColor >>> 16) &&& 0xFF) 0 + 0x4000)
            >>> 15) <<< 16) |||
          (vertexAlpha c vColor &&& 0xFF000000)) := by
      unfold gradientMapAndVColor
      rw [hG]
      rfl
    have c0 : c &&& 0xFF < 256 := by rw [and_FF]; omega
    have c1 : (c >>> 8) &&& 0xFF < 256 := by rw [and_FF]; omega
    have c2 : (c >>> 16) &&& 0xFF < 256 := by rw [and_FF]; omega
    have r0 := scale_le _ _ c0 (hT2 (vColor &&& 0xFF))
    have r1 := scale_le _ _ c1 (hT2 ((vColor >>> 8) &&& 0xFF))
    have r2 := scale_le _ _ c2 (hT2 ((vColor >>> 16) &&& 0xFF))
    rw [key, and_FF000000, pack_rgba _ _ _ _ r0 r1 r2, byteOf_three, ← htop]
    generalize u32 ((c &&& 0xFF) * p.vclrTable.getD (vColor &&& 0xFF) 0 + 0x4000) >>> 15 = r
      at r0
    generalize u32 (((c >>> 8) &&& 0xFF) * p.vclrTable.getD ((vColor >>> 8) &&& 0xFF) 0 + 0x4000)
      >>> 15 = g at r1
    generalize u32 (((c >>> 16) &&& 0xFF) * p.vclrTable.getD ((vColor >>> 16) &&& 0xFF) 0
      + 0x4000) >>> 15 = b at r2
    have ha : vertexAlpha c vColor / 16777216 % 256 < 256 := Nat.mod_lt _ (by norm_num)
    generalize vertexAlpha c vColor / 16777216 % 256 = a at ha
    clear key s1 s2 s3 hlt htop hT hT2 c0 c1 c2 hv
    unfold u32
    omega

/-- C29: for every colour `c` with texture alpha `a` (its top byte) and every vertex colour
with vertex alpha `v` (its top byte), the value `a * v * 65793 + 0x00800000` that
`gradientMapAndVColor` computes does not overflow 32 bits, and its top byte, the alpha of the
result, is `a * v / 255` rounded to the nearest integer; it is `a` when `v = 255` and 0 when
`a = 0` or `v = 0`.  The top byte of the value that `gradientMapAndVColor` returns is this
alpha, for a 32-bit vertex colour and, without gradient texture, a vertex colour table whose
entries do not exceed 32768 (so that the blue channel cannot carry into the alpha byte). -/
theorem gradientMapAndVColor_alpha (c vColor : ℕ) :
    byteOf c 3 * byteOf vColor 3 * 65793 + 0x00800000 < 4294967296 ∧
      vertexAlpha c vColor = byteOf c 3 * byteOf vColor 3 * 65793 + 0x00800000 ∧
      ((vertexAlpha c vColor >>> 24 : ℕ) : ℤ) =
        round (((byteOf c 3 * byteOf vColor 3 : ℕ) : ℚ) / 255) ∧
      (byteOf vColor 3 = 255 → vertexAlpha c vColor >>> 24 = byteOf c 3) ∧
      (byteOf c 3 = 0 ∨ byteOf vColor 3 = 0 → vertexAlpha c vColor >>> 24 = 0) ∧
      ∀ p : Plot3D_TriShape, vColor < 4294967296 →
        (p.textureG = none → ∀ i, p.vclrTable.getD i 0 ≤ 32768) →
        byteOf (p.gradientMapAndVColor c vColor) 3 = vertexAlpha c vColor >>> 24 := by
  obtain ⟨s1, s2, s3⟩ := vertexAlpha_spec c vColor
  have ha := byteOf_lt c 3
  refine ⟨s1, s2, ?_, ?_, ?_, fun p hv hT => gradientMapAndVColor_top p c vColor hv hT⟩
  · rw [s3, round_div_255]
  · intro h
    rw [s3, h]
    omega
  · intro h
    rw [s3]
    rcases h with h | h
    · rw [h]
      norm_num
    · rw [h]
      norm_num

theorem lightTableEntry_range (a : ℕ → ℚ) (i : ℕ) :
    0 ≤ lightTableEntry a i ∧ lightTableEntry a i ≤ 0x0003FF00 := by
  unfold lightTableEntry
  dsimp only
  split_ifs <;> constructor <;> omega

theorem lightEntry_setLightingFunction (p : Plot3D_TriShape) (a : ℕ → ℚ) (i : ℕ) :
    (p.setLightingFunction a).lightEntry i = if i < 512 then lightTableEntry a i else 0 := by
  unfold lightEntry setLightingFunction
  dsimp only
  by_cases h : i < 512
  · rw [if_pos h, List.getD_eq_getElem _ _ (by simpa using h), List.getElem_map,
      List.getElem_range]
  · rw [if_neg h, List.getD_eq_default _ _ (by simpa using h)]

theorem lightEntry_range (p : Plot3D_TriShape) (a : ℕ → ℚ) (i : ℕ) :
    0 ≤ (p.setLightingFunction a).lightEntry i ∧
      (p.setLightingFunction a).lightEntry i ≤ 0x0003FF00 := by
  rw [lightEntry_setLightingFunction]
  split_ifs
  · exact lightTableEntry_range a i
  · constructor <;> norm_num

theorem lightTableEntry_plateau (a : ℕ → ℚ) (i : ℕ) :
    (128 ≤ i → i ≤ 255 → lightTableEntry a i = lightTableEntry a 128) ∧
      (256 ≤ i → i ≤ 383 → lightTableEntry a i = lightTableEntry a 384) := by
  constructor
  · intro h0 h1
    unfold lightTableEntry
    have e1 : (if i < 256 then (if i < 128 then (i : ℤ) else 128)
        else (if i < 384 then -128 else (i : ℤ) - 512)) = 128 := by
      rw [if_pos (by omega), if_neg (by omega)]
    have e2 : (if (128 : ℕ) < 256 then (if (128 : ℕ) < 128 then ((128 : ℕ) : ℤ) else 128)
        else (if (128 : ℕ) < 384 then -128 else ((128 : ℕ) : ℤ) - 512)) = 128 := by
      norm_num
    rw [e1, e2]
  · intro h0 h1
    unfold lightTableEntry
    have e1 : (if i < 256 then (if i < 128 then (i : ℤ) else 128)
        else (if i < 384 then -128 else (i : ℤ) - 512)) = -128 := by
      rw [if_neg (by omega), if_pos (by omega)]
    have e2 : (if (384 : ℕ) < 256 then (if (384 : ℕ) < 128 then ((384 : ℕ) : ℤ) else 128)
        else (if (384 : ℕ) < 384 then -128 else ((384 : ℕ) : ℤ) - 512)) = -128 := by
      norm_num
    rw [e1, e2]

/-- C30: for every six polynomial coefficients passed to `setLightingFunction`, the light
table has 512 entries, each in `[0, 0x0003FF00]`; the entries 128..255 all equal entry 128
(cosine +1) and the entries 256..383 all equal entry 384 (cosine -1); consequently
`getLightLevel` returns a value in `[0, 1023]` for every input, and its intermediate sum is
never negative. -/
theorem lightTable_bounds (p : Plot3D_TriShape) (a : ℕ → ℚ) :
    (p.setLightingFunction a).lightTable.length = 512 ∧
      (∀ i, i < 512 → 0 ≤ (p.setLightingFunction a).lightEntry i ∧
        (p.setLightingFunction a).lightEntry i ≤ 0x0003FF00) ∧
      (∀ i, 128 ≤ i → i ≤ 255 →
        (p.setLightingFunction a).lightEntry i = (p.setLightingFunction a).lightEntry 128) ∧
      (∀ i, 256 ≤ i → i ≤ 383 →
        (p.setLightingFunction a).lightEntry i = (p.setLightingFunction a).lightEntry 384) ∧
      ∀ d : ℚ,
        0 ≤ (p.setLightingFunction a).getLightLevel d ∧
        (p.setLightingFunction a).getLightLevel d ≤ 1023 ∧
        0 ≤ 256 * (p.setLightingFunction a).lightEntry (lightIndex d) +
          ((p.setLightingFunction a).lightEntry ((lightIndex d + 1) % 512) -
            (p.setLightingFunction a).lightEntry (lightIndex d)) * lightFraction d + 32768 := by
  refine ⟨by simp [setLightingFunction], fun i _ => lightEntry_range p a i, ?_, ?_, ?_⟩
  · intro i h0 h1
    rw [lightEntry_setLightingFunction, lightEntry_setLightingFunction, if_pos (by omega),
      if_pos (by norm_num)]
    exact (lightTableEntry_plateau a i).1 h0 h1
  · intro i h0 h1
    rw [lightEntry_setLightingFunction, lightEntry_setLightingFunction, if_pos (by omega),
      if_pos (by norm_num)]
    exact (lightTableEntry_plateau a i).2 h0 h1
  · intro d
    rw [getLightLevel_eq]
    obtain ⟨a0, a1⟩ := lightEntry_range p a (lightIndex d)
    obtain ⟨b0, b1⟩ := lightEntry_range p a ((lightIndex d + 1) % 512)
    have hf0 : 0 ≤ lightFraction d := Int.emod_nonneg _ (by norm_num)
    have hf1 : lightFraction d < 256 := Int.emod_lt_of_pos _ (by norm_num)
    generalize lightFraction d = f at hf0 hf1
    generalize (p.setLightingFunction a).lightEntry (lightIndex d) = u at a0 a1
    generalize (p.setLightingFunction a).lightEntry ((lightIndex d + 1) % 512) = v at b0 b1
    have hlo : 32768 ≤ 256 * u + (v - u) * f + 32768 := by nlinarith
    have hhi : 256 * u + (v - u) * f + 32768 ≤ 67076096 := by nlinarith
    refine ⟨?_, ?_, by linarith⟩
    · exact Int.ediv_nonneg (by linarith) (by norm_num)
    · have := Int.ediv_le_ediv (by norm_num : (0 : ℤ) < 65536) hhi
      have e : (67076096 : ℤ) / 65536 = 1023 := by norm_num
      rw [e] at this
      exact this

theorem selectEnvMap_reflectionLevel (p : Plot3D_TriShape) (textures : ℕ → Option DDSTexture)
    (textureCnt : ℕ) :
    (p.selectEnvMap textures textureCnt).reflectionLevel =
      roundFloat (((p.lightTable.getD 128 0 : ℤ) : ℚ)
        * (((p.envMapScale : ℕ) : ℚ) * ((7217095 / 10000000) / 32768))) := by
  unfold selectEnvMap
  dsimp only
  split_ifs <;> rfl

/-- The reflection level that `drawTriShape` sets for the environment-mapped shading
functions is between 0 and 1471 when entry 128 of the light table is in `[0, 0x0003FF00]`, as
`setLightingFunction` guarantees, and `envMapScale` is at most 255. -/
theorem selectEnvMap_level_range (p : Plot3D_TriShape) (textures : ℕ → Option DDSTexture)
    (textureCnt : ℕ) (h0 : 0 ≤ p.lightTable.getD 128 0)
    (h1 : p.lightTable.getD 128 0 ≤ 0x0003FF00) (hs : p.envMapScale ≤ 255) :
    0 ≤ (p.selectEnvMap textures textureCnt).reflectionLevel ∧
      (p.selectEnvMap textures textureCnt).reflectionLevel ≤ 1471 := by
  rw [selectEnvMap_reflectionLevel]
  have a0 : (0 : ℚ) ≤ ((p.lightTable.getD 128 0 : ℤ) : ℚ) := by exact_mod_cast h0
  have a1 : ((p.lightTable.getD 128 0 : ℤ) : ℚ) ≤ 261888 := by exact_mod_cast h1
  have s0 : (0 : ℚ) ≤ ((p.envMapScale : ℕ) : ℚ) := by positivity
  have s1 : ((p.envMapScale : ℕ) : ℚ) ≤ 255 := by exact_mod_cast hs
  generalize ((p.lightTable.getD 128 0 : ℤ) : ℚ) = t at a0 a1
  generalize ((p.envMapScale : ℕ) : ℚ) = s at s0 s1
  have hts0 : 0 ≤ t * s := mul_nonneg a0 s0
  have hts1 : t * s ≤ 261888 * 255 := mul_le_mul a1 s1 s0 (by norm_num)
  have lo : roundFloat (((0 : ℤ) : ℚ)) ≤ roundFloat (t * (s * ((7217095 / 10000000) / 32768))) :=
    roundFloat_mono (by
      push_cast
      have : t * (s * ((7217095 / 10000000) / 32768)) = (t * s) * ((7217095 / 10000000) / 32768) := by
        ring
      rw [this]
      positivity)
  have hi : roundFloat (t * (s * ((7217095 / 10000000) / 32768))) ≤ roundFloat (((1471 : ℤ) : ℚ)) :=
    roundFloat_mono (by
      push_cast
      have : t * (s * ((7217095 / 10000000) / 32768)) = (t * s) * ((7217095 / 10000000) / 32768) := by
        ring
      rw [this]
      nlinarith)
  rw [roundFloat_intCast] at lo hi
  exact ⟨lo, hi⟩

/-! ## The scanline code with rounding -/

theorem ilog2_spec (fuel n : ℕ) (hn : 0 < n) (hf : n ≤ fuel) :
    2 ^ ilog2 fuel n ≤ n ∧ n < 2 ^ (ilog2 fuel n + 1) := by
  induction fuel generalizing n with
  | zero => omega
  | succ k ih =>
    unfold ilog2
    by_cases h : n < 2
    · rw [if_pos h]
      have : n = 1 := by omega
      subst this
      norm_num
    · rw [if_neg h]
      have h2 := ih (n / 2) (by omega) (by omega)
      rw [pow_succ, pow_succ]
      omega

theorem pow2_eq_zpow (s : ℤ) : pow2 s = (2 : ℚ) ^ s := by
  unfold pow2
  by_cases h : 0 ≤ s
  · rw [if_pos h]
    obtain ⟨n, rfl⟩ := Int.eq_ofNat_of_zero_le h
    simp
  · rw [if_neg h]
    push_neg at h
    obtain ⟨n, hn⟩ := Int.eq_ofNat_of_zero_le (show 0 ≤ -s by omega)
    have hs : s = -(n : ℤ) := by omega
    subst hs
    simp

theorem pow2_pos (s : ℤ) : 0 < pow2 s := by
  rw [pow2_eq_zpow]
  positivity

theorem pow2_add (a b : ℤ) : pow2 (a + b) = pow2 a * pow2 b := by
  rw [pow2_eq_zpow, pow2_eq_zpow, pow2_eq_zpow, zpow_add₀ (by norm_num)]

/-- The exponent that `roundSig` works with: `2^e ≤ |x| < 2^(e+1)`. -/
theorem roundSig_exponent (x : ℚ) (hx : x ≠ 0) :
    pow2 (if fabs x < pow2 ((ilog2 (fabs x).num.natAbs (fabs x).num.natAbs : ℤ)
        - (ilog2 (fabs x).den (fabs x).den : ℤ))
      then (ilog2 (fabs x).num.natAbs (fabs x).num.natAbs : ℤ)
        - (ilog2 (fabs x).den (fabs x).den : ℤ) - 1
      else (ilog2 (fabs x).num.natAbs (fabs x).num.natAbs : ℤ)
        - (ilog2 (fabs x).den (fabs x).den : ℤ)) ≤ fabs x ∧
    fabs x < pow2 ((if fabs x < pow2 ((ilog2 (fabs x).num.natAbs (fabs x).num.natAbs : ℤ)
        - (ilog2 (fabs x).den (fabs x).den : ℤ))
      then (ilog2 (fabs x).num.natAbs (fabs x).num.natAbs : ℤ)
        - (ilog2 (fabs x).den (fabs x).den : ℤ) - 1
      else (ilog2 (fabs x).num.natAbs (fabs x).num.natAbs : ℤ)
        - (ilog2 (fabs x).den (fabs x).den : ℤ)) + 1) := by
  have ha : 0 < fabs x := by
    rw [fabs_eq_abs]
    exact abs_pos.mpr hx
  generalize fabs x = a at ha
  have hnum : 0 < a.num := Rat.num_pos.mpr ha
  have hden : 0 < a.den := a.den_pos
  obtain ⟨n1, n2⟩ := ilog2_spec a.num.natAbs a.num.natAbs (by omega) le_rfl
  obtain ⟨d1, d2⟩ := ilog2_spec a.den a.den hden le_rfl
  generalize ilog2 a.num.natAbs a.num.natAbs = ln at n1 n2
  generalize ilog2 a.den a.den = ld at d1 d2
  have hN : ((a.num.natAbs : ℕ) : ℚ) = (a.num : ℚ) := by
    rw [← Int.cast_natCast, Int.natAbs_of_nonneg hnum.le]
  have ea : a = (a.num.natAbs : ℚ) / (a.den : ℚ) := by
    rw [hN]
    exact (Rat.num_div_den a).symm
  have hdq : (0 : ℚ) < (a.den : ℚ) := by exact_mod_cast hden
  have n1q : (2 : ℚ) ^ ln ≤ (a.num.natAbs : ℚ) := by exact_mod_cast n1
  have n2q : (a.num.natAbs : ℚ) < (2 : ℚ) ^ (ln + 1) := by exact_mod_cast n2
  have d1q : (2 : ℚ) ^ ld ≤ (a.den : ℚ) := by exact_mod_cast d1
  have d2q : (a.den : ℚ) < (2 : ℚ) ^ (ld + 1) := by exact_mod_cast d2
  have hz : ∀ k : ℤ, pow2 ((ln : ℤ) - (ld : ℤ) + k) = (2 : ℚ) ^ ln / (2 : ℚ) ^ ld * pow2 k := by
    intro k
    rw [pow2_add, pow2_eq_zpow ((ln : ℤ) - (ld : ℤ)), zpow_sub₀ (by norm_num), zpow_natCast,
      zpow_natCast]
  have hz0 : pow2 ((ln : ℤ) - (ld : ℤ)) = (2 : ℚ) ^ ln / (2 : ℚ) ^ ld := by
    have := hz 0
    rw [add_zero] at this
    rw [this]
    have : pow2 0 = 1 := by decide!
    rw [this, mul_one]
  have hzm : pow2 ((ln : ℤ) - (ld : ℤ) - 1) = (2 : ℚ) ^ ln / (2 : ℚ) ^ ld * (1 / 2) := by
    have := hz (-1)
    rw [← sub_eq_add_neg] at this
    rw [this]
    have : pow2 (-1) = 1 / 2 := by decide!
    rw [this]
  have hzp : pow2 ((ln : ℤ) - (ld : ℤ) + 1) = (2 : ℚ) ^ ln / (2 : ℚ) ^ ld * 2 := by
    rw [hz 1]
    have : pow2 1 = 2 := by decide!
    rw [this]
  have p1 : (0 : ℚ) < (2 : ℚ) ^ ln := by positivity
  have p2 : (0 : ℚ) < (2 : ℚ) ^ ld := by positivity
  -- the quotient lies strictly between 2^(e0-1) and 2^(e0+1)
  have lo : (2 : ℚ) ^ ln / (2 : ℚ) ^ ld * (1 / 2) ≤ a := by
    rw [ea, div_mul_eq_mul_div, div_le_div_iff₀ p2 hdq]
    rw [pow_succ] at d2q
    nlinarith
  have hi : a < (2 : ℚ) ^ ln / (2 : ℚ) ^ ld * 2 := by
    rw [ea, div_mul_eq_mul_div, div_lt_div_iff₀ hdq p2]
    rw [pow_succ] at n2q
    nlinarith
  by_cases hc : a < pow2 ((ln : ℤ) - (ld : ℤ))
  · rw [if_pos hc, sub_add_cancel, hzm]
    exact ⟨lo, hc⟩
  · rw [if_neg hc, hzp]
    exact ⟨le_of_not_lt hc, hi⟩

/-- The value `roundSig p x` is a multiple `r * 2^(e + 1 - p)` of the unit in the last place
for the exponent `e` of `x` (`2^e ≤ |x| < 2^(e+1)`), with the sign of `x`, and `r` is the
integer nearest to `|x| / 2^(e + 1 - p)` (the even one of two nearest). -/
theorem roundSig_spec (p : ℕ) (x : ℚ) (hx : x ≠ 0) :
    ∃ e : ℤ, pow2 e ≤ fabs x ∧ fabs x < pow2 (e + 1) ∧
      roundSig p x = (if x < 0 then -1 else 1)
        * ((roundFloat (fabs x * pow2 ((p : ℤ) - 1 - e)) : ℚ) * pow2 (-((p : ℤ) - 1 - e))) ∧
      |(roundFloat (fabs x * pow2 ((p : ℤ) - 1 - e)) : ℚ) - fabs x * pow2 ((p : ℤ) - 1 - e)|
        ≤ 1 / 2 := by
  obtain ⟨h1, h2⟩ := roundSig_exponent x hx
  refine ⟨_, h1, h2, ?_, ?_⟩
  · unfold roundSig
    rw [if_neg hx]
    dsimp only
    by_cases hn : x < 0
    · rw [if_pos hn, if_pos hn]
      ring
    · rw [if_neg hn, if_neg hn]
      ring
  · generalize fabs x * pow2 _ = q
    rw [abs_le]
    constructor
    · linarith [sub_half_le_roundFloat q]
    · linarith [roundFloat_le_add_half q]

theorem roundSig_examples :
    toDouble (1 / 10) = 3602879701896397 / 36028797018963968 ∧
      toFloat (1 / 10) = 13421773 / 134217728 ∧
      toFloat (1 + 1 / 16777216) = 1 ∧
      toFloat (1 + 3 / 16777216) = 1 + 1 / 4194304 ∧
      toFloat (-(1 + 3 / 16777216)) = -(1 + 1 / 4194304) ∧
      toFloat 33688649 = 33688648 ∧
      toFloat (16777215 + 3 / 4) = 16777216 ∧
      weightLimit = -(4722366482869645 / 4722366482869645213696) := by
  refine ⟨?_, ?_, ?_, ?_, ?_, ?_, ?_, ?_⟩ <;> decide!

theorem pixelLoopRounded_y (v0 v1 v2 : NIFVertex) (t : TriangleUV) (y xStep : ℤ)
    (w1Step w2Step : ℚ) (fuel : ℕ) :
    ∀ (x : ℤ) (w1 w2 : ℚ), ∀ f ∈ pixelLoopRounded v0 v1 v2 t y xStep w1Step w2Step fuel x w1 w2,
      f.y = y := by
  induction fuel with
  | zero =>
    intro x w1 w2 f hf
    simp [pixelLoopRounded] at hf
  | succ n ih =>
    intro x w1 w2 f hf
    unfold pixelLoopRounded at hf
    dsimp only at hf
    by_cases hc : toDouble (1 - toDouble (w1 + w2)) ≥ weightLimit ∧ w2 ≥ weightLimit
    · rw [if_pos hc, List.mem_cons] at hf
      rcases hf with hf | hf
      · rw [hf]
      · exact ih _ _ _ f hf
    · rw [if_neg hc] at hf
      simp at hf

theorem pixelLoopRounded_stop (v0 v1 v2 : NIFVertex) (t : TriangleUV) (y xStep : ℤ)
    (w1Step w2Step : ℚ) (fuel : ℕ) (x : ℤ) (w1 w2 : ℚ)
    (hc : ¬ (toDouble (1 - toDouble (w1 + w2)) ≥ weightLimit ∧ w2 ≥ weightLimit)) :
    pixelLoopRounded v0 v1 v2 t y xStep w1Step w2Step fuel x w1 w2 = [] := by
  cases fuel with
  | zero => rfl
  | succ n =>
    unfold pixelLoopRounded
    dsimp only
    rw [if_neg hc]

/-- C5 (failing input): the triangle `(0, 0)`, `(1/32 + 2^-28, 1/32)`, `(1000, 1000)` has
`float` vertex coordinates, is left in this order by the sort by y whether its second and
third vertex are listed in this order or swapped, its doubled area `1000 * 2^-28` is at least
2^-20 both exactly and as line 684 tests it, and the pixel `(36, 36)` has the barycentric
weights `241/250`, `0`, `9/250`, none of which is negative.  Evaluated in exact arithmetic the scanline
loop calls `drawPixel` for `(36, 36)`; evaluated with the rounding of `double` and `float`
arithmetic it computes `w1 = -2^-19 < -0.000001` at `x = 36` in row 36, moves on to `x = 37`,
where `w0` is below the limit, and so makes no call for `(36, 36)`, however long the inner
loops are allowed to run. -/
theorem scanline_misses_covered_pixel :
    (toFloat sliverV0.x = sliverV0.x ∧ toFloat sliverV0.y = sliverV0.y ∧
      toFloat sliverV1.x = sliverV1.x ∧ toFloat sliverV1.y = sliverV1.y ∧
      toFloat sliverV2.x = sliverV2.x ∧ toFloat sliverV2.y = sliverV2.y) ∧
    (sortVerticesY sliverV0 sliverV1 sliverV2 = (sliverV0, sliverV1, sliverV2) ∧
      sortVerticesY sliverV0 sliverV2 sliverV1 = (sliverV0, sliverV1, sliverV2)) ∧
    (1 : ℚ) / 1048576 ≤ |xyArea2Signed sliverV0 sliverV1 sliverV2| ∧
    (¬ xyArea2Float sliverV0 sliverV1 sliverV2 < 1 / 1048576 ∧
      ¬ xyArea2Float sliverV0 sliverV2 sliverV1 < 1 / 1048576) ∧
    ((241 : ℚ) / 250 + 0 + 9 / 250 = 1 ∧
      (241 : ℚ) / 250 * sliverV0.x + 0 * sliverV1.x + 9 / 250 * sliverV2.x = 36 ∧
      (241 : ℚ) / 250 * sliverV0.y + 0 * sliverV1.y + 9 / 250 * sliverV2.y = 36) ∧
    (∀ t : TriangleUV, ∃ f ∈ scanline sliverV0 sliverV1 sliverV2 t, f.x = 36 ∧ f.y = 36) ∧
    (rowStartRounded (scanCoeffsRounded sliverV0 sliverV1 sliverV2) 36).1 = 37 ∧
    (∀ (t : TriangleUV) (fuel : ℕ),
      ∀ f ∈ scanlineRounded sliverV0 sliverV1 sliverV2 t fuel, ¬ (f.x = 36 ∧ f.y = 36)) := by
  refine ⟨by decide!, by decide!, by decide!, by decide!, by decide!, ?_, by decide!, ?_⟩
  · intro t
    obtain ⟨f, hm, hx, hy, _⟩ := scanline_covers sliverV0 sliverV1 sliverV2 t (by decide!)
      (by decide!) (by decide!) 36 36 (241 / 250) 0 (9 / 250) (by decide!) (by decide!)
      (by decide!) (by decide!) (by decide!) (by decide!)
    exact ⟨f, hm, hx, hy⟩
  · intro t fuel f hf hxy
    unfold scanlineRounded at hf
    dsimp only at hf
    rw [List.mem_flatMap] at hf
    obtain ⟨k, _, hfk⟩ := hf
    have hy : f.y = (scanCoeffsRounded sliverV0 sliverV1 sliverV2).y + (k : ℤ) :=
      pixelLoopRounded_y _ _ _ _ _ _ _ _ _ _ _ _ f hfk
    have hc : (scanCoeffsRounded sliverV0 sliverV1 sliverV2).y = 0 := by decide!
    have hk : k = 36 := by
      rw [hc, hxy.2] at hy
      omega
    subst hk
    have e : (scanCoeffsRounded sliverV0 sliverV1 sliverV2).y + ((36 : ℕ) : ℤ) = 36 := by
      rw [hc]
      rfl
    rw [e] at hfk
    unfold scanRowRounded at hfk
    rw [pixelLoopRounded_stop _ _ _ _ _ _ _ _ _ _ _ _ (by decide!)] at hfk
    simp at hfk

/-- C28 (failing input): the triangle with the `float` vertices
`(244346.0625, 61006.12109375)`, `(10352603 / 2^22, 81391 / 2^17)`, `(-675248.75, -168590)`
has the doubled area `-12677 / 2^30`, about -0.0000118, which is at least 2^-20 in absolute
value; the test of line 684 sees the `float` value 2^-16 and lets the triangle reach the
scanline path, whether the second and third vertex are listed in this order or swapped;
sorting by y reverses the vertex order, and the divisor of line 717, computed in `double`
arithmetic from the sorted vertices, is exactly zero although their exact doubled area is
not. -/
theorem scanline_divides_by_zero :
    (toFloat thinV0.x = thinV0.x ∧ toFloat thinV0.y = thinV0.y ∧
      toFloat thinV1.x = thinV1.x ∧ toFloat thinV1.y = thinV1.y ∧
      toFloat thinV2.x = thinV2.x ∧ toFloat thinV2.y = thinV2.y) ∧
    xyArea2Signed thinV0 thinV1 thinV2 = -(12677 / 1073741824) ∧
    (1 : ℚ) / 1048576 ≤ |xyArea2Signed thinV0 thinV1 thinV2| ∧
    (xyArea2Float thinV0 thinV1 thinV2 = 1 / 65536 ∧
      xyArea2Float thinV0 thinV2 thinV1 = 1 / 65536) ∧
    (¬ xyArea2Float thinV0 thinV1 thinV2 < 1 / 1048576 ∧
      ¬ xyArea2Float thinV0 thinV2 thinV1 < 1 / 1048576) ∧
    (sortVerticesY thinV0 thinV1 thinV2 = (thinV2, thinV1, thinV0) ∧
      sortVerticesY thinV0 thinV2 thinV1 = (thinV2, thinV1, thinV0)) ∧
    xyArea2Signed (sortVerticesY thinV0 thinV1 thinV2).1 (sortVerticesY thinV0 thinV1 thinV2).2.1
      (sortVerticesY thinV0 thinV1 thinV2).2.2 ≠ 0 ∧
    xyArea2Double (sortVerticesY thinV0 thinV1 thinV2).1 (sortVerticesY thinV0 thinV1 thinV2).2.1
      (sortVerticesY thinV0 thinV1 thinV2).2.2 = 0 := by
  refine ⟨by decide!, by decide!, by decide!, by decide!, by decide!, by decide!, by decide!,
    by decide!⟩

end Fo76
